import Mathlib

/-! CFR codec: checksum, encoder and the two decoders.

A shallow embedding of `libraries/cfr.c`, `progs/cfr_read.c`, `progs/cfr_to_html.c` and
`progs/cfr_write.c`.

* A buffer is a `List Nat` of bytes, addressed by its offset from the start of the buffer.
  An access outside the buffer is the outcome `Fault.oob`; `exit(-1)` and a failed `assert`
  are the outcome `Fault.fatal`.
* 32-bit fields are stored and loaded little-endian, reduced modulo `2 ^ 32` on store.
* A C string (`const char *`) is `Option (List Nat)`: `none` is the null pointer, `some s`
  points at the bytes `s` followed by a zero byte.
-/

namespace cfr

/-! ## Checksum (`crc32_byte`, `crc32`) -/

/-- One pass of the loop body of `crc32_byte`: shift left by one, XOR the polynomial
in when the top bit was set. -/
def crc32_step (prev_crc : Nat) : Nat :=
  if prev_crc &&& 0x80000000 ≠ 0 then
    ((prev_crc <<< 1) % 2 ^ 32) ^^^ 0x04C11DB7
  else
    (prev_crc <<< 1) % 2 ^ 32

/-- Source `crc32_byte`: the byte is folded in at bit 24, then eight steps. -/
def crc32_byte (prev_crc : Nat) (data : Nat) : Nat :=
  crc32_step^[8] (prev_crc ^^^ ((data % 256) <<< 24))

/-- Source `crc32`: seed 0, one `crc32_byte` per byte, in order. -/
def crc32 (buf : List Nat) : Nat := buf.foldl crc32_byte 0

/-! ### Reference CRC, from the words of the specification

Polynomials over GF(2) are written as natural numbers, bit `i` being the coefficient
of `x ^ i`; addition of polynomials is XOR and multiplication by `x ^ i` is a left shift. -/

/-- Long division over GF(2): `n` steps cancelling the coefficients of
`x ^ (d + n - 1)` down to `x ^ d` of `a` with shifted copies of `g` (of degree `d`). -/
def gf2_rem_aux (g d : Nat) : Nat → Nat → Nat
  | 0, a => a
  | i + 1, a => gf2_rem_aux g d i (if a.testBit (d + i) then a ^^^ (g <<< i) else a)

/-- Remainder of the polynomial `a` divided by the polynomial `g` over GF(2). -/
def gf2_rem (a g : Nat) : Nat :=
  gf2_rem_aux g (Nat.log2 g) (Nat.size a - Nat.log2 g) a

/-- The generator `x ^ 32 + (polynomial 0x04C11DB7)`. -/
def crc_generator : Nat := 2 ^ 32 + 0x04C11DB7

/-- The message polynomial `M(x)`: the bytes read most-significant-bit first. -/
def msg_poly (buf : List Nat) : Nat := buf.foldl (fun acc b => acc * 256 + b % 256) 0

/-! ## Buffers -/

/-- The ways a run ends without returning. -/
inductive Fault
  | fatal
  | oob
  | fuel
  deriving DecidableEq, Repr

deriving instance DecidableEq for Except

/-- A byte buffer; the address of a byte is its index. -/
abbrev Mem := List Nat

/-- The four bytes of a 32-bit value, least significant first. -/
def le32 (v : Nat) : List Nat :=
  [v % 256, v / 2 ^ 8 % 256, v / 2 ^ 16 % 256, v / 2 ^ 24 % 256]

/-- Write the bytes `bs` at address `a`. -/
def store_bytes (m : Mem) (a : Nat) (bs : List Nat) : Except Fault Mem :=
  if a + bs.length ≤ m.length then
    .ok (m.take a ++ bs ++ m.drop (a + bs.length))
  else .error .oob

/-- Assignment to a `uint32_t` field at address `a`. -/
def store32 (m : Mem) (a v : Nat) : Except Fault Mem := store_bytes m a (le32 v)

/-- Read of a `uint32_t` field at address `a`. -/
def load32 (m : Mem) (a : Nat) : Except Fault Nat :=
  match m.drop a with
  | b0 :: b1 :: b2 :: b3 :: _ => .ok (b0 + 2 ^ 8 * b1 + 2 ^ 16 * b2 + 2 ^ 24 * b3)
  | _ => .error .oob

/-- Read of `n` bytes at address `a`. -/
def load_bytes (m : Mem) (a n : Nat) : Except Fault (List Nat) :=
  if a + n ≤ m.length then .ok ((m.drop a).take n) else .error .oob

/-- The C string that starts at address `a`: the bytes before the first zero byte.
Running off the buffer before a zero byte is found is `oob`. -/
def load_cstr (m : Mem) (a : Nat) : Except Fault (List Nat) :=
  if 0 ∈ m.drop a then .ok ((m.drop a).takeWhile (· ≠ 0)) else .error .oob

/-- C `strlen` of the string whose bytes are `s` followed by a zero byte. -/
def strlen (s : List Nat) : Nat := (s.takeWhile (· ≠ 0)).length

/-! ## Format definition (`cfr.h`) -/

abbrev LB_TAG_CFR : Nat := 0x0100
abbrev LB_TAG_CFR_OPTION_FORM : Nat := 0x0101
abbrev LB_TAG_CFR_ENUM_VALUE : Nat := 0x0102
abbrev LB_TAG_CFR_OPTION_ENUM : Nat := 0x0103
abbrev LB_TAG_CFR_OPTION_NUMBER : Nat := 0x0104
abbrev LB_TAG_CFR_OPTION_BOOL : Nat := 0x0105
abbrev LB_TAG_CFR_OPTION_VARCHAR : Nat := 0x0106
abbrev LB_TAG_CFR_VARCHAR_OPT_NAME : Nat := 0x0107
abbrev LB_TAG_CFR_VARCHAR_UI_NAME : Nat := 0x0108
abbrev LB_TAG_CFR_VARCHAR_UI_HELPTEXT : Nat := 0x0109
abbrev LB_TAG_CFR_VARCHAR_DEF_VALUE : Nat := 0x010a
abbrev LB_TAG_CFR_OPTION_COMMENT : Nat := 0x010b

abbrev LB_ENTRY_ALIGN : Nat := 4
abbrev UINT32_MAX : Nat := 2 ^ 32 - 1

abbrev CFR_OPTFLAG_READONLY : Nat := 1 <<< 0
abbrev CFR_OPTFLAG_GRAYOUT : Nat := 1 <<< 1
abbrev CFR_OPTFLAG_SUPPRESS : Nat := 1 <<< 2
abbrev CFR_OPTFLAG_VOLATILE : Nat := 1 <<< 3

/-- Source `struct sm_enum_value`; `SM_ENUM_VALUE_END` is the entry with a null `ui_name`. -/
structure sm_enum_value where
  ui_name : Option (List Nat)
  value : Nat
  deriving DecidableEq, Repr

/-- Source `struct sm_obj_enum`; `values` is the array `values` points at, or `none`. -/
structure sm_obj_enum where
  object_id : Nat
  flags : Nat
  opt_name : Option (List Nat)
  ui_name : Option (List Nat)
  ui_helptext : Option (List Nat)
  default_value : Nat
  values : Option (List sm_enum_value)
  deriving DecidableEq, Repr

/-- Source `struct sm_obj_number`. -/
structure sm_obj_number where
  object_id : Nat
  flags : Nat
  opt_name : Option (List Nat)
  ui_name : Option (List Nat)
  ui_helptext : Option (List Nat)
  default_value : Nat
  deriving DecidableEq, Repr

/-- Source `struct sm_obj_bool`. -/
structure sm_obj_bool where
  object_id : Nat
  flags : Nat
  opt_name : Option (List Nat)
  ui_name : Option (List Nat)
  ui_helptext : Option (List Nat)
  default_value : Bool
  deriving DecidableEq, Repr

/-- Source `struct sm_obj_varchar`. -/
structure sm_obj_varchar where
  object_id : Nat
  flags : Nat
  opt_name : Option (List Nat)
  ui_name : Option (List Nat)
  ui_helptext : Option (List Nat)
  default_value : Option (List Nat)
  deriving DecidableEq, Repr

/-- Source `struct sm_obj_comment`. -/
structure sm_obj_comment where
  object_id : Nat
  flags : Nat
  ui_name : Option (List Nat)
  ui_helptext : Option (List Nat)
  deriving DecidableEq, Repr

mutual
/-- Source `struct sm_obj_form`; `obj_list` holds the `num_objects` entries. -/
inductive sm_obj_form
  | mk (object_id flags : Nat) (ui_name : Option (List Nat)) (obj_list : List sm_object)
/-- Source `struct sm_object`: the kind and the member of the union it selects;
`unknown k` is a kind value outside `enum sm_object_kind`. -/
inductive sm_object
  | obj_none
  | obj_enum (o : sm_obj_enum)
  | obj_number (o : sm_obj_number)
  | obj_bool (o : sm_obj_bool)
  | obj_varchar (o : sm_obj_varchar)
  | obj_comment (o : sm_obj_comment)
  | obj_form (f : sm_obj_form)
  | unknown (kind : Nat)
end

/-- Source `struct setup_menu_root`; `form_list` holds the `num_forms` entries. -/
structure setup_menu_root where
  form_list : List sm_obj_form

/-! ## Encoder (`cfr.c`) -/

/-- Source `__ALIGN_MASK(x, mask)`, that is `((x) + (mask)) & ~(mask)`. -/
def ALIGN_MASK (x mask : Nat) : Nat := (x + mask) - ((x + mask) &&& mask)

/-- Source `ALIGN_UP(x, a)`. -/
def ALIGN_UP (x a : Nat) : Nat := ALIGN_MASK x (a - 1)

/-- Source `cfr_record_size`: the distance from `startp` to `endp`, or `exit(-1)`. -/
def cfr_record_size (startp endp : Nat) : Except Fault Nat :=
  if startp > endp ∨ endp - startp > UINT32_MAX then .error .fatal
  else .ok (endp - startp)

/-- Source `write_cfr_varchar`. The header `struct lb_cfr_varbinary` is 12 bytes: `tag` at 0,
`size` at 4, `data_length` at 8, `data` from 12. `data_length` and `size` are `uint32_t`. -/
def write_cfr_varchar (m : Mem) (current : Nat) (string : Option (List Nat)) (tag : Nat) :
    Except Fault (Mem × Nat) :=
  match string with
  | none => .error .fatal
  | some s => do
    let m ← store32 m current tag
    let data_length := (strlen s + 1) % 2 ^ 32
    let m ← store32 m (current + 8) data_length
    let m ← store_bytes m (current + 12) ((s ++ [0]).take data_length)
    let size := ALIGN_UP (12 + data_length) LB_ENTRY_ALIGN % 2 ^ 32
    let m ← store32 m (current + 4) size
    pure (m, size)

/-- Source `sm_write_string_default_value`. -/
def sm_write_string_default_value (m : Mem) (current : Nat) (string : Option (List Nat)) :
    Except Fault (Mem × Nat) :=
  write_cfr_varchar m current string LB_TAG_CFR_VARCHAR_DEF_VALUE

/-- Source `sm_write_opt_name`. -/
def sm_write_opt_name (m : Mem) (current : Nat) (string : Option (List Nat)) :
    Except Fault (Mem × Nat) :=
  write_cfr_varchar m current string LB_TAG_CFR_VARCHAR_OPT_NAME

/-- Source `sm_write_ui_name`. -/
def sm_write_ui_name (m : Mem) (current : Nat) (string : Option (List Nat)) :
    Except Fault (Mem × Nat) :=
  write_cfr_varchar m current string LB_TAG_CFR_VARCHAR_UI_NAME

/-- Source `sm_write_ui_helptext`. -/
def sm_write_ui_helptext (m : Mem) (current : Nat) (string : Option (List Nat)) :
    Except Fault (Mem × Nat) :=
  match string with
  | none => .ok (m, 0)
  | some s =>
    if strlen s = 0 then .ok (m, 0)
    else write_cfr_varchar m current (some s) LB_TAG_CFR_VARCHAR_UI_HELPTEXT

/-- Source `sm_write_enum_value`. `struct lb_cfr_enum_value` is 12 bytes: `tag`, `size`,
`value`. -/
def sm_write_enum_value (m : Mem) (current : Nat) (e : sm_enum_value) :
    Except Fault (Mem × Nat) := do
  let enum_val := current
  let m ← store32 m enum_val LB_TAG_CFR_ENUM_VALUE
  let m ← store32 m (enum_val + 8) e.value
  let m ← store32 m (enum_val + 4) 12
  let current := current + 12
  let (m, n) ← sm_write_ui_name m current e.ui_name
  let current := current + n
  let size ← cfr_record_size enum_val current
  let m ← store32 m (enum_val + 4) size
  pure (m, size)

/-- The loop `for (e = values; e->ui_name; e++) current += sm_write_enum_value(current, e)`
of `write_numeric_option`; returns the buffer and the final `current`. Reaching the end of
the array without meeting an entry with a null `ui_name` reads outside the array. -/
def write_enum_values (m : Mem) (current : Nat) : List sm_enum_value → Except Fault (Mem × Nat)
  | [] => .error .oob
  | e :: es =>
    match e.ui_name with
    | none => .ok (m, current)
    | some _ => do
      let (m, n) ← sm_write_enum_value m current e
      write_enum_values m (current + n) es

/-- The statement `if (option->tag == LB_TAG_CFR_OPTION_ENUM && values) { for ... }` of
`write_numeric_option`; returns the buffer and the final `current`. -/
def write_numeric_option_values (m : Mem) (current tag : Nat)
    (values : Option (List sm_enum_value)) : Except Fault (Mem × Nat) :=
  match values with
  | some vs => if tag = LB_TAG_CFR_OPTION_ENUM then write_enum_values m current vs
               else .ok (m, current)
  | none => .ok (m, current)

/-- Source `write_numeric_option`. `struct lb_cfr_numeric_option` is 20 bytes: `tag`, `size`,
`object_id`, `flags`, `default_value`. -/
def write_numeric_option (m : Mem) (current : Nat) (tag object_id : Nat)
    (opt_name ui_name ui_helptext : Option (List Nat)) (flags default_value : Nat)
    (values : Option (List sm_enum_value)) : Except Fault (Mem × Nat) := do
  let option := current
  let m ← store32 m option tag
  let m ← store32 m (option + 8) object_id
  let m ← store32 m (option + 12) flags
  let m ← store32 m (option + 16) default_value
  let m ← store32 m (option + 4) 20
  let current := current + 20
  let (m, n) ← sm_write_opt_name m current opt_name
  let current := current + n
  let (m, n) ← sm_write_ui_name m current ui_name
  let current := current + n
  let (m, n) ← sm_write_ui_helptext m current ui_helptext
  let current := current + n
  let (m, current) ← write_numeric_option_values m current tag values
  let size ← cfr_record_size option current
  let m ← store32 m (option + 4) size
  pure (m, size)

/-- Source `sm_write_opt_enum`. -/
def sm_write_opt_enum (m : Mem) (current : Nat) (sm_enum : sm_obj_enum) :
    Except Fault (Mem × Nat) :=
  write_numeric_option m current LB_TAG_CFR_OPTION_ENUM sm_enum.object_id
    sm_enum.opt_name sm_enum.ui_name sm_enum.ui_helptext
    sm_enum.flags sm_enum.default_value sm_enum.values

/-- Source `sm_write_opt_number`. -/
def sm_write_opt_number (m : Mem) (current : Nat) (sm_number : sm_obj_number) :
    Except Fault (Mem × Nat) :=
  write_numeric_option m current LB_TAG_CFR_OPTION_NUMBER sm_number.object_id
    sm_number.opt_name sm_number.ui_name sm_number.ui_helptext
    sm_number.flags sm_number.default_value none

/-- Source `sm_write_opt_bool`; the `bool` default is converted to `uint32_t`. -/
def sm_write_opt_bool (m : Mem) (current : Nat) (sm_bool : sm_obj_bool) :
    Except Fault (Mem × Nat) :=
  write_numeric_option m current LB_TAG_CFR_OPTION_BOOL sm_bool.object_id
    sm_bool.opt_name sm_bool.ui_name sm_bool.ui_helptext
    sm_bool.flags (if sm_bool.default_value then 1 else 0) none

/-- Source `sm_write_opt_varchar`. `struct lb_cfr_varchar_option` is 16 bytes: `tag`, `size`,
`object_id`, `flags`. -/
def sm_write_opt_varchar (m : Mem) (current : Nat) (sm_varchar : sm_obj_varchar) :
    Except Fault (Mem × Nat) := do
  let option := current
  let m ← store32 m option LB_TAG_CFR_OPTION_VARCHAR
  let m ← store32 m (option + 8) sm_varchar.object_id
  let m ← store32 m (option + 12) sm_varchar.flags
  let m ← store32 m (option + 4) 16
  let current := current + 16
  let (m, n) ← sm_write_string_default_value m current sm_varchar.default_value
  let current := current + n
  let (m, n) ← sm_write_opt_name m current sm_varchar.opt_name
  let current := current + n
  let (m, n) ← sm_write_ui_name m current sm_varchar.ui_name
  let current := current + n
  let (m, n) ← sm_write_ui_helptext m current sm_varchar.ui_helptext
  let current := current + n
  let size ← cfr_record_size option current
  let m ← store32 m (option + 4) size
  pure (m, size)

/-- Source `sm_write_opt_comment`. `struct lb_cfr_option_comment` is 16 bytes. -/
def sm_write_opt_comment (m : Mem) (current : Nat) (sm_comment : sm_obj_comment) :
    Except Fault (Mem × Nat) := do
  let comment := current
  let m ← store32 m comment LB_TAG_CFR_OPTION_COMMENT
  let m ← store32 m (comment + 8) sm_comment.object_id
  let m ← store32 m (comment + 12) sm_comment.flags
  let m ← store32 m (comment + 4) 16
  let current := current + 16
  let (m, n) ← sm_write_ui_name m current sm_comment.ui_name
  let current := current + n
  let (m, n) ← sm_write_ui_helptext m current sm_comment.ui_helptext
  let current := current + n
  let size ← cfr_record_size comment current
  let m ← store32 m (comment + 4) size
  pure (m, size)

mutual
/-- Source `sm_write_form`. `struct lb_cfr_option_form` is 16 bytes. -/
def sm_write_form (m : Mem) (current : Nat) : sm_obj_form → Except Fault (Mem × Nat)
  | .mk object_id flags ui_name obj_list => do
    let form := current
    let m ← store32 m form LB_TAG_CFR_OPTION_FORM
    let m ← store32 m (form + 8) object_id
    let m ← store32 m (form + 12) flags
    let m ← store32 m (form + 4) 16
    let current := current + 16
    let (m, n) ← sm_write_ui_name m current ui_name
    let current := current + n
    let (m, current) ← sm_write_obj_list m current obj_list
    let size ← cfr_record_size form current
    let m ← store32 m (form + 4) size
    pure (m, size)
/-- The loop `for (i = 0; i < num_objects; i++) current += sm_write_object(current, ...)`
of `sm_write_form`; returns the buffer and the final `current`. -/
def sm_write_obj_list (m : Mem) (current : Nat) : List sm_object → Except Fault (Mem × Nat)
  | [] => .ok (m, current)
  | o :: os => do
    let (m, n) ← sm_write_object m current o
    sm_write_obj_list m (current + n) os
/-- Source `sm_write_object`. -/
def sm_write_object (m : Mem) (current : Nat) : sm_object → Except Fault (Mem × Nat)
  | .obj_none => .ok (m, 0)
  | .obj_enum o => sm_write_opt_enum m current o
  | .obj_number o => sm_write_opt_number m current o
  | .obj_bool o => sm_write_opt_bool m current o
  | .obj_varchar o => sm_write_opt_varchar m current o
  | .obj_comment o => sm_write_opt_comment m current o
  | .obj_form f => sm_write_form m current f
  | .unknown _ => .ok (m, 0)
end

/-- The loop `for (i = 0; i < num_forms; i++) current += sm_write_form(current, ...)` of
`cfr_write_setup_menu`; returns the buffer and the final `current`. -/
def sm_write_form_list (m : Mem) (current : Nat) : List sm_obj_form → Except Fault (Mem × Nat)
  | [] => .ok (m, current)
  | f :: fs => do
    let (m, n) ← sm_write_form m current f
    sm_write_form_list m (current + n) fs

/-- Source `cfr_write_setup_menu`, writing at the start of the buffer (`lb_new_record`
returns `header->buffer`). `struct lb_cfr` is 12 bytes: `tag`, `size`, `checksum`. -/
def cfr_write_setup_menu (m : Mem) (sm_root : setup_menu_root) : Except Fault Mem := do
  let menu := 0
  let m ← store32 m menu LB_TAG_CFR
  let m ← store32 m (menu + 4) 12
  let current := menu + 12
  let (m, current) ← sm_write_form_list m current sm_root.form_list
  let size ← cfr_record_size menu current
  let m ← store32 m (menu + 4) size
  let m ← store32 m (menu + 8) 0
  let bytes ← load_bytes m menu size
  let m ← store32 m (menu + 8) (crc32 bytes)
  pure m

/-! ## Decoder runs

A decoder run either returns a value or stops on a fault; in both cases it has produced the
output items emitted so far. The loops of the decoders take a step budget (`fuel`): a run
that exhausts it ends in `Fault.fuel`. -/

/-- Result of a decoder run with output items of type `ω`. -/
inductive Outcome (ω : Type) (α : Type)
  | ok (a : α) (out : List ω)
  | fail (f : Fault) (out : List ω)
  deriving DecidableEq, Repr

/-- Put the output `o` in front of the output of a run. -/
def Outcome.prepend {ω α : Type} (o : List ω) : Outcome ω α → Outcome ω α
  | .ok a out => .ok a (o ++ out)
  | .fail f out => .fail f (o ++ out)

/-- Sequencing of runs: the second run starts when the first has returned. -/
def Outcome.bind {ω α β : Type} (x : Outcome ω α) (f : α → Outcome ω β) : Outcome ω β :=
  match x with
  | .ok a out => (f a).prepend out
  | .fail e out => .fail e out

instance {ω : Type} : Monad (Outcome ω) where
  pure a := .ok a []
  bind := Outcome.bind

/-- The fault a run stopped on, if it did. -/
def Outcome.fault {ω α : Type} : Outcome ω α → Option Fault
  | .ok _ _ => none
  | .fail f _ => some f

/-- The output items of a run. -/
def Outcome.output {ω α : Type} : Outcome ω α → List ω
  | .ok _ out => out
  | .fail _ out => out

/-- Emit one output item. -/
def emit {ω : Type} (o : ω) : Outcome ω Unit := .ok () [o]

/-- Stop on a fault. -/
def abort {ω α : Type} (f : Fault) : Outcome ω α := .fail f []

/-- A buffer access inside a decoder run. -/
def lift {ω α : Type} (x : Except Fault α) : Outcome ω α :=
  match x with
  | .ok a => .ok a []
  | .error f => .fail f []

end cfr

/-! ## Debug decoder (`cfr_read.c`)

The output is the sequence of things printed, without the layout of the text: a bare
`printf("\n")` and the tabs of `print_tabs` are left out. The buffer handed to `sm_read_cfr`
comes from `malloc`, so its start is 4-byte aligned and the alignment test of
`_print_record` is a test on the offset. -/

namespace cfr_read

open cfr

/-- The property names printed by `cfr_log_prop` and `cfr_log_prop_val`. -/
inductive Label
  | tag_ | size | checksum | object_id | flags | defval | value | data_length
  | option_name | ui_name | ui_helptext | enum_values | object_list | form_list | length
  deriving DecidableEq, Repr

/-- One thing printed by the debug decoder. -/
inductive Out
  /-- Printed by `inc_depth`. -/
  | brace_open
  /-- Printed by `dec_depth`, with the depth after the decrement (it selects `,` or `;`). -/
  | brace_close (depth : Int)
  /-- Printed by `_print_record`: the record name, `tag` and `size`. -/
  | record (tag size : Nat)
  /-- Printed by `cfr_log_prop`. -/
  | prop (l : Label)
  /-- Printed by `cfr_log_prop_val` with a number; for `flags` the text of `print_flags`. -/
  | val (l : Label) (v : Nat)
  /-- Printed by `cfr_log_prop_val(LOG_SQU, "data", cfr_str->data)`. -/
  | data (s : List Nat)
  /-- The message of `_tag_neq`. -/
  | mismatch (expected got : Nat)
  /-- The text `<not found>`. -/
  | not_found
  /-- The hex dump of `read_cfr_varchar`. -/
  | hexdump (bytes : List Nat)
  /-- The message of `_tag_ok` on standard error. -/
  | bail (expected got : Nat)
  /-- The message of `_print_record` on standard error. -/
  | unaligned (addr : Nat)
  /-- The final `printf("depth:   %d\n", depth)`. -/
  | depth (d : Int)
  deriving DecidableEq, Repr

/-- Source `inc_depth`; returns the new depth. -/
def inc_depth (depth : Int) : Outcome Out Int := .ok (depth + 1) [.brace_open]

/-- Source `dec_depth`; returns the new depth. -/
def dec_depth (depth : Int) : Outcome Out Int := .ok (depth - 1) [.brace_close (depth - 1)]

/-- Source `_print_record`. -/
def _print_record (m : Mem) (rec : Nat) : Outcome Out Unit := do
  if rec % 4 ≠ 0 then
    emit (.unaligned rec)
    abort .fatal
  else
    let tag ← lift (load32 m rec)
    let size ← lift (load32 m (rec + 4))
    emit (.record tag size)

/-- Source `_tag_neq`. -/
def _tag_neq (m : Mem) (rec tag : Nat) : Outcome Out Bool := do
  let rtag ← lift (load32 m rec)
  if rtag ≠ tag ∧ tag ≠ LB_TAG_CFR_VARCHAR_UI_HELPTEXT then
    emit (.mismatch tag rtag)
    pure (decide (rtag ≠ tag))
  else
    pure (decide (rtag ≠ tag))

/-- Source `_tag_ok`. -/
def _tag_ok (m : Mem) (rec tag : Nat) : Outcome Out Unit := do
  let rtag ← lift (load32 m rec)
  if rtag ≠ tag then
    emit (.bail tag rtag)
    abort .fatal
  else
    pure ()

/-- Source `read_cfr_varchar`; returns the size consumed and the depth. -/
def read_cfr_varchar (m : Mem) (current tag : Nat) (depth : Int) : Outcome Out (Nat × Int) := do
  let cfr_str := current
  let neq ← _tag_neq m cfr_str tag
  if neq then
    emit .not_found
    if tag = LB_TAG_CFR_VARCHAR_UI_HELPTEXT then
      pure (0, depth)
    else
      let size ← lift (load32 m (cfr_str + 4))
      let bytes ← lift (load_bytes m current size)
      emit (.hexdump bytes)
      abort .fatal
  else
    let depth ← inc_depth depth
    _print_record m cfr_str
    let data_length ← lift (load32 m (cfr_str + 8))
    emit (.val .data_length data_length)
    let data ← lift (load_cstr m (cfr_str + 12))
    emit (.data data)
    let depth ← dec_depth depth
    let size ← lift (load32 m (cfr_str + 4))
    if size > data_length then
      pure (size, depth)
    else
      abort .fatal

/-- Source `sm_read_string_default_value`. -/
def sm_read_string_default_value (m : Mem) (current : Nat) (depth : Int) :
    Outcome Out (Nat × Int) := do
  emit (.prop .defval)
  read_cfr_varchar m current LB_TAG_CFR_VARCHAR_DEF_VALUE depth

/-- Source `sm_read_opt_name`. -/
def sm_read_opt_name (m : Mem) (current : Nat) (depth : Int) : Outcome Out (Nat × Int) := do
  emit (.prop .option_name)
  read_cfr_varchar m current LB_TAG_CFR_VARCHAR_OPT_NAME depth

/-- Source `sm_read_ui_name`. -/
def sm_read_ui_name (m : Mem) (current : Nat) (depth : Int) : Outcome Out (Nat × Int) := do
  emit (.prop .ui_name)
  read_cfr_varchar m current LB_TAG_CFR_VARCHAR_UI_NAME depth

/-- Source `sm_read_ui_helptext`. -/
def sm_read_ui_helptext (m : Mem) (current : Nat) (depth : Int) : Outcome Out (Nat × Int) := do
  emit (.prop .ui_helptext)
  read_cfr_varchar m current LB_TAG_CFR_VARCHAR_UI_HELPTEXT depth

/-- Source `sm_read_enum_value`. -/
def sm_read_enum_value (m : Mem) (current : Nat) (depth : Int) : Outcome Out (Nat × Int) := do
  let enum_val := current
  let size ← lift (load32 m (enum_val + 4))
  let limit := current + size
  _print_record m enum_val
  let value ← lift (load32 m (enum_val + 8))
  emit (.val .value value)
  let current := current + 12
  let (n, depth) ← sm_read_ui_name m current depth
  let current := current + n
  if current = limit then
    pure (size, depth)
  else
    abort .fatal

/-- The loop `while (current < limit) { inc_depth(); current += sm_read_enum_value(current);
dec_depth(); }` of `read_numeric_option`; returns the final `current` and the depth. -/
def read_enum_values : Nat → Mem → Nat → Nat → Int → Outcome Out (Nat × Int)
  | 0, _, _, _, _ => abort .fuel
  | fuel + 1, m, limit, current, depth =>
    if current < limit then do
      let depth ← inc_depth depth
      let (n, depth) ← sm_read_enum_value m current depth
      let depth ← dec_depth depth
      read_enum_values fuel m limit (current + n) depth
    else
      pure (current, depth)

/-- Source `read_numeric_option`. -/
def read_numeric_option (fuel : Nat) (m : Mem) (current tag : Nat) (depth : Int) :
    Outcome Out (Nat × Int) := do
  let option := current
  let size ← lift (load32 m (option + 4))
  let limit := current + size
  _tag_ok m option tag
  _print_record m option
  let object_id ← lift (load32 m (option + 8))
  emit (.val .object_id object_id)
  let flags ← lift (load32 m (option + 12))
  emit (.val .flags flags)
  let default_value ← lift (load32 m (option + 16))
  emit (.val .defval default_value)
  let current := current + 20
  let (n, depth) ← sm_read_opt_name m current depth
  let current := current + n
  let (n, depth) ← sm_read_ui_name m current depth
  let current := current + n
  let (n, depth) ← sm_read_ui_helptext m current depth
  let current := current + n
  let rtag ← lift (load32 m option)
  let (current, depth) ←
    (if rtag = LB_TAG_CFR_OPTION_ENUM then do
      emit (.prop .enum_values)
      read_enum_values fuel m limit current depth
    else
      pure (current, depth))
  if current = limit then
    pure (size, depth)
  else
    abort .fatal

/-- Source `sm_read_opt_enum`. -/
def sm_read_opt_enum (fuel : Nat) (m : Mem) (current : Nat) (depth : Int) :
    Outcome Out (Nat × Int) :=
  read_numeric_option fuel m current LB_TAG_CFR_OPTION_ENUM depth

/-- Source `sm_read_opt_number`. -/
def sm_read_opt_number (fuel : Nat) (m : Mem) (current : Nat) (depth : Int) :
    Outcome Out (Nat × Int) :=
  read_numeric_option fuel m current LB_TAG_CFR_OPTION_NUMBER depth

/-- Source `sm_read_opt_bool`. -/
def sm_read_opt_bool (fuel : Nat) (m : Mem) (current : Nat) (depth : Int) :
    Outcome Out (Nat × Int) :=
  read_numeric_option fuel m current LB_TAG_CFR_OPTION_BOOL depth

/-- Source `sm_read_opt_varchar`. -/
def sm_read_opt_varchar (m : Mem) (current : Nat) (depth : Int) : Outcome Out (Nat × Int) := do
  let option := current
  let size ← lift (load32 m (option + 4))
  let limit := current + size
  _tag_ok m option LB_TAG_CFR_OPTION_VARCHAR
  _print_record m option
  let object_id ← lift (load32 m (option + 8))
  emit (.val .object_id object_id)
  let flags ← lift (load32 m (option + 12))
  emit (.val .flags flags)
  let current := current + 16
  let (n, depth) ← sm_read_string_default_value m current depth
  let current := current + n
  let (n, depth) ← sm_read_opt_name m current depth
  let current := current + n
  let (n, depth) ← sm_read_ui_name m current depth
  let current := current + n
  let (n, depth) ← sm_read_ui_helptext m current depth
  let current := current + n
  if current = limit then
    pure (size, depth)
  else
    abort .fatal

/-- Source `sm_read_opt_comment`. -/
def sm_read_opt_comment (m : Mem) (current : Nat) (depth : Int) : Outcome Out (Nat × Int) := do
  let comment := current
  let size ← lift (load32 m (comment + 4))
  let limit := current + size
  _tag_ok m comment LB_TAG_CFR_OPTION_COMMENT
  _print_record m comment
  let object_id ← lift (load32 m (comment + 8))
  emit (.val .object_id object_id)
  let flags ← lift (load32 m (comment + 12))
  emit (.val .flags flags)
  let current := current + 16
  let (n, depth) ← sm_read_ui_name m current depth
  let current := current + n
  let (n, depth) ← sm_read_ui_helptext m current depth
  let current := current + n
  if current = limit then
    pure (size, depth)
  else
    abort .fatal

mutual
/-- Source `sm_read_form`. -/
def sm_read_form (fuel : Nat) (m : Mem) (current : Nat) (depth : Int) : Outcome Out (Nat × Int) :=
  match fuel with
  | 0 => abort .fuel
  | fuel + 1 => do
    let form := current
    let size ← lift (load32 m (form + 4))
    let limit := current + size
    _tag_ok m form LB_TAG_CFR_OPTION_FORM
    _print_record m form
    let object_id ← lift (load32 m (form + 8))
    emit (.val .object_id object_id)
    let flags ← lift (load32 m (form + 12))
    emit (.val .flags flags)
    let current := current + 16
    let (n, depth) ← sm_read_ui_name m current depth
    let current := current + n
    emit (.prop .object_list)
    let (current, depth) ← read_objects fuel m limit current depth
    if current = limit then
      pure (size, depth)
    else
      abort .fatal
termination_by structural fuel
/-- The loop `while (current < limit) current += sm_read_object(current)` of `sm_read_form`
and of `sm_read_cfr`; returns the final `current` and the depth. -/
def read_objects (fuel : Nat) (m : Mem) (limit current : Nat) (depth : Int) :
    Outcome Out (Nat × Int) :=
  match fuel with
  | 0 => abort .fuel
  | fuel + 1 =>
    if current < limit then do
      let (n, depth) ← sm_read_object fuel m current depth
      read_objects fuel m limit (current + n) depth
    else
      pure (current, depth)
termination_by structural fuel
/-- Source `sm_read_object`. -/
def sm_read_object (fuel : Nat) (m : Mem) (current : Nat) (depth : Int) :
    Outcome Out (Nat × Int) :=
  match fuel with
  | 0 => abort .fuel
  | fuel + 1 => do
    let depth ← inc_depth depth
    let (ret, depth) ← _sm_read_object fuel m current depth
    let depth ← dec_depth depth
    pure (ret, depth)
termination_by structural fuel
/-- Source `_sm_read_object`. -/
def _sm_read_object (fuel : Nat) (m : Mem) (current : Nat) (depth : Int) :
    Outcome Out (Nat × Int) :=
  match fuel with
  | 0 => abort .fuel
  | fuel + 1 => do
    let rec_ := current
    let tag ← lift (load32 m rec_)
    if tag = LB_TAG_CFR_OPTION_ENUM then sm_read_opt_enum fuel m current depth
    else if tag = LB_TAG_CFR_OPTION_NUMBER then sm_read_opt_number fuel m current depth
    else if tag = LB_TAG_CFR_OPTION_BOOL then sm_read_opt_bool fuel m current depth
    else if tag = LB_TAG_CFR_OPTION_VARCHAR then sm_read_opt_varchar m current depth
    else if tag = LB_TAG_CFR_OPTION_COMMENT then sm_read_opt_comment m current depth
    else if tag = LB_TAG_CFR_OPTION_FORM then sm_read_form fuel m current depth
    else do
      _print_record m rec_
      let size ← lift (load32 m (rec_ + 4))
      pure (size, depth)
termination_by structural fuel
end

/-- Source `sm_read_cfr`, on the buffer `m` (the root record is at its start); the depth
starts at 0. Returns the depth at the end. -/
def sm_read_cfr (fuel : Nat) (m : Mem) : Outcome Out Int := do
  let cfr_root := 0
  let current := 0
  let size ← lift (load32 m (cfr_root + 4))
  let limit := current + size
  _tag_ok m cfr_root LB_TAG_CFR
  _print_record m cfr_root
  let checksum ← lift (load32 m (cfr_root + 8))
  emit (.val .checksum checksum)
  let current := current + 12
  emit (.prop .form_list)
  let (current, depth) ← read_objects fuel m limit current 0
  if current = limit then do
    emit (.val .length (current - cfr_root))
    emit (.val .size size)
    emit (.depth depth)
    pure depth
  else
    abort .fatal

end cfr_read

/-! ## HTML decoder (`cfr_to_html.c`)

The output is the sequence of elements written, each with the values the source prints in
it; the tabs of `print_tabs` and the markup itself are left out. `malloc` and `strdup` are
taken to succeed. -/

namespace cfr_to_html

open cfr

/-- One element written by the HTML decoder, or one message on standard error. -/
inductive Html
  /-- The message of `_tag_neq`. -/
  | stderr_tag (expected got : Nat)
  /-- The message of `_tag_ok`. -/
  | stderr_bail (expected got : Nat)
  /-- The message of `read_cfr_varchar` for a required string that is missing. -/
  | stderr_required (tag : Nat)
  /-- The page head, the checksum field and the opening of the tab list. -/
  | page_open (checksum : Nat)
  /-- The closing of the tab list. -/
  | tabs_close
  /-- The closing of the page. -/
  | page_close
  /-- The opening of a tab by `sm_read_form_tab`. -/
  | tab_open (object_id : Nat) (flags : String) (checked : Bool) (ui_name : List Nat)
  /-- The closing of a tab. -/
  | tab_close
  /-- The opening of a nested form by `sm_read_form`. -/
  | form_open (object_id : Nat) (flags : String)
  /-- The closing of a nested form. -/
  | form_close
  /-- The opening of a table row by `sm_read_object`. -/
  | row_open
  /-- The closing of a table row. -/
  | row_close
  /-- The label and the opening of the select element of an enum option. -/
  | select_open (object_id : Nat) (opt_name : List Nat) (flags : String) (ui_name : List Nat)
  /-- One option element of an enum option. -/
  | option (value : Nat) (selected : Bool) (ui_name : List Nat)
  /-- The closing of the select element and the help text. -/
  | select_close (ui_helptext : List Nat)
  /-- The cells of a number option. -/
  | number (object_id : Nat) (opt_name : List Nat) (default_value : Nat) (flags : String)
      (ui_name ui_helptext : List Nat)
  /-- The cells of a bool option. -/
  | checkbox (object_id : Nat) (opt_name : List Nat) (checked : Bool) (flags : String)
      (ui_name ui_helptext : List Nat)
  /-- The cells of a varchar option. -/
  | text (object_id : Nat) (opt_name default_value : List Nat) (flags : String)
      (ui_name ui_helptext : List Nat)
  /-- The cells of a comment. -/
  | comment (object_id : Nat) (flags : String) (ui_name ui_helptext : List Nat)
  deriving DecidableEq, Repr

/-- Source `print_flags`: the table `flags_to_text` and the loop over it. -/
def print_flags (flags : Nat) : String :=
  let flags_to_text : List (Nat × String) :=
    [(CFR_OPTFLAG_READONLY, " readonly"), (CFR_OPTFLAG_GRAYOUT, " disabled"),
     (CFR_OPTFLAG_SUPPRESS, " hidden"), (CFR_OPTFLAG_VOLATILE, "")]
  flags_to_text.foldl
    (fun buffer entry => if flags &&& entry.1 = 0 then buffer else buffer ++ entry.2) ""

/-- Source `_tag_neq`. -/
def _tag_neq (m : Mem) (rec tag : Nat) : Outcome Html Bool := do
  let rtag ← lift (load32 m rec)
  if rtag ≠ tag ∧ tag ≠ LB_TAG_CFR_VARCHAR_UI_HELPTEXT then
    emit (.stderr_tag tag rtag)
    pure (decide (rtag ≠ tag))
  else
    pure (decide (rtag ≠ tag))

/-- Source `_tag_ok`. -/
def _tag_ok (m : Mem) (rec tag : Nat) : Outcome Html Unit := do
  let rtag ← lift (load32 m rec)
  if rtag ≠ tag then
    emit (.stderr_bail tag rtag)
    abort .fatal
  else
    pure ()

/-- Source `read_cfr_varchar`; returns the string handed back in `*out` and the size
consumed. `snprintf(*out, data_length, "%s", data)` keeps the first `data_length - 1` bytes
of the C string at `data`. -/
def read_cfr_varchar (m : Mem) (current tag : Nat) : Outcome Html (List Nat × Nat) := do
  let cfr_str := current
  let neq ← _tag_neq m cfr_str tag
  if neq then
    if tag = LB_TAG_CFR_VARCHAR_UI_HELPTEXT then
      pure ([], 0)
    else
      emit (.stderr_required tag)
      abort .fatal
  else
    let data_length ← lift (load32 m (cfr_str + 8))
    let data ← lift (load_cstr m (cfr_str + 12))
    let out := data.take (data_length - 1)
    if strlen out + 1 = data_length then
      let size ← lift (load32 m (cfr_str + 4))
      if size > data_length then
        pure (out, size)
      else
        abort .fatal
    else
      abort .fatal

/-- Source `sm_read_string_default_value`. -/
def sm_read_string_default_value (m : Mem) (current : Nat) : Outcome Html (List Nat × Nat) :=
  read_cfr_varchar m current LB_TAG_CFR_VARCHAR_DEF_VALUE

/-- Source `sm_read_opt_name`. -/
def sm_read_opt_name (m : Mem) (current : Nat) : Outcome Html (List Nat × Nat) :=
  read_cfr_varchar m current LB_TAG_CFR_VARCHAR_OPT_NAME

/-- Source `sm_read_ui_name`. -/
def sm_read_ui_name (m : Mem) (current : Nat) : Outcome Html (List Nat × Nat) :=
  read_cfr_varchar m current LB_TAG_CFR_VARCHAR_UI_NAME

/-- Source `sm_read_ui_helptext`. -/
def sm_read_ui_helptext (m : Mem) (current : Nat) : Outcome Html (List Nat × Nat) :=
  read_cfr_varchar m current LB_TAG_CFR_VARCHAR_UI_HELPTEXT

/-- Source `sm_read_enum_value`. -/
def sm_read_enum_value (m : Mem) (current default_value : Nat) : Outcome Html Nat := do
  let enum_val := current
  let size ← lift (load32 m (enum_val + 4))
  let limit := current + size
  _tag_ok m enum_val LB_TAG_CFR_ENUM_VALUE
  let current := current + 12
  let (ui_name, n) ← sm_read_ui_name m current
  let current := current + n
  let value ← lift (load32 m (enum_val + 8))
  emit (.option value (decide (value = default_value)) ui_name)
  if current = limit then
    pure size
  else
    abort .fatal

/-- The loop `while (current < limit) current += sm_read_enum_value(current, default)` of
`sm_read_opt_enum`; returns the final `current`. -/
def read_enum_values : Nat → Mem → Nat → Nat → Nat → Outcome Html Nat
  | 0, _, _, _, _ => abort .fuel
  | fuel + 1, m, limit, current, default_value =>
    if current < limit then do
      let n ← sm_read_enum_value m current default_value
      read_enum_values fuel m limit (current + n) default_value
    else
      pure current

/-- Source `sm_read_opt_enum`. -/
def sm_read_opt_enum (fuel : Nat) (m : Mem) (current : Nat) : Outcome Html Nat := do
  let option := current
  let size ← lift (load32 m (option + 4))
  let limit := current + size
  _tag_ok m option LB_TAG_CFR_OPTION_ENUM
  let current := current + 20
  let (opt_name, n) ← sm_read_opt_name m current
  let current := current + n
  let (ui_name, n) ← sm_read_ui_name m current
  let current := current + n
  let (ui_helptext, n) ← sm_read_ui_helptext m current
  let current := current + n
  let object_id ← lift (load32 m (option + 8))
  let flags ← lift (load32 m (option + 12))
  emit (.select_open object_id opt_name (print_flags flags) ui_name)
  let default_value ← lift (load32 m (option + 16))
  let current ← read_enum_values fuel m limit current default_value
  emit (.select_close ui_helptext)
  if current = limit then
    pure size
  else
    abort .fatal

/-- Source `sm_read_opt_number`. -/
def sm_read_opt_number (m : Mem) (current : Nat) : Outcome Html Nat := do
  let option := current
  let size ← lift (load32 m (option + 4))
  let limit := current + size
  _tag_ok m option LB_TAG_CFR_OPTION_NUMBER
  let current := current + 20
  let (opt_name, n) ← sm_read_opt_name m current
  let current := current + n
  let (ui_name, n) ← sm_read_ui_name m current
  let current := current + n
  let (ui_helptext, n) ← sm_read_ui_helptext m current
  let current := current + n
  let object_id ← lift (load32 m (option + 8))
  let default_value ← lift (load32 m (option + 16))
  let flags ← lift (load32 m (option + 12))
  emit (.number object_id opt_name default_value (print_flags flags) ui_name ui_helptext)
  if current = limit then
    pure size
  else
    abort .fatal

/-- Source `sm_read_opt_bool`. -/
def sm_read_opt_bool (m : Mem) (current : Nat) : Outcome Html Nat := do
  let option := current
  let size ← lift (load32 m (option + 4))
  let limit := current + size
  _tag_ok m option LB_TAG_CFR_OPTION_BOOL
  let current := current + 20
  let (opt_name, n) ← sm_read_opt_name m current
  let current := current + n
  let (ui_name, n) ← sm_read_ui_name m current
  let current := current + n
  let (ui_helptext, n) ← sm_read_ui_helptext m current
  let current := current + n
  let default_value ← lift (load32 m (option + 16))
  let object_id ← lift (load32 m (option + 8))
  let flags ← lift (load32 m (option + 12))
  emit (.checkbox object_id opt_name (decide (default_value ≠ 0)) (print_flags flags)
    ui_name ui_helptext)
  if current = limit then
    pure size
  else
    abort .fatal

/-- Source `sm_read_opt_varchar`. -/
def sm_read_opt_varchar (m : Mem) (current : Nat) : Outcome Html Nat := do
  let option := current
  let size ← lift (load32 m (option + 4))
  let limit := current + size
  _tag_ok m option LB_TAG_CFR_OPTION_VARCHAR
  let current := current + 16
  let (default_value, n) ← sm_read_string_default_value m current
  let current := current + n
  let (opt_name, n) ← sm_read_opt_name m current
  let current := current + n
  let (ui_name, n) ← sm_read_ui_name m current
  let current := current + n
  let (ui_helptext, n) ← sm_read_ui_helptext m current
  let current := current + n
  let object_id ← lift (load32 m (option + 8))
  let flags ← lift (load32 m (option + 12))
  emit (.text object_id opt_name default_value (print_flags flags) ui_name ui_helptext)
  if current = limit then
    pure size
  else
    abort .fatal

/-- Source `sm_read_opt_comment`. -/
def sm_read_opt_comment (m : Mem) (current : Nat) : Outcome Html Nat := do
  let comment := current
  let size ← lift (load32 m (comment + 4))
  let limit := current + size
  _tag_ok m comment LB_TAG_CFR_OPTION_COMMENT
  let current := current + 16
  let (ui_name, n) ← sm_read_ui_name m current
  let current := current + n
  let (ui_helptext, n) ← sm_read_ui_helptext m current
  let current := current + n
  let object_id ← lift (load32 m (comment + 8))
  let flags ← lift (load32 m (comment + 12))
  emit (.comment object_id (print_flags flags) ui_name ui_helptext)
  if current = limit then
    pure size
  else
    abort .fatal

mutual
/-- Source `sm_read_form`. -/
def sm_read_form (fuel : Nat) (m : Mem) (current : Nat) : Outcome Html Nat :=
  match fuel with
  | 0 => abort .fuel
  | fuel + 1 => do
    let form := current
    let size ← lift (load32 m (form + 4))
    let limit := current + size
    _tag_ok m form LB_TAG_CFR_OPTION_FORM
    let current := current + 16
    let (_, n) ← sm_read_ui_name m current
    let current := current + n
    let object_id ← lift (load32 m (form + 8))
    let flags ← lift (load32 m (form + 12))
    emit (.form_open object_id (print_flags flags))
    let current ← read_objects fuel m limit current
    emit .form_close
    if current = limit then
      pure size
    else
      abort .fatal
termination_by structural fuel
/-- The loop `while (current < limit) current += sm_read_object(current)` of `sm_read_form`
and of `sm_read_form_tab`; returns the final `current`. -/
def read_objects (fuel : Nat) (m : Mem) (limit current : Nat) : Outcome Html Nat :=
  match fuel with
  | 0 => abort .fuel
  | fuel + 1 =>
    if current < limit then do
      let n ← sm_read_object fuel m current
      read_objects fuel m limit (current + n)
    else
      pure current
termination_by structural fuel
/-- Source `sm_read_object`. -/
def sm_read_object (fuel : Nat) (m : Mem) (current : Nat) : Outcome Html Nat :=
  match fuel with
  | 0 => abort .fuel
  | fuel + 1 => do
    emit .row_open
    let ret ← _sm_read_object fuel m current
    emit .row_close
    pure ret
termination_by structural fuel
/-- Source `_sm_read_object`. -/
def _sm_read_object (fuel : Nat) (m : Mem) (current : Nat) : Outcome Html Nat :=
  match fuel with
  | 0 => abort .fuel
  | fuel + 1 => do
    let rec_ := current
    let tag ← lift (load32 m rec_)
    if tag = LB_TAG_CFR_OPTION_ENUM then sm_read_opt_enum fuel m current
    else if tag = LB_TAG_CFR_OPTION_NUMBER then sm_read_opt_number m current
    else if tag = LB_TAG_CFR_OPTION_BOOL then sm_read_opt_bool m current
    else if tag = LB_TAG_CFR_OPTION_VARCHAR then sm_read_opt_varchar m current
    else if tag = LB_TAG_CFR_OPTION_COMMENT then sm_read_opt_comment m current
    else if tag = LB_TAG_CFR_OPTION_FORM then sm_read_form fuel m current
    else lift (load32 m (rec_ + 4))
termination_by structural fuel
end

/-- Source `sm_read_form_tab`. -/
def sm_read_form_tab (fuel : Nat) (m : Mem) (current tab_idx : Nat) : Outcome Html Nat := do
  let form := current
  let size ← lift (load32 m (form + 4))
  let limit := current + size
  _tag_ok m form LB_TAG_CFR_OPTION_FORM
  let current := current + 16
  let (ui_name, n) ← sm_read_ui_name m current
  let current := current + n
  let object_id ← lift (load32 m (form + 8))
  let flags ← lift (load32 m (form + 12))
  emit (.tab_open object_id (print_flags flags) (decide (tab_idx = 1)) ui_name)
  let current ← read_objects fuel m limit current
  emit .tab_close
  if current = limit then
    pure size
  else
    abort .fatal

/-- The loop `while (current < limit) current += sm_read_form_tab(current, ++tab_idx)` of
`sm_read_cfr`; `tab_idx` is an `unsigned int`. Returns the final `current`. -/
def read_form_tabs : Nat → Mem → Nat → Nat → Nat → Outcome Html Nat
  | 0, _, _, _, _ => abort .fuel
  | fuel + 1, m, limit, current, tab_idx =>
    if current < limit then do
      let tab_idx := (tab_idx + 1) % 2 ^ 32
      let n ← sm_read_form_tab fuel m current tab_idx
      read_form_tabs fuel m limit (current + n) tab_idx
    else
      pure current

/-- Source `sm_read_cfr`, on the buffer `m` (the root record is at its start), with the
output stream open. -/
def sm_read_cfr (fuel : Nat) (m : Mem) : Outcome Html Unit := do
  let cfr_root := 0
  let current := 0
  let size ← lift (load32 m (cfr_root + 4))
  let limit := current + size
  _tag_ok m cfr_root LB_TAG_CFR
  let checksum ← lift (load32 m (cfr_root + 8))
  emit (.page_open checksum)
  let current := current + 12
  let current ← read_form_tabs fuel m limit current 0
  emit .tabs_close
  if current = limit then
    emit .page_close
  else
    abort .fatal

end cfr_to_html

/-! ## Example option trees -/

namespace cfr

/-- The bytes of an ASCII string. -/
def ascii (s : String) : List Nat := s.toList.map Char.toNat

/-- Scenario A: a root with one form holding one bool option with the help text `""`. -/
def scenario_a : setup_menu_root :=
  ⟨[.mk 2 0 (some (ascii "Main"))
      [.obj_bool ⟨1, 0, some (ascii "c_states"),
        some (ascii "CPU power states (C-states)"), some [], true⟩]]⟩

/-- Scenario B: an enum option with the three values 0, 1, 2 (and the end marker). -/
def scenario_b : setup_menu_root :=
  ⟨[.mk 2 0 (some (ascii "Main"))
      [.obj_enum ⟨1, 0, some (ascii "mode"), some (ascii "Mode"), some (ascii "Pick one"), 1,
        some [⟨some (ascii "Off"), 0⟩, ⟨some (ascii "On"), 1⟩, ⟨some (ascii "Auto"), 2⟩,
              ⟨none, 0⟩]⟩]]⟩

/-- Scenario C: a form nested inside a form, followed by a sibling. -/
def scenario_c : setup_menu_root :=
  ⟨[.mk 3 0 (some (ascii "Outer"))
      [.obj_form (.mk 2 0 (some (ascii "Inner"))
          [.obj_number ⟨1, 1, some (ascii "n"), some (ascii "N"), none, 42⟩]),
       .obj_comment ⟨4, 0, some (ascii "after"), none⟩]]⟩

/-- The 132 bytes of the file that `cfr_write` saves for Scenario A: Root (size 132), Form
(size 120) with the UI-name `Main`, BoolOption (size 84) with the opt-name `c_states` and
the UI-name `CPU power states (C-states)`. The last record ends at the last byte. -/
def scenario_a_blob : List Nat :=
  [0, 1, 0, 0, 132, 0, 0, 0, 219, 170, 235, 107,
   1, 1, 0, 0, 120, 0, 0, 0, 2, 0, 0, 0, 0, 0, 0, 0,
   8, 1, 0, 0, 20, 0, 0, 0, 5, 0, 0, 0, 77, 97, 105, 110, 0, 0, 0, 0,
   5, 1, 0, 0, 84, 0, 0, 0, 1, 0, 0, 0, 0, 0, 0, 0, 1, 0, 0, 0,
   7, 1, 0, 0, 24, 0, 0, 0, 9, 0, 0, 0, 99, 95, 115, 116, 97, 116, 101, 115, 0, 0, 0, 0,
   8, 1, 0, 0, 40, 0, 0, 0, 28, 0, 0, 0,
   67, 80, 85, 32, 112, 111, 119, 101, 114, 32, 115, 116, 97, 116, 101, 115, 32,
   40, 67, 45, 115, 116, 97, 116, 101, 115, 41, 0]

end cfr

/-! ## Reference layout (specification, sections 3 and 4.2)

The image of a record is its fixed header followed immediately by the images of its
children in the fixed order of its kind; the `size` field of the header is the header
length plus the sum of the sizes of the children. -/

namespace cfr

/-- A cell of a record image: `some b` is a byte the encoder writes, `none` is a padding
byte, which is left as it is found in the buffer. -/
abbrev Cell := Option Nat

/-- The C string a `const char *` with the bytes `s` behind it denotes. -/
def cstr (s : List Nat) : List Nat := s.takeWhile (· ≠ 0)

/-- The fixed fields of a header, each a 32-bit little-endian word. -/
def ref_fields : List Nat → List Cell
  | [] => []
  | v :: vs => (le32 v).map some ++ ref_fields vs

/-- Image of a string leaf: header `tag, size, data_length`, the bytes of the string, one
terminator byte, and padding up to the next multiple of 4. -/
def ref_varchar (tag : Nat) (s : List Nat) : List Cell :=
  let data_length := (cstr s).length + 1
  let size := (12 + data_length + 3) / 4 * 4
  ref_fields [tag, size, data_length] ++ (cstr s ++ [0]).map some
    ++ List.replicate (size - (12 + data_length)) none

/-- Image of a mandatory string leaf. -/
def ref_string (tag : Nat) : Option (List Nat) → List Cell
  | none => []
  | some s => ref_varchar tag s

/-- Image of the optional help-text leaf: nothing when the text is null or empty. -/
def ref_helptext : Option (List Nat) → List Cell
  | none => []
  | some s => if cstr s = [] then [] else ref_varchar LB_TAG_CFR_VARCHAR_UI_HELPTEXT s

/-- Image of an EnumValue record: header `tag, size, value`, then the UI-name. -/
def ref_enum_value (e : sm_enum_value) : List Cell :=
  let children := ref_string LB_TAG_CFR_VARCHAR_UI_NAME e.ui_name
  ref_fields [LB_TAG_CFR_ENUM_VALUE, 12 + children.length, e.value] ++ children

/-- Images of the entries of a value list before the end marker, in list order. -/
def ref_enum_values : List sm_enum_value → List Cell
  | [] => []
  | e :: es =>
    match e.ui_name with
    | none => []
    | some _ => ref_enum_value e ++ ref_enum_values es

/-- Image of an Enum, Number or Bool option: header `tag, size, object_id, flags,
default_value`, then opt-name, UI-name, optional help-text, then the enum values. -/
def ref_numeric (tag object_id : Nat) (opt_name ui_name ui_helptext : Option (List Nat))
    (flags default_value : Nat) (values : List Cell) : List Cell :=
  let children := ref_string LB_TAG_CFR_VARCHAR_OPT_NAME opt_name
    ++ ref_string LB_TAG_CFR_VARCHAR_UI_NAME ui_name ++ ref_helptext ui_helptext ++ values
  ref_fields [tag, 20 + children.length, object_id, flags, default_value] ++ children

/-- Image of an EnumOption. -/
def ref_opt_enum (o : sm_obj_enum) : List Cell :=
  ref_numeric LB_TAG_CFR_OPTION_ENUM o.object_id o.opt_name o.ui_name o.ui_helptext
    o.flags o.default_value
    (match o.values with
     | none => []
     | some vs => ref_enum_values vs)

/-- Image of a NumberOption. -/
def ref_opt_number (o : sm_obj_number) : List Cell :=
  ref_numeric LB_TAG_CFR_OPTION_NUMBER o.object_id o.opt_name o.ui_name o.ui_helptext
    o.flags o.default_value []

/-- Image of a BoolOption. -/
def ref_opt_bool (o : sm_obj_bool) : List Cell :=
  ref_numeric LB_TAG_CFR_OPTION_BOOL o.object_id o.opt_name o.ui_name o.ui_helptext
    o.flags (if o.default_value then 1 else 0) []

/-- Image of a VarcharOption: header `tag, size, object_id, flags`, then default-value,
opt-name, UI-name, optional help-text. -/
def ref_opt_varchar (o : sm_obj_varchar) : List Cell :=
  let children := ref_string LB_TAG_CFR_VARCHAR_DEF_VALUE o.default_value
    ++ ref_string LB_TAG_CFR_VARCHAR_OPT_NAME o.opt_name
    ++ ref_string LB_TAG_CFR_VARCHAR_UI_NAME o.ui_name ++ ref_helptext o.ui_helptext
  ref_fields [LB_TAG_CFR_OPTION_VARCHAR, 16 + children.length, o.object_id, o.flags]
    ++ children

/-- Image of a CommentOption: header `tag, size, object_id, flags`, then UI-name, optional
help-text. -/
def ref_opt_comment (o : sm_obj_comment) : List Cell :=
  let children := ref_string LB_TAG_CFR_VARCHAR_UI_NAME o.ui_name
    ++ ref_helptext o.ui_helptext
  ref_fields [LB_TAG_CFR_OPTION_COMMENT, 16 + children.length, o.object_id, o.flags]
    ++ children

mutual
/-- Image of a Form: header `tag, size, object_id, flags`, then UI-name, then the objects in
list order. -/
def ref_form : sm_obj_form → List Cell
  | .mk object_id flags ui_name obj_list =>
    let children := ref_string LB_TAG_CFR_VARCHAR_UI_NAME ui_name ++ ref_obj_list obj_list
    ref_fields [LB_TAG_CFR_OPTION_FORM, 16 + children.length, object_id, flags] ++ children
/-- Images of the objects of a form, in list order. -/
def ref_obj_list : List sm_object → List Cell
  | [] => []
  | o :: os => ref_object o ++ ref_obj_list os
/-- Image of one object; an object of kind NONE or of an unknown kind has none. -/
def ref_object : sm_object → List Cell
  | .obj_none => []
  | .obj_enum o => ref_opt_enum o
  | .obj_number o => ref_opt_number o
  | .obj_bool o => ref_opt_bool o
  | .obj_varchar o => ref_opt_varchar o
  | .obj_comment o => ref_opt_comment o
  | .obj_form f => ref_form f
  | .unknown _ => []
end

/-- Images of the forms of the root, in list order. -/
def ref_form_list : List sm_obj_form → List Cell
  | [] => []
  | f :: fs => ref_form f ++ ref_form_list fs

/-- Image of the Root: header `tag, size, checksum`, then the forms. -/
def ref_root (r : setup_menu_root) (checksum : Nat) : List Cell :=
  let children := ref_form_list r.form_list
  ref_fields [LB_TAG_CFR, 12 + children.length, checksum] ++ children

/-- Lay an image over the bytes found: written cells replace them, padding keeps them;
bytes beyond the image are kept. -/
def overlay : List Cell → List Nat → List Nat
  | [], old => old
  | _ :: _, [] => []
  | c :: cs, o :: os => c.getD o :: overlay cs os

/-- The buffer `m` with the image `img` laid over it at address `a`. -/
def blit (m : Mem) (a : Nat) (img : List Cell) : Mem := m.take a ++ overlay img (m.drop a)

/-- The bytes `bs` start with the image `img`, padding cells matching any byte. -/
def Fits : List Cell → List Nat → Prop
  | [], _ => True
  | _ :: _, [] => False
  | c :: cs, b :: bs => (c = none ∨ c = some b) ∧ Fits cs bs

/-- The word at address `q` of the buffer can be read and is not the help-text tag: what a
decoder needs at the position where an option has no help text. -/
def no_helptext_at (m : Mem) (q : Nat) : Prop :=
  ∃ t, load32 m q = .ok t ∧ t ≠ LB_TAG_CFR_VARCHAR_UI_HELPTEXT

/-! ### Input the encoder accepts -/

/-- A value list holds an end marker (an entry with a null `ui_name`). -/
def valid_enum_values : List sm_enum_value → Bool
  | [] => false
  | e :: es =>
    match e.ui_name with
    | none => true
    | some _ => valid_enum_values es

/-- The mandatory strings of an Enum, Number or Bool option are present. -/
def valid_numeric (opt_name ui_name : Option (List Nat)) : Bool :=
  opt_name.isSome && ui_name.isSome

/-- The mandatory strings of an EnumOption are present and its value list is terminated. -/
def valid_opt_enum (o : sm_obj_enum) : Bool :=
  valid_numeric o.opt_name o.ui_name &&
    (match o.values with
     | none => true
     | some vs => valid_enum_values vs)

/-- The mandatory strings of a VarcharOption are present. -/
def valid_opt_varchar (o : sm_obj_varchar) : Bool :=
  o.default_value.isSome && o.opt_name.isSome && o.ui_name.isSome

mutual
/-- All mandatory strings in the form are present and all value lists are terminated. -/
def valid_form : sm_obj_form → Bool
  | .mk _ _ ui_name obj_list => ui_name.isSome && valid_obj_list obj_list
/-- Every object of the list is valid. -/
def valid_obj_list : List sm_object → Bool
  | [] => true
  | o :: os => valid_object o && valid_obj_list os
/-- The object is valid. -/
def valid_object : sm_object → Bool
  | .obj_none => true
  | .obj_enum o => valid_opt_enum o
  | .obj_number o => valid_numeric o.opt_name o.ui_name
  | .obj_bool o => valid_numeric o.opt_name o.ui_name
  | .obj_varchar o => valid_opt_varchar o
  | .obj_comment o => o.ui_name.isSome
  | .obj_form f => valid_form f
  | .unknown _ => true
end

/-- Every form of the list is valid. -/
def valid_form_list : List sm_obj_form → Bool
  | [] => true
  | f :: fs => valid_form f && valid_form_list fs

end cfr

namespace cfr

/-- A blob with its four checksum bytes (offsets 8 to 11) taken as zero. -/
def with_zero_checksum (blob : List Nat) : List Nat :=
  blob.take 8 ++ [0, 0, 0, 0] ++ blob.drop 12

end cfr

/-! ## Size invariant (specification, section 8)

The shape of a tree of records says, for every node, how long its fixed header is and which
children follow it. Walking a blob along a shape reads the declared sizes from the blob. -/

namespace cfr

/-- Nesting of the records of a blob: a string leaf with its tag, or a record with its tag,
its header length and its children. -/
inductive Shape
  | leaf (tag : Nat)
  | node (tag hdr : Nat) (children : List Shape)

/-- The nodes a mandatory string contributes. -/
def shape_string (tag : Nat) : Option (List Nat) → List Shape
  | none => []
  | some _ => [.leaf tag]

/-- The nodes an optional help text contributes. -/
def shape_helptext : Option (List Nat) → List Shape
  | none => []
  | some s => if cstr s = [] then [] else [.leaf LB_TAG_CFR_VARCHAR_UI_HELPTEXT]

/-- The EnumValue nodes of a value list, up to the end marker. -/
def shape_enum_values : List sm_enum_value → List Shape
  | [] => []
  | e :: es =>
    match e.ui_name with
    | none => []
    | some _ =>
      .node LB_TAG_CFR_ENUM_VALUE 12 (shape_string LB_TAG_CFR_VARCHAR_UI_NAME e.ui_name)
        :: shape_enum_values es

/-- The node of an Enum, Number or Bool option. -/
def shape_numeric (tag : Nat) (opt_name ui_name ui_helptext : Option (List Nat))
    (values : List Shape) : Shape :=
  .node tag 20 (shape_string LB_TAG_CFR_VARCHAR_OPT_NAME opt_name
    ++ shape_string LB_TAG_CFR_VARCHAR_UI_NAME ui_name ++ shape_helptext ui_helptext
    ++ values)

mutual
/-- The node of a Form. -/
def shape_form : sm_obj_form → Shape
  | .mk _ _ ui_name obj_list =>
    .node LB_TAG_CFR_OPTION_FORM 16
      (shape_string LB_TAG_CFR_VARCHAR_UI_NAME ui_name ++ shape_obj_list obj_list)
/-- The nodes of the objects of a form. -/
def shape_obj_list : List sm_object → List Shape
  | [] => []
  | o :: os => shape_object o ++ shape_obj_list os
/-- The node of one object; an object of kind NONE or of an unknown kind has none. -/
def shape_object : sm_object → List Shape
  | .obj_none => []
  | .obj_enum o =>
    [shape_numeric LB_TAG_CFR_OPTION_ENUM o.opt_name o.ui_name o.ui_helptext
      (match o.values with
       | none => []
       | some vs => shape_enum_values vs)]
  | .obj_number o =>
    [shape_numeric LB_TAG_CFR_OPTION_NUMBER o.opt_name o.ui_name o.ui_helptext []]
  | .obj_bool o =>
    [shape_numeric LB_TAG_CFR_OPTION_BOOL o.opt_name o.ui_name o.ui_helptext []]
  | .obj_varchar o =>
    [.node LB_TAG_CFR_OPTION_VARCHAR 16
      (shape_string LB_TAG_CFR_VARCHAR_DEF_VALUE o.default_value
        ++ shape_string LB_TAG_CFR_VARCHAR_OPT_NAME o.opt_name
        ++ shape_string LB_TAG_CFR_VARCHAR_UI_NAME o.ui_name
        ++ shape_helptext o.ui_helptext)]
  | .obj_comment o =>
    [.node LB_TAG_CFR_OPTION_COMMENT 16
      (shape_string LB_TAG_CFR_VARCHAR_UI_NAME o.ui_name ++ shape_helptext o.ui_helptext)]
  | .obj_form f => [shape_form f]
  | .unknown _ => []
end

/-- The nodes of the forms of the root. -/
def shape_form_list : List sm_obj_form → List Shape
  | [] => []
  | f :: fs => shape_form f :: shape_form_list fs

/-- The Root node. -/
def shape_root (r : setup_menu_root) : Shape :=
  .node LB_TAG_CFR 12 (shape_form_list r.form_list)

mutual
/-- Check the size invariant for the node that starts at offset `start` of the blob: the
record there carries the tag of the node, the start and the declared size are multiples
of 4, the first child starts right after the header, every further child starts exactly
where the declared size of the child before it ends, and the last child ends at the end of
the node. Returns the end of the node. -/
def walk (blob : List Nat) : Shape → Nat → Option Nat
  | .leaf tag, start =>
    match load32 blob start, load32 blob (start + 4) with
    | .ok t, .ok size =>
      if t = tag ∧ start % 4 = 0 ∧ size % 4 = 0 then some (start + size) else none
    | _, _ => none
  | .node tag hdr children, start =>
    match load32 blob start, load32 blob (start + 4) with
    | .ok t, .ok size =>
      if t = tag ∧ start % 4 = 0 ∧ size % 4 = 0 then
        match walk_list blob children (start + hdr) with
        | some e => if e = start + size then some (start + size) else none
        | none => none
      else none
    | _, _ => none
/-- Check the nodes of a list one after the other, each starting where the one before it
ends. Returns the end of the last one. -/
def walk_list (blob : List Nat) : List Shape → Nat → Option Nat
  | [], current => some current
  | c :: cs, current =>
    match walk blob c current with
    | some next => walk_list blob cs next
    | none => none
end

end cfr

/-! ## Round trip (specification, section 8)

What each decoder is to report for an option tree, node by node in pre-order: the kind
(tag), `object_id`, `flags`, default and enum values, and the strings of the source tree.
A string of the tree is the C string `cstr s`; a numeric field is a 32-bit word. -/

namespace cfr

/-- The C string of an optional string of the tree; a null pointer reads as the empty
string. -/
def opt_cstr : Option (List Nat) → List Nat
  | none => []
  | some s => cstr s

end cfr

namespace cfr_read

open cfr

/-- Report of a string leaf read at depth `d`. -/
def dump_varchar (tag : Nat) (s : List Nat) (d : Int) : List Out :=
  [.brace_open, .record tag (ref_varchar tag s).length, .val .data_length ((cstr s).length + 1),
   .data (cstr s), .brace_close d]

/-- Report of a mandatory string. -/
def dump_string (l : Label) (tag : Nat) : Option (List Nat) → Int → List Out
  | none, _ => []
  | some s, d => .prop l :: dump_varchar tag s d

/-- Report of the help text: `<not found>` when the text is null or empty. -/
def dump_helptext : Option (List Nat) → Int → List Out
  | none, _ => [.prop .ui_helptext, .not_found]
  | some s, d =>
    if cstr s = [] then [.prop .ui_helptext, .not_found]
    else .prop .ui_helptext :: dump_varchar LB_TAG_CFR_VARCHAR_UI_HELPTEXT s d

/-- Report of the entries of a value list before the end marker. -/
def dump_enum_values : List sm_enum_value → Int → List Out
  | [], _ => []
  | e :: es, d =>
    match e.ui_name with
    | none => []
    | some _ =>
      [.brace_open, .record LB_TAG_CFR_ENUM_VALUE (ref_enum_value e).length,
       .val .value (e.value % 2 ^ 32)]
        ++ dump_string .ui_name LB_TAG_CFR_VARCHAR_UI_NAME e.ui_name (d + 1)
        ++ [.brace_close d] ++ dump_enum_values es d

/-- Report of an Enum, Number or Bool option of the given size. -/
def dump_numeric (tag size object_id : Nat) (opt_name ui_name ui_helptext : Option (List Nat))
    (flags default_value : Nat) (values : List Out) (d : Int) : List Out :=
  [.record tag size, .val .object_id (object_id % 2 ^ 32), .val .flags (flags % 2 ^ 32),
   .val .defval (default_value % 2 ^ 32)]
    ++ dump_string .option_name LB_TAG_CFR_VARCHAR_OPT_NAME opt_name d
    ++ dump_string .ui_name LB_TAG_CFR_VARCHAR_UI_NAME ui_name d
    ++ dump_helptext ui_helptext d ++ values

/-- Report of an EnumOption. -/
def dump_opt_enum (o : sm_obj_enum) (d : Int) : List Out :=
  dump_numeric LB_TAG_CFR_OPTION_ENUM (ref_opt_enum o).length o.object_id o.opt_name o.ui_name
    o.ui_helptext o.flags o.default_value
    (.prop .enum_values ::
      (match o.values with
       | none => []
       | some vs => dump_enum_values vs d)) d

/-- Report of a NumberOption. -/
def dump_opt_number (o : sm_obj_number) (d : Int) : List Out :=
  dump_numeric LB_TAG_CFR_OPTION_NUMBER (ref_opt_number o).length o.object_id o.opt_name
    o.ui_name o.ui_helptext o.flags o.default_value [] d

/-- Report of a BoolOption. -/
def dump_opt_bool (o : sm_obj_bool) (d : Int) : List Out :=
  dump_numeric LB_TAG_CFR_OPTION_BOOL (ref_opt_bool o).length o.object_id o.opt_name
    o.ui_name o.ui_helptext o.flags (if o.default_value then 1 else 0) [] d

/-- Report of a VarcharOption. -/
def dump_opt_varchar (o : sm_obj_varchar) (d : Int) : List Out :=
  [.record LB_TAG_CFR_OPTION_VARCHAR (ref_opt_varchar o).length,
   .val .object_id (o.object_id % 2 ^ 32), .val .flags (o.flags % 2 ^ 32)]
    ++ dump_string .defval LB_TAG_CFR_VARCHAR_DEF_VALUE o.default_value d
    ++ dump_string .option_name LB_TAG_CFR_VARCHAR_OPT_NAME o.opt_name d
    ++ dump_string .ui_name LB_TAG_CFR_VARCHAR_UI_NAME o.ui_name d
    ++ dump_helptext o.ui_helptext d

/-- Report of a CommentOption. -/
def dump_opt_comment (o : sm_obj_comment) (d : Int) : List Out :=
  [.record LB_TAG_CFR_OPTION_COMMENT (ref_opt_comment o).length,
   .val .object_id (o.object_id % 2 ^ 32), .val .flags (o.flags % 2 ^ 32)]
    ++ dump_string .ui_name LB_TAG_CFR_VARCHAR_UI_NAME o.ui_name d
    ++ dump_helptext o.ui_helptext d

mutual
/-- Report of a Form: its fields, its UI-name, then its objects in list order. -/
def dump_form : sm_obj_form → Int → List Out
  | .mk object_id flags ui_name obj_list, d =>
    [.record LB_TAG_CFR_OPTION_FORM (ref_form (.mk object_id flags ui_name obj_list)).length,
     .val .object_id (object_id % 2 ^ 32), .val .flags (flags % 2 ^ 32)]
      ++ dump_string .ui_name LB_TAG_CFR_VARCHAR_UI_NAME ui_name d
      ++ .prop .object_list :: dump_obj_list obj_list d
/-- Report of the objects of a form, in list order. -/
def dump_obj_list : List sm_object → Int → List Out
  | [], _ => []
  | o :: os, d => dump_object o d ++ dump_obj_list os d
/-- Report of one object, between braces; an object of kind NONE or of an unknown kind is
not in the blob and is not reported. -/
def dump_object : sm_object → Int → List Out
  | .obj_none, _ => []
  | .obj_enum o, d => .brace_open :: dump_opt_enum o (d + 1) ++ [.brace_close d]
  | .obj_number o, d => .brace_open :: dump_opt_number o (d + 1) ++ [.brace_close d]
  | .obj_bool o, d => .brace_open :: dump_opt_bool o (d + 1) ++ [.brace_close d]
  | .obj_varchar o, d => .brace_open :: dump_opt_varchar o (d + 1) ++ [.brace_close d]
  | .obj_comment o, d => .brace_open :: dump_opt_comment o (d + 1) ++ [.brace_close d]
  | .obj_form f, d => .brace_open :: dump_form f (d + 1) ++ [.brace_close d]
  | .unknown _, _ => []
end

/-- Report of the forms of the root, in list order. -/
def dump_form_list : List sm_obj_form → Int → List Out
  | [], _ => []
  | f :: fs, d => .brace_open :: dump_form f (d + 1) ++ [.brace_close d] ++ dump_form_list fs d

/-- Report of the whole tree, for the checksum read from the blob. -/
def dump_root (r : setup_menu_root) (checksum : Nat) : List Out :=
  [.record LB_TAG_CFR (ref_root r 0).length, .val .checksum checksum, .prop .form_list]
    ++ dump_form_list r.form_list 0
    ++ [.val .length (ref_root r 0).length, .val .size (ref_root r 0).length, .depth 0]

end cfr_read

namespace cfr_to_html

open cfr

/-- Option elements of the entries of a value list before the end marker. -/
def html_enum_values : List sm_enum_value → Nat → List Html
  | [], _ => []
  | e :: es, default_value =>
    match e.ui_name with
    | none => []
    | some s =>
      .option (e.value % 2 ^ 32) (decide (e.value % 2 ^ 32 = default_value % 2 ^ 32)) (cstr s)
        :: html_enum_values es default_value

/-- Option elements of the value list of an EnumOption; a null list has none. -/
def html_opt_values (o : sm_obj_enum) : List Html :=
  match o.values with
  | none => []
  | some vs => html_enum_values vs o.default_value

mutual
/-- Rows of the objects of a form, in list order. -/
def html_obj_list : List sm_object → List Html
  | [] => []
  | o :: os => html_object o ++ html_obj_list os
/-- Row of one object; an object of kind NONE or of an unknown kind is not in the blob and
has no row. The UI-name of a nested form is not written. -/
def html_object : sm_object → List Html
  | .obj_none => []
  | .obj_enum o =>
    [.row_open,
     .select_open (o.object_id % 2 ^ 32) (opt_cstr o.opt_name) (print_flags (o.flags % 2 ^ 32))
       (opt_cstr o.ui_name)]
      ++ html_opt_values o ++ [.select_close (opt_cstr o.ui_helptext), .row_close]
  | .obj_number o =>
    [.row_open,
     .number (o.object_id % 2 ^ 32) (opt_cstr o.opt_name) (o.default_value % 2 ^ 32)
       (print_flags (o.flags % 2 ^ 32)) (opt_cstr o.ui_name) (opt_cstr o.ui_helptext),
     .row_close]
  | .obj_bool o =>
    [.row_open,
     .checkbox (o.object_id % 2 ^ 32) (opt_cstr o.opt_name) o.default_value
       (print_flags (o.flags % 2 ^ 32)) (opt_cstr o.ui_name) (opt_cstr o.ui_helptext),
     .row_close]
  | .obj_varchar o =>
    [.row_open,
     .text (o.object_id % 2 ^ 32) (opt_cstr o.opt_name) (opt_cstr o.default_value)
       (print_flags (o.flags % 2 ^ 32)) (opt_cstr o.ui_name) (opt_cstr o.ui_helptext),
     .row_close]
  | .obj_comment o =>
    [.row_open,
     .comment (o.object_id % 2 ^ 32) (print_flags (o.flags % 2 ^ 32)) (opt_cstr o.ui_name)
       (opt_cstr o.ui_helptext),
     .row_close]
  | .obj_form (.mk object_id flags _ obj_list) =>
    [.row_open, .form_open (object_id % 2 ^ 32) (print_flags (flags % 2 ^ 32))]
      ++ html_obj_list obj_list ++ [.form_close, .row_close]
  | .unknown _ => []
end

/-- Tabs of the forms of the root, in list order; `first` says whether the next tab is the
first one (the one shown checked). -/
def html_form_tabs : List sm_obj_form → Bool → List Html
  | [], _ => []
  | .mk object_id flags ui_name obj_list :: fs, first =>
    .tab_open (object_id % 2 ^ 32) (print_flags (flags % 2 ^ 32)) first (opt_cstr ui_name)
      :: html_obj_list obj_list ++ [.tab_close] ++ html_form_tabs fs false

/-- Page of the whole tree, for the checksum read from the blob. -/
def html_root (r : setup_menu_root) (checksum : Nat) : List Html :=
  .page_open checksum :: html_form_tabs r.form_list true ++ [.tabs_close, .page_close]

end cfr_to_html

/-! ## Example blobs

Hand-made buffers, one record per line: Root (`tag, size, checksum`), Form (`tag, size,
object_id, flags`), string leaf (`tag, size, data_length, data`). -/

namespace cfr

/-- A Form that holds its UI-name `Main`, a record with the unknown tag `0x0999` (size 12,
four bytes of content) and a Comment with the UI-name `c` and the help text `h`. -/
def unknown_record_blob : List Nat :=
  [0, 1, 0, 0, 108, 0, 0, 0, 0, 0, 0, 0,
   1, 1, 0, 0, 96, 0, 0, 0, 1, 0, 0, 0, 0, 0, 0, 0,
   8, 1, 0, 0, 20, 0, 0, 0, 5, 0, 0, 0, 77, 97, 105, 110, 0, 0, 0, 0,
   153, 9, 0, 0, 12, 0, 0, 0, 170, 170, 170, 170,
   11, 1, 0, 0, 48, 0, 0, 0, 2, 0, 0, 0, 0, 0, 0, 0,
   8, 1, 0, 0, 16, 0, 0, 0, 2, 0, 0, 0, 99, 0, 0, 0,
   9, 1, 0, 0, 16, 0, 0, 0, 2, 0, 0, 0, 104, 0, 0, 0]

/-- A Form with one EnumOption (object_id 2, default 7, opt-name `m`, UI-name `M`, no help
text) whose value list holds one record laid out as an EnumValue (value 7, UI-name `On`) but
with the tag `0x0999` instead of `0x0102`. -/
def enum_value_tag_blob : List Nat :=
  [0, 1, 0, 0, 128, 0, 0, 0, 0, 0, 0, 0,
   1, 1, 0, 0, 116, 0, 0, 0, 1, 0, 0, 0, 0, 0, 0, 0,
   8, 1, 0, 0, 20, 0, 0, 0, 5, 0, 0, 0, 77, 97, 105, 110, 0, 0, 0, 0,
   3, 1, 0, 0, 80, 0, 0, 0, 2, 0, 0, 0, 0, 0, 0, 0, 7, 0, 0, 0,
   7, 1, 0, 0, 16, 0, 0, 0, 2, 0, 0, 0, 109, 0, 0, 0,
   8, 1, 0, 0, 16, 0, 0, 0, 2, 0, 0, 0, 77, 0, 0, 0,
   153, 9, 0, 0, 28, 0, 0, 0, 7, 0, 0, 0,
   8, 1, 0, 0, 16, 0, 0, 0, 3, 0, 0, 0, 79, 110, 0, 0]

/-- As `unknown_record_blob`, but the unknown record declares size 10 (two bytes of
content), so the Comment after it starts at offset 58, which is not a multiple of 4. -/
def misaligned_blob : List Nat :=
  [0, 1, 0, 0, 106, 0, 0, 0, 0, 0, 0, 0,
   1, 1, 0, 0, 94, 0, 0, 0, 1, 0, 0, 0, 0, 0, 0, 0,
   8, 1, 0, 0, 20, 0, 0, 0, 5, 0, 0, 0, 77, 97, 105, 110, 0, 0, 0, 0,
   153, 9, 0, 0, 10, 0, 0, 0, 170, 170,
   11, 1, 0, 0, 48, 0, 0, 0, 2, 0, 0, 0, 0, 0, 0, 0,
   8, 1, 0, 0, 16, 0, 0, 0, 2, 0, 0, 0, 99, 0, 0, 0,
   9, 1, 0, 0, 16, 0, 0, 0, 2, 0, 0, 0, 104, 0, 0, 0]

/-- The blob `unknown_record_blob` with the bytes `EF BE AD DE` in its checksum field. -/
def wrong_checksum_blob : List Nat :=
  unknown_record_blob.take 8 ++ [239, 190, 173, 222] ++ unknown_record_blob.drop 12

/-- A Form that holds its UI-name `Main` and a Comment whose declared size (52) is four bytes
more than its header and its two string leaves (48); the four bytes follow the help text and
are counted in the sizes of the Form (88) and of the Root (100). -/
def oversize_comment_blob : List Nat :=
  [0, 1, 0, 0, 100, 0, 0, 0, 0, 0, 0, 0,
   1, 1, 0, 0, 88, 0, 0, 0, 1, 0, 0, 0, 0, 0, 0, 0,
   8, 1, 0, 0, 20, 0, 0, 0, 5, 0, 0, 0, 77, 97, 105, 110, 0, 0, 0, 0,
   11, 1, 0, 0, 52, 0, 0, 0, 2, 0, 0, 0, 0, 0, 0, 0,
   8, 1, 0, 0, 16, 0, 0, 0, 2, 0, 0, 0, 99, 0, 0, 0,
   9, 1, 0, 0, 16, 0, 0, 0, 2, 0, 0, 0, 104, 0, 0, 0,
   0, 0, 0, 0]

/-- A Form that declares size 80 while its header, its UI-name `Main` and its one child (a
Comment of size 48) take 84 bytes: the child ends four bytes past the end of the Form. The
Root declares the true length, 96. -/
def overrun_form_blob : List Nat :=
  [0, 1, 0, 0, 96, 0, 0, 0, 0, 0, 0, 0,
   1, 1, 0, 0, 80, 0, 0, 0, 1, 0, 0, 0, 0, 0, 0, 0,
   8, 1, 0, 0, 20, 0, 0, 0, 5, 0, 0, 0, 77, 97, 105, 110, 0, 0, 0, 0,
   11, 1, 0, 0, 48, 0, 0, 0, 2, 0, 0, 0, 0, 0, 0, 0,
   8, 1, 0, 0, 16, 0, 0, 0, 2, 0, 0, 0, 99, 0, 0, 0,
   9, 1, 0, 0, 16, 0, 0, 0, 2, 0, 0, 0, 104, 0, 0, 0]

end cfr

/-! ## Enum value lists and checksum-blind comparison (specification, sections 5, 6 and 9) -/

namespace cfr

/-- The entries of an in-memory value list before the end marker (the first entry with a
null `ui_name`). -/
def enum_entries (vs : List sm_enum_value) : List sm_enum_value :=
  vs.takeWhile (fun e => e.ui_name.isSome)

/-- Apply `f` to every output item of a run. -/
def Outcome.map_output {ω α : Type} (f : ω → ω) : Outcome ω α → Outcome ω α
  | .ok a out => .ok a (out.map f)
  | .fail e out => .fail e (out.map f)

end cfr

namespace cfr_read

/-- Blank the checksum value in the line that prints it. -/
def dump_hide_checksum : Out → Out
  | .val .checksum _ => .val .checksum 0
  | o => o

end cfr_read

namespace cfr_to_html

/-- Blank the checksum value in the page head. -/
def html_hide_checksum : Html → Html
  | .page_open _ => .page_open 0
  | o => o

end cfr_to_html

/-! ## Tags of the records of a tree (specification, section 3) -/

namespace cfr

mutual
/-- The tags of a node and of all nodes below it, the node first. -/
def Shape.tags : Shape → List Nat
  | .leaf tag => [tag]
  | .node tag _ children => tag :: Shape.tags_list children
/-- The tags of the nodes of a list and of all nodes below them, in order. -/
def Shape.tags_list : List Shape → List Nat
  | [] => []
  | c :: cs => Shape.tags c ++ Shape.tags_list cs
end

/-- The twelve tag constants of `cfr.h`, in the order of the header. -/
def all_tags : List Nat :=
  [LB_TAG_CFR, LB_TAG_CFR_OPTION_FORM, LB_TAG_CFR_ENUM_VALUE, LB_TAG_CFR_OPTION_ENUM,
   LB_TAG_CFR_OPTION_NUMBER, LB_TAG_CFR_OPTION_BOOL, LB_TAG_CFR_OPTION_VARCHAR,
   LB_TAG_CFR_VARCHAR_OPT_NAME, LB_TAG_CFR_VARCHAR_UI_NAME, LB_TAG_CFR_VARCHAR_UI_HELPTEXT,
   LB_TAG_CFR_VARCHAR_DEF_VALUE, LB_TAG_CFR_OPTION_COMMENT]

end cfr

/-! ## Object ids (`cfr_write.c`) -/

namespace cfr_write

/-- Source `atlas_get_object_id`: `return ++object_id;` on the static `uint32_t object_id`.
Takes the value of the static variable, returns the value returned and the new value of the
variable. -/
def atlas_get_object_id (object_id : Nat) : Nat × Nat :=
  let object_id := (object_id + 1) % 2 ^ 32
  (object_id, object_id)

/-- The values returned by `n` successive calls of `atlas_get_object_id`, the static
variable holding `object_id` before the first of them. -/
def atlas_calls : Nat → Nat → List Nat
  | 0, _ => []
  | n + 1, object_id =>
    (atlas_get_object_id object_id).1 :: atlas_calls n (atlas_get_object_id object_id).2

end cfr_write

/-! ## Loaders (`read_from_file` of `cfr_read.c` and of `cfr_to_html.c`)

A file is the list of its bytes; it can be opened and read without an I/O error, and
`malloc` succeeds. -/

namespace cfr

/-- Why a loader returned -1. -/
inductive LoadError
  /-- `fread` of the 8-byte record header did not return 1. -/
  | short_record
  /-- The tag read is not `LB_TAG_CFR`. -/
  | not_root (tag : Nat)
  /-- `fread` of `length` bytes returned fewer. -/
  | short_data
  deriving DecidableEq, Repr

end cfr

namespace cfr_read

open cfr

/-- Source `alloc_and_read`: rewind, allocate `length` bytes and read `length` bytes into
them. -/
def alloc_and_read (length : Nat) (file : List Nat) : Except LoadError Mem :=
  let buffer := file.take length
  let read_size := buffer.length
  if read_size = length then .ok buffer else .error .short_data

/-- Source `read_from_file`. The `fread` of one `struct lb_record` returns 1 when the file
holds its 8 bytes. -/
def read_from_file (file : List Nat) : Except LoadError Mem :=
  match load32 file 0, load32 file 4 with
  | .ok tag, .ok size =>
    if tag = LB_TAG_CFR then alloc_and_read size file else .error (.not_root tag)
  | _, _ => .error .short_record

/-- Source `main`, given the content of the input file: the error of the loader (return -1
without decoding), or the run of `sm_read_cfr` on the buffer loaded. -/
def main (fuel : Nat) (file : List Nat) : Except LoadError (Outcome Out Int) :=
  match read_from_file file with
  | .error e => .error e
  | .ok buffer => .ok (sm_read_cfr fuel buffer)

end cfr_read

namespace cfr_to_html

open cfr

/-- Source `alloc_and_read`: rewind, allocate `length` bytes and read `length` bytes into
them. -/
def alloc_and_read (length : Nat) (file : List Nat) : Except LoadError Mem :=
  let buffer := file.take length
  let read_size := buffer.length
  if read_size = length then .ok buffer else .error .short_data

/-- Source `read_from_file`. The `fread` of one `struct lb_record` returns 1 when the file
holds its 8 bytes. -/
def read_from_file (file : List Nat) : Except LoadError Mem :=
  match load32 file 0, load32 file 4 with
  | .ok tag, .ok size =>
    if tag = LB_TAG_CFR then alloc_and_read size file else .error (.not_root tag)
  | _, _ => .error .short_record

/-- Source `main`, given the content of the input file, the output stream open: the error of
the loader (return -1 without decoding), or the run of `sm_read_cfr` on the buffer loaded. -/
def main (fuel : Nat) (file : List Nat) : Except LoadError (Outcome Html Unit) :=
  match read_from_file file with
  | .error e => .error e
  | .ok buffer => .ok (sm_read_cfr fuel buffer)

end cfr_to_html

/-! ## More example inputs -/

namespace cfr

/-- A Form that holds its UI-name `Main` and a record with the unknown tag `0x0999` that
declares size 0. -/
def zero_size_record_blob : List Nat :=
  [0, 1, 0, 0, 56, 0, 0, 0, 0, 0, 0, 0,
   1, 1, 0, 0, 44, 0, 0, 0, 1, 0, 0, 0, 0, 0, 0, 0,
   8, 1, 0, 0, 20, 0, 0, 0, 5, 0, 0, 0, 77, 97, 105, 110, 0, 0, 0, 0,
   153, 9, 0, 0, 0, 0, 0, 0]

/-- A Root whose only child is a Comment (UI-name `c`, help text `h`), not a Form. -/
def root_comment_blob : List Nat :=
  [0, 1, 0, 0, 60, 0, 0, 0, 0, 0, 0, 0,
   11, 1, 0, 0, 48, 0, 0, 0, 2, 0, 0, 0, 0, 0, 0, 0,
   8, 1, 0, 0, 16, 0, 0, 0, 2, 0, 0, 0, 99, 0, 0, 0,
   9, 1, 0, 0, 16, 0, 0, 0, 2, 0, 0, 0, 104, 0, 0, 0]

/-- A Root whose only child is a record with the unknown tag `0x0999` (size 12). -/
def root_unknown_blob : List Nat :=
  [0, 1, 0, 0, 24, 0, 0, 0, 0, 0, 0, 0,
   153, 9, 0, 0, 12, 0, 0, 0, 170, 170, 170, 170]

/-- A Form with an EnumOption (default value 7, opt-name `m`, UI-name `M`) whose two values
`A` and `B` both have the value 7. -/
def enum_two_selected_blob : List Nat :=
  [0, 1, 0, 0, 156, 0, 0, 0, 0, 0, 0, 0,
   1, 1, 0, 0, 144, 0, 0, 0, 1, 0, 0, 0, 0, 0, 0, 0,
   8, 1, 0, 0, 20, 0, 0, 0, 5, 0, 0, 0, 77, 97, 105, 110, 0, 0, 0, 0,
   3, 1, 0, 0, 108, 0, 0, 0, 2, 0, 0, 0, 0, 0, 0, 0, 7, 0, 0, 0,
   7, 1, 0, 0, 16, 0, 0, 0, 2, 0, 0, 0, 109, 0, 0, 0,
   8, 1, 0, 0, 16, 0, 0, 0, 2, 0, 0, 0, 77, 0, 0, 0,
   2, 1, 0, 0, 28, 0, 0, 0, 7, 0, 0, 0,
   8, 1, 0, 0, 16, 0, 0, 0, 2, 0, 0, 0, 65, 0, 0, 0,
   2, 1, 0, 0, 28, 0, 0, 0, 7, 0, 0, 0,
   8, 1, 0, 0, 16, 0, 0, 0, 2, 0, 0, 0, 66, 0, 0, 0]

/-- The blob `enum_two_selected_blob` with the default value 9 in the EnumOption: none of
its values has it. -/
def enum_none_selected_blob : List Nat :=
  [0, 1, 0, 0, 156, 0, 0, 0, 0, 0, 0, 0,
   1, 1, 0, 0, 144, 0, 0, 0, 1, 0, 0, 0, 0, 0, 0, 0,
   8, 1, 0, 0, 20, 0, 0, 0, 5, 0, 0, 0, 77, 97, 105, 110, 0, 0, 0, 0,
   3, 1, 0, 0, 108, 0, 0, 0, 2, 0, 0, 0, 0, 0, 0, 0, 9, 0, 0, 0,
   7, 1, 0, 0, 16, 0, 0, 0, 2, 0, 0, 0, 109, 0, 0, 0,
   8, 1, 0, 0, 16, 0, 0, 0, 2, 0, 0, 0, 77, 0, 0, 0,
   2, 1, 0, 0, 28, 0, 0, 0, 7, 0, 0, 0,
   8, 1, 0, 0, 16, 0, 0, 0, 2, 0, 0, 0, 65, 0, 0, 0,
   2, 1, 0, 0, 28, 0, 0, 0, 7, 0, 0, 0,
   8, 1, 0, 0, 16, 0, 0, 0, 2, 0, 0, 0, 66, 0, 0, 0]

/-- The inner Form of Scenario C. -/
def scenario_c_inner : sm_obj_form :=
  .mk 2 0 (some (ascii "Inner"))
    [.obj_number ⟨1, 1, some (ascii "n"), some (ascii "N"), none, 42⟩]

/-- The outer Form of Scenario C: the inner Form, then a Comment. -/
def scenario_c_outer : sm_obj_form :=
  .mk 3 0 (some (ascii "Outer"))
    [.obj_form scenario_c_inner, .obj_comment ⟨4, 0, some (ascii "after"), none⟩]

/-- A root with one empty form named `Ab`: its encoding takes 44 bytes, the last of which is
the one padding byte of the UI-name leaf. -/
def padding_tree : setup_menu_root := ⟨[.mk 1 0 (some (ascii "Ab")) []]⟩

end cfr

/-! ## The depth of the debug decoder, replayed from its output -/

namespace cfr_read

/-- The depth after the printed items `o`, counted from the depth `d` before them: every `{`
of `inc_depth` adds one, every `}` of `dec_depth` takes one off. The result is `none` when
a `}` was printed with another depth than the count gives, or with a depth below `base`. -/
def depth_after (base : Int) : Int → List Out → Option Int
  | d, [] => some d
  | d, .brace_open :: o => depth_after base (d + 1) o
  | d, .brace_close v :: o => if v = d - 1 ∧ base ≤ v then depth_after base v o else none
  | d, _ :: o => depth_after base d o

/-- The number of `}` lines of `dec_depth` among the printed items. -/
def braces_closed : List Out → Nat
  | [] => 0
  | .brace_close _ :: o => braces_closed o + 1
  | _ :: o => braces_closed o

end cfr_read

namespace cfr

/-- A Form whose UI-name leaf has data_length 3 and the payload `AbX` followed by a zero
byte: the byte at index data_length - 1 is `X`, not the terminator. -/
def unterminated_leaf_blob : List Nat :=
  [0, 1, 0, 0, 44, 0, 0, 0, 0, 0, 0, 0,
   1, 1, 0, 0, 32, 0, 0, 0, 1, 0, 0, 0, 0, 0, 0, 0,
   8, 1, 0, 0, 16, 0, 0, 0, 3, 0, 0, 0, 65, 98, 88, 0]

/-- A Form (UI-name `F`) that holds one VarcharOption with the default value `d`, the
opt-name `o`, the UI-name `U` and the help text `h`; the string leaves start at the offsets
60, 76, 92 and 108. -/
def varchar_blob : List Nat :=
  [0, 1, 0, 0, 124, 0, 0, 0, 0, 0, 0, 0,
   1, 1, 0, 0, 112, 0, 0, 0, 1, 0, 0, 0, 0, 0, 0, 0,
   8, 1, 0, 0, 16, 0, 0, 0, 2, 0, 0, 0, 70, 0, 0, 0,
   6, 1, 0, 0, 80, 0, 0, 0, 2, 0, 0, 0, 0, 0, 0, 0,
   10, 1, 0, 0, 16, 0, 0, 0, 2, 0, 0, 0, 100, 0, 0, 0,
   7, 1, 0, 0, 16, 0, 0, 0, 2, 0, 0, 0, 111, 0, 0, 0,
   8, 1, 0, 0, 16, 0, 0, 0, 2, 0, 0, 0, 85, 0, 0, 0,
   9, 1, 0, 0, 16, 0, 0, 0, 2, 0, 0, 0, 104, 0, 0, 0]

end cfr


namespace cfr

/-! ## Checksum: lemmas -/

theorem and_top_ne_zero (c : Nat) : (c &&& 0x80000000 ≠ 0) ↔ c.testBit 31 = true := by
  constructor
  · intro h
    obtain ⟨i, hi⟩ := Nat.ne_zero_implies_bit_true h
    rw [Nat.testBit_and] at hi
    have h2 : (0x80000000 : Nat) = 2 ^ 31 := by norm_num
    rw [h2, Nat.testBit_two_pow] at hi
    simp at hi
    obtain ⟨h3, h4⟩ := hi
    subst h4; exact h3
  · intro h h0
    have : (c &&& 0x80000000).testBit 31 = true := by
      rw [Nat.testBit_and, h]; decide
    rw [h0] at this
    simp at this

theorem crc32_step_eq (c : Nat) :
    crc32_step c = ((c <<< 1) % 2 ^ 32) ^^^ (if c.testBit 31 then 0x04C11DB7 else 0) := by
  unfold crc32_step
  by_cases h : c.testBit 31 = true
  · rw [if_pos ((and_top_ne_zero c).2 h), if_pos h]
  · rw [if_neg (fun h2 => h ((and_top_ne_zero c).1 h2)), if_neg h, Nat.xor_zero]

theorem crc32_step_lt (c : Nat) : crc32_step c < 2 ^ 32 := by
  rw [crc32_step_eq]
  apply Nat.xor_lt_two_pow (Nat.mod_lt _ (by norm_num))
  split <;> norm_num

theorem crc32_step_xor (a b : Nat) : crc32_step (a ^^^ b) = crc32_step a ^^^ crc32_step b := by
  simp only [crc32_step_eq]
  apply Nat.eq_of_testBit_eq
  intro i
  simp only [Nat.testBit_xor, Nat.testBit_mod_two_pow, Nat.testBit_shiftLeft]
  cases a.testBit 31 <;> cases b.testBit 31 <;> cases (Nat.testBit 79764919 i) <;>
    cases decide (i < 32) <;> cases decide (i ≥ 1) <;> cases a.testBit (i - 1) <;> cases b.testBit (i - 1) <;> simp

theorem crc32_step_eq_zero (c : Nat) (hc : c < 2 ^ 32) (h : crc32_step c = 0) : c = 0 := by
  rw [crc32_step_eq, Nat.xor_eq_zero, Nat.shiftLeft_eq] at h
  by_cases ht : c.testBit 31 = true
  · rw [if_pos ht] at h; omega
  · rw [if_neg ht] at h
    have : c < 2 ^ 31 := by
      apply Nat.lt_pow_two_of_testBit
      intro i hi
      by_cases h31 : i = 31
      · subst h31; simpa using ht
      · exact Nat.testBit_lt_two_pow (lt_of_lt_of_le hc (Nat.pow_le_pow_right (by norm_num) (by omega)))
    omega

theorem crc32_step_inj (a b : Nat) (ha : a < 2 ^ 32) (hb : b < 2 ^ 32)
    (h : crc32_step a = crc32_step b) : a = b := by
  have h1 : crc32_step (a ^^^ b) = 0 := by rw [crc32_step_xor, h, Nat.xor_self]
  exact Nat.xor_eq_zero.1 (crc32_step_eq_zero _ (Nat.xor_lt_two_pow ha hb) h1)


theorem add_eq_xor_of_lt (a low k : Nat) (h : low < 2 ^ k) :
    a * 2 ^ k + low = (a <<< k) ^^^ low := by
  apply Nat.eq_of_testBit_eq
  intro j
  rw [Nat.mul_comm, Nat.testBit_mul_pow_two_add a h, Nat.testBit_xor, Nat.testBit_shiftLeft]
  by_cases hj : j < k
  · have : ¬ j ≥ k := by omega
    simp [hj, this]
  · have h2 : low.testBit j = false :=
      Nat.testBit_lt_two_pow (lt_of_lt_of_le h (Nat.pow_le_pow_right (by norm_num) (by omega)))
    have : j ≥ k := by omega
    simp [hj, h2, this]

theorem crc32_byte_lt (c d : Nat) : crc32_byte c d < 2 ^ 32 := by
  unfold crc32_byte
  rw [Function.iterate_succ_apply']
  exact crc32_step_lt _

theorem crc32_foldl_lt (l : List Nat) : ∀ c, c < 2 ^ 32 → l.foldl crc32_byte c < 2 ^ 32 := by
  induction l with
  | nil => intro c hc; simpa using hc
  | cons x xs ih => intro c _; exact ih _ (crc32_byte_lt c x)

theorem crc32_lt (bs : List Nat) : crc32 bs < 2 ^ 32 :=
  crc32_foldl_lt bs 0 (by norm_num)

theorem crc32_step_iterate_inj (n : Nat) : ∀ a b, a < 2 ^ 32 → b < 2 ^ 32 →
    crc32_step^[n] a = crc32_step^[n] b → a = b := by
  induction n with
  | zero => intro a b _ _ h; simpa using h
  | succ n ih =>
    intro a b ha hb h
    rw [Function.iterate_succ_apply, Function.iterate_succ_apply] at h
    exact crc32_step_inj a b ha hb (ih _ _ (crc32_step_lt a) (crc32_step_lt b) h)

theorem byte_shift_lt (d : Nat) : (d % 256) <<< 24 < 2 ^ 32 := by
  have : d % 256 < 256 := Nat.mod_lt _ (by norm_num)
  rw [Nat.shiftLeft_eq]; omega

theorem crc32_byte_inj_crc (c1 c2 d : Nat) (h1 : c1 < 2 ^ 32) (h2 : c2 < 2 ^ 32)
    (h : crc32_byte c1 d = crc32_byte c2 d) : c1 = c2 := by
  unfold crc32_byte at h
  have := crc32_step_iterate_inj 8 _ _ (Nat.xor_lt_two_pow h1 (byte_shift_lt d))
    (Nat.xor_lt_two_pow h2 (byte_shift_lt d)) h
  exact Nat.xor_left_inj.1 this

theorem crc32_byte_inj_data (c d1 d2 : Nat) (hc : c < 2 ^ 32)
    (h : crc32_byte c d1 = crc32_byte c d2) : d1 % 256 = d2 % 256 := by
  unfold crc32_byte at h
  have := crc32_step_iterate_inj 8 _ _ (Nat.xor_lt_two_pow hc (byte_shift_lt d1))
    (Nat.xor_lt_two_pow hc (byte_shift_lt d2)) h
  have h3 := Nat.xor_right_inj.1 this
  rw [Nat.shiftLeft_eq, Nat.shiftLeft_eq] at h3
  omega

theorem crc32_foldl_inj (l : List Nat) : ∀ c1 c2, c1 < 2 ^ 32 → c2 < 2 ^ 32 →
    l.foldl crc32_byte c1 = l.foldl crc32_byte c2 → c1 = c2 := by
  induction l with
  | nil => intro c1 c2 _ _ h; simpa using h
  | cons x xs ih =>
    intro c1 c2 h1 h2 h
    exact crc32_byte_inj_crc c1 c2 x h1 h2 (ih _ _ (crc32_byte_lt _ _) (crc32_byte_lt _ _) h)

theorem crc32_foldl_set_ne (bs : List Nat) : ∀ (i b c : Nat), i < bs.length → c < 2 ^ 32 →
    b % 256 ≠ bs.getD i 0 % 256 →
    (bs.set i b).foldl crc32_byte c ≠ bs.foldl crc32_byte c := by
  induction bs with
  | nil => intro i b c hi; simp at hi
  | cons x xs ih =>
    intro i b c hi hc hne
    cases i with
    | zero =>
      intro h
      simp only [List.set_cons_zero, List.foldl_cons] at h
      have := crc32_foldl_inj xs _ _ (crc32_byte_lt _ _) (crc32_byte_lt _ _) h
      exact hne (by simpa using crc32_byte_inj_data c b x hc this)
    | succ j =>
      simp only [List.set_cons_succ, List.foldl_cons]
      apply ih j b _ (by simpa using hi) (crc32_byte_lt _ _)
      simpa using hne

theorem shiftLeft_xor (a b k : Nat) : (a ^^^ b) <<< k = (a <<< k) ^^^ (b <<< k) := by
  apply Nat.eq_of_testBit_eq
  intro i
  simp only [Nat.testBit_xor, Nat.testBit_shiftLeft]
  cases decide (i ≥ k) <;> simp

theorem generator_testBit_lt (i : Nat) (hi : i < 32) :
    crc_generator.testBit i = (0x04C11DB7 : Nat).testBit i := by
  unfold crc_generator
  exact Nat.testBit_two_pow_add_gt hi _

theorem crc32_step_eq_generator (c : Nat) (hc : c < 2 ^ 32) :
    crc32_step c = (c <<< 1) ^^^ (if c.testBit 31 then crc_generator else 0) := by
  rw [crc32_step_eq]
  apply Nat.eq_of_testBit_eq
  intro i
  simp only [Nat.testBit_xor, Nat.testBit_mod_two_pow, Nat.testBit_shiftLeft]
  rcases Nat.lt_trichotomy i 32 with h | h | h
  · have hg := generator_testBit_lt i h
    by_cases ht : c.testBit 31 = true
    · simp [ht, hg, h]
    · simp [ht, h]
  · subst h
    have h1 : crc_generator.testBit 32 = true := by decide
    have h2 : (0x04C11DB7 : Nat).testBit 32 = false := by decide
    by_cases ht : c.testBit 31 = true
    · simp [ht, h1, h2]
    · simp [ht]
  · have h1 : crc_generator.testBit i = false :=
      Nat.testBit_lt_two_pow (lt_of_lt_of_le (by decide : crc_generator < 2 ^ 33)
        (Nat.pow_le_pow_right (by norm_num) (by omega)))
    have h2 : (0x04C11DB7 : Nat).testBit i = false :=
      Nat.testBit_lt_two_pow (lt_of_lt_of_le (by decide : (0x04C11DB7 : Nat) < 2 ^ 32)
        (Nat.pow_le_pow_right (by norm_num) (by omega)))
    have h3 : c.testBit (i - 1) = false :=
      Nat.testBit_lt_two_pow (lt_of_lt_of_le hc (Nat.pow_le_pow_right (by norm_num) (by omega)))
    have h4 : ¬ i < 32 := by omega
    by_cases ht : c.testBit 31 = true
    · simp [ht, h1, h2, h3, h4]
    · simp [ht, h3, h4]

theorem gf2_rem_aux_iterate (j : Nat) : ∀ x, x < 2 ^ 32 →
    gf2_rem_aux crc_generator 32 j (x <<< j) = crc32_step^[j] x := by
  induction j with
  | zero => intro x _; simp [gf2_rem_aux]
  | succ j ih =>
    intro x hx
    rw [Function.iterate_succ_apply, ← ih _ (crc32_step_lt x), gf2_rem_aux]
    congr 1
    rw [crc32_step_eq_generator x hx, shiftLeft_xor, ← Nat.shiftLeft_add]
    have h1 : (x <<< (j + 1)).testBit (32 + j) = x.testBit 31 := by
      rw [Nat.testBit_shiftLeft]
      have : 32 + j - (j + 1) = 31 := by omega
      simp [this]; omega
    rw [h1, Nat.add_comm 1 j]
    by_cases ht : x.testBit 31 = true
    · simp [ht]
    · simp [ht]

theorem gf2_rem_aux_split (g d m n : Nat) : ∀ a,
    gf2_rem_aux g d (n + m) a = gf2_rem_aux g d m (gf2_rem_aux (g <<< m) (d + m) n a) := by
  induction n with
  | zero => intro a; simp [gf2_rem_aux]
  | succ n ih =>
    intro a
    have h1 : n + 1 + m = (n + m) + 1 := by omega
    rw [h1, gf2_rem_aux, gf2_rem_aux, ih, ← Nat.shiftLeft_add]
    have h2 : d + (n + m) = d + m + n := by omega
    have h3 : m + n = n + m := by omega
    rw [h2, h3]

theorem gf2_rem_aux_shift (g d m n low : Nat) (hlow : low < 2 ^ (d + m)) : ∀ a,
    gf2_rem_aux (g <<< m) (d + m) n ((a <<< m) ^^^ low)
      = (gf2_rem_aux g d n a <<< m) ^^^ low := by
  induction n with
  | zero => intro a; simp [gf2_rem_aux]
  | succ n ih =>
    intro a
    rw [gf2_rem_aux, gf2_rem_aux, ← ih]
    congr 1
    have h1 : ((a <<< m) ^^^ low).testBit (d + m + n) = a.testBit (d + n) := by
      rw [Nat.testBit_xor, Nat.testBit_shiftLeft]
      have : low.testBit (d + m + n) = false :=
        Nat.testBit_lt_two_pow (lt_of_lt_of_le hlow (Nat.pow_le_pow_right (by norm_num) (by omega)))
      have h5 : d + m + n - m = d + n := by omega
      rw [this, h5]; simp; omega
    rw [h1]
    by_cases ht : a.testBit (d + n) = true
    · simp only [ht, if_true]
      rw [shiftLeft_xor, ← Nat.shiftLeft_add, ← Nat.shiftLeft_add, Nat.add_comm m n,
        Nat.xor_assoc, Nat.xor_assoc, Nat.xor_comm low]
    · simp [ht]

theorem gf2_rem_aux_noop (g d e : Nat) : ∀ a, a < 2 ^ d → gf2_rem_aux g d e a = a := by
  induction e with
  | zero => intro a _; simp [gf2_rem_aux]
  | succ e ih =>
    intro a ha
    have : a.testBit (d + e) = false :=
      Nat.testBit_lt_two_pow (lt_of_lt_of_le ha (Nat.pow_le_pow_right (by norm_num) (by omega)))
    rw [gf2_rem_aux, this]
    simpa using ih a ha

theorem gf2_rem_aux_fuel (g d n e a : Nat) (ha : a < 2 ^ (d + n)) :
    gf2_rem_aux g d (e + n) a = gf2_rem_aux g d n a := by
  rw [gf2_rem_aux_split, gf2_rem_aux_noop _ _ _ _ ha]

theorem msg_poly_append (bs : List Nat) (b : Nat) :
    msg_poly (bs ++ [b]) = msg_poly bs * 256 + b % 256 := by
  simp [msg_poly, List.foldl_append]

theorem crc32_append (bs : List Nat) (b : Nat) :
    crc32 (bs ++ [b]) = crc32_byte (crc32 bs) b := by
  simp [crc32, List.foldl_append]

theorem msg_poly_lt (bs : List Nat) : msg_poly bs < 2 ^ (8 * bs.length) := by
  induction bs using List.reverseRecOn with
  | nil => simp [msg_poly]
  | append_singleton bs b ih =>
    rw [msg_poly_append, List.length_append, List.length_singleton]
    have : 2 ^ (8 * (bs.length + 1)) = 2 ^ (8 * bs.length) * 256 := by
      rw [Nat.mul_add, Nat.pow_add]
    have hb : b % 256 < 256 := Nat.mod_lt _ (by norm_num)
    omega

theorem gf2_rem_aux_crc32 (bs : List Nat) :
    gf2_rem_aux crc_generator 32 (8 * bs.length) (msg_poly bs * 2 ^ 32) = crc32 bs := by
  induction bs using List.reverseRecOn with
  | nil => rfl
  | append_singleton bs b ih =>
    rw [msg_poly_append, crc32_append, List.length_append, List.length_singleton]
    have hb : b % 256 < 256 := Nat.mod_lt _ (by norm_num)
    have hlow : (b % 256) * 2 ^ 32 < 2 ^ (32 + 8) := by omega
    have h1 : (msg_poly bs * 256 + b % 256) * 2 ^ 32
        = ((msg_poly bs * 2 ^ 32) <<< 8) ^^^ ((b % 256) * 2 ^ 32) := by
      have e1 : (msg_poly bs * 2 ^ 32) <<< 8 = msg_poly bs <<< 40 := by
        rw [Nat.shiftLeft_eq, Nat.shiftLeft_eq]; ring
      rw [e1, ← add_eq_xor_of_lt _ _ 40 hlow]
      ring
    have h2 : 8 * (bs.length + 1) = 8 * bs.length + 8 := by omega
    rw [h1, h2, gf2_rem_aux_split, gf2_rem_aux_shift _ _ _ _ _ hlow, ih]
    have hc : crc32 bs < 2 ^ 32 := crc32_lt bs
    have h3 : (crc32 bs <<< 8) ^^^ ((b % 256) * 2 ^ 32)
        = (crc32 bs ^^^ ((b % 256) <<< 24)) <<< 8 := by
      rw [shiftLeft_xor, ← Nat.shiftLeft_add, Nat.shiftLeft_eq (b % 256)]
    rw [h3, gf2_rem_aux_iterate]
    · rfl
    · apply Nat.xor_lt_two_pow hc
      rw [Nat.shiftLeft_eq]; omega



theorem gf2_rem_crc32 (bs : List Nat) :
    gf2_rem (msg_poly bs * 2 ^ 32) crc_generator = crc32 bs := by
  have hlog : Nat.log2 crc_generator = 32 := by
    rw [Nat.log2_eq_log_two]
    exact Nat.log_eq_of_pow_le_of_lt_pow (by decide) (by decide)
  have hlt := msg_poly_lt bs
  have ha : msg_poly bs * 2 ^ 32 < 2 ^ (32 + 8 * bs.length) := by
    rw [Nat.pow_add, Nat.mul_comm]
    exact Nat.mul_lt_mul_of_pos_left hlt (by norm_num)
  have hs : msg_poly bs * 2 ^ 32 < 2 ^ (32 + (Nat.size (msg_poly bs * 2 ^ 32) - 32)) :=
    lt_of_lt_of_le (Nat.lt_size_self _) (Nat.pow_le_pow_right (by norm_num) (by omega))
  unfold gf2_rem
  rw [hlog, ← gf2_rem_aux_crc32]
  rcases Nat.le_total (Nat.size (msg_poly bs * 2 ^ 32) - 32) (8 * bs.length) with h | h
  · obtain ⟨e, he⟩ := Nat.exists_eq_add_of_le h
    rw [he, Nat.add_comm _ e, gf2_rem_aux_fuel _ _ _ _ _ hs]
  · obtain ⟨e, he⟩ := Nat.exists_eq_add_of_le h
    rw [he, Nat.add_comm _ e, gf2_rem_aux_fuel _ _ _ _ _ ha]

/-- C5. Single-byte error detection: in any byte sequence, replacing the byte at any index
by a different byte value (bytes are compared modulo 256, as the `uint8_t` parameter of
`crc32_byte` takes them) changes the result of `crc32`. -/
theorem crc32_single_byte_error_detection (bs : List Nat) (i b : Nat) (hi : i < bs.length)
    (hne : b % 256 ≠ bs.getD i 0 % 256) : crc32 (bs.set i b) ≠ crc32 bs :=
  crc32_foldl_set_ne bs i b 0 hi (by norm_num) hne

theorem crc32_single_byte_error_detection_witness :
    1 < [0x12, 0x34, 0x56].length ∧ 0x35 % 256 ≠ [0x12, 0x34, 0x56].getD 1 0 % 256 ∧
      crc32 ([0x12, 0x34, 0x56].set 1 0x35) ≠ crc32 [0x12, 0x34, 0x56] :=
  ⟨by decide, by decide,
    crc32_single_byte_error_detection [0x12, 0x34, 0x56] 1 0x35 (by decide) (by decide)⟩

/-- C6. Source `crc32` is the reference CRC: for every byte sequence it equals the remainder
over GF(2) of `M(x) * x ^ 32` divided by the generator `x ^ 32 + (polynomial 0x04C11DB7)`,
`M(x)` being the message read most-significant-bit first, with seed 0 and no final XOR;
`crc32` of the empty sequence is 0 and `crc32` of the single byte `0x01` is `0x04C11DB7`. -/
theorem crc32_eq_reference_remainder (bs : List Nat) :
    crc32 bs = gf2_rem (msg_poly bs * 2 ^ 32) crc_generator ∧
      crc32 [] = 0 ∧ crc32 [0x01] = 0x04C11DB7 :=
  ⟨(gf2_rem_crc32 bs).symm, by decide, by decide⟩

end cfr


namespace cfr

/-! ## Images laid over a buffer: lemmas -/

theorem overlay_nil_right (img : List Cell) : overlay img [] = [] := by
  cases img <;> rfl

theorem overlay_length (img : List Cell) : ∀ s, (overlay img s).length = s.length := by
  induction img with
  | nil => intro s; rfl
  | cons c cs ih =>
    intro s
    cases s with
    | nil => rfl
    | cons o os => simp [overlay, ih]

theorem overlay_append (i j : List Cell) : ∀ s,
    overlay (i ++ j) s = (overlay i s).take i.length ++ overlay j (s.drop i.length) := by
  induction i with
  | nil => intro s; simp [overlay]
  | cons c cs ih =>
    intro s
    cases s with
    | nil => simp [overlay, overlay_nil_right]
    | cons o os => simp [overlay, ih]

theorem overlay_replicate_none (n : Nat) : ∀ s, overlay (List.replicate n none) s = s := by
  induction n with
  | zero => intro s; rfl
  | succ n ih =>
    intro s
    cases s with
    | nil => rfl
    | cons o os => simp [List.replicate_succ, overlay, ih]

theorem overlay_map_some (bs : List Nat) : ∀ s, bs.length ≤ s.length →
    overlay (bs.map some) s = bs ++ s.drop bs.length := by
  induction bs with
  | nil => intro s _; rfl
  | cons b bs ih =>
    intro s hs
    cases s with
    | nil => simp at hs
    | cons o os =>
      simp only [List.map_cons, overlay, Option.getD_some, List.length_cons, List.drop_succ_cons,
        List.cons_append]
      rw [ih os (by simpa using hs)]

theorem overlay_split (i : List Cell) (s : List Nat) :
    overlay i s = (overlay i s).take i.length ++ s.drop i.length := by
  have h := overlay_append i [] s
  simpa [overlay] using h

theorem overlay_take_length (i : List Cell) (s : List Nat) (h : i.length ≤ s.length) :
    ((overlay i s).take i.length).length = i.length := by
  simp [overlay_length, h]

theorem overlay_drop (i : List Cell) (s : List Nat) (k : Nat) (hk : i.length ≤ k) :
    (overlay i s).drop k = s.drop k := by
  induction i generalizing s k with
  | nil => rfl
  | cons c cs ih =>
    cases s with
    | nil => simp [overlay]
    | cons o os =>
      cases k with
      | zero => simp at hk
      | succ k => simp [overlay, ih os k (by simpa using hk)]

theorem blit_length (m : Mem) (a : Nat) (img : List Cell) : (blit m a img).length = m.length := by
  simp [blit, overlay_length]
  omega

theorem blit_nil (m : Mem) (a : Nat) : blit m a [] = m := by
  simp [blit, overlay]

theorem blit_take (m : Mem) (c k : Nat) (i : List Cell) (hc : c ≤ m.length) :
    (blit m c i).take (c + k) = m.take c ++ (overlay i (m.drop c)).take k := by
  unfold blit
  have h : (m.take c).length = c := by simp [hc]
  rw [List.take_append_eq_append_take, h]
  simp [List.take_take]

theorem blit_drop (m : Mem) (c k : Nat) (i : List Cell) (hc : c ≤ m.length) :
    (blit m c i).drop (c + k) = (overlay i (m.drop c)).drop k := by
  unfold blit
  have h : (m.take c).length = c := by simp [hc]
  rw [List.drop_append_eq_append_drop, h]
  simp

/-- A second image laid at or after the end of the first one extends it (with a gap of
padding in between). -/
theorem blit_app (m : Mem) (c a k : Nat) (i j : List Cell) (ha : a = c + k)
    (hk : i.length ≤ k) (hm : c + k + j.length ≤ m.length) :
    blit (blit m c i) a j = blit m c (i ++ List.replicate (k - i.length) none ++ j) := by
  subst ha
  have hc : c ≤ m.length := by omega
  have hs : k ≤ (m.drop c).length := by simp; omega
  generalize hsd : m.drop c = s at hs
  have e1 : blit (blit m c i) (c + k) j
      = m.take c ++ ((overlay i s).take k ++ overlay j (s.drop k)) := by
    rw [show blit (blit m c i) (c + k) j
        = (blit m c i).take (c + k) ++ overlay j ((blit m c i).drop (c + k)) from rfl]
    rw [blit_take m c k i hc, blit_drop m c k i hc, hsd, overlay_drop i s k hk]
    simp
  have e2 : overlay (i ++ List.replicate (k - i.length) none ++ j) s
      = (overlay i s).take k ++ overlay j (s.drop k) := by
    rw [overlay_append]
    have hl : (i ++ List.replicate (k - i.length) none).length = k := by simp; omega
    rw [hl, overlay_append, overlay_replicate_none, ← overlay_split]
  rw [e1, ← e2, blit, hsd]

/-- An image laid over a middle part of an earlier image replaces that part. -/
theorem blit_patch (m : Mem) (c a : Nat) (x y z : List Cell) (bs : List Nat)
    (ha : a = c + x.length) (hy : bs.length = y.length)
    (hm : c + x.length + y.length + z.length ≤ m.length) :
    blit (blit m c (x ++ y ++ z)) a (bs.map some) = blit m c (x ++ bs.map some ++ z) := by
  subst ha
  have hc : c ≤ m.length := by omega
  have hs : x.length + y.length + z.length ≤ (m.drop c).length := by simp; omega
  generalize hsd : m.drop c = s at hs
  have hx : ((overlay x s).take x.length).length = x.length :=
    overlay_take_length x s (by omega)
  have hys : y.length ≤ (s.drop x.length).length := by simp; omega
  have hy2 : ((overlay y (s.drop x.length)).take y.length).length = y.length :=
    overlay_take_length y _ hys
  have e0 : overlay (x ++ y ++ z) s
      = (overlay x s).take x.length ++ ((overlay y (s.drop x.length)).take y.length
          ++ overlay z ((s.drop x.length).drop y.length)) := by
    rw [List.append_assoc, overlay_append, overlay_append]
  generalize hA : (overlay x s).take x.length = A at hx e0
  generalize hB : (overlay y (s.drop x.length)).take y.length = B at hy2 e0
  generalize hZ : overlay z ((s.drop x.length).drop y.length) = Z at e0
  have e1 : blit (blit m c (x ++ y ++ z)) (c + x.length) (bs.map some)
      = m.take c ++ (A ++ (bs ++ Z)) := by
    rw [show blit (blit m c (x ++ y ++ z)) (c + x.length) (bs.map some)
        = (blit m c (x ++ y ++ z)).take (c + x.length)
          ++ overlay (bs.map some) ((blit m c (x ++ y ++ z)).drop (c + x.length)) from rfl]
    rw [blit_take m c _ _ hc, blit_drop m c _ _ hc, hsd, e0, List.take_left' hx,
      List.drop_left' hx, overlay_map_some bs _ (by simp [hy2, hy]), ← hy2.trans hy.symm,
      List.drop_left' rfl, List.append_assoc]
  have e2 : overlay (x ++ bs.map some ++ z) s = A ++ (bs ++ Z) := by
    rw [List.append_assoc, overlay_append, overlay_append,
      overlay_map_some bs _ (by rw [hy]; exact hys), hA]
    simp only [List.length_map]
    rw [List.take_left' rfl, hy, hZ]
  rw [e1, ← e2, blit, hsd]

/-- Padding at the end of an image changes nothing. -/
theorem blit_trailing_none (m : Mem) (c n : Nat) (i : List Cell) :
    blit m c (i ++ List.replicate n none) = blit m c i := by
  unfold blit
  rw [overlay_append, overlay_replicate_none, ← overlay_split]

theorem store_bytes_blit (m : Mem) (a : Nat) (bs : List Nat) (h : a + bs.length ≤ m.length) :
    store_bytes m a bs = .ok (blit m a (bs.map some)) := by
  unfold store_bytes blit
  rw [if_pos h, overlay_map_some bs _ (by simp; omega)]
  simp [List.drop_drop, Nat.add_comm]

end cfr


namespace cfr

/-! ## Reading back an image: lemmas -/

theorem le32_length (v : Nat) : (le32 v).length = 4 := rfl

theorem ref_fields_length (vs : List Nat) : (ref_fields vs).length = 4 * vs.length := by
  induction vs with
  | nil => rfl
  | cons v vs ih => simp [ref_fields, le32_length, ih]; omega

theorem ref_fields_append (us vs : List Nat) :
    ref_fields (us ++ vs) = ref_fields us ++ ref_fields vs := by
  induction us with
  | nil => rfl
  | cons u us ih => simp [ref_fields, ih]

theorem ref_fields_singleton (v : Nat) : ref_fields [v] = (le32 v).map some := by
  simp [ref_fields]

theorem fits_append (i j : List Cell) : ∀ s,
    Fits (i ++ j) s ↔ Fits i s ∧ Fits j (s.drop i.length) := by
  induction i with
  | nil => intro s; simp [Fits]
  | cons c cs ih =>
    intro s
    cases s with
    | nil => simp [Fits]
    | cons b bs => simp [Fits, ih, and_assoc]

theorem fits_map_some (bs : List Nat) : ∀ s, Fits (bs.map some) s ↔ ∃ t, s = bs ++ t := by
  induction bs with
  | nil => intro s; simp [Fits]
  | cons b bs ih =>
    intro s
    cases s with
    | nil => simp [Fits]
    | cons x xs =>
      simp only [List.map_cons, Fits, ih, List.cons_append, List.cons.injEq]
      constructor
      · rintro ⟨h1, t, rfl⟩
        rcases h1 with h1 | h1
        · cases h1
        · exact ⟨t, (Option.some.inj h1).symm, rfl⟩
      · rintro ⟨t, rfl, rfl⟩
        exact ⟨Or.inr rfl, t, rfl⟩

theorem fits_replicate_none (n : Nat) : ∀ s, Fits (List.replicate n none) s ↔ n ≤ s.length := by
  induction n with
  | zero => intro s; simp [Fits]
  | succ n ih =>
    intro s
    cases s with
    | nil => simp [List.replicate_succ, Fits]
    | cons x xs => simp [List.replicate_succ, Fits, ih]

theorem fits_length (i : List Cell) : ∀ s, Fits i s → i.length ≤ s.length := by
  induction i with
  | nil => intro s _; simp
  | cons c cs ih =>
    intro s h
    cases s with
    | nil => simp [Fits] at h
    | cons x xs => simpa using ih xs h.2

theorem fits_overlay (i : List Cell) : ∀ s, i.length ≤ s.length → Fits i (overlay i s) := by
  induction i with
  | nil => intro s _; simp [Fits]
  | cons c cs ih =>
    intro s h
    cases s with
    | nil => simp at h
    | cons x xs =>
      refine ⟨?_, ih xs (by simpa using h)⟩
      cases c <;> simp

theorem blit_drop_self (m : Mem) (c : Nat) (i : List Cell) (hc : c ≤ m.length) :
    (blit m c i).drop c = overlay i (m.drop c) := by
  have := blit_drop m c 0 i hc
  simpa using this

theorem blit_take_self (m : Mem) (c : Nat) (i : List Cell) (hc : c ≤ m.length) :
    (blit m c i).take c = m.take c := by
  have := blit_take m c 0 i hc
  simpa using this

theorem fits_blit (m : Mem) (c : Nat) (i : List Cell) (h : c + i.length ≤ m.length) :
    Fits i ((blit m c i).drop c) := by
  rw [blit_drop_self m c i (by omega)]
  exact fits_overlay i _ (by simp; omega)

theorem from_le32 (v : Nat) :
    v % 256 + 2 ^ 8 * (v / 2 ^ 8 % 256) + 2 ^ 16 * (v / 2 ^ 16 % 256)
      + 2 ^ 24 * (v / 2 ^ 24 % 256) = v % 2 ^ 32 := by
  norm_num
  omega

theorem load32_of_drop (m : Mem) (a v : Nat) (t : List Nat) (h : m.drop a = le32 v ++ t) :
    load32 m a = .ok (v % 2 ^ 32) := by
  unfold load32
  rw [h]
  simp only [le32, List.cons_append, List.nil_append]
  rw [from_le32]

theorem load32_of_fits (m : Mem) (a v : Nat) (rest : List Cell)
    (h : Fits (ref_fields [v] ++ rest) (m.drop a)) : load32 m a = .ok (v % 2 ^ 32) := by
  rw [fits_append, ref_fields_singleton, fits_map_some] at h
  obtain ⟨⟨t, ht⟩, _⟩ := h
  exact load32_of_drop m a v t ht

theorem drop_add_of_drop (m : Mem) (a k : Nat) : m.drop (a + k) = (m.drop a).drop k := by
  rw [List.drop_drop, Nat.add_comm]

/-- A field of the header of an image that a buffer holds at `a`: `k` fields in, the word
read is the field value. -/
theorem load32_field (m : Mem) (a : Nat) (pre : List Nat) (v : Nat) (post : List Nat)
    (rest : List Cell) (h : Fits (ref_fields (pre ++ v :: post) ++ rest) (m.drop a)) :
    load32 m (a + 4 * pre.length) = .ok (v % 2 ^ 32) := by
  rw [ref_fields_append, List.append_assoc, fits_append] at h
  have h2 := h.2
  rw [ref_fields_length, ← drop_add_of_drop] at h2
  have h3 : ref_fields (v :: post) ++ rest = ref_fields [v] ++ (ref_fields post ++ rest) := by
    simp [ref_fields]
  rw [h3] at h2
  exact load32_of_fits m _ v _ h2

end cfr


namespace cfr

/-! ## Encoder: the effect of each function -/

theorem store32_first (m : Mem) (c v : Nat) (hm : c + 4 ≤ m.length) :
    store32 m c v = .ok (blit m c (ref_fields [v])) := by
  unfold store32
  rw [store_bytes_blit m c _ (by simpa [le32_length] using hm), ref_fields_singleton]

theorem store_bytes_app (m : Mem) (c a k : Nat) (i : List Cell) (bs : List Nat)
    (ha : a = c + k) (hk : i.length ≤ k) (hm : c + k + bs.length ≤ m.length) :
    store_bytes (blit m c i) a bs
      = .ok (blit m c (i ++ List.replicate (k - i.length) none ++ bs.map some)) := by
  rw [store_bytes_blit _ _ _ (by rw [blit_length]; omega),
    blit_app m c a k i _ ha hk (by simpa using hm)]

theorem store32_app (m : Mem) (c a k : Nat) (i : List Cell) (v : Nat)
    (ha : a = c + k) (hk : i.length ≤ k) (hm : c + k + 4 ≤ m.length) :
    store32 (blit m c i) a v
      = .ok (blit m c (i ++ List.replicate (k - i.length) none ++ ref_fields [v])) := by
  unfold store32
  rw [store_bytes_app m c a k i _ ha hk (by simpa [le32_length] using hm), ref_fields_singleton]

theorem store32_patch (m : Mem) (c a : Nat) (x y z : List Cell) (v : Nat)
    (ha : a = c + x.length) (hy : y.length = 4)
    (hm : c + x.length + y.length + z.length ≤ m.length) :
    store32 (blit m c (x ++ y ++ z)) a v = .ok (blit m c (x ++ ref_fields [v] ++ z)) := by
  unfold store32
  rw [store_bytes_blit _ _ _ (by rw [blit_length, le32_length]; omega),
    blit_patch m c a x y z _ ha (by rw [le32_length, hy]) hm, ref_fields_singleton]

/-- Back-patching the `size` field of a header that has been written, children included. -/
theorem store32_patch_size (m : Mem) (c a tag sz0 sz : Nat) (rest : List Nat) (ch : List Cell)
    (ha : a = c + 4) (hm : c + (4 * (rest.length + 2) + ch.length) ≤ m.length) :
    store32 (blit m c (ref_fields (tag :: sz0 :: rest) ++ ch)) a sz
      = .ok (blit m c (ref_fields (tag :: sz :: rest) ++ ch)) := by
  have e : ∀ s, ref_fields (tag :: s :: rest) ++ ch
      = ref_fields [tag] ++ ref_fields [s] ++ (ref_fields rest ++ ch) := by
    intro s; simp [ref_fields]
  rw [e sz0, e sz]
  exact store32_patch m c a _ _ _ sz (by simp [ref_fields_length, ha])
    (by simp [ref_fields_length]) (by simp [ref_fields_length]; omega)

/-- A child written right after what has been written so far. -/
theorem blit_child (m : Mem) (c a : Nat) (i j : List Cell) (ha : a = c + i.length)
    (hm : c + i.length + j.length ≤ m.length) :
    blit (blit m c i) a j = blit m c (i ++ j) := by
  rw [blit_app m c a i.length i j ha (le_refl _) hm]
  simp

theorem store32_step_app (m : Mem) (c a k : Nat) (img img' : List Cell) (v : Nat)
    (ha : a = c + k) (hk : img.length ≤ k) (hm : c + k + 4 ≤ m.length)
    (himg : img' = img ++ List.replicate (k - img.length) none ++ ref_fields [v]) :
    store32 (blit m c img) a v = .ok (blit m c img') := by
  rw [himg]; exact store32_app m c a k img v ha hk hm

theorem store32_step_patch (m : Mem) (c a : Nat) (img img' x y z : List Cell) (v : Nat)
    (himg : img = x ++ y ++ z) (himg' : img' = x ++ ref_fields [v] ++ z)
    (ha : a = c + x.length) (hy : y.length = 4)
    (hm : c + x.length + y.length + z.length ≤ m.length) :
    store32 (blit m c img) a v = .ok (blit m c img') := by
  rw [himg, himg']; exact store32_patch m c a x y z v ha hy hm

theorem hdr16 (m : Mem) (c tag sz oid fl : Nat) (hm : c + 16 ≤ m.length) :
    (do let m ← store32 m c tag
        let m ← store32 m (c + 8) oid
        let m ← store32 m (c + 12) fl
        store32 m (c + 4) sz)
      = .ok (blit m c (ref_fields [tag, sz, oid, fl])) := by
  rw [store32_first m c tag (by omega)]
  simp only [bind, Except.bind]
  rw [store32_step_app m c (c + 8) 8 _
    (ref_fields [tag] ++ (List.replicate 4 none ++ ref_fields [oid])) oid rfl
    (by simp [ref_fields_length]) (by omega) (by simp [ref_fields_length])]
  simp only [bind, Except.bind]
  rw [store32_step_app m c (c + 12) 12 _
    (ref_fields [tag] ++ (List.replicate 4 none ++ ref_fields [oid, fl])) fl rfl
    (by simp [ref_fields_length]) (by omega) (by simp [ref_fields, le32])]
  simp only [bind, Except.bind]
  exact store32_step_patch m c (c + 4) _ _ (ref_fields [tag]) (List.replicate 4 none)
    (ref_fields [oid, fl]) sz (by simp) (by simp [ref_fields]) (by simp [ref_fields_length])
    (by simp) (by simp [ref_fields_length]; omega)

theorem hdr20 (m : Mem) (c tag sz oid fl dv : Nat) (hm : c + 20 ≤ m.length) :
    (do let m ← store32 m c tag
        let m ← store32 m (c + 8) oid
        let m ← store32 m (c + 12) fl
        let m ← store32 m (c + 16) dv
        store32 m (c + 4) sz)
      = .ok (blit m c (ref_fields [tag, sz, oid, fl, dv])) := by
  rw [store32_first m c tag (by omega)]
  simp only [bind, Except.bind]
  rw [store32_step_app m c (c + 8) 8 _
    (ref_fields [tag] ++ (List.replicate 4 none ++ ref_fields [oid])) oid rfl
    (by simp [ref_fields_length]) (by omega) (by simp [ref_fields_length])]
  simp only [bind, Except.bind]
  rw [store32_step_app m c (c + 12) 12 _
    (ref_fields [tag] ++ (List.replicate 4 none ++ ref_fields [oid, fl])) fl rfl
    (by simp [ref_fields_length]) (by omega) (by simp [ref_fields, le32])]
  simp only [bind, Except.bind]
  rw [store32_step_app m c (c + 16) 16 _
    (ref_fields [tag] ++ (List.replicate 4 none ++ ref_fields [oid, fl, dv])) dv rfl
    (by simp [ref_fields_length]) (by omega) (by simp [ref_fields, le32])]
  simp only [bind, Except.bind]
  exact store32_step_patch m c (c + 4) _ _ (ref_fields [tag]) (List.replicate 4 none)
    (ref_fields [oid, fl, dv]) sz (by simp) (by simp [ref_fields]) (by simp [ref_fields_length])
    (by simp) (by simp [ref_fields_length]; omega)

theorem hdr12 (m : Mem) (c tag sz v : Nat) (hm : c + 12 ≤ m.length) :
    (do let m ← store32 m c tag
        let m ← store32 m (c + 8) v
        store32 m (c + 4) sz)
      = .ok (blit m c (ref_fields [tag, sz, v])) := by
  rw [store32_first m c tag (by omega)]
  simp only [bind, Except.bind]
  rw [store32_step_app m c (c + 8) 8 _
    (ref_fields [tag] ++ (List.replicate 4 none ++ ref_fields [v])) v rfl
    (by simp [ref_fields_length]) (by omega) (by simp [ref_fields_length])]
  simp only [bind, Except.bind]
  exact store32_step_patch m c (c + 4) _ _ (ref_fields [tag]) (List.replicate 4 none)
    (ref_fields [v]) sz (by simp) (by simp [ref_fields]) (by simp [ref_fields_length])
    (by simp) (by simp [ref_fields_length]; omega)

end cfr


namespace cfr

theorem hdr16_k {α : Type} (m : Mem) (c tag sz oid fl : Nat) (hm : c + 16 ≤ m.length)
    (k : Mem → Except Fault α) :
    (do let m ← store32 m c tag
        let m ← store32 m (c + 8) oid
        let m ← store32 m (c + 12) fl
        let m ← store32 m (c + 4) sz
        k m)
      = k (blit m c (ref_fields [tag, sz, oid, fl])) := by
  have h := hdr16 m c tag sz oid fl hm
  simp only [bind, Except.bind] at h ⊢
  revert h
  cases store32 m c tag with
  | error e => intro h; simp at h
  | ok m1 =>
    simp only
    cases store32 m1 (c + 8) oid with
    | error e => intro h; simp at h
    | ok m2 =>
      simp only
      cases store32 m2 (c + 12) fl with
      | error e => intro h; simp at h
      | ok m3 =>
        simp only
        intro h
        rw [h]

theorem hdr20_k {α : Type} (m : Mem) (c tag sz oid fl dv : Nat) (hm : c + 20 ≤ m.length)
    (k : Mem → Except Fault α) :
    (do let m ← store32 m c tag
        let m ← store32 m (c + 8) oid
        let m ← store32 m (c + 12) fl
        let m ← store32 m (c + 16) dv
        let m ← store32 m (c + 4) sz
        k m)
      = k (blit m c (ref_fields [tag, sz, oid, fl, dv])) := by
  have h := hdr20 m c tag sz oid fl dv hm
  simp only [bind, Except.bind] at h ⊢
  revert h
  cases store32 m c tag with
  | error e => intro h; simp at h
  | ok m1 =>
    simp only
    cases store32 m1 (c + 8) oid with
    | error e => intro h; simp at h
    | ok m2 =>
      simp only
      cases store32 m2 (c + 12) fl with
      | error e => intro h; simp at h
      | ok m3 =>
        simp only
        cases store32 m3 (c + 16) dv with
        | error e => intro h; simp at h
        | ok m4 =>
          simp only
          intro h
          rw [h]

theorem hdr12_k {α : Type} (m : Mem) (c tag sz v : Nat) (hm : c + 12 ≤ m.length)
    (k : Mem → Except Fault α) :
    (do let m ← store32 m c tag
        let m ← store32 m (c + 8) v
        let m ← store32 m (c + 4) sz
        k m)
      = k (blit m c (ref_fields [tag, sz, v])) := by
  have h := hdr12 m c tag sz v hm
  simp only [bind, Except.bind] at h ⊢
  revert h
  cases store32 m c tag with
  | error e => intro h; simp at h
  | ok m1 =>
    simp only
    cases store32 m1 (c + 8) v with
    | error e => intro h; simp at h
    | ok m2 =>
      simp only
      intro h
      rw [h]

theorem and_three (x : Nat) : x &&& 3 = x % 4 := by
  have := Nat.and_pow_two_sub_one_eq_mod x 2
  simpa using this

theorem ALIGN_UP_four (x : Nat) : ALIGN_UP x LB_ENTRY_ALIGN = (x + 3) / 4 * 4 := by
  unfold ALIGN_UP ALIGN_MASK
  simp only [LB_ENTRY_ALIGN, Nat.add_one_sub_one, and_three]
  omega

theorem strlen_eq (s : List Nat) : strlen s = (cstr s).length := rfl

theorem take_strlen (s : List Nat) : (s ++ [0]).take (strlen s + 1) = cstr s ++ [0] := by
  induction s with
  | nil => rfl
  | cons b bs ih =>
    by_cases hb : b = 0
    · subst hb; simp [strlen, cstr]
    · simp only [strlen, cstr, List.takeWhile_cons, ne_eq, hb, not_false_eq_true, decide_True,
        ite_true, List.length_cons, List.cons_append, List.take_succ_cons, List.cons.injEq,
        true_and]
      exact ih

theorem ref_varchar_length (tag : Nat) (s : List Nat) :
    (ref_varchar tag s).length = (12 + ((cstr s).length + 1) + 3) / 4 * 4 := by
  simp [ref_varchar, ref_fields_length]
  omega

theorem store_bytes_step_app (m : Mem) (c a k : Nat) (img img' : List Cell) (bs : List Nat)
    (ha : a = c + k) (hk : img.length ≤ k) (hm : c + k + bs.length ≤ m.length)
    (himg : img' = img ++ List.replicate (k - img.length) none ++ bs.map some) :
    store_bytes (blit m c img) a bs = .ok (blit m c img') := by
  rw [himg]; exact store_bytes_app m c a k img bs ha hk hm

/-- Effect of `write_cfr_varchar` on a string that is present. -/
theorem write_cfr_varchar_eq (m : Mem) (c tag : Nat) (s : List Nat)
    (hn : (cstr s).length + 16 < 2 ^ 32) (hm : c + 12 + ((cstr s).length + 1) ≤ m.length) :
    write_cfr_varchar m c (some s) tag
      = .ok (blit m c (ref_varchar tag s), (ref_varchar tag s).length) := by
  have hdl : (strlen s + 1) % 2 ^ 32 = (cstr s).length + 1 := by
    rw [strlen_eq]; exact Nat.mod_eq_of_lt (by omega)
  have hsz : ALIGN_UP (12 + ((cstr s).length + 1)) LB_ENTRY_ALIGN % 2 ^ 32
      = (ref_varchar tag s).length := by
    rw [ALIGN_UP_four, ref_varchar_length]; exact Nat.mod_eq_of_lt (by omega)
  unfold write_cfr_varchar
  simp only [hdl, hsz]
  rw [store32_first m c tag (by omega)]
  simp only [bind, Except.bind]
  rw [store32_step_app m c (c + 8) 8 _
    (ref_fields [tag] ++ (List.replicate 4 none ++ ref_fields [(cstr s).length + 1])) _ rfl
    (by simp [ref_fields_length]) (by omega) (by simp [ref_fields_length])]
  simp only [bind, Except.bind]
  have htk : (s ++ [0]).take ((cstr s).length + 1) = cstr s ++ [0] := take_strlen s
  rw [htk]
  rw [store_bytes_step_app m c (c + 12) 12 _
    (ref_fields [tag] ++ (List.replicate 4 none
      ++ (ref_fields [(cstr s).length + 1] ++ (cstr s ++ [0]).map some))) _ rfl
    (by simp [ref_fields_length]) (by simp; omega) (by simp [ref_fields_length])]
  simp only [bind, Except.bind]
  rw [store32_step_patch m c (c + 4) _
    (ref_fields [tag, (ref_varchar tag s).length, (cstr s).length + 1]
      ++ (cstr s ++ [0]).map some)
    (ref_fields [tag]) (List.replicate 4 none)
    (ref_fields [(cstr s).length + 1] ++ (cstr s ++ [0]).map some) _
    (by simp) (by simp [ref_fields]) (by simp [ref_fields_length])
    (by simp) (by simp [ref_fields_length]; omega)]
  simp only [pure, Except.pure]
  congr 2
  conv_rhs => rw [ref_varchar]
  rw [blit_trailing_none, ← ref_varchar_length tag s]

end cfr


namespace cfr

theorem child_k {α : Type} (m : Mem) (c a : Nat) (i j : List Cell)
    (w : Except Fault (Mem × Nat)) (k : Mem × Nat → Except Fault α)
    (hw : w = .ok (blit (blit m c i) a j, j.length))
    (ha : a = c + i.length) (hm : c + i.length + j.length ≤ m.length) :
    (w >>= k) = k (blit m c (i ++ j), j.length) := by
  rw [hw, blit_child m c a i j ha hm]
  rfl

/-- Like `child_k`, for a loop that returns the final cursor. -/
theorem children_k {α : Type} (m : Mem) (c a : Nat) (i j : List Cell)
    (w : Except Fault (Mem × Nat)) (k : Mem × Nat → Except Fault α)
    (hw : w = .ok (blit (blit m c i) a j, a + j.length))
    (ha : a = c + i.length) (hm : c + i.length + j.length ≤ m.length) :
    (w >>= k) = k (blit m c (i ++ j), a + j.length) := by
  rw [hw, blit_child m c a i j ha hm]
  rfl

theorem ref_varchar_length_ge (tag : Nat) (s : List Nat) :
    12 + ((cstr s).length + 1) ≤ (ref_varchar tag s).length := by
  rw [ref_varchar_length]; omega

theorem write_string_eq (m : Mem) (c tag : Nat) (str : Option (List Nat))
    (hv : str.isSome = true) (hm : c + (ref_string tag str).length ≤ m.length)
    (hlt : (ref_string tag str).length < 2 ^ 32) :
    write_cfr_varchar m c str tag
      = .ok (blit m c (ref_string tag str), (ref_string tag str).length) := by
  cases str with
  | none => simp at hv
  | some s =>
    simp only [ref_string] at hm hlt ⊢
    have h1 := ref_varchar_length_ge tag s
    have h2 := ref_varchar_length tag s
    exact write_cfr_varchar_eq m c tag s (by omega) (by omega)

theorem sm_write_ui_helptext_eq (m : Mem) (c : Nat) (str : Option (List Nat))
    (hm : c + (ref_helptext str).length ≤ m.length)
    (hlt : (ref_helptext str).length < 2 ^ 32) :
    sm_write_ui_helptext m c str
      = .ok (blit m c (ref_helptext str), (ref_helptext str).length) := by
  cases str with
  | none => simp [sm_write_ui_helptext, ref_helptext, blit_nil]
  | some s =>
    unfold sm_write_ui_helptext ref_helptext
    by_cases h0 : strlen s = 0
    · have hc : cstr s = [] := List.length_eq_zero.1 (by rw [← strlen_eq]; exact h0)
      simp [h0, hc, blit_nil]
    · have hc : cstr s ≠ [] := fun h => h0 (by rw [strlen_eq, h]; rfl)
      simp only [h0, hc, if_false]
      simp only [ref_helptext, hc, if_false] at hm hlt
      have h1 := ref_varchar_length_ge LB_TAG_CFR_VARCHAR_UI_HELPTEXT s
      have h2 := ref_varchar_length LB_TAG_CFR_VARCHAR_UI_HELPTEXT s
      exact write_cfr_varchar_eq m c _ s (by omega) (by omega)

theorem cfr_record_size_eq (c n : Nat) (h : n < 2 ^ 32) :
    cfr_record_size c (c + n) = .ok n := by
  unfold cfr_record_size
  have h1 : ¬ (c > c + n ∨ c + n - c > UINT32_MAX) := by
    simp only [UINT32_MAX]; omega
  rw [if_neg h1]
  simp

theorem sm_write_enum_value_eq (m : Mem) (c : Nat) (e : sm_enum_value)
    (hv : e.ui_name.isSome = true) (hm : c + (ref_enum_value e).length ≤ m.length)
    (hlt : (ref_enum_value e).length < 2 ^ 32) :
    sm_write_enum_value m c e
      = .ok (blit m c (ref_enum_value e), (ref_enum_value e).length) := by
  have hl : (ref_enum_value e).length
      = 12 + (ref_string LB_TAG_CFR_VARCHAR_UI_NAME e.ui_name).length := by
    simp [ref_enum_value, ref_fields_length]
  unfold sm_write_enum_value sm_write_ui_name
  rw [hdr12_k m c _ _ _ (by omega)]
  rw [child_k m c (c + 12) _ (ref_string LB_TAG_CFR_VARCHAR_UI_NAME e.ui_name) _ _
    (write_string_eq _ _ _ _ hv (by rw [blit_length]; omega) (by omega))
    (by simp [ref_fields_length]) (by simp [ref_fields_length]; omega)]
  simp only []
  rw [Nat.add_assoc, cfr_record_size_eq c _ (by omega)]
  simp only [bind, Except.bind]
  rw [store32_patch_size m c (c + 4) _ _ _ _ _ rfl (by simp; omega)]
  simp only [pure, Except.pure]
  rw [hl]
  rfl

theorem valid_enum_values_cons (e : sm_enum_value) (es : List sm_enum_value) (s : List Nat)
    (h : e.ui_name = some s) :
    valid_enum_values (e :: es) = valid_enum_values es := by
  simp [valid_enum_values, h]

theorem write_enum_values_eq (vs : List sm_enum_value) : ∀ (m : Mem) (c : Nat),
    valid_enum_values vs = true → c + (ref_enum_values vs).length ≤ m.length →
    (ref_enum_values vs).length < 2 ^ 32 →
    write_enum_values m c vs
      = .ok (blit m c (ref_enum_values vs), c + (ref_enum_values vs).length) := by
  induction vs with
  | nil => intro m c hv; simp [valid_enum_values] at hv
  | cons e es ih =>
    intro m c hv hm hlt
    unfold write_enum_values
    cases hu : e.ui_name with
    | none => simp [ref_enum_values, hu, blit_nil]
    | some s =>
      simp only [ref_enum_values, hu, List.length_append] at hm hlt ⊢
      rw [valid_enum_values_cons e es s hu] at hv
      rw [sm_write_enum_value_eq m c e (by simp [hu]) (by omega) (by omega)]
      simp only [bind, Except.bind]
      rw [ih _ _ hv (by rw [blit_length]; omega) (by omega),
        blit_child m c _ _ _ rfl (by omega)]
      simp [Nat.add_assoc]

end cfr


namespace cfr

theorem ref_numeric_length (tag oid : Nat) (opt ui help : Option (List Nat)) (fl dv : Nat)
    (v : List Cell) :
    (ref_numeric tag oid opt ui help fl dv v).length
      = 20 + ((ref_string LB_TAG_CFR_VARCHAR_OPT_NAME opt).length
        + ((ref_string LB_TAG_CFR_VARCHAR_UI_NAME ui).length
        + ((ref_helptext help).length + v.length))) := by
  simp [ref_numeric, ref_fields_length]

theorem write_numeric_option_eq (m : Mem) (c tag oid : Nat) (opt ui help : Option (List Nat))
    (fl dv : Nat) (values : Option (List sm_enum_value)) (v : List Cell)
    (hv : valid_numeric opt ui = true)
    (hvals : ∀ (mm : Mem) (a : Nat), a + v.length ≤ mm.length →
      write_numeric_option_values mm a tag values = .ok (blit mm a v, a + v.length))
    (hm : c + (ref_numeric tag oid opt ui help fl dv v).length ≤ m.length)
    (hlt : (ref_numeric tag oid opt ui help fl dv v).length < 2 ^ 32) :
    write_numeric_option m c tag oid opt ui help fl dv values
      = .ok (blit m c (ref_numeric tag oid opt ui help fl dv v),
          (ref_numeric tag oid opt ui help fl dv v).length) := by
  have hl := ref_numeric_length tag oid opt ui help fl dv v
  simp only [valid_numeric, Bool.and_eq_true] at hv
  unfold write_numeric_option sm_write_opt_name sm_write_ui_name
  rw [hdr20_k m c _ _ _ _ _ (by omega)]
  rw [child_k m c (c + 20) _ (ref_string LB_TAG_CFR_VARCHAR_OPT_NAME opt) _ _
    (write_string_eq _ _ _ _ hv.1 (by rw [blit_length]; omega) (by omega))
    (by simp [ref_fields_length]) (by simp [ref_fields_length]; omega)]
  simp only []
  rw [child_k m c (c + 20 + _) _ (ref_string LB_TAG_CFR_VARCHAR_UI_NAME ui) _ _
    (write_string_eq _ _ _ _ hv.2 (by rw [blit_length]; omega) (by omega))
    (by simp [ref_fields_length]; omega) (by simp [ref_fields_length]; omega)]
  simp only []
  rw [child_k m c (c + 20 + _ + _) _ (ref_helptext help) _ _
    (sm_write_ui_helptext_eq _ _ _ (by rw [blit_length]; omega) (by omega))
    (by simp [ref_fields_length]; omega) (by simp [ref_fields_length]; omega)]
  simp only []
  rw [children_k m c (c + 20 + _ + _ + _) _ v _ _
    (hvals _ _ (by rw [blit_length]; omega))
    (by simp [ref_fields_length]; omega) (by simp [ref_fields_length]; omega)]
  simp only []
  have e : c + 20 + (ref_string LB_TAG_CFR_VARCHAR_OPT_NAME opt).length
      + (ref_string LB_TAG_CFR_VARCHAR_UI_NAME ui).length + (ref_helptext help).length
      + v.length = c + (ref_numeric tag oid opt ui help fl dv v).length := by omega
  rw [e, cfr_record_size_eq c _ hlt]
  simp only [bind, Except.bind, List.append_assoc]
  rw [store32_patch_size m c (c + 4) _ _ _ _ _ rfl (by simp; omega)]
  simp only [pure, Except.pure]
  congr 2
  conv_rhs => rw [ref_numeric]
  simp only [List.append_assoc, hl, List.length_append]

theorem ref_enum_values_length_le (vs : List sm_enum_value) : 0 ≤ (ref_enum_values vs).length :=
  Nat.zero_le _

theorem sm_write_opt_enum_eq (m : Mem) (c : Nat) (o : sm_obj_enum)
    (hv : valid_opt_enum o = true) (hm : c + (ref_opt_enum o).length ≤ m.length)
    (hlt : (ref_opt_enum o).length < 2 ^ 32) :
    sm_write_opt_enum m c o = .ok (blit m c (ref_opt_enum o), (ref_opt_enum o).length) := by
  unfold sm_write_opt_enum
  unfold ref_opt_enum at hm hlt ⊢
  simp only [valid_opt_enum, Bool.and_eq_true] at hv
  have hl := ref_numeric_length LB_TAG_CFR_OPTION_ENUM o.object_id o.opt_name o.ui_name
    o.ui_helptext o.flags o.default_value
    (match o.values with
     | none => []
     | some vs => ref_enum_values vs)
  apply write_numeric_option_eq m c _ _ _ _ _ _ _ _ _ hv.1 _ hm hlt
  intro mm a ha
  unfold write_numeric_option_values
  cases hvs : o.values with
  | none => simp [blit_nil]
  | some vs =>
    simp only [hvs] at hv hl hm hlt ha ⊢
    simp only [if_true]
    exact write_enum_values_eq vs mm a hv.2 ha (by omega)

theorem sm_write_opt_number_eq (m : Mem) (c : Nat) (o : sm_obj_number)
    (hv : valid_numeric o.opt_name o.ui_name = true)
    (hm : c + (ref_opt_number o).length ≤ m.length)
    (hlt : (ref_opt_number o).length < 2 ^ 32) :
    sm_write_opt_number m c o
      = .ok (blit m c (ref_opt_number o), (ref_opt_number o).length) := by
  unfold sm_write_opt_number
  unfold ref_opt_number at hm hlt ⊢
  apply write_numeric_option_eq m c _ _ _ _ _ _ _ _ _ hv _ hm hlt
  intro mm a _
  simp [write_numeric_option_values, blit_nil]

theorem sm_write_opt_bool_eq (m : Mem) (c : Nat) (o : sm_obj_bool)
    (hv : valid_numeric o.opt_name o.ui_name = true)
    (hm : c + (ref_opt_bool o).length ≤ m.length)
    (hlt : (ref_opt_bool o).length < 2 ^ 32) :
    sm_write_opt_bool m c o
      = .ok (blit m c (ref_opt_bool o), (ref_opt_bool o).length) := by
  unfold sm_write_opt_bool
  unfold ref_opt_bool at hm hlt ⊢
  apply write_numeric_option_eq m c _ _ _ _ _ _ _ _ _ hv _ hm hlt
  intro mm a _
  simp [write_numeric_option_values, blit_nil]

end cfr


namespace cfr

theorem ref_opt_varchar_length (o : sm_obj_varchar) :
    (ref_opt_varchar o).length
      = 16 + ((ref_string LB_TAG_CFR_VARCHAR_DEF_VALUE o.default_value).length
        + ((ref_string LB_TAG_CFR_VARCHAR_OPT_NAME o.opt_name).length
        + ((ref_string LB_TAG_CFR_VARCHAR_UI_NAME o.ui_name).length
        + (ref_helptext o.ui_helptext).length))) := by
  simp [ref_opt_varchar, ref_fields_length]

theorem sm_write_opt_varchar_eq (m : Mem) (c : Nat) (o : sm_obj_varchar)
    (hv : valid_opt_varchar o = true) (hm : c + (ref_opt_varchar o).length ≤ m.length)
    (hlt : (ref_opt_varchar o).length < 2 ^ 32) :
    sm_write_opt_varchar m c o
      = .ok (blit m c (ref_opt_varchar o), (ref_opt_varchar o).length) := by
  have hl := ref_opt_varchar_length o
  simp only [valid_opt_varchar, Bool.and_eq_true] at hv
  unfold sm_write_opt_varchar sm_write_string_default_value sm_write_opt_name sm_write_ui_name
  rw [hdr16_k m c _ _ _ _ (by omega)]
  rw [child_k m c (c + 16) _ (ref_string LB_TAG_CFR_VARCHAR_DEF_VALUE o.default_value) _ _
    (write_string_eq _ _ _ _ hv.1.1 (by rw [blit_length]; omega) (by omega))
    (by simp [ref_fields_length]) (by simp [ref_fields_length]; omega)]
  simp only []
  rw [child_k m c (c + 16 + _) _ (ref_string LB_TAG_CFR_VARCHAR_OPT_NAME o.opt_name) _ _
    (write_string_eq _ _ _ _ hv.1.2 (by rw [blit_length]; omega) (by omega))
    (by simp [ref_fields_length]; omega) (by simp [ref_fields_length]; omega)]
  simp only []
  rw [child_k m c (c + 16 + _ + _) _ (ref_string LB_TAG_CFR_VARCHAR_UI_NAME o.ui_name) _ _
    (write_string_eq _ _ _ _ hv.2 (by rw [blit_length]; omega) (by omega))
    (by simp [ref_fields_length]; omega) (by simp [ref_fields_length]; omega)]
  simp only []
  rw [child_k m c (c + 16 + _ + _ + _) _ (ref_helptext o.ui_helptext) _ _
    (sm_write_ui_helptext_eq _ _ _ (by rw [blit_length]; omega) (by omega))
    (by simp [ref_fields_length]; omega) (by simp [ref_fields_length]; omega)]
  simp only []
  have e : c + 16 + (ref_string LB_TAG_CFR_VARCHAR_DEF_VALUE o.default_value).length
      + (ref_string LB_TAG_CFR_VARCHAR_OPT_NAME o.opt_name).length
      + (ref_string LB_TAG_CFR_VARCHAR_UI_NAME o.ui_name).length
      + (ref_helptext o.ui_helptext).length = c + (ref_opt_varchar o).length := by omega
  rw [e, cfr_record_size_eq c _ hlt]
  simp only [bind, Except.bind, List.append_assoc]
  rw [store32_patch_size m c (c + 4) _ _ _ _ _ rfl (by simp; omega)]
  simp only [pure, Except.pure]
  congr 2
  conv_rhs => rw [ref_opt_varchar]
  simp only [List.append_assoc, hl, List.length_append]

theorem ref_opt_comment_length (o : sm_obj_comment) :
    (ref_opt_comment o).length
      = 16 + ((ref_string LB_TAG_CFR_VARCHAR_UI_NAME o.ui_name).length
        + (ref_helptext o.ui_helptext).length) := by
  simp [ref_opt_comment, ref_fields_length]

theorem sm_write_opt_comment_eq (m : Mem) (c : Nat) (o : sm_obj_comment)
    (hv : o.ui_name.isSome = true) (hm : c + (ref_opt_comment o).length ≤ m.length)
    (hlt : (ref_opt_comment o).length < 2 ^ 32) :
    sm_write_opt_comment m c o
      = .ok (blit m c (ref_opt_comment o), (ref_opt_comment o).length) := by
  have hl := ref_opt_comment_length o
  unfold sm_write_opt_comment sm_write_ui_name
  rw [hdr16_k m c _ _ _ _ (by omega)]
  rw [child_k m c (c + 16) _ (ref_string LB_TAG_CFR_VARCHAR_UI_NAME o.ui_name) _ _
    (write_string_eq _ _ _ _ hv (by rw [blit_length]; omega) (by omega))
    (by simp [ref_fields_length]) (by simp [ref_fields_length]; omega)]
  simp only []
  rw [child_k m c (c + 16 + _) _ (ref_helptext o.ui_helptext) _ _
    (sm_write_ui_helptext_eq _ _ _ (by rw [blit_length]; omega) (by omega))
    (by simp [ref_fields_length]; omega) (by simp [ref_fields_length]; omega)]
  simp only []
  have e : c + 16 + (ref_string LB_TAG_CFR_VARCHAR_UI_NAME o.ui_name).length
      + (ref_helptext o.ui_helptext).length = c + (ref_opt_comment o).length := by omega
  rw [e, cfr_record_size_eq c _ hlt]
  simp only [bind, Except.bind, List.append_assoc]
  rw [store32_patch_size m c (c + 4) _ _ _ _ _ rfl (by simp; omega)]
  simp only [pure, Except.pure]
  congr 2
  conv_rhs => rw [ref_opt_comment]
  simp only [List.append_assoc, hl, List.length_append]

theorem ref_form_length (oid fl : Nat) (ui : Option (List Nat)) (os : List sm_object) :
    (ref_form (.mk oid fl ui os)).length
      = 16 + ((ref_string LB_TAG_CFR_VARCHAR_UI_NAME ui).length + (ref_obj_list os).length) := by
  simp [ref_form, ref_fields_length]

theorem ref_obj_list_cons (o : sm_object) (os : List sm_object) :
    ref_obj_list (o :: os) = ref_object o ++ ref_obj_list os := by
  simp [ref_obj_list]

mutual
theorem sm_write_form_eq : ∀ (f : sm_obj_form) (m : Mem) (c : Nat),
    valid_form f = true → c + (ref_form f).length ≤ m.length → (ref_form f).length < 2 ^ 32 →
    sm_write_form m c f = .ok (blit m c (ref_form f), (ref_form f).length)
  | .mk oid fl ui os, m, c, hv, hm, hlt => by
    have hl := ref_form_length oid fl ui os
    simp only [valid_form, Bool.and_eq_true] at hv
    unfold sm_write_form sm_write_ui_name
    rw [hdr16_k m c _ _ _ _ (by omega)]
    rw [child_k m c (c + 16) _ (ref_string LB_TAG_CFR_VARCHAR_UI_NAME ui) _ _
      (write_string_eq _ _ _ _ hv.1 (by rw [blit_length]; omega) (by omega))
      (by simp [ref_fields_length]) (by simp [ref_fields_length]; omega)]
    simp only []
    rw [children_k m c (c + 16 + _) _ (ref_obj_list os) _ _
      (sm_write_obj_list_eq os _ _ hv.2 (by rw [blit_length]; omega) (by omega))
      (by simp [ref_fields_length]; omega) (by simp [ref_fields_length]; omega)]
    simp only []
    have e : c + 16 + (ref_string LB_TAG_CFR_VARCHAR_UI_NAME ui).length
        + (ref_obj_list os).length = c + (ref_form (.mk oid fl ui os)).length := by omega
    rw [e, cfr_record_size_eq c _ hlt]
    simp only [bind, Except.bind, List.append_assoc]
    rw [store32_patch_size m c (c + 4) _ _ _ _ _ rfl (by simp; omega)]
    simp only [pure, Except.pure]
    congr 2
    conv_rhs => rw [ref_form]
    simp only [List.append_assoc, hl, List.length_append]
theorem sm_write_obj_list_eq : ∀ (os : List sm_object) (m : Mem) (c : Nat),
    valid_obj_list os = true → c + (ref_obj_list os).length ≤ m.length →
    (ref_obj_list os).length < 2 ^ 32 →
    sm_write_obj_list m c os = .ok (blit m c (ref_obj_list os), c + (ref_obj_list os).length)
  | [], m, c, _, _, _ => by
    simp [sm_write_obj_list, ref_obj_list, blit_nil]
  | o :: os, m, c, hv, hm, hlt => by
    simp only [valid_obj_list, Bool.and_eq_true] at hv
    rw [ref_obj_list_cons] at hm hlt ⊢
    simp only [List.length_append] at hm hlt ⊢
    unfold sm_write_obj_list
    rw [sm_write_object_eq o m c hv.1 (by omega) (by omega)]
    simp only [bind, Except.bind]
    rw [sm_write_obj_list_eq os _ _ hv.2 (by rw [blit_length]; omega) (by omega),
      blit_child m c _ _ _ rfl (by omega)]
    simp [Nat.add_assoc]
theorem sm_write_object_eq : ∀ (o : sm_object) (m : Mem) (c : Nat),
    valid_object o = true → c + (ref_object o).length ≤ m.length →
    (ref_object o).length < 2 ^ 32 →
    sm_write_object m c o = .ok (blit m c (ref_object o), (ref_object o).length)
  | .obj_none, m, c, _, _, _ => by simp [sm_write_object, ref_object, blit_nil]
  | .unknown _, m, c, _, _, _ => by simp [sm_write_object, ref_object, blit_nil]
  | .obj_enum o, m, c, hv, hm, hlt => by
    simp only [valid_object, ref_object] at hv hm hlt
    simp only [sm_write_object, ref_object]
    exact sm_write_opt_enum_eq m c o hv hm hlt
  | .obj_number o, m, c, hv, hm, hlt => by
    simp only [valid_object, ref_object] at hv hm hlt
    simp only [sm_write_object, ref_object]
    exact sm_write_opt_number_eq m c o hv hm hlt
  | .obj_bool o, m, c, hv, hm, hlt => by
    simp only [valid_object, ref_object] at hv hm hlt
    simp only [sm_write_object, ref_object]
    exact sm_write_opt_bool_eq m c o hv hm hlt
  | .obj_varchar o, m, c, hv, hm, hlt => by
    simp only [valid_object, ref_object] at hv hm hlt
    simp only [sm_write_object, ref_object]
    exact sm_write_opt_varchar_eq m c o hv hm hlt
  | .obj_comment o, m, c, hv, hm, hlt => by
    simp only [valid_object, ref_object] at hv hm hlt
    simp only [sm_write_object, ref_object]
    exact sm_write_opt_comment_eq m c o hv hm hlt
  | .obj_form f, m, c, hv, hm, hlt => by
    simp only [valid_object, ref_object] at hv hm hlt
    simp only [sm_write_object, ref_object]
    exact sm_write_form_eq f m c hv hm hlt
end

theorem sm_write_form_list_eq : ∀ (fs : List sm_obj_form) (m : Mem) (c : Nat),
    valid_form_list fs = true → c + (ref_form_list fs).length ≤ m.length →
    (ref_form_list fs).length < 2 ^ 32 →
    sm_write_form_list m c fs
      = .ok (blit m c (ref_form_list fs), c + (ref_form_list fs).length)
  | [], m, c, _, _, _ => by
    simp [sm_write_form_list, ref_form_list, blit_nil]
  | f :: fs, m, c, hv, hm, hlt => by
    simp only [valid_form_list, Bool.and_eq_true] at hv
    simp only [ref_form_list, List.length_append] at hm hlt ⊢
    unfold sm_write_form_list
    rw [sm_write_form_eq f m c hv.1 (by omega) (by omega)]
    simp only [bind, Except.bind]
    rw [sm_write_form_list_eq fs _ _ hv.2 (by rw [blit_length]; omega) (by omega),
      blit_child m c _ _ _ rfl (by omega)]
    simp [Nat.add_assoc]

end cfr


namespace cfr

theorem ref_root_length (r : setup_menu_root) (crc : Nat) :
    (ref_root r crc).length = 12 + (ref_form_list r.form_list).length := by
  simp [ref_root, ref_fields_length]

theorem ref_root_eq (r : setup_menu_root) (crc : Nat) :
    ref_root r crc = ref_fields [LB_TAG_CFR, 12 + (ref_form_list r.form_list).length]
      ++ ref_fields [crc] ++ ref_form_list r.form_list := by
  simp [ref_root, ref_fields]

theorem load_bytes_zero (m : Mem) (n : Nat) (h : n ≤ m.length) :
    load_bytes m 0 n = .ok (m.take n) := by
  simp [load_bytes, h]

/-- Effect of `cfr_write_setup_menu`: the root image, whose checksum is the CRC of the
blob written with the checksum field zero. -/
theorem cfr_write_setup_menu_eq (m : Mem) (r : setup_menu_root)
    (hv : valid_form_list r.form_list = true) (hm : (ref_root r 0).length ≤ m.length)
    (hlt : (ref_root r 0).length < 2 ^ 32) :
    cfr_write_setup_menu m r
      = .ok (blit m 0 (ref_root r
          (crc32 ((blit m 0 (ref_root r 0)).take (ref_root r 0).length)))) := by
  rw [ref_root_length] at hm hlt ⊢
  generalize hn : (ref_form_list r.form_list).length = n at hm hlt
  unfold cfr_write_setup_menu
  simp only [Nat.zero_add]
  rw [store32_first m 0 _ (by omega)]
  simp only [bind, Except.bind]
  rw [store32_step_app m 0 4 4 _ (ref_fields [LB_TAG_CFR, 12]) 12 (by simp)
    (by simp [ref_fields_length]) (by omega) (by simp [ref_fields, le32_length])]
  simp only [bind, Except.bind]
  rw [sm_write_form_list_eq r.form_list _ 12 hv (by rw [blit_length]; omega) (by omega)]
  simp only []
  rw [blit_app m 0 12 12 _ _ (by simp) (by simp [ref_fields_length]) (by omega)]
  have e : 12 + (ref_form_list r.form_list).length = 0 + (12 + n) := by omega
  rw [e, cfr_record_size_eq 0 _ hlt]
  simp only []
  rw [store32_step_patch m 0 4 _
    (ref_fields [LB_TAG_CFR, 12 + n] ++ List.replicate 4 none ++ ref_form_list r.form_list)
    (ref_fields [LB_TAG_CFR]) (ref_fields [12])
    (List.replicate 4 none ++ ref_form_list r.form_list) _
    (by simp [ref_fields, le32_length]) (by simp [ref_fields])
    (by simp [ref_fields_length]) (by simp [ref_fields_length])
    (by simp [ref_fields_length]; omega)]
  simp only []
  rw [store32_step_patch m 0 8 _ (ref_root r 0)
    (ref_fields [LB_TAG_CFR, 12 + n]) (List.replicate 4 none)
    (ref_form_list r.form_list) 0
    (by simp) (by rw [ref_root_eq, hn]) (by simp [ref_fields_length]) (by simp)
    (by simp [ref_fields_length]; omega)]
  simp only []
  rw [load_bytes_zero _ _ (by rw [blit_length]; omega)]
  simp only []
  rw [store32_step_patch m 0 8 (ref_root r 0)
    (ref_root r (crc32 (List.take (12 + n) (blit m 0 (ref_root r 0)))))
    (ref_fields [LB_TAG_CFR, 12 + n]) (ref_fields [0])
    (ref_form_list r.form_list) (crc32 (List.take (12 + n) (blit m 0 (ref_root r 0))))
    (by rw [ref_root_eq, hn]) (by rw [ref_root_eq, hn])
    (by simp [ref_fields_length]) (by simp [ref_fields_length])
    (by simp [ref_fields_length]; omega)]
  rfl

end cfr


namespace cfr

/-! ## Encoder: checksum -/

theorem store_bytes_ok (m : Mem) (a : Nat) (bs : List Nat) (m' : Mem)
    (h : store_bytes m a bs = .ok m') :
    a + bs.length ≤ m.length ∧ m' = m.take a ++ bs ++ m.drop (a + bs.length) := by
  unfold store_bytes at h
  by_cases hb : a + bs.length ≤ m.length
  · rw [if_pos hb] at h
    exact ⟨hb, (Except.ok.inj h).symm⟩
  · rw [if_neg hb] at h
    cases h

theorem store32_ok (m : Mem) (a v : Nat) (m' : Mem) (h : store32 m a v = .ok m') :
    a + 4 ≤ m.length ∧ m' = m.take a ++ le32 v ++ m.drop (a + 4) := by
  have := store_bytes_ok m a (le32 v) m' h
  simpa [le32_length] using this

theorem store32_length (m : Mem) (a v : Nat) (m' : Mem) (h : store32 m a v = .ok m') :
    m'.length = m.length := by
  obtain ⟨hb, rfl⟩ := store32_ok m a v m' h
  simp [le32_length]
  omega

theorem sm_write_form_list_ge : ∀ (fs : List sm_obj_form) (m : Mem) (c : Nat) (m' : Mem)
    (c' : Nat), sm_write_form_list m c fs = .ok (m', c') → c ≤ c'
  | [], m, c, m', c', h => by
    simp only [sm_write_form_list, Except.ok.injEq, Prod.mk.injEq] at h
    omega
  | f :: fs, m, c, m', c', h => by
    unfold sm_write_form_list at h
    cases hf : sm_write_form m c f with
    | error e => rw [hf] at h; cases h
    | ok p =>
      rw [hf] at h
      have := sm_write_form_list_ge fs p.1 (c + p.2) m' c' h
      omega

theorem cfr_record_size_ok (a b n : Nat) (h : cfr_record_size a b = .ok n) :
    a ≤ b ∧ n = b - a ∧ n < 2 ^ 32 := by
  unfold cfr_record_size at h
  by_cases hc : a > b ∨ b - a > UINT32_MAX
  · rw [if_pos hc] at h; cases h
  · rw [if_neg hc] at h
    simp only [UINT32_MAX] at hc
    have := Except.ok.inj h
    omega

theorem load_bytes_ok (m : Mem) (a n : Nat) (bs : List Nat) (h : load_bytes m a n = .ok bs) :
    a + n ≤ m.length ∧ bs = (m.drop a).take n := by
  unfold load_bytes at h
  by_cases hb : a + n ≤ m.length
  · rw [if_pos hb] at h
    exact ⟨hb, (Except.ok.inj h).symm⟩
  · rw [if_neg hb] at h
    cases h

theorem split_at_checksum (x : List Nat) :
    x = x.take 8 ++ (x.drop 8).take 4 ++ x.drop 12 := by
  have h1 : x.drop 8 = (x.drop 8).take 4 ++ (x.drop 8).drop 4 := (List.take_append_drop 4 _).symm
  have h2 : (x.drop 8).drop 4 = x.drop 12 := by rw [List.drop_drop]
  conv_lhs => rw [← List.take_append_drop 8 x, h1, h2]
  rw [List.append_assoc]

theorem take_three_parts (a b c : List Nat) (k : Nat) (ha : a.length = 8) (hb : b.length = 4) :
    (a ++ b ++ c).take (12 + k) = a ++ b ++ c.take k := by
  have h : (a ++ b).length = 12 := by simp [ha, hb]
  rw [← h, List.take_append]

theorem with_zero_checksum_parts (a b c : List Nat) (ha : a.length = 8) (hb : b.length = 4) :
    with_zero_checksum (a ++ b ++ c) = a ++ [0, 0, 0, 0] ++ c := by
  unfold with_zero_checksum
  have h : (a ++ b).length = 12 := by simp [ha, hb]
  rw [List.drop_left' h, List.append_assoc a b c, List.take_left' ha]

theorem with_zero_checksum_take (x : List Nat) (size : Nat) (hs : 12 ≤ size)
    (hx : 12 ≤ x.length) :
    with_zero_checksum (x.take size) = (x.take 8 ++ [0, 0, 0, 0] ++ x.drop 12).take size := by
  obtain ⟨k, rfl⟩ := Nat.exists_eq_add_of_le hs
  have h8 : (x.take 8).length = 8 := by simp; omega
  have h4 : ((x.drop 8).take 4).length = 4 := by simp; omega
  conv_lhs => rw [split_at_checksum x]
  rw [take_three_parts _ _ _ k h8 h4, take_three_parts _ _ _ k h8 (by rfl),
    with_zero_checksum_parts _ _ _ h8 h4]

/-- C4. Checksum invariant: for every tree and buffer, after `cfr_write_setup_menu` has
returned, the checksum field of the Root record (bytes 8 to 11) equals `crc32` over the
whole `size` extent of the Root with those four bytes taken as zero. -/
theorem cfr_write_setup_menu_checksum (m : Mem) (sm_root : setup_menu_root) (m' : Mem)
    (h : cfr_write_setup_menu m sm_root = .ok m') :
    ∃ size, load32 m' 4 = .ok size ∧
      load32 m' 8 = .ok (crc32 (with_zero_checksum (m'.take size))) := by
  unfold cfr_write_setup_menu at h
  simp only [Nat.zero_add, bind, Except.bind] at h
  cases h1 : store32 m 0 LB_TAG_CFR with
  | error e => rw [h1] at h; cases h
  | ok m1 =>
  rw [h1] at h; simp only at h
  cases h2 : store32 m1 4 12 with
  | error e => rw [h2] at h; cases h
  | ok m2 =>
  rw [h2] at h; simp only at h
  cases h3 : sm_write_form_list m2 12 sm_root.form_list with
  | error e => rw [h3] at h; cases h
  | ok p =>
  obtain ⟨m3, cur⟩ := p
  rw [h3] at h; simp only at h
  have hcur := sm_write_form_list_ge _ _ _ _ _ h3
  cases h4 : cfr_record_size 0 cur with
  | error e => rw [h4] at h; cases h
  | ok size =>
  rw [h4] at h; simp only at h
  obtain ⟨_, hsz, hlt⟩ := cfr_record_size_ok _ _ _ h4
  cases h5 : store32 m3 4 size with
  | error e => rw [h5] at h; cases h
  | ok m4 =>
  rw [h5] at h; simp only at h
  cases h6 : store32 m4 8 0 with
  | error e => rw [h6] at h; cases h
  | ok m5 =>
  rw [h6] at h; simp only at h
  cases h7 : load_bytes m5 0 size with
  | error e => rw [h7] at h; cases h
  | ok bytes =>
  rw [h7] at h; simp only at h
  cases h8 : store32 m5 8 (crc32 bytes) with
  | error e => rw [h8] at h; cases h
  | ok m6 =>
  rw [h8] at h
  have hm' : m6 = m' := Except.ok.inj h
  subst hm'
  obtain ⟨hb5, e5⟩ := store32_ok _ _ _ _ h5
  obtain ⟨hb6, e6⟩ := store32_ok _ _ _ _ h6
  obtain ⟨hb7, e7⟩ := load_bytes_ok _ _ _ _ h7
  obtain ⟨hb8, e8⟩ := store32_ok _ _ _ _ h8
  have hl5 := store32_length _ _ _ _ h6
  have hl4 := store32_length _ _ _ _ h5
  have hl6 := store32_length _ _ _ _ h8
  have ht4 : (m4.take 8).length = 8 := by simp; omega
  have ht5 : (m5.take 8).length = 8 := by simp; omega
  have e48 : m4.take 8 = m3.take 4 ++ le32 size := by
    rw [e5, List.append_assoc, List.take_append_eq_append_take]
    have : (m3.take 4).length = 4 := by simp; omega
    rw [this, List.take_of_length_le (by rw [this]; omega), List.take_append_eq_append_take]
    simp [le32_length]
  have e58 : m5.take 8 = m4.take 8 := by
    rw [e6, List.append_assoc, List.take_left' ht4]
  have e512 : m5.drop 12 = m4.drop 12 := by
    rw [e6]
    have : (m4.take 8 ++ le32 0).length = 12 := by simp [ht4, le32_length]
    exact List.drop_left' this
  have e68 : m6.take 8 = m5.take 8 := by
    rw [e8, List.append_assoc, List.take_left' ht5]
  have e612 : m6.drop 12 = m5.drop 12 := by
    rw [e8]
    have : (m5.take 8 ++ le32 (crc32 bytes)).length = 12 := by simp [ht5, le32_length]
    exact List.drop_left' this
  have ez : (m5.drop 8).take 4 = [0, 0, 0, 0] := by
    rw [e6, List.append_assoc, List.drop_left' ht4, List.take_left' (le32_length 0)]
    rfl
  refine ⟨size, ?_, ?_⟩
  · have hd : m6.drop 4 = le32 size ++ (le32 (crc32 bytes) ++ m5.drop 12) := by
      rw [e8, e58, e48]
      have : (m3.take 4).length = 4 := by simp; omega
      simp only [List.append_assoc]
      exact List.drop_left' this
    rw [load32_of_drop m6 4 size _ hd, Nat.mod_eq_of_lt hlt]
  · have hd : m6.drop 8 = le32 (crc32 bytes) ++ m5.drop 12 := by
      rw [e8, List.append_assoc]
      exact List.drop_left' ht5
    rw [load32_of_drop m6 8 _ _ hd, Nat.mod_eq_of_lt (crc32_lt bytes)]
    congr 2
    rw [e7, List.drop_zero, with_zero_checksum_take m6 size (by omega) (by omega), e68, e612]
    congr 1
    conv_lhs => rw [split_at_checksum m5, ez]

theorem cfr_write_setup_menu_checksum_witness :
    cfr_write_setup_menu (List.replicate 136 0) scenario_a
        = .ok (blit (List.replicate 136 0) 0 (ref_root scenario_a 1810606811)) ∧
      ∃ size, load32 (blit (List.replicate 136 0) 0 (ref_root scenario_a 1810606811)) 4
          = .ok size ∧
        load32 (blit (List.replicate 136 0) 0 (ref_root scenario_a 1810606811)) 8
          = .ok (crc32 (with_zero_checksum
              ((blit (List.replicate 136 0) 0 (ref_root scenario_a 1810606811)).take size))) :=
  ⟨by decide!, cfr_write_setup_menu_checksum (List.replicate 136 0) scenario_a _ (by decide!)⟩

end cfr


namespace cfr

/-! ## Encoder: string leaves and help text -/

theorem load_bytes_of_drop (m : Mem) (a : Nat) (bs t : List Nat) (h : m.drop a = bs ++ t)
    (hne : bs ≠ []) : load_bytes m a bs.length = .ok bs := by
  unfold load_bytes
  have hl : a + bs.length ≤ m.length := by
    have h1 := congrArg List.length h
    have h2 : 0 < bs.length := List.length_pos.2 hne
    rw [List.length_drop, List.length_append] at h1
    omega
  rw [if_pos hl, h, List.take_left' rfl]

/-- C7. String leaf encoding: for every string `s` with `strlen s + 16 < 2 ^ 32` and every
32-bit tag, `write_cfr_varchar` writes the tag, `data_length = strlen s + 1`, the bytes of
the string followed by one zero byte, and `size` = the smallest multiple of 4 that is at
least `12 + data_length`, and it returns that size; so `size - (12 + data_length)` is at
most 3. -/
theorem write_cfr_varchar_string_leaf (m : Mem) (current tag : Nat) (s : List Nat)
    (hn : strlen s + 16 < 2 ^ 32) (htag : tag < 2 ^ 32)
    (hm : current + 12 + (strlen s + 1) ≤ m.length) :
    ∃ m' size, write_cfr_varchar m current (some s) tag = .ok (m', size) ∧
      load32 m' current = .ok tag ∧
      load32 m' (current + 8) = .ok (strlen s + 1) ∧
      load_bytes m' (current + 12) (strlen s + 1) = .ok (cstr s ++ [0]) ∧
      load32 m' (current + 4) = .ok size ∧
      size % 4 = 0 ∧ 12 + (strlen s + 1) ≤ size ∧
      (∀ k, k % 4 = 0 → 12 + (strlen s + 1) ≤ k → size ≤ k) ∧
      size - (12 + (strlen s + 1)) ≤ 3 := by
  rw [strlen_eq] at hn hm ⊢
  have hlen := ref_varchar_length tag s
  refine ⟨_, _, write_cfr_varchar_eq m current tag s hn hm, ?_⟩
  have himg : blit m current (ref_varchar tag s)
      = blit m current (ref_fields [tag, (ref_varchar tag s).length, (cstr s).length + 1]
          ++ (cstr s ++ [0]).map some) := by
    conv_lhs => rw [ref_varchar]
    rw [blit_trailing_none, ← hlen]
  have hfit := fits_blit m current (ref_fields [tag, (ref_varchar tag s).length,
    (cstr s).length + 1] ++ (cstr s ++ [0]).map some)
    (by simp [ref_fields_length]; omega)
  rw [← himg] at hfit
  generalize blit m current (ref_varchar tag s) = m' at hfit
  have h0 := load32_field m' current [] tag _ _ hfit
  have h1 := load32_field m' current [tag] (ref_varchar tag s).length _ _ hfit
  have h2 := load32_field m' current [tag, (ref_varchar tag s).length]
    ((cstr s).length + 1) [] _ hfit
  simp only [List.length_nil, List.length_cons, Nat.mul_zero, Nat.add_zero, Nat.mul_one] at h0 h1 h2
  rw [Nat.mod_eq_of_lt htag] at h0
  rw [Nat.mod_eq_of_lt (by omega)] at h1 h2
  rw [fits_append, ref_fields_length, fits_map_some, ← drop_add_of_drop] at hfit
  obtain ⟨_, t, ht⟩ := hfit
  have h3 := load_bytes_of_drop m' _ _ _ ht (by simp)
  simp only [List.length_cons, List.length_nil, List.length_append] at h3
  refine ⟨h0, h2, h3, h1, ?_, ?_, ?_, ?_⟩ <;> rw [hlen] <;> omega

theorem write_cfr_varchar_string_leaf_witness :
    strlen [99, 102, 114] + 16 < 2 ^ 32 ∧ 0x0108 < 2 ^ 32 ∧
      4 + 12 + (strlen [99, 102, 114] + 1) ≤ (List.replicate 24 7).length ∧
      ∃ m' size, write_cfr_varchar (List.replicate 24 7) 4 (some [99, 102, 114]) 0x0108
          = .ok (m', size) ∧
        load32 m' 4 = .ok 0x0108 ∧
        load32 m' (4 + 8) = .ok (strlen [99, 102, 114] + 1) ∧
        load_bytes m' (4 + 12) (strlen [99, 102, 114] + 1) = .ok (cstr [99, 102, 114] ++ [0]) ∧
        load32 m' (4 + 4) = .ok size ∧
        size % 4 = 0 ∧ 12 + (strlen [99, 102, 114] + 1) ≤ size ∧
        (∀ k, k % 4 = 0 → 12 + (strlen [99, 102, 114] + 1) ≤ k → size ≤ k) ∧
        size - (12 + (strlen [99, 102, 114] + 1)) ≤ 3 :=
  ⟨by decide, by decide, by decide,
    write_cfr_varchar_string_leaf (List.replicate 24 7) 4 0x0108 [99, 102, 114]
      (by decide) (by decide) (by decide)⟩

theorem sm_write_ui_helptext_empty (m : Mem) (c : Nat) (s : List Nat) (h : strlen s = 0) :
    sm_write_ui_helptext m c (some s) = .ok (m, 0) := by
  simp [sm_write_ui_helptext, h]

/-- C8. Missing help text on encode: for a null help text and for one of length 0,
`sm_write_ui_helptext` returns 0 and leaves the buffer as it is, so each of the three option
writers that call it gives the same record as for a null help text, and the record of an
option with such a help text is its header and its other children only; a help text that is
not empty is written by `write_cfr_varchar` as one leaf with tag `0x0109`. -/
theorem sm_write_ui_helptext_missing (m : Mem) (current : Nat) (s : List Nat) :
    sm_write_ui_helptext m current none = .ok (m, 0) ∧
    (strlen s = 0 → sm_write_ui_helptext m current (some s) = .ok (m, 0)) ∧
    (strlen s = 0 → ∀ tag oid opt ui fl dv vals,
      write_numeric_option m current tag oid opt ui (some s) fl dv vals
        = write_numeric_option m current tag oid opt ui none fl dv vals) ∧
    (strlen s = 0 → ∀ oid fl opt ui dv,
      sm_write_opt_varchar m current ⟨oid, fl, opt, ui, some s, dv⟩
        = sm_write_opt_varchar m current ⟨oid, fl, opt, ui, none, dv⟩) ∧
    (strlen s = 0 → ∀ oid fl ui,
      sm_write_opt_comment m current ⟨oid, fl, ui, some s⟩
        = sm_write_opt_comment m current ⟨oid, fl, ui, none⟩) ∧
    (∀ o : sm_obj_bool, o.ui_helptext = none ∨ o.ui_helptext = some s ∧ strlen s = 0 →
      valid_numeric o.opt_name o.ui_name = true →
      current + (ref_opt_bool o).length ≤ m.length → (ref_opt_bool o).length < 2 ^ 32 →
      sm_write_opt_bool m current o
        = .ok (blit m current
            (ref_fields [LB_TAG_CFR_OPTION_BOOL,
                20 + ((ref_string LB_TAG_CFR_VARCHAR_OPT_NAME o.opt_name).length
                  + (ref_string LB_TAG_CFR_VARCHAR_UI_NAME o.ui_name).length),
                o.object_id, o.flags, if o.default_value then 1 else 0]
              ++ ref_string LB_TAG_CFR_VARCHAR_OPT_NAME o.opt_name
              ++ ref_string LB_TAG_CFR_VARCHAR_UI_NAME o.ui_name),
          20 + ((ref_string LB_TAG_CFR_VARCHAR_OPT_NAME o.opt_name).length
            + (ref_string LB_TAG_CFR_VARCHAR_UI_NAME o.ui_name).length))) ∧
    (strlen s ≠ 0 → sm_write_ui_helptext m current (some s)
        = write_cfr_varchar m current (some s) LB_TAG_CFR_VARCHAR_UI_HELPTEXT) ∧
    (strlen s ≠ 0 → strlen s + 16 < 2 ^ 32 → current + 12 + (strlen s + 1) ≤ m.length →
      ∃ m' size, sm_write_ui_helptext m current (some s) = .ok (m', size) ∧
        load32 m' current = .ok 0x0109 ∧ load32 m' (current + 4) = .ok size ∧ 16 ≤ size) := by
  refine ⟨rfl, sm_write_ui_helptext_empty m current s, ?_, ?_, ?_, ?_, ?_, ?_⟩
  · intro h tag oid opt ui fl dv vals
    unfold write_numeric_option
    simp only [sm_write_ui_helptext_empty _ _ s h]
    rfl
  · intro h oid fl opt ui dv
    unfold sm_write_opt_varchar
    simp only [sm_write_ui_helptext_empty _ _ s h]
    rfl
  · intro h oid fl ui
    unfold sm_write_opt_comment
    simp only [sm_write_ui_helptext_empty _ _ s h]
    rfl
  · intro o ho hv hm hlt
    have hh : ref_helptext o.ui_helptext = [] := by
      rcases ho with ho | ⟨ho, hs⟩
      · rw [ho]; rfl
      · have hc : cstr s = [] := List.length_eq_zero.1 (by rw [← strlen_eq]; exact hs)
        rw [ho]; simp [ref_helptext, hc]
    rw [sm_write_opt_bool_eq m current o hv hm hlt]
    simp [ref_opt_bool, ref_numeric, hh, ref_fields_length]
  · intro h
    simp [sm_write_ui_helptext, h]
  · intro h hn hm
    have hh : sm_write_ui_helptext m current (some s)
        = write_cfr_varchar m current (some s) LB_TAG_CFR_VARCHAR_UI_HELPTEXT := by
      simp [sm_write_ui_helptext, h]
    obtain ⟨m', size, h1, h2, _, _, h5, _, h7, _, _⟩ :=
      write_cfr_varchar_string_leaf m current LB_TAG_CFR_VARCHAR_UI_HELPTEXT s hn
        (by decide) hm
    exact ⟨m', size, by rw [hh, h1], h2, h5, by omega⟩

end cfr


namespace cfr

/-! ## Reference layout: the shape of each image -/

theorem ref_varchar_shape (tag : Nat) (s : List Nat) :
    ref_varchar tag s = ref_fields [tag, (ref_varchar tag s).length, (cstr s).length + 1]
      ++ ((cstr s ++ [0]).map some
        ++ List.replicate ((ref_varchar tag s).length - (12 + ((cstr s).length + 1))) none) := by
  rw [ref_varchar_length]
  simp [ref_varchar]

theorem ref_enum_value_shape (e : sm_enum_value) :
    ref_enum_value e = ref_fields [LB_TAG_CFR_ENUM_VALUE, (ref_enum_value e).length, e.value]
      ++ ref_string LB_TAG_CFR_VARCHAR_UI_NAME e.ui_name := by
  have hl : (ref_enum_value e).length
      = 12 + (ref_string LB_TAG_CFR_VARCHAR_UI_NAME e.ui_name).length := by
    simp [ref_enum_value, ref_fields_length]
  rw [hl]; rfl

theorem ref_numeric_shape (tag oid : Nat) (opt ui help : Option (List Nat)) (fl dv : Nat)
    (v : List Cell) :
    ref_numeric tag oid opt ui help fl dv v
      = ref_fields [tag, (ref_numeric tag oid opt ui help fl dv v).length, oid, fl, dv]
        ++ (ref_string LB_TAG_CFR_VARCHAR_OPT_NAME opt
          ++ (ref_string LB_TAG_CFR_VARCHAR_UI_NAME ui ++ (ref_helptext help ++ v))) := by
  rw [ref_numeric_length]
  simp [ref_numeric]

theorem ref_opt_varchar_shape (o : sm_obj_varchar) :
    ref_opt_varchar o
      = ref_fields [LB_TAG_CFR_OPTION_VARCHAR, (ref_opt_varchar o).length, o.object_id, o.flags]
        ++ (ref_string LB_TAG_CFR_VARCHAR_DEF_VALUE o.default_value
          ++ (ref_string LB_TAG_CFR_VARCHAR_OPT_NAME o.opt_name
            ++ (ref_string LB_TAG_CFR_VARCHAR_UI_NAME o.ui_name
              ++ ref_helptext o.ui_helptext))) := by
  rw [ref_opt_varchar_length]
  simp [ref_opt_varchar]

theorem ref_opt_comment_shape (o : sm_obj_comment) :
    ref_opt_comment o
      = ref_fields [LB_TAG_CFR_OPTION_COMMENT, (ref_opt_comment o).length, o.object_id, o.flags]
        ++ (ref_string LB_TAG_CFR_VARCHAR_UI_NAME o.ui_name ++ ref_helptext o.ui_helptext) := by
  rw [ref_opt_comment_length]
  simp [ref_opt_comment]

theorem ref_form_shape (oid fl : Nat) (ui : Option (List Nat)) (os : List sm_object) :
    ref_form (.mk oid fl ui os)
      = ref_fields [LB_TAG_CFR_OPTION_FORM, (ref_form (.mk oid fl ui os)).length, oid, fl]
        ++ (ref_string LB_TAG_CFR_VARCHAR_UI_NAME ui ++ ref_obj_list os) := by
  rw [ref_form_length]
  simp [ref_form]

theorem ref_root_shape (r : setup_menu_root) (crc : Nat) :
    ref_root r crc = ref_fields [LB_TAG_CFR, (ref_root r crc).length, crc]
      ++ ref_form_list r.form_list := by
  rw [ref_root_length]
  simp [ref_root]

/-- Every image that is not empty starts with a tag and a size field that holds its length. -/
theorem ref_object_header (o : sm_object) (h : ref_object o ≠ []) :
    ∃ tag rest ch, ref_object o = ref_fields (tag :: (ref_object o).length :: rest) ++ ch := by
  cases o with
  | obj_none => simp [ref_object] at h
  | unknown k => simp [ref_object] at h
  | obj_enum o => exact ⟨_, _, _, by simp only [ref_object, ref_opt_enum]; exact ref_numeric_shape ..⟩
  | obj_number o =>
    exact ⟨_, _, _, by simp only [ref_object, ref_opt_number]; exact ref_numeric_shape ..⟩
  | obj_bool o => exact ⟨_, _, _, by simp only [ref_object, ref_opt_bool]; exact ref_numeric_shape ..⟩
  | obj_varchar o => exact ⟨_, _, _, by simp only [ref_object]; exact ref_opt_varchar_shape o⟩
  | obj_comment o => exact ⟨_, _, _, by simp only [ref_object]; exact ref_opt_comment_shape o⟩
  | obj_form f =>
    cases f with
    | mk oid fl ui os => exact ⟨_, _, _, by simp only [ref_object]; exact ref_form_shape ..⟩

/-- C2. Reference layout: `cfr_write_setup_menu` lays the image `ref_root` over the start of
the buffer, and `sm_write_object` (a Form or any option kind, at any cursor in any buffer)
lays the image `ref_object` over the buffer at the cursor and returns its length. By their
definitions these images are the fixed header of the kind (Root 12 bytes, Form, VarcharOption
and CommentOption 16, Enum, Number and BoolOption 20, EnumValue 12) followed immediately by
the images of the children in the fixed order of the kind, with a `size` field equal to the
header length plus the sum of the sizes of the children; the `size` field that is read back
from the buffer is the size returned. -/
theorem encoder_reference_layout (m : Mem) (sm_root : setup_menu_root)
    (hv : valid_form_list sm_root.form_list = true)
    (hm : (ref_root sm_root 0).length ≤ m.length)
    (hlt : (ref_root sm_root 0).length < 2 ^ 32) :
    (∃ checksum m', cfr_write_setup_menu m sm_root = .ok m' ∧
      m' = blit m 0 (ref_root sm_root checksum) ∧
      load32 m' 4 = .ok (12 + (ref_form_list sm_root.form_list).length)) ∧
    (∀ (o : sm_object) (mm : Mem) (c : Nat), valid_object o = true →
      c + (ref_object o).length ≤ mm.length → (ref_object o).length < 2 ^ 32 →
      ∃ m', sm_write_object mm c o = .ok (m', (ref_object o).length) ∧
        m' = blit mm c (ref_object o) ∧
        (ref_object o ≠ [] → load32 m' (c + 4) = .ok (ref_object o).length)) := by
  constructor
  · refine ⟨_, _, cfr_write_setup_menu_eq m sm_root hv hm hlt, rfl, ?_⟩
    have hl := ref_root_length sm_root 0
    have hfit := fits_blit m 0 (ref_root sm_root
      (crc32 ((blit m 0 (ref_root sm_root 0)).take (ref_root sm_root 0).length)))
      (by rw [ref_root_length]; omega)
    rw [ref_root_shape] at hfit
    have h1 := load32_field _ 0 [LB_TAG_CFR] _ _ _ hfit
    rw [ref_root_shape]
    simp only [List.length_cons, List.length_nil, Nat.zero_add, Nat.mul_one] at h1
    rw [h1, ref_root_length, Nat.mod_eq_of_lt (by omega)]
  · intro o mm c hvo hmo hlto
    refine ⟨_, sm_write_object_eq o mm c hvo hmo hlto, rfl, ?_⟩
    intro hne
    obtain ⟨tag, rest, ch, he⟩ := ref_object_header o hne
    have hfit := fits_blit mm c (ref_object o) hmo
    generalize blit mm c (ref_object o) = m' at hfit
    rw [he] at hfit
    have h1 := load32_field m' c [tag] _ _ _ hfit
    simp only [List.length_cons, List.length_nil, Nat.zero_add, Nat.mul_one] at h1
    rw [h1, Nat.mod_eq_of_lt hlto]

theorem encoder_reference_layout_witness :
    valid_form_list scenario_c.form_list = true ∧
      (ref_root scenario_c 0).length ≤ (List.replicate 200 7).length ∧
      (ref_root scenario_c 0).length < 2 ^ 32 ∧
      (∃ checksum m', cfr_write_setup_menu (List.replicate 200 7) scenario_c = .ok m' ∧
        m' = blit (List.replicate 200 7) 0 (ref_root scenario_c checksum) ∧
        load32 m' 4 = .ok (12 + (ref_form_list scenario_c.form_list).length)) :=
  ⟨by decide!, by decide!, by decide!,
    (encoder_reference_layout (List.replicate 200 7) scenario_c
      (by decide!) (by decide!) (by decide!)).1⟩

end cfr


namespace cfr

/-! ## Size invariant: lemmas -/

theorem fits_at_append (m : Mem) (p : Nat) (i j : List Cell) :
    Fits (i ++ j) (m.drop p) ↔ Fits i (m.drop p) ∧ Fits j (m.drop (p + i.length)) := by
  rw [fits_append, drop_add_of_drop]

theorem fits_take (i : List Cell) : ∀ (s : List Nat) (n : Nat), i.length ≤ n → Fits i s →
    Fits i (s.take n) := by
  induction i with
  | nil => intro s n _ _; simp [Fits]
  | cons c cs ih =>
    intro s n hn h
    cases s with
    | nil => simp [Fits] at h
    | cons x xs =>
      cases n with
      | zero => simp at hn
      | succ n => exact ⟨h.1, ih xs n (by simpa using hn) h.2⟩

theorem ref_varchar_mod4 (tag : Nat) (s : List Nat) : (ref_varchar tag s).length % 4 = 0 := by
  rw [ref_varchar_length]; omega

theorem ref_string_mod4 (tag : Nat) (str : Option (List Nat)) :
    (ref_string tag str).length % 4 = 0 := by
  cases str with
  | none => rfl
  | some s => exact ref_varchar_mod4 tag s

theorem ref_helptext_mod4 (str : Option (List Nat)) : (ref_helptext str).length % 4 = 0 := by
  cases str with
  | none => rfl
  | some s =>
    simp only [ref_helptext]
    split
    · rfl
    · exact ref_varchar_mod4 _ s

theorem ref_enum_value_length (e : sm_enum_value) :
    (ref_enum_value e).length
      = 12 + (ref_string LB_TAG_CFR_VARCHAR_UI_NAME e.ui_name).length := by
  simp [ref_enum_value, ref_fields_length]

theorem ref_enum_values_mod4 (vs : List sm_enum_value) :
    (ref_enum_values vs).length % 4 = 0 := by
  induction vs with
  | nil => rfl
  | cons e es ih =>
    unfold ref_enum_values
    cases hu : e.ui_name with
    | none => rfl
    | some s =>
      simp only [List.length_append, ref_enum_value_length]
      have := ref_string_mod4 LB_TAG_CFR_VARCHAR_UI_NAME e.ui_name
      omega

theorem ref_numeric_mod4 (tag oid : Nat) (opt ui help : Option (List Nat)) (fl dv : Nat)
    (v : List Cell) (hv : v.length % 4 = 0) :
    (ref_numeric tag oid opt ui help fl dv v).length % 4 = 0 := by
  rw [ref_numeric_length]
  have h1 := ref_string_mod4 LB_TAG_CFR_VARCHAR_OPT_NAME opt
  have h2 := ref_string_mod4 LB_TAG_CFR_VARCHAR_UI_NAME ui
  have h3 := ref_helptext_mod4 help
  omega

theorem ref_opt_enum_mod4 (o : sm_obj_enum) : (ref_opt_enum o).length % 4 = 0 := by
  unfold ref_opt_enum
  apply ref_numeric_mod4
  cases o.values with
  | none => rfl
  | some vs => exact ref_enum_values_mod4 vs

theorem ref_opt_varchar_mod4 (o : sm_obj_varchar) : (ref_opt_varchar o).length % 4 = 0 := by
  rw [ref_opt_varchar_length]
  have h0 := ref_string_mod4 LB_TAG_CFR_VARCHAR_DEF_VALUE o.default_value
  have h1 := ref_string_mod4 LB_TAG_CFR_VARCHAR_OPT_NAME o.opt_name
  have h2 := ref_string_mod4 LB_TAG_CFR_VARCHAR_UI_NAME o.ui_name
  have h3 := ref_helptext_mod4 o.ui_helptext
  omega

theorem ref_opt_comment_mod4 (o : sm_obj_comment) : (ref_opt_comment o).length % 4 = 0 := by
  rw [ref_opt_comment_length]
  have h2 := ref_string_mod4 LB_TAG_CFR_VARCHAR_UI_NAME o.ui_name
  have h3 := ref_helptext_mod4 o.ui_helptext
  omega

mutual
theorem ref_form_mod4 : ∀ (f : sm_obj_form), (ref_form f).length % 4 = 0
  | .mk oid fl ui os => by
    rw [ref_form_length]
    have h2 := ref_string_mod4 LB_TAG_CFR_VARCHAR_UI_NAME ui
    have h3 := ref_obj_list_mod4 os
    omega
theorem ref_obj_list_mod4 : ∀ (os : List sm_object), (ref_obj_list os).length % 4 = 0
  | [] => by simp [ref_obj_list]
  | o :: os => by
    rw [ref_obj_list_cons, List.length_append]
    have h1 := ref_object_mod4 o
    have h2 := ref_obj_list_mod4 os
    omega
theorem ref_object_mod4 : ∀ (o : sm_object), (ref_object o).length % 4 = 0
  | .obj_none => by simp [ref_object]
  | .unknown _ => by simp [ref_object]
  | .obj_enum o => by simp only [ref_object]; exact ref_opt_enum_mod4 o
  | .obj_number o => by
    simp only [ref_object, ref_opt_number]; exact ref_numeric_mod4 _ _ _ _ _ _ _ _ rfl
  | .obj_bool o => by
    simp only [ref_object, ref_opt_bool]; exact ref_numeric_mod4 _ _ _ _ _ _ _ _ rfl
  | .obj_varchar o => by simp only [ref_object]; exact ref_opt_varchar_mod4 o
  | .obj_comment o => by simp only [ref_object]; exact ref_opt_comment_mod4 o
  | .obj_form f => by simp only [ref_object]; exact ref_form_mod4 f
end

theorem ref_form_list_mod4 : ∀ (fs : List sm_obj_form), (ref_form_list fs).length % 4 = 0
  | [] => by simp [ref_form_list]
  | f :: fs => by
    simp only [ref_form_list, List.length_append]
    have h1 := ref_form_mod4 f
    have h2 := ref_form_list_mod4 fs
    omega

theorem walk_list_append (blob : List Nat) (a b : List Shape) : ∀ (p : Nat),
    walk_list blob (a ++ b) p
      = (match walk_list blob a p with
         | some n => walk_list blob b n
         | none => none) := by
  induction a with
  | nil => intro p; simp [walk_list]
  | cons c cs ih =>
    intro p
    simp only [List.cons_append, walk_list]
    cases walk blob c p with
    | none => rfl
    | some n => simp only; exact ih n

theorem walk_list_append_some (blob : List Nat) (a b : List Shape) (p n : Nat)
    (h : walk_list blob a p = some n) :
    walk_list blob (a ++ b) p = walk_list blob b n := by
  rw [walk_list_append, h]

theorem walk_leaf (blob : List Nat) (p tag : Nat) (s : List Nat)
    (hfit : Fits (ref_varchar tag s) (blob.drop p)) (hp : p % 4 = 0)
    (htag : tag < 2 ^ 32) (hlt : (ref_varchar tag s).length < 2 ^ 32) :
    walk blob (.leaf tag) p = some (p + (ref_varchar tag s).length) := by
  rw [ref_varchar_shape] at hfit
  have h0 := load32_field blob p [] _ _ _ hfit
  have h1 := load32_field blob p [tag] _ _ _ hfit
  simp only [List.length_cons, List.length_nil, Nat.zero_add, Nat.mul_one, Nat.mul_zero,
    Nat.add_zero] at h0 h1
  rw [Nat.mod_eq_of_lt htag] at h0
  rw [Nat.mod_eq_of_lt hlt] at h1
  simp [walk, h0, h1, hp, ref_varchar_mod4 tag s]

theorem walk_string (blob : List Nat) (p tag : Nat) (str : Option (List Nat))
    (hfit : Fits (ref_string tag str) (blob.drop p)) (hp : p % 4 = 0)
    (htag : tag < 2 ^ 32) (hlt : (ref_string tag str).length < 2 ^ 32) :
    walk_list blob (shape_string tag str) p = some (p + (ref_string tag str).length) := by
  cases str with
  | none => simp [shape_string, ref_string, walk_list]
  | some s =>
    simp only [shape_string, ref_string, walk_list] at hfit hlt ⊢
    rw [walk_leaf blob p tag s hfit hp htag hlt]

theorem walk_helptext (blob : List Nat) (p : Nat) (str : Option (List Nat))
    (hfit : Fits (ref_helptext str) (blob.drop p)) (hp : p % 4 = 0)
    (hlt : (ref_helptext str).length < 2 ^ 32) :
    walk_list blob (shape_helptext str) p = some (p + (ref_helptext str).length) := by
  cases str with
  | none => simp [shape_helptext, ref_helptext, walk_list]
  | some s =>
    simp only [shape_helptext, ref_helptext] at *
    by_cases hc : cstr s = []
    · simp [hc, walk_list]
    · simp only [hc, if_false, walk_list] at hfit hlt ⊢
      rw [walk_leaf blob p _ s hfit hp (by decide) hlt]

end cfr


namespace cfr

theorem walk_node (blob : List Nat) (p tag hdr total : Nat) (children : List Shape)
    (htag : load32 blob p = .ok tag)
    (hsize : load32 blob (p + 4) = .ok total) (hp : p % 4 = 0) (ht : total % 4 = 0)
    (hch : walk_list blob children (p + hdr) = some (p + total)) :
    walk blob (.node tag hdr children) p = some (p + total) := by
  simp [walk, htag, hsize, hp, ht, hch]

theorem load32_header (m : Mem) (a tag size : Nat) (post : List Nat) (rest : List Cell)
    (h : Fits (ref_fields (tag :: size :: post) ++ rest) (m.drop a))
    (htag : tag < 2 ^ 32) (hsize : size < 2 ^ 32) :
    load32 m a = .ok tag ∧ load32 m (a + 4) = .ok size := by
  have h0 := load32_field m a [] _ _ _ h
  have h1 := load32_field m a [tag] _ _ _ h
  simp only [List.length_cons, List.length_nil, Nat.zero_add, Nat.mul_one, Nat.mul_zero,
    Nat.add_zero] at h0 h1
  rw [Nat.mod_eq_of_lt htag] at h0
  rw [Nat.mod_eq_of_lt hsize] at h1
  exact ⟨h0, h1⟩

theorem walk_list_app (blob : List Nat) (a b : List Shape) (p n1 n2 : Nat)
    (h1 : walk_list blob a p = some (p + n1))
    (h2 : walk_list blob b (p + n1) = some (p + n1 + n2)) :
    walk_list blob (a ++ b) p = some (p + (n1 + n2)) := by
  rw [walk_list_append_some blob a b p _ h1, h2, Nat.add_assoc]

theorem walk_list_single (blob : List Nat) (s : Shape) (p n : Nat)
    (h : walk blob s p = some n) : walk_list blob [s] p = some n := by
  simp [walk_list, h]

theorem walk_enum_values (blob : List Nat) : ∀ (vs : List sm_enum_value) (p : Nat),
    Fits (ref_enum_values vs) (blob.drop p) → p % 4 = 0 →
    (ref_enum_values vs).length < 2 ^ 32 →
    walk_list blob (shape_enum_values vs) p = some (p + (ref_enum_values vs).length) := by
  intro vs
  induction vs with
  | nil => intro p _ _ _; simp [shape_enum_values, ref_enum_values, walk_list]
  | cons e es ih =>
    intro p hfit hp hlt
    cases hu : e.ui_name with
    | none => simp [shape_enum_values, ref_enum_values, hu, walk_list]
    | some s =>
      simp only [shape_enum_values, ref_enum_values, hu] at hfit hlt ⊢
      rw [fits_at_append] at hfit
      obtain ⟨hF, hR⟩ := hfit
      rw [List.length_append] at hlt ⊢
      have hm4 : (ref_enum_value e).length % 4 = 0 := by
        rw [ref_enum_value_length]
        have := ref_string_mod4 LB_TAG_CFR_VARCHAR_UI_NAME e.ui_name
        omega
      have hnode : walk blob (.node LB_TAG_CFR_ENUM_VALUE 12
            (shape_string LB_TAG_CFR_VARCHAR_UI_NAME e.ui_name)) p
          = some (p + (ref_enum_value e).length) := by
        rw [ref_enum_value_shape] at hF
        obtain ⟨ht, hs⟩ := load32_header blob p _ _ _ _ hF (by decide) (by omega)
        rw [fits_at_append] at hF
        have hc := hF.2
        simp only [ref_fields_length, List.length_cons, List.length_nil] at hc
        apply walk_node blob p _ 12 _ _ ht hs hp hm4
        rw [walk_string blob (p + 12) _ e.ui_name (by simpa using hc) (by omega) (by decide)
          (by have := ref_enum_value_length e; omega)]
        rw [ref_enum_value_length]; congr 1; omega
      simp only [walk_list, hu] at hnode ⊢
      rw [hnode]
      simp only
      rw [ih (p + (ref_enum_value e).length) hR (by omega) (by omega), Nat.add_assoc]

theorem walk_numeric (blob : List Nat) (p tag oid : Nat) (opt ui help : Option (List Nat))
    (fl dv : Nat) (v : List Cell) (sv : List Shape)
    (hfit : Fits (ref_numeric tag oid opt ui help fl dv v) (blob.drop p)) (hp : p % 4 = 0)
    (htag : tag < 2 ^ 32)
    (hlt : (ref_numeric tag oid opt ui help fl dv v).length < 2 ^ 32)
    (hv4 : v.length % 4 = 0)
    (hsv : ∀ q, Fits v (blob.drop q) → q % 4 = 0 →
      walk_list blob sv q = some (q + v.length)) :
    walk blob (shape_numeric tag opt ui help sv) p
      = some (p + (ref_numeric tag oid opt ui help fl dv v).length) := by
  have hlen := ref_numeric_length tag oid opt ui help fl dv v
  have h1 := ref_string_mod4 LB_TAG_CFR_VARCHAR_OPT_NAME opt
  have h2 := ref_string_mod4 LB_TAG_CFR_VARCHAR_UI_NAME ui
  have h3 := ref_helptext_mod4 help
  rw [ref_numeric_shape] at hfit
  obtain ⟨ht, hs⟩ := load32_header blob p _ _ _ _ hfit htag hlt
  rw [fits_at_append] at hfit
  have hc := hfit.2
  simp only [ref_fields_length, List.length_cons, List.length_nil] at hc
  rw [fits_at_append] at hc
  obtain ⟨hA, hc⟩ := hc
  rw [fits_at_append] at hc
  obtain ⟨hB, hc⟩ := hc
  rw [fits_at_append] at hc
  obtain ⟨hC, hD⟩ := hc
  apply walk_node blob p tag 20 _ _ ht hs hp (ref_numeric_mod4 _ _ _ _ _ _ _ _ hv4)
  have e : p + (ref_numeric tag oid opt ui help fl dv v).length
      = p + 20 + ((ref_string LB_TAG_CFR_VARCHAR_OPT_NAME opt).length
        + (ref_string LB_TAG_CFR_VARCHAR_UI_NAME ui).length + (ref_helptext help).length
        + v.length) := by omega
  rw [e]
  apply walk_list_app
  · apply walk_list_app
    · apply walk_list_app
      · exact walk_string blob _ _ opt (by simpa using hA) (by omega) (by decide) (by omega)
      · exact walk_string blob _ _ ui (by simpa using hB) (by omega) (by decide) (by omega)
    · rw [← Nat.add_assoc (p + 20)]
      exact walk_helptext blob _ help (by simpa [Nat.add_assoc] using hC) (by omega) (by omega)
  · rw [← Nat.add_assoc (p + 20), ← Nat.add_assoc (p + 20)]
    exact hsv _ (by simpa [Nat.add_assoc] using hD) (by omega)

end cfr


namespace cfr

theorem walk_opt_varchar (blob : List Nat) (p : Nat) (o : sm_obj_varchar)
    (hfit : Fits (ref_opt_varchar o) (blob.drop p)) (hp : p % 4 = 0)
    (hlt : (ref_opt_varchar o).length < 2 ^ 32) :
    walk blob (.node LB_TAG_CFR_OPTION_VARCHAR 16
      (shape_string LB_TAG_CFR_VARCHAR_DEF_VALUE o.default_value
        ++ shape_string LB_TAG_CFR_VARCHAR_OPT_NAME o.opt_name
        ++ shape_string LB_TAG_CFR_VARCHAR_UI_NAME o.ui_name
        ++ shape_helptext o.ui_helptext)) p
      = some (p + (ref_opt_varchar o).length) := by
  have hlen := ref_opt_varchar_length o
  have h0 := ref_string_mod4 LB_TAG_CFR_VARCHAR_DEF_VALUE o.default_value
  have h1 := ref_string_mod4 LB_TAG_CFR_VARCHAR_OPT_NAME o.opt_name
  have h2 := ref_string_mod4 LB_TAG_CFR_VARCHAR_UI_NAME o.ui_name
  have h3 := ref_helptext_mod4 o.ui_helptext
  rw [ref_opt_varchar_shape] at hfit
  obtain ⟨ht, hs⟩ := load32_header blob p _ _ _ _ hfit (by decide) hlt
  rw [fits_at_append] at hfit
  have hc := hfit.2
  simp only [ref_fields_length, List.length_cons, List.length_nil] at hc
  rw [fits_at_append] at hc
  obtain ⟨hA, hc⟩ := hc
  rw [fits_at_append] at hc
  obtain ⟨hB, hc⟩ := hc
  rw [fits_at_append] at hc
  obtain ⟨hC, hD⟩ := hc
  apply walk_node blob p _ 16 _ _ ht hs hp (ref_opt_varchar_mod4 o)
  have e : p + (ref_opt_varchar o).length
      = p + 16 + ((ref_string LB_TAG_CFR_VARCHAR_DEF_VALUE o.default_value).length
        + (ref_string LB_TAG_CFR_VARCHAR_OPT_NAME o.opt_name).length
        + (ref_string LB_TAG_CFR_VARCHAR_UI_NAME o.ui_name).length
        + (ref_helptext o.ui_helptext).length) := by omega
  rw [e]
  apply walk_list_app
  · apply walk_list_app
    · apply walk_list_app
      · exact walk_string blob _ _ _ (by simpa using hA) (by omega) (by decide) (by omega)
      · exact walk_string blob _ _ _ (by simpa using hB) (by omega) (by decide) (by omega)
    · rw [← Nat.add_assoc (p + 16)]
      exact walk_string blob _ _ _ (by simpa [Nat.add_assoc] using hC) (by omega) (by decide)
        (by omega)
  · rw [← Nat.add_assoc (p + 16), ← Nat.add_assoc (p + 16)]
    exact walk_helptext blob _ _ (by simpa [Nat.add_assoc] using hD) (by omega) (by omega)

theorem walk_opt_comment (blob : List Nat) (p : Nat) (o : sm_obj_comment)
    (hfit : Fits (ref_opt_comment o) (blob.drop p)) (hp : p % 4 = 0)
    (hlt : (ref_opt_comment o).length < 2 ^ 32) :
    walk blob (.node LB_TAG_CFR_OPTION_COMMENT 16
      (shape_string LB_TAG_CFR_VARCHAR_UI_NAME o.ui_name ++ shape_helptext o.ui_helptext)) p
      = some (p + (ref_opt_comment o).length) := by
  have hlen := ref_opt_comment_length o
  have h2 := ref_string_mod4 LB_TAG_CFR_VARCHAR_UI_NAME o.ui_name
  have h3 := ref_helptext_mod4 o.ui_helptext
  rw [ref_opt_comment_shape] at hfit
  obtain ⟨ht, hs⟩ := load32_header blob p _ _ _ _ hfit (by decide) hlt
  rw [fits_at_append] at hfit
  have hc := hfit.2
  simp only [ref_fields_length, List.length_cons, List.length_nil] at hc
  rw [fits_at_append] at hc
  obtain ⟨hA, hB⟩ := hc
  apply walk_node blob p _ 16 _ _ ht hs hp (ref_opt_comment_mod4 o)
  have e : p + (ref_opt_comment o).length
      = p + 16 + ((ref_string LB_TAG_CFR_VARCHAR_UI_NAME o.ui_name).length
        + (ref_helptext o.ui_helptext).length) := by omega
  rw [e]
  apply walk_list_app
  · exact walk_string blob _ _ _ (by simpa using hA) (by omega) (by decide) (by omega)
  · exact walk_helptext blob _ _ (by simpa [Nat.add_assoc] using hB) (by omega) (by omega)

mutual
theorem walk_form (blob : List Nat) : ∀ (f : sm_obj_form) (p : Nat),
    Fits (ref_form f) (blob.drop p) → p % 4 = 0 → (ref_form f).length < 2 ^ 32 →
    walk blob (shape_form f) p = some (p + (ref_form f).length)
  | .mk oid fl ui os, p, hfit, hp, hlt => by
    have hlen := ref_form_length oid fl ui os
    have h2 := ref_string_mod4 LB_TAG_CFR_VARCHAR_UI_NAME ui
    have h3 := ref_obj_list_mod4 os
    rw [ref_form_shape] at hfit
    obtain ⟨ht, hs⟩ := load32_header blob p _ _ _ _ hfit (by decide) hlt
    rw [fits_at_append] at hfit
    have hc := hfit.2
    simp only [ref_fields_length, List.length_cons, List.length_nil] at hc
    rw [fits_at_append] at hc
    obtain ⟨hA, hB⟩ := hc
    simp only [shape_form]
    apply walk_node blob p _ 16 _ _ ht hs hp (ref_form_mod4 _)
    have e : p + (ref_form (.mk oid fl ui os)).length
        = p + 16 + ((ref_string LB_TAG_CFR_VARCHAR_UI_NAME ui).length
          + (ref_obj_list os).length) := by omega
    rw [e]
    apply walk_list_app
    · exact walk_string blob _ _ _ (by simpa using hA) (by omega) (by decide) (by omega)
    · exact walk_obj_list blob os _ (by simpa [Nat.add_assoc] using hB) (by omega) (by omega)
theorem walk_obj_list (blob : List Nat) : ∀ (os : List sm_object) (p : Nat),
    Fits (ref_obj_list os) (blob.drop p) → p % 4 = 0 → (ref_obj_list os).length < 2 ^ 32 →
    walk_list blob (shape_obj_list os) p = some (p + (ref_obj_list os).length)
  | [], p, _, _, _ => by simp [shape_obj_list, ref_obj_list, walk_list]
  | o :: os, p, hfit, hp, hlt => by
    rw [ref_obj_list_cons] at hfit hlt ⊢
    rw [fits_at_append] at hfit
    rw [List.length_append] at hlt ⊢
    have h1 := ref_object_mod4 o
    simp only [shape_obj_list]
    apply walk_list_app
    · exact walk_object blob o p hfit.1 hp (by omega)
    · exact walk_obj_list blob os _ hfit.2 (by omega) (by omega)
theorem walk_object (blob : List Nat) : ∀ (o : sm_object) (p : Nat),
    Fits (ref_object o) (blob.drop p) → p % 4 = 0 → (ref_object o).length < 2 ^ 32 →
    walk_list blob (shape_object o) p = some (p + (ref_object o).length)
  | .obj_none, p, _, _, _ => by simp [shape_object, ref_object, walk_list]
  | .unknown _, p, _, _, _ => by simp [shape_object, ref_object, walk_list]
  | .obj_enum o, p, hfit, hp, hlt => by
    simp only [shape_object, ref_object, ref_opt_enum] at hfit hlt ⊢
    apply walk_list_single
    apply walk_numeric blob p _ _ _ _ _ _ _ _ _ hfit hp (by decide) hlt
    · cases o.values with
      | none => rfl
      | some vs => exact ref_enum_values_mod4 vs
    · intro q hq hq4
      cases hvs : o.values with
      | none => simp [walk_list]
      | some vs =>
        simp only [hvs] at hq hlt ⊢
        refine walk_enum_values blob vs q hq hq4 ?_
        have := ref_numeric_length LB_TAG_CFR_OPTION_ENUM o.object_id o.opt_name o.ui_name
          o.ui_helptext o.flags o.default_value (ref_enum_values vs)
        omega
  | .obj_number o, p, hfit, hp, hlt => by
    simp only [shape_object, ref_object, ref_opt_number] at hfit hlt ⊢
    apply walk_list_single
    apply walk_numeric blob p _ _ _ _ _ _ _ _ _ hfit hp (by decide) hlt rfl
    intro q _ _; simp [walk_list]
  | .obj_bool o, p, hfit, hp, hlt => by
    simp only [shape_object, ref_object, ref_opt_bool] at hfit hlt ⊢
    apply walk_list_single
    apply walk_numeric blob p _ _ _ _ _ _ _ _ _ hfit hp (by decide) hlt rfl
    intro q _ _; simp [walk_list]
  | .obj_varchar o, p, hfit, hp, hlt => by
    simp only [shape_object, ref_object] at hfit hlt ⊢
    exact walk_list_single _ _ _ _ (walk_opt_varchar blob p o hfit hp hlt)
  | .obj_comment o, p, hfit, hp, hlt => by
    simp only [shape_object, ref_object] at hfit hlt ⊢
    exact walk_list_single _ _ _ _ (walk_opt_comment blob p o hfit hp hlt)
  | .obj_form f, p, hfit, hp, hlt => by
    simp only [shape_object, ref_object] at hfit hlt ⊢
    exact walk_list_single _ _ _ _ (walk_form blob f p hfit hp hlt)
end

theorem walk_form_list (blob : List Nat) : ∀ (fs : List sm_obj_form) (p : Nat),
    Fits (ref_form_list fs) (blob.drop p) → p % 4 = 0 → (ref_form_list fs).length < 2 ^ 32 →
    walk_list blob (shape_form_list fs) p = some (p + (ref_form_list fs).length)
  | [], p, _, _, _ => by simp [shape_form_list, ref_form_list, walk_list]
  | f :: fs, p, hfit, hp, hlt => by
    simp only [ref_form_list] at hfit hlt ⊢
    rw [fits_at_append] at hfit
    rw [List.length_append] at hlt ⊢
    have h1 := ref_form_mod4 f
    simp only [shape_form_list, walk_list]
    rw [walk_form blob f p hfit.1 hp (by omega)]
    simp only
    rw [walk_form_list blob fs _ hfit.2 (by omega) (by omega), Nat.add_assoc]

theorem walk_root (blob : List Nat) (r : setup_menu_root) (crc : Nat)
    (hfit : Fits (ref_root r crc) blob) (hlt : (ref_root r crc).length < 2 ^ 32) :
    walk blob (shape_root r) 0 = some (ref_root r crc).length := by
  have hlen := ref_root_length r crc
  have h3 := ref_form_list_mod4 r.form_list
  rw [← List.drop_zero blob, ref_root_shape] at hfit
  obtain ⟨ht, hs⟩ := load32_header blob 0 _ _ _ _ hfit (by decide) hlt
  rw [fits_at_append] at hfit
  have hc := hfit.2
  simp only [ref_fields_length, List.length_cons, List.length_nil] at hc
  have := walk_node blob 0 _ 12 _ (shape_form_list r.form_list) ht hs rfl (by omega) (by
    rw [walk_form_list blob r.form_list _ (by simpa using hc) (by omega) (by omega)]
    congr 1; omega)
  simpa [shape_root] using this

/-- C3 (size invariant). For every tree whose mandatory strings are present and whose value
lists are terminated, whose encoding is shorter than 2^32 bytes and fits the buffer, the
encoder returns a buffer whose first `size` bytes (the size read back from the Root header)
pass the check `walk` along the shape of the tree: every node the encoder produced (Root,
Form, every option kind, EnumValue and string leaf) starts at a multiple of 4 from the start
of the blob, carries its tag, declares a size that is a multiple of 4, and is followed, exactly
`size` bytes after its start, by its next sibling or by the end of its parent. -/
theorem encoder_size_invariant (m : Mem) (sm_root : setup_menu_root)
    (hv : valid_form_list sm_root.form_list = true)
    (hm : (ref_root sm_root 0).length ≤ m.length)
    (hlt : (ref_root sm_root 0).length < 2 ^ 32) :
    ∃ m' size, cfr_write_setup_menu m sm_root = .ok m' ∧ load32 m' 4 = .ok size ∧
      size ≤ m'.length ∧ walk (m'.take size) (shape_root sm_root) 0 = some size := by
  generalize hcrc : crc32 ((blit m 0 (ref_root sm_root 0)).take (ref_root sm_root 0).length)
    = crc
  have hl : ∀ c, (ref_root sm_root c).length = (ref_root sm_root 0).length := by
    intro c; rw [ref_root_length, ref_root_length]
  have henc := cfr_write_setup_menu_eq m sm_root hv hm hlt
  rw [hcrc] at henc
  have hfit := fits_blit m 0 (ref_root sm_root crc) (by rw [hl]; omega)
  rw [List.drop_zero] at hfit
  have hsize : load32 (blit m 0 (ref_root sm_root crc)) 4
      = .ok (ref_root sm_root crc).length := by
    have hfit2 := hfit
    generalize blit m 0 (ref_root sm_root crc) = b at hfit2 ⊢
    rw [← List.drop_zero b, ref_root_shape] at hfit2
    exact (load32_header b 0 _ _ _ _ hfit2 (by decide) (by rw [hl]; exact hlt)).2
  refine ⟨_, _, henc, hsize, ?_, ?_⟩
  · rw [blit_length, hl]; exact hm
  · exact walk_root _ sm_root crc (fits_take _ _ _ (Nat.le_refl _) hfit)
      (by rw [hl]; exact hlt)

theorem encoder_size_invariant_witness :
    valid_form_list scenario_b.form_list = true ∧
      (ref_root scenario_b 0).length ≤ (List.replicate 256 0).length ∧
      (ref_root scenario_b 0).length < 2 ^ 32 ∧
      ∃ m' size, cfr_write_setup_menu (List.replicate 256 0) scenario_b = .ok m' ∧
        load32 m' 4 = .ok size ∧ size ≤ m'.length ∧
        walk (m'.take size) (shape_root scenario_b) 0 = some size :=
  ⟨by decide!, by decide!, by decide!,
    encoder_size_invariant (List.replicate 256 0) scenario_b
      (by decide!) (by decide!) (by decide!)⟩

end cfr


namespace cfr

/-! ## Decoder runs: rewriting rules -/

theorem outcome_bind_ok {ω α β : Type} (a : α) (out : List ω) (f : α → Outcome ω β) :
    (Outcome.ok a out >>= f) = (f a).prepend out := rfl

theorem outcome_bind_fail {ω α β : Type} (e : Fault) (out : List ω) (f : α → Outcome ω β) :
    (Outcome.fail e out >>= f) = Outcome.fail e out := rfl

theorem outcome_pure {ω α : Type} (a : α) : (pure a : Outcome ω α) = .ok a [] := rfl

theorem outcome_prepend_ok {ω α : Type} (o out : List ω) (a : α) :
    (Outcome.ok a out).prepend o = Outcome.ok a (o ++ out) := rfl

theorem outcome_prepend_fail {ω α : Type} (o out : List ω) (e : Fault) :
    (Outcome.fail e out : Outcome ω α).prepend o = Outcome.fail e (o ++ out) := rfl

theorem outcome_prepend_nil {ω α : Type} (x : Outcome ω α) : x.prepend [] = x := by
  cases x <;> rfl

theorem outcome_prepend_prepend {ω α : Type} (o1 o2 : List ω) (x : Outcome ω α) :
    (x.prepend o2).prepend o1 = x.prepend (o1 ++ o2) := by
  cases x <;> simp [Outcome.prepend]

theorem lift_ok {ω α : Type} (a : α) : (lift (.ok a) : Outcome ω α) = .ok a [] := rfl

theorem lift_error {ω α : Type} (e : Fault) : (lift (.error e) : Outcome ω α) = .fail e [] :=
  rfl

theorem emit_eq {ω : Type} (o : ω) : (emit o : Outcome ω Unit) = .ok () [o] := rfl

theorem abort_eq {ω α : Type} (e : Fault) : (abort e : Outcome ω α) = .fail e [] := rfl

end cfr

namespace cfr_to_html

open cfr

theorem html_tag_neq_eq (m : Mem) (rec tag t : Nat) (ht : load32 m rec = .ok t) :
    _tag_neq m rec tag
      = .ok (decide (t ≠ tag))
          (if t ≠ tag ∧ tag ≠ LB_TAG_CFR_VARCHAR_UI_HELPTEXT then [.stderr_tag tag t]
           else []) := by
  unfold _tag_neq
  rw [ht]
  simp only [lift_ok, outcome_bind_ok, outcome_prepend_nil]
  split <;> rfl

end cfr_to_html

namespace cfr_read

open cfr

theorem dump_tag_neq_eq (m : Mem) (rec tag t : Nat) (ht : load32 m rec = .ok t) :
    _tag_neq m rec tag
      = .ok (decide (t ≠ tag))
          (if t ≠ tag ∧ tag ≠ LB_TAG_CFR_VARCHAR_UI_HELPTEXT then [.mismatch tag t]
           else []) := by
  unfold _tag_neq
  rw [ht]
  simp only [lift_ok, outcome_bind_ok, outcome_prepend_nil]
  split <;> rfl

end cfr_read



namespace cfr

/-! ## Round trip: reading back what the images hold -/

theorem cstr_no_zero (s : List Nat) : 0 ∉ cstr s := by
  intro h
  have := List.mem_takeWhile_imp h
  simp at this

/-- A string without a zero byte is its own C string. -/
theorem cstr_of_nul_free (s : List Nat) (h : 0 ∉ s) : cstr s = s := by
  unfold cstr
  rw [List.takeWhile_eq_self_iff]
  intro x hx
  have : x ≠ 0 := fun e => h (e ▸ hx)
  simpa using this

theorem takeWhile_cstr_append (s t : List Nat) :
    (cstr s ++ 0 :: t).takeWhile (· ≠ 0) = cstr s := by
  rw [List.takeWhile_append_of_pos]
  · simp
  · intro x hx
    have : x ≠ 0 := fun h => cstr_no_zero s (h ▸ hx)
    simpa using this

theorem load_cstr_of_drop (m : Mem) (a : Nat) (s t : List Nat)
    (h : m.drop a = cstr s ++ 0 :: t) : load_cstr m a = .ok (cstr s) := by
  unfold load_cstr
  rw [h, takeWhile_cstr_append]
  simp

theorem strlen_cstr (s : List Nat) : strlen (cstr s) = (cstr s).length := by
  unfold strlen
  have : (cstr s).takeWhile (· ≠ 0) = cstr s := by
    rw [List.takeWhile_eq_self_iff]
    intro x hx
    have : x ≠ 0 := fun h => cstr_no_zero s (h ▸ hx)
    simpa using this
  rw [this]

/-- What a buffer that holds the image of a string leaf at `p` gives back. -/
theorem varchar_fields (m : Mem) (p tag : Nat) (s : List Nat)
    (hfit : Fits (ref_varchar tag s) (m.drop p)) (htag : tag < 2 ^ 32)
    (hlt : (ref_varchar tag s).length < 2 ^ 32) :
    load32 m p = .ok tag ∧ load32 m (p + 4) = .ok (ref_varchar tag s).length ∧
      load32 m (p + 8) = .ok ((cstr s).length + 1) ∧ load_cstr m (p + 12) = .ok (cstr s) ∧
      (cstr s).length + 1 < (ref_varchar tag s).length := by
  have hge := ref_varchar_length_ge tag s
  rw [ref_varchar_shape] at hfit
  obtain ⟨h0, h1⟩ := load32_header m p _ _ _ _ hfit htag hlt
  have h2 := load32_field m p [tag, (ref_varchar tag s).length] _ _ _ hfit
  simp only [List.length_cons, List.length_nil, Nat.zero_add] at h2
  rw [Nat.mod_eq_of_lt (by omega)] at h2
  rw [fits_at_append] at hfit
  have hc := hfit.2
  simp only [ref_fields_length, List.length_cons, List.length_nil] at hc
  rw [fits_at_append, fits_map_some] at hc
  obtain ⟨⟨t, ht⟩, _⟩ := hc
  refine ⟨h0, h1, h2, ?_, by omega⟩
  apply load_cstr_of_drop m (p + 12) s t
  simpa using ht

end cfr


namespace cfr_read

open cfr

theorem dump_print_record (m : Mem) (p tag size : Nat) (hp : p % 4 = 0)
    (h0 : load32 m p = .ok tag) (h1 : load32 m (p + 4) = .ok size) :
    _print_record m p = .ok () [.record tag size] := by
  simp [_print_record, hp, h0, h1, lift_ok, outcome_bind_ok, emit_eq, Outcome.prepend]

theorem dump_tag_ok (m : Mem) (p tag : Nat) (h0 : load32 m p = .ok tag) :
    _tag_ok m p tag = .ok () [] := by
  simp [_tag_ok, h0, lift_ok, outcome_bind_ok, outcome_pure, Outcome.prepend]

theorem dump_read_cfr_varchar (m : Mem) (p tag : Nat) (s : List Nat) (depth : Int)
    (hfit : Fits (ref_varchar tag s) (m.drop p)) (hp : p % 4 = 0) (htag : tag < 2 ^ 32)
    (hlt : (ref_varchar tag s).length < 2 ^ 32) :
    read_cfr_varchar m p tag depth
      = .ok ((ref_varchar tag s).length, depth) (dump_varchar tag s depth) := by
  obtain ⟨h0, h1, h2, h3, h4⟩ := varchar_fields m p tag s hfit htag hlt
  simp only [read_cfr_varchar]
  rw [dump_tag_neq_eq m p tag tag h0]
  simp [inc_depth, dec_depth, dump_print_record m p _ _ hp h0 h1, h1, h2, h3, h4, lift_ok,
    outcome_bind_ok, emit_eq, outcome_pure, Outcome.prepend, dump_varchar]

theorem dump_read_cfr_varchar_absent (m : Mem) (p : Nat) (depth : Int)
    (hf : no_helptext_at m p) :
    read_cfr_varchar m p LB_TAG_CFR_VARCHAR_UI_HELPTEXT depth = .ok (0, depth) [.not_found] := by
  obtain ⟨t, ht, hne⟩ := hf
  simp only [read_cfr_varchar]
  rw [dump_tag_neq_eq m p _ t ht]
  simp [hne, outcome_bind_ok, outcome_pure, Outcome.prepend, emit_eq]

theorem dump_read_string (m : Mem) (p tag : Nat) (l : Label) (str : Option (List Nat))
    (depth : Int) (hs : str.isSome = true)
    (hfit : Fits (ref_string tag str) (m.drop p)) (hp : p % 4 = 0) (htag : tag < 2 ^ 32)
    (hlt : (ref_string tag str).length < 2 ^ 32) :
    (emit (.prop l) >>= fun _ => read_cfr_varchar m p tag depth)
      = .ok ((ref_string tag str).length, depth) (dump_string l tag str depth) := by
  cases str with
  | none => simp at hs
  | some s =>
    simp only [ref_string] at hfit hlt ⊢
    rw [dump_read_cfr_varchar m p tag s depth hfit hp htag hlt]
    simp [emit_eq, outcome_bind_ok, Outcome.prepend, dump_string]

theorem dump_sm_read_string_default_value (m : Mem) (p : Nat) (str : Option (List Nat))
    (depth : Int) (hs : str.isSome = true)
    (hfit : Fits (ref_string LB_TAG_CFR_VARCHAR_DEF_VALUE str) (m.drop p)) (hp : p % 4 = 0)
    (hlt : (ref_string LB_TAG_CFR_VARCHAR_DEF_VALUE str).length < 2 ^ 32) :
    sm_read_string_default_value m p depth
      = .ok ((ref_string LB_TAG_CFR_VARCHAR_DEF_VALUE str).length, depth)
          (dump_string .defval LB_TAG_CFR_VARCHAR_DEF_VALUE str depth) :=
  dump_read_string m p _ _ str depth hs hfit hp (by decide) hlt

theorem dump_sm_read_opt_name (m : Mem) (p : Nat) (str : Option (List Nat))
    (depth : Int) (hs : str.isSome = true)
    (hfit : Fits (ref_string LB_TAG_CFR_VARCHAR_OPT_NAME str) (m.drop p)) (hp : p % 4 = 0)
    (hlt : (ref_string LB_TAG_CFR_VARCHAR_OPT_NAME str).length < 2 ^ 32) :
    sm_read_opt_name m p depth
      = .ok ((ref_string LB_TAG_CFR_VARCHAR_OPT_NAME str).length, depth)
          (dump_string .option_name LB_TAG_CFR_VARCHAR_OPT_NAME str depth) :=
  dump_read_string m p _ _ str depth hs hfit hp (by decide) hlt

theorem dump_sm_read_ui_name (m : Mem) (p : Nat) (str : Option (List Nat))
    (depth : Int) (hs : str.isSome = true)
    (hfit : Fits (ref_string LB_TAG_CFR_VARCHAR_UI_NAME str) (m.drop p)) (hp : p % 4 = 0)
    (hlt : (ref_string LB_TAG_CFR_VARCHAR_UI_NAME str).length < 2 ^ 32) :
    sm_read_ui_name m p depth
      = .ok ((ref_string LB_TAG_CFR_VARCHAR_UI_NAME str).length, depth)
          (dump_string .ui_name LB_TAG_CFR_VARCHAR_UI_NAME str depth) :=
  dump_read_string m p _ _ str depth hs hfit hp (by decide) hlt

theorem dump_sm_read_ui_helptext (m : Mem) (p : Nat) (str : Option (List Nat)) (depth : Int)
    (hfit : Fits (ref_helptext str) (m.drop p)) (hp : p % 4 = 0)
    (hlt : (ref_helptext str).length < 2 ^ 32)
    (hf : no_helptext_at m (p + (ref_helptext str).length)) :
    sm_read_ui_helptext m p depth
      = .ok ((ref_helptext str).length, depth) (dump_helptext str depth) := by
  have habs : (ref_helptext str = []) → sm_read_ui_helptext m p depth
      = .ok (0, depth) [.prop .ui_helptext, .not_found] := by
    intro he
    rw [he] at hf
    simp only [sm_read_ui_helptext]
    rw [dump_read_cfr_varchar_absent m p depth (by simpa using hf)]
    simp [emit_eq, outcome_bind_ok, Outcome.prepend]
  cases str with
  | none => simpa [ref_helptext, dump_helptext] using habs rfl
  | some s =>
    by_cases hc : cstr s = []
    · simpa [ref_helptext, dump_helptext, hc] using habs (by simp [ref_helptext, hc])
    · simp only [ref_helptext, hc, if_false, dump_helptext] at hfit hlt ⊢
      simp only [sm_read_ui_helptext]
      rw [dump_read_cfr_varchar m p _ s depth hfit hp (by decide) hlt]
      simp [emit_eq, outcome_bind_ok, Outcome.prepend]

end cfr_read


namespace cfr_read

open cfr

theorem dump_sm_read_enum_value (m : Mem) (p : Nat) (e : sm_enum_value) (depth : Int)
    (hs : e.ui_name.isSome = true)
    (hfit : Fits (ref_enum_value e) (m.drop p)) (hp : p % 4 = 0)
    (hlt : (ref_enum_value e).length < 2 ^ 32) :
    sm_read_enum_value m p depth
      = .ok ((ref_enum_value e).length, depth)
          ([.record LB_TAG_CFR_ENUM_VALUE (ref_enum_value e).length,
            .val .value (e.value % 2 ^ 32)]
            ++ dump_string .ui_name LB_TAG_CFR_VARCHAR_UI_NAME e.ui_name depth) := by
  have hlen := ref_enum_value_length e
  rw [ref_enum_value_shape] at hfit
  obtain ⟨h0, h1⟩ := load32_header m p _ _ _ _ hfit (by decide) hlt
  have h2 := load32_field m p [LB_TAG_CFR_ENUM_VALUE, (ref_enum_value e).length] _ _ _ hfit
  simp only [List.length_cons, List.length_nil, Nat.zero_add] at h2
  rw [fits_at_append] at hfit
  have hc := hfit.2
  simp only [ref_fields_length, List.length_cons, List.length_nil] at hc
  have hu := dump_sm_read_ui_name m (p + 12) e.ui_name depth hs (by simpa using hc)
    (by omega) (by omega)
  simp only [sm_read_enum_value]
  simp [h1, h2, hu, dump_print_record m p _ _ hp h0 h1, lift_ok, outcome_bind_ok, emit_eq,
    outcome_pure, Outcome.prepend, hlen, Nat.add_assoc]

theorem dump_read_enum_values (m : Mem) : ∀ (vs : List sm_enum_value) (fuel p : Nat)
    (depth : Int), Fits (ref_enum_values vs) (m.drop p) → p % 4 = 0 →
    (ref_enum_values vs).length < 2 ^ 32 → (ref_enum_values vs).length + 1 ≤ fuel →
    read_enum_values fuel m (p + (ref_enum_values vs).length) p depth
      = .ok (p + (ref_enum_values vs).length, depth) (dump_enum_values vs depth) := by
  intro vs
  induction vs with
  | nil =>
    intro fuel p depth _ _ _ hfu
    cases fuel with
    | zero => omega
    | succ f => simp [read_enum_values, ref_enum_values, dump_enum_values, outcome_pure]
  | cons e es ih =>
    intro fuel p depth hfit hp hlt hfu
    cases fuel with
    | zero => omega
    | succ f =>
      cases hu : e.ui_name with
      | none => simp [read_enum_values, ref_enum_values, dump_enum_values, hu, outcome_pure]
      | some s =>
        simp only [ref_enum_values, dump_enum_values, hu] at hfit hlt hfu ⊢
        rw [fits_at_append] at hfit
        rw [List.length_append] at hlt hfu ⊢
        have hpos : 0 < (ref_enum_value e).length := by
          have := ref_enum_value_length e; omega
        have hm4 : (ref_enum_value e).length % 4 = 0 := by
          have := ref_enum_value_length e
          have := ref_string_mod4 LB_TAG_CFR_VARCHAR_UI_NAME e.ui_name
          omega
        have hv := dump_sm_read_enum_value m p e (depth + 1) (by simp [hu]) hfit.1 hp
          (by omega)
        have hrest := ih f (p + (ref_enum_value e).length) depth hfit.2 (by omega) (by omega)
          (by omega)
        rw [← Nat.add_assoc]
        simp only [read_enum_values]
        rw [if_pos (by omega)]
        simp [inc_depth, dec_depth, hv, hrest, outcome_bind_ok, Outcome.prepend, hu]

end cfr_read


namespace cfr_read

open cfr

theorem dump_read_numeric_option (fuel : Nat) (m : Mem) (p tag oid : Nat)
    (opt ui help : Option (List Nat)) (fl dv : Nat) (v : List Cell) (venum vout : List Out)
    (depth : Int)
    (hfit : Fits (ref_numeric tag oid opt ui help fl dv v) (m.drop p)) (hp : p % 4 = 0)
    (htag : tag < 2 ^ 32) (hlt : (ref_numeric tag oid opt ui help fl dv v).length < 2 ^ 32)
    (ho : opt.isSome = true) (hu : ui.isSome = true)
    (hf : no_helptext_at m (p + 20 + (ref_string LB_TAG_CFR_VARCHAR_OPT_NAME opt).length
      + (ref_string LB_TAG_CFR_VARCHAR_UI_NAME ui).length + (ref_helptext help).length))
    (henum : tag = LB_TAG_CFR_OPTION_ENUM →
      read_enum_values fuel m (p + (ref_numeric tag oid opt ui help fl dv v).length)
        (p + 20 + (ref_string LB_TAG_CFR_VARCHAR_OPT_NAME opt).length
          + (ref_string LB_TAG_CFR_VARCHAR_UI_NAME ui).length + (ref_helptext help).length)
        depth = .ok (p + (ref_numeric tag oid opt ui help fl dv v).length, depth) venum
      ∧ vout = .prop .enum_values :: venum)
    (hnon : tag ≠ LB_TAG_CFR_OPTION_ENUM → v = [] ∧ vout = []) :
    read_numeric_option fuel m p tag depth
      = .ok ((ref_numeric tag oid opt ui help fl dv v).length, depth)
          (dump_numeric tag (ref_numeric tag oid opt ui help fl dv v).length oid opt ui help
            fl dv vout depth) := by
  have hlen := ref_numeric_length tag oid opt ui help fl dv v
  have m1 := ref_string_mod4 LB_TAG_CFR_VARCHAR_OPT_NAME opt
  have m2 := ref_string_mod4 LB_TAG_CFR_VARCHAR_UI_NAME ui
  have m3 := ref_helptext_mod4 help
  generalize hsz : (ref_numeric tag oid opt ui help fl dv v).length = size at *
  rw [ref_numeric_shape, hsz] at hfit
  obtain ⟨h0, h1⟩ := load32_header m p _ _ _ _ hfit htag hlt
  have h2 := load32_field m p [tag, size] _ _ _ hfit
  have h3 := load32_field m p [tag, size, oid] _ _ _ hfit
  have h4 := load32_field m p [tag, size, oid, fl] _ _ _ hfit
  simp only [List.length_cons, List.length_nil, Nat.zero_add] at h2 h3 h4
  rw [fits_at_append] at hfit
  have hc := hfit.2
  simp only [ref_fields_length, List.length_cons, List.length_nil] at hc
  rw [fits_at_append] at hc
  obtain ⟨hA, hc⟩ := hc
  rw [fits_at_append] at hc
  obtain ⟨hB, hc⟩ := hc
  rw [fits_at_append] at hc
  obtain ⟨hC, _⟩ := hc
  have r1 := dump_sm_read_opt_name m (p + 20) opt depth ho (by simpa using hA) (by omega)
    (by omega)
  have r2 := dump_sm_read_ui_name m
    (p + 20 + (ref_string LB_TAG_CFR_VARCHAR_OPT_NAME opt).length) ui depth hu
    (by simpa using hB) (by omega) (by omega)
  have r3 := dump_sm_read_ui_helptext m
    (p + 20 + (ref_string LB_TAG_CFR_VARCHAR_OPT_NAME opt).length
      + (ref_string LB_TAG_CFR_VARCHAR_UI_NAME ui).length) help depth
    (by simpa [Nat.add_assoc] using hC) (by omega) (by omega) hf
  simp only [read_numeric_option]
  by_cases ht : tag = LB_TAG_CFR_OPTION_ENUM
  · obtain ⟨he, hv⟩ := henum ht
    subst ht
    simp [h0, h1, h2, h3, h4, r1, r2, r3, he, hv, dump_tag_ok m p _ h0,
      dump_print_record m p _ _ hp h0 h1, lift_ok, outcome_bind_ok, emit_eq, outcome_pure,
      Outcome.prepend, dump_numeric]
  · obtain ⟨hv, hvo⟩ := hnon ht
    have hsize : p + 20 + (ref_string LB_TAG_CFR_VARCHAR_OPT_NAME opt).length
      + (ref_string LB_TAG_CFR_VARCHAR_UI_NAME ui).length + (ref_helptext help).length
        = p + size := by
      rw [hv] at hlen; simp at hlen; omega
    simp [h0, h1, h2, h3, h4, r1, r2, r3, hvo, ht, hsize, dump_tag_ok m p _ h0,
      dump_print_record m p _ _ hp h0 h1, lift_ok, outcome_bind_ok, emit_eq, outcome_pure,
      Outcome.prepend, dump_numeric]

end cfr_read


namespace cfr

/-! ## Round trip: what follows a help-text position -/

theorem no_helptext_of_header (m : Mem) (q tag : Nat) (post : List Nat) (rest : List Cell)
    (h : Fits (ref_fields (tag :: post) ++ rest) (m.drop q)) (htag : tag < 2 ^ 32)
    (hne : tag ≠ LB_TAG_CFR_VARCHAR_UI_HELPTEXT) : no_helptext_at m q := by
  have h0 := load32_field m q [] _ _ _ h
  simp only [List.length_nil, Nat.mul_zero, Nat.add_zero] at h0
  rw [Nat.mod_eq_of_lt htag] at h0
  exact ⟨tag, h0, hne⟩

theorem no_helptext_enum_values (m : Mem) (q : Nat) (vs : List sm_enum_value)
    (h : Fits (ref_enum_values vs) (m.drop q))
    (hf : no_helptext_at m (q + (ref_enum_values vs).length)) : no_helptext_at m q := by
  cases vs with
  | nil => simpa [ref_enum_values] using hf
  | cons e es =>
    cases hu : e.ui_name with
    | none => simpa [ref_enum_values, hu] using hf
    | some s =>
      simp only [ref_enum_values, hu] at h
      rw [ref_enum_value_shape, List.append_assoc] at h
      exact no_helptext_of_header m q _ _ _ h (by decide) (by decide)

theorem no_helptext_object (m : Mem) (q : Nat) (o : sm_object)
    (h : Fits (ref_object o) (m.drop q))
    (hf : no_helptext_at m (q + (ref_object o).length)) : no_helptext_at m q := by
  cases o with
  | obj_none => simpa [ref_object] using hf
  | unknown k => simpa [ref_object] using hf
  | obj_enum o =>
    simp only [ref_object, ref_opt_enum] at h
    rw [ref_numeric_shape] at h
    exact no_helptext_of_header m q _ _ _ h (by decide) (by decide)
  | obj_number o =>
    simp only [ref_object, ref_opt_number] at h
    rw [ref_numeric_shape] at h
    exact no_helptext_of_header m q _ _ _ h (by decide) (by decide)
  | obj_bool o =>
    simp only [ref_object, ref_opt_bool] at h
    rw [ref_numeric_shape] at h
    exact no_helptext_of_header m q _ _ _ h (by decide) (by decide)
  | obj_varchar o =>
    simp only [ref_object] at h
    rw [ref_opt_varchar_shape] at h
    exact no_helptext_of_header m q _ _ _ h (by decide) (by decide)
  | obj_comment o =>
    simp only [ref_object] at h
    rw [ref_opt_comment_shape] at h
    exact no_helptext_of_header m q _ _ _ h (by decide) (by decide)
  | obj_form f =>
    cases f with
    | mk oid fl ui os =>
      simp only [ref_object] at h
      rw [ref_form_shape] at h
      exact no_helptext_of_header m q _ _ _ h (by decide) (by decide)

theorem no_helptext_obj_list (m : Mem) : ∀ (os : List sm_object) (q : Nat),
    Fits (ref_obj_list os) (m.drop q) →
    no_helptext_at m (q + (ref_obj_list os).length) → no_helptext_at m q := by
  intro os
  induction os with
  | nil => intro q _ hf; simpa [ref_obj_list] using hf
  | cons o os ih =>
    intro q h hf
    rw [ref_obj_list_cons] at h hf
    rw [fits_at_append] at h
    rw [List.length_append, ← Nat.add_assoc] at hf
    exact no_helptext_object m q o h.1 (ih _ h.2 hf)

theorem no_helptext_form_list (m : Mem) : ∀ (fs : List sm_obj_form) (q : Nat),
    Fits (ref_form_list fs) (m.drop q) →
    no_helptext_at m (q + (ref_form_list fs).length) → no_helptext_at m q := by
  intro fs
  cases fs with
  | nil => intro q _ hf; simpa [ref_form_list] using hf
  | cons f fs =>
    intro q h _
    cases f with
    | mk oid fl ui os =>
      simp only [ref_form_list] at h
      rw [ref_form_shape, List.append_assoc] at h
      exact no_helptext_of_header m q _ _ _ h (by decide) (by decide)

end cfr

namespace cfr_read

open cfr

theorem dump_sm_read_opt_varchar (m : Mem) (p : Nat) (o : sm_obj_varchar) (depth : Int)
    (hfit : Fits (ref_opt_varchar o) (m.drop p)) (hp : p % 4 = 0)
    (hlt : (ref_opt_varchar o).length < 2 ^ 32) (hv : valid_opt_varchar o = true)
    (hf : no_helptext_at m (p + (ref_opt_varchar o).length)) :
    sm_read_opt_varchar m p depth
      = .ok ((ref_opt_varchar o).length, depth) (dump_opt_varchar o depth) := by
  have hlen := ref_opt_varchar_length o
  have m0 := ref_string_mod4 LB_TAG_CFR_VARCHAR_DEF_VALUE o.default_value
  have m1 := ref_string_mod4 LB_TAG_CFR_VARCHAR_OPT_NAME o.opt_name
  have m2 := ref_string_mod4 LB_TAG_CFR_VARCHAR_UI_NAME o.ui_name
  have m3 := ref_helptext_mod4 o.ui_helptext
  simp only [valid_opt_varchar, Bool.and_eq_true] at hv
  obtain ⟨⟨hd, ho⟩, hu⟩ := hv
  unfold dump_opt_varchar
  generalize hsz : (ref_opt_varchar o).length = size at *
  rw [ref_opt_varchar_shape, hsz] at hfit
  obtain ⟨h0, h1⟩ := load32_header m p _ _ _ _ hfit (by decide) hlt
  have h2 := load32_field m p [LB_TAG_CFR_OPTION_VARCHAR, size] _ _ _ hfit
  have h3 := load32_field m p [LB_TAG_CFR_OPTION_VARCHAR, size, o.object_id] _ _ _ hfit
  simp only [List.length_cons, List.length_nil, Nat.zero_add] at h2 h3
  rw [fits_at_append] at hfit
  have hc := hfit.2
  simp only [ref_fields_length, List.length_cons, List.length_nil] at hc
  rw [fits_at_append] at hc
  obtain ⟨hA, hc⟩ := hc
  rw [fits_at_append] at hc
  obtain ⟨hB, hc⟩ := hc
  rw [fits_at_append] at hc
  obtain ⟨hC, hD⟩ := hc
  have hpos : p + 16 + (ref_string LB_TAG_CFR_VARCHAR_DEF_VALUE o.default_value).length
      + (ref_string LB_TAG_CFR_VARCHAR_OPT_NAME o.opt_name).length
      + (ref_string LB_TAG_CFR_VARCHAR_UI_NAME o.ui_name).length
      + (ref_helptext o.ui_helptext).length = p + size := by omega
  have r0 := dump_sm_read_string_default_value m (p + 16) o.default_value depth hd
    (by simpa using hA) (by omega) (by omega)
  have r1 := dump_sm_read_opt_name m
    (p + 16 + (ref_string LB_TAG_CFR_VARCHAR_DEF_VALUE o.default_value).length) o.opt_name
    depth ho (by simpa using hB) (by omega) (by omega)
  have r2 := dump_sm_read_ui_name m
    (p + 16 + (ref_string LB_TAG_CFR_VARCHAR_DEF_VALUE o.default_value).length
      + (ref_string LB_TAG_CFR_VARCHAR_OPT_NAME o.opt_name).length) o.ui_name depth hu
    (by simpa [Nat.add_assoc] using hC) (by omega) (by omega)
  have r3 := dump_sm_read_ui_helptext m
    (p + 16 + (ref_string LB_TAG_CFR_VARCHAR_DEF_VALUE o.default_value).length
      + (ref_string LB_TAG_CFR_VARCHAR_OPT_NAME o.opt_name).length
      + (ref_string LB_TAG_CFR_VARCHAR_UI_NAME o.ui_name).length) o.ui_helptext depth
    (by simpa [Nat.add_assoc] using hD) (by omega) (by omega) (by rw [hpos]; exact hf)
  simp only [sm_read_opt_varchar]
  simp [h0, h1, h2, h3, r0, r1, r2, r3, hpos, dump_tag_ok m p _ h0,
    dump_print_record m p _ _ hp h0 h1, lift_ok, outcome_bind_ok, emit_eq, outcome_pure,
    Outcome.prepend]

theorem dump_sm_read_opt_comment (m : Mem) (p : Nat) (o : sm_obj_comment) (depth : Int)
    (hfit : Fits (ref_opt_comment o) (m.drop p)) (hp : p % 4 = 0)
    (hlt : (ref_opt_comment o).length < 2 ^ 32) (hu : o.ui_name.isSome = true)
    (hf : no_helptext_at m (p + (ref_opt_comment o).length)) :
    sm_read_opt_comment m p depth
      = .ok ((ref_opt_comment o).length, depth) (dump_opt_comment o depth) := by
  have hlen := ref_opt_comment_length o
  have m2 := ref_string_mod4 LB_TAG_CFR_VARCHAR_UI_NAME o.ui_name
  have m3 := ref_helptext_mod4 o.ui_helptext
  unfold dump_opt_comment
  generalize hsz : (ref_opt_comment o).length = size at *
  rw [ref_opt_comment_shape, hsz] at hfit
  obtain ⟨h0, h1⟩ := load32_header m p _ _ _ _ hfit (by decide) hlt
  have h2 := load32_field m p [LB_TAG_CFR_OPTION_COMMENT, size] _ _ _ hfit
  have h3 := load32_field m p [LB_TAG_CFR_OPTION_COMMENT, size, o.object_id] _ _ _ hfit
  simp only [List.length_cons, List.length_nil, Nat.zero_add] at h2 h3
  rw [fits_at_append] at hfit
  have hc := hfit.2
  simp only [ref_fields_length, List.length_cons, List.length_nil] at hc
  rw [fits_at_append] at hc
  obtain ⟨hA, hB⟩ := hc
  have hpos : p + 16 + (ref_string LB_TAG_CFR_VARCHAR_UI_NAME o.ui_name).length
      + (ref_helptext o.ui_helptext).length = p + size := by omega
  have r2 := dump_sm_read_ui_name m (p + 16) o.ui_name depth hu
    (by simpa using hA) (by omega) (by omega)
  have r3 := dump_sm_read_ui_helptext m
    (p + 16 + (ref_string LB_TAG_CFR_VARCHAR_UI_NAME o.ui_name).length) o.ui_helptext depth
    (by simpa using hB) (by omega) (by omega) (by rw [hpos]; exact hf)
  simp only [sm_read_opt_comment]
  simp [h0, h1, h2, h3, r2, r3, hpos, dump_tag_ok m p _ h0,
    dump_print_record m p _ _ hp h0 h1, lift_ok, outcome_bind_ok, emit_eq, outcome_pure,
    Outcome.prepend]

end cfr_read


namespace cfr_read

open cfr

theorem dump_read_numeric_enum (fuel : Nat) (m : Mem) (p oid : Nat)
    (opt ui help : Option (List Nat)) (fl dv : Nat) (vs : List sm_enum_value) (depth : Int)
    (hfit : Fits (ref_numeric LB_TAG_CFR_OPTION_ENUM oid opt ui help fl dv
      (ref_enum_values vs)) (m.drop p)) (hp : p % 4 = 0)
    (hlt : (ref_numeric LB_TAG_CFR_OPTION_ENUM oid opt ui help fl dv
      (ref_enum_values vs)).length < 2 ^ 32)
    (ho : opt.isSome = true) (hu : ui.isSome = true)
    (hf : no_helptext_at m (p + (ref_numeric LB_TAG_CFR_OPTION_ENUM oid opt ui help fl dv
      (ref_enum_values vs)).length))
    (hfu : (ref_numeric LB_TAG_CFR_OPTION_ENUM oid opt ui help fl dv
      (ref_enum_values vs)).length ≤ fuel + 2) :
    read_numeric_option fuel m p LB_TAG_CFR_OPTION_ENUM depth
      = .ok ((ref_numeric LB_TAG_CFR_OPTION_ENUM oid opt ui help fl dv
          (ref_enum_values vs)).length, depth)
          (dump_numeric LB_TAG_CFR_OPTION_ENUM
            (ref_numeric LB_TAG_CFR_OPTION_ENUM oid opt ui help fl dv
              (ref_enum_values vs)).length oid opt ui help fl dv
            (.prop .enum_values :: dump_enum_values vs depth) depth) := by
  have m1 := ref_string_mod4 LB_TAG_CFR_VARCHAR_OPT_NAME opt
  have m2 := ref_string_mod4 LB_TAG_CFR_VARCHAR_UI_NAME ui
  have m3 := ref_helptext_mod4 help
  have hlen := ref_numeric_length LB_TAG_CFR_OPTION_ENUM oid opt ui help fl dv
    (ref_enum_values vs)
  have hfitv : Fits (ref_enum_values vs) (m.drop (p + 20
      + (ref_string LB_TAG_CFR_VARCHAR_OPT_NAME opt).length
      + (ref_string LB_TAG_CFR_VARCHAR_UI_NAME ui).length
      + (ref_helptext help).length)) := by
    have h := hfit
    rw [ref_numeric_shape, fits_at_append] at h
    have hc := h.2
    simp only [ref_fields_length, List.length_cons, List.length_nil] at hc
    rw [fits_at_append] at hc
    obtain ⟨_, hc⟩ := hc
    rw [fits_at_append] at hc
    obtain ⟨_, hc⟩ := hc
    rw [fits_at_append] at hc
    simpa [Nat.add_assoc] using hc.2
  have hend : p + 20 + (ref_string LB_TAG_CFR_VARCHAR_OPT_NAME opt).length
      + (ref_string LB_TAG_CFR_VARCHAR_UI_NAME ui).length
      + (ref_helptext help).length + (ref_enum_values vs).length
      = p + (ref_numeric LB_TAG_CFR_OPTION_ENUM oid opt ui help fl dv
          (ref_enum_values vs)).length := by omega
  have hloop := dump_read_enum_values m vs fuel _ depth hfitv (by omega) (by omega)
    (by omega)
  have hfq := no_helptext_enum_values m _ vs hfitv (by rw [hend]; exact hf)
  rw [hend] at hloop
  exact dump_read_numeric_option fuel m p _ _ _ _ _ _ _ _ _ _ depth hfit hp (by decide) hlt
    ho hu hfq (fun _ => ⟨hloop, rfl⟩) (fun h => absurd rfl h)

theorem dump_sm_read_opt_enum (fuel : Nat) (m : Mem) (p : Nat) (o : sm_obj_enum) (depth : Int)
    (hfit : Fits (ref_opt_enum o) (m.drop p)) (hp : p % 4 = 0)
    (hlt : (ref_opt_enum o).length < 2 ^ 32) (hv : valid_opt_enum o = true)
    (hf : no_helptext_at m (p + (ref_opt_enum o).length))
    (hfu : (ref_opt_enum o).length ≤ fuel + 2) :
    sm_read_opt_enum fuel m p depth
      = .ok ((ref_opt_enum o).length, depth) (dump_opt_enum o depth) := by
  simp only [valid_opt_enum, valid_numeric, Bool.and_eq_true] at hv
  obtain ⟨⟨ho, hu⟩, _⟩ := hv
  unfold sm_read_opt_enum dump_opt_enum
  unfold ref_opt_enum at hfit hlt hf hfu ⊢
  cases hval : o.values with
  | none =>
    simp only [hval] at hfit hlt hf hfu ⊢
    exact dump_read_numeric_enum fuel m p _ _ _ _ _ _ [] depth hfit hp hlt ho hu hf hfu
  | some vs =>
    simp only [hval] at hfit hlt hf hfu ⊢
    exact dump_read_numeric_enum fuel m p _ _ _ _ _ _ vs depth hfit hp hlt ho hu hf hfu

theorem dump_sm_read_opt_number (fuel : Nat) (m : Mem) (p : Nat) (o : sm_obj_number)
    (depth : Int) (hfit : Fits (ref_opt_number o) (m.drop p)) (hp : p % 4 = 0)
    (hlt : (ref_opt_number o).length < 2 ^ 32)
    (hv : valid_numeric o.opt_name o.ui_name = true)
    (hf : no_helptext_at m (p + (ref_opt_number o).length)) :
    sm_read_opt_number fuel m p depth
      = .ok ((ref_opt_number o).length, depth) (dump_opt_number o depth) := by
  simp only [valid_numeric, Bool.and_eq_true] at hv
  unfold sm_read_opt_number dump_opt_number
  unfold ref_opt_number at hfit hlt hf ⊢
  have hlen := ref_numeric_length LB_TAG_CFR_OPTION_NUMBER o.object_id o.opt_name o.ui_name
    o.ui_helptext o.flags o.default_value []
  simp only [List.length_nil, Nat.add_zero] at hlen
  exact dump_read_numeric_option fuel m p _ _ _ _ _ _ _ [] [] _ depth hfit hp (by decide) hlt
    hv.1 hv.2 (by rw [hlen] at hf; simpa [Nat.add_assoc] using hf)
    (fun h => absurd h (by decide)) (fun _ => ⟨rfl, rfl⟩)

theorem dump_sm_read_opt_bool (fuel : Nat) (m : Mem) (p : Nat) (o : sm_obj_bool)
    (depth : Int) (hfit : Fits (ref_opt_bool o) (m.drop p)) (hp : p % 4 = 0)
    (hlt : (ref_opt_bool o).length < 2 ^ 32)
    (hv : valid_numeric o.opt_name o.ui_name = true)
    (hf : no_helptext_at m (p + (ref_opt_bool o).length)) :
    sm_read_opt_bool fuel m p depth
      = .ok ((ref_opt_bool o).length, depth) (dump_opt_bool o depth) := by
  simp only [valid_numeric, Bool.and_eq_true] at hv
  unfold sm_read_opt_bool dump_opt_bool
  unfold ref_opt_bool at hfit hlt hf ⊢
  have hlen := ref_numeric_length LB_TAG_CFR_OPTION_BOOL o.object_id o.opt_name o.ui_name
    o.ui_helptext o.flags (if o.default_value then 1 else 0) []
  simp only [List.length_nil, Nat.add_zero] at hlen
  exact dump_read_numeric_option fuel m p _ _ _ _ _ _ _ [] [] _ depth hfit hp (by decide) hlt
    hv.1 hv.2 (by rw [hlen] at hf; simpa [Nat.add_assoc] using hf)
    (fun h => absurd h (by decide)) (fun _ => ⟨rfl, rfl⟩)

end cfr_read


namespace cfr_read

open cfr

theorem ref_string_length_ge (tag : Nat) (str : Option (List Nat)) (h : str.isSome = true) :
    16 ≤ (ref_string tag str).length := by
  cases str with
  | none => simp at h
  | some s =>
    have h1 := ref_varchar_length_ge tag s
    have h2 := ref_varchar_mod4 tag s
    simp only [ref_string]
    omega

theorem ref_object_nil_cases (o : sm_object) (he : ref_object o = []) :
    o = .obj_none ∨ ∃ k, o = .unknown k := by
  have h0 : (ref_object o).length = 0 := by rw [he]; rfl
  cases o with
  | obj_none => exact Or.inl rfl
  | unknown k => exact Or.inr ⟨k, rfl⟩
  | obj_enum o =>
    simp only [ref_object, ref_opt_enum] at h0; rw [ref_numeric_length] at h0; omega
  | obj_number o =>
    simp only [ref_object, ref_opt_number] at h0; rw [ref_numeric_length] at h0; omega
  | obj_bool o =>
    simp only [ref_object, ref_opt_bool] at h0; rw [ref_numeric_length] at h0; omega
  | obj_varchar o => simp only [ref_object] at h0; rw [ref_opt_varchar_length] at h0; omega
  | obj_comment o => simp only [ref_object] at h0; rw [ref_opt_comment_length] at h0; omega
  | obj_form f =>
    cases f
    simp only [ref_object] at h0; rw [ref_form_length] at h0; omega

theorem dump_object_nil (o : sm_object) (d : Int) (he : ref_object o = []) :
    dump_object o d = [] := by
  rcases ref_object_nil_cases o he with h | ⟨k, h⟩ <;> subst h <;> simp [dump_object]

mutual
theorem dump_sm_read_form (m : Mem) : ∀ (f : sm_obj_form) (fuel p : Nat) (depth : Int),
    Fits (ref_form f) (m.drop p) → p % 4 = 0 → (ref_form f).length < 2 ^ 32 →
    valid_form f = true → no_helptext_at m (p + (ref_form f).length) →
    (ref_form f).length ≤ fuel + 2 →
    sm_read_form fuel m p depth = .ok ((ref_form f).length, depth) (dump_form f depth)
  | .mk oid fl ui os, fuel, p, depth, hfit, hp, hlt, hv, hf, hfu => by
    have hlen := ref_form_length oid fl ui os
    have m2 := ref_string_mod4 LB_TAG_CFR_VARCHAR_UI_NAME ui
    simp only [valid_form, Bool.and_eq_true] at hv
    obtain ⟨hu, hvo⟩ := hv
    have hge := ref_string_length_ge LB_TAG_CFR_VARCHAR_UI_NAME ui hu
    unfold dump_form
    generalize hsz : (ref_form (.mk oid fl ui os)).length = size at *
    rw [ref_form_shape, hsz] at hfit
    obtain ⟨h0, h1⟩ := load32_header m p _ _ _ _ hfit (by decide) hlt
    have h2 := load32_field m p [LB_TAG_CFR_OPTION_FORM, size] _ _ _ hfit
    have h3 := load32_field m p [LB_TAG_CFR_OPTION_FORM, size, oid] _ _ _ hfit
    simp only [List.length_cons, List.length_nil, Nat.zero_add] at h2 h3
    rw [fits_at_append] at hfit
    have hc := hfit.2
    simp only [ref_fields_length, List.length_cons, List.length_nil] at hc
    rw [fits_at_append] at hc
    obtain ⟨hA, hB⟩ := hc
    have hpos : p + 16 + (ref_string LB_TAG_CFR_VARCHAR_UI_NAME ui).length
        + (ref_obj_list os).length = p + size := by omega
    have r2 := dump_sm_read_ui_name m (p + 16) ui depth hu (by simpa using hA) (by omega)
      (by omega)
    cases fuel with
    | zero => omega
    | succ g =>
      have r3 := dump_read_objects m os g
        (p + 16 + (ref_string LB_TAG_CFR_VARCHAR_UI_NAME ui).length) depth
        (by simpa using hB) (by omega) (by omega) hvo (by rw [hpos]; exact hf) (by omega)
      rw [hpos] at r3
      simp only [sm_read_form]
      simp [h0, h1, h2, h3, r2, r3, dump_tag_ok m p _ h0,
        dump_print_record m p _ _ hp h0 h1, lift_ok, outcome_bind_ok, emit_eq, outcome_pure,
        Outcome.prepend]
theorem dump_read_objects (m : Mem) : ∀ (os : List sm_object) (fuel p : Nat) (depth : Int),
    Fits (ref_obj_list os) (m.drop p) → p % 4 = 0 → (ref_obj_list os).length < 2 ^ 32 →
    valid_obj_list os = true → no_helptext_at m (p + (ref_obj_list os).length) →
    (ref_obj_list os).length + 1 ≤ fuel →
    read_objects fuel m (p + (ref_obj_list os).length) p depth
      = .ok (p + (ref_obj_list os).length, depth) (dump_obj_list os depth)
  | [], fuel, p, depth, _, _, _, _, _, hfu => by
    cases fuel with
    | zero => omega
    | succ g => simp [read_objects, ref_obj_list, dump_obj_list, outcome_pure]
  | o :: os, fuel, p, depth, hfit, hp, hlt, hv, hf, hfu => by
    rw [ref_obj_list_cons] at hfit hlt hf hfu ⊢
    rw [fits_at_append] at hfit
    rw [List.length_append] at hlt hf hfu ⊢
    simp only [valid_obj_list, Bool.and_eq_true] at hv
    have m1 := ref_object_mod4 o
    by_cases he : ref_object o = []
    · have hd : dump_object o depth = [] := dump_object_nil o depth he
      have ih := dump_read_objects m os fuel p depth (by simpa [he] using hfit.2) hp
        (by omega) hv.2 (by simpa [he, Nat.add_assoc] using hf) (by omega)
      simp only [dump_obj_list, hd, he, List.length_nil, Nat.zero_add, List.nil_append]
      exact ih
    · have hpos : 0 < (ref_object o).length := List.length_pos.2 he
      cases fuel with
      | zero => omega
      | succ g =>
        have r1 := dump_sm_read_object m o g p depth he hfit.1 hp (by omega) hv.1
          (no_helptext_obj_list m os _ hfit.2 (by rw [Nat.add_assoc]; exact hf)) (by omega)
        have r2 := dump_read_objects m os g (p + (ref_object o).length) depth hfit.2
          (by omega) (by omega) hv.2 (by rw [Nat.add_assoc]; exact hf) (by omega)
        rw [Nat.add_assoc] at r2
        simp only [read_objects]
        rw [if_pos (by omega)]
        simp [r1, r2, outcome_bind_ok, Outcome.prepend, dump_obj_list]
theorem dump_sm_read_object (m : Mem) : ∀ (o : sm_object) (fuel p : Nat) (depth : Int),
    ref_object o ≠ [] → Fits (ref_object o) (m.drop p) → p % 4 = 0 →
    (ref_object o).length < 2 ^ 32 → valid_object o = true →
    no_helptext_at m (p + (ref_object o).length) → (ref_object o).length ≤ fuel →
    sm_read_object fuel m p depth = .ok ((ref_object o).length, depth) (dump_object o depth)
  | .obj_none, _, _, _, he, _, _, _, _, _, _ => by simp [ref_object] at he
  | .unknown _, _, _, _, he, _, _, _, _, _, _ => by simp [ref_object] at he
  | .obj_enum o, fuel, p, depth, _, hfit, hp, hlt, hv, hf, hfu => by
    simp only [ref_object, valid_object] at hfit hlt hv hf hfu ⊢
    have hl : 20 ≤ (ref_opt_enum o).length := by
      unfold ref_opt_enum; rw [ref_numeric_length]; omega
    obtain ⟨g, rfl⟩ : ∃ g, fuel = g + 2 := ⟨fuel - 2, by omega⟩
    have h0 : load32 m p = .ok LB_TAG_CFR_OPTION_ENUM := by
      have h := hfit
      unfold ref_opt_enum at h
      rw [ref_numeric_shape] at h
      exact (load32_header m p _ _ _ _ h (by decide) (by unfold ref_opt_enum at hlt; exact hlt)).1
    have r := dump_sm_read_opt_enum g m p o (depth + 1) hfit hp hlt hv hf hfu
    simp only [sm_read_object, _sm_read_object]
    simp [h0, r, inc_depth, dec_depth, lift_ok, outcome_bind_ok, outcome_pure,
      Outcome.prepend, dump_object]
  | .obj_number o, fuel, p, depth, _, hfit, hp, hlt, hv, hf, hfu => by
    simp only [ref_object, valid_object] at hfit hlt hv hf hfu ⊢
    have hl : 20 ≤ (ref_opt_number o).length := by
      unfold ref_opt_number; rw [ref_numeric_length]; omega
    obtain ⟨g, rfl⟩ : ∃ g, fuel = g + 2 := ⟨fuel - 2, by omega⟩
    have h0 : load32 m p = .ok LB_TAG_CFR_OPTION_NUMBER := by
      have h := hfit
      unfold ref_opt_number at h
      rw [ref_numeric_shape] at h
      exact (load32_header m p _ _ _ _ h (by decide)
        (by unfold ref_opt_number at hlt; exact hlt)).1
    have r := dump_sm_read_opt_number g m p o (depth + 1) hfit hp hlt hv hf
    simp only [sm_read_object, _sm_read_object]
    simp [h0, r, inc_depth, dec_depth, lift_ok, outcome_bind_ok, outcome_pure,
      Outcome.prepend, dump_object]
  | .obj_bool o, fuel, p, depth, _, hfit, hp, hlt, hv, hf, hfu => by
    simp only [ref_object, valid_object] at hfit hlt hv hf hfu ⊢
    have hl : 20 ≤ (ref_opt_bool o).length := by
      unfold ref_opt_bool; rw [ref_numeric_length]; omega
    obtain ⟨g, rfl⟩ : ∃ g, fuel = g + 2 := ⟨fuel - 2, by omega⟩
    have h0 : load32 m p = .ok LB_TAG_CFR_OPTION_BOOL := by
      have h := hfit
      unfold ref_opt_bool at h
      rw [ref_numeric_shape] at h
      exact (load32_header m p _ _ _ _ h (by decide)
        (by unfold ref_opt_bool at hlt; exact hlt)).1
    have r := dump_sm_read_opt_bool g m p o (depth + 1) hfit hp hlt hv hf
    simp only [sm_read_object, _sm_read_object]
    simp [h0, r, inc_depth, dec_depth, lift_ok, outcome_bind_ok, outcome_pure,
      Outcome.prepend, dump_object]
  | .obj_varchar o, fuel, p, depth, _, hfit, hp, hlt, hv, hf, hfu => by
    simp only [ref_object, valid_object] at hfit hlt hv hf hfu ⊢
    have hl : 16 ≤ (ref_opt_varchar o).length := by
      rw [ref_opt_varchar_length]; omega
    obtain ⟨g, rfl⟩ : ∃ g, fuel = g + 2 := ⟨fuel - 2, by omega⟩
    have h0 : load32 m p = .ok LB_TAG_CFR_OPTION_VARCHAR := by
      have h := hfit
      rw [ref_opt_varchar_shape] at h
      exact (load32_header m p _ _ _ _ h (by decide) hlt).1
    have r := dump_sm_read_opt_varchar m p o (depth + 1) hfit hp hlt hv hf
    simp only [sm_read_object, _sm_read_object]
    simp [h0, r, inc_depth, dec_depth, lift_ok, outcome_bind_ok, outcome_pure,
      Outcome.prepend, dump_object]
  | .obj_comment o, fuel, p, depth, _, hfit, hp, hlt, hv, hf, hfu => by
    simp only [ref_object, valid_object] at hfit hlt hv hf hfu ⊢
    have hl : 16 ≤ (ref_opt_comment o).length := by
      rw [ref_opt_comment_length]; omega
    obtain ⟨g, rfl⟩ : ∃ g, fuel = g + 2 := ⟨fuel - 2, by omega⟩
    have h0 : load32 m p = .ok LB_TAG_CFR_OPTION_COMMENT := by
      have h := hfit
      rw [ref_opt_comment_shape] at h
      exact (load32_header m p _ _ _ _ h (by decide) hlt).1
    have r := dump_sm_read_opt_comment m p o (depth + 1) hfit hp hlt hv hf
    simp only [sm_read_object, _sm_read_object]
    simp [h0, r, inc_depth, dec_depth, lift_ok, outcome_bind_ok, outcome_pure,
      Outcome.prepend, dump_object]
  | .obj_form f, fuel, p, depth, _, hfit, hp, hlt, hv, hf, hfu => by
    simp only [ref_object, valid_object] at hfit hlt hv hf hfu ⊢
    have hl : 16 ≤ (ref_form f).length := by
      cases f; rw [ref_form_length]; omega
    obtain ⟨g, rfl⟩ : ∃ g, fuel = g + 2 := ⟨fuel - 2, by omega⟩
    have h0 : load32 m p = .ok LB_TAG_CFR_OPTION_FORM := by
      have h := hfit
      cases f
      rw [ref_form_shape] at h
      exact (load32_header m p _ _ _ _ h (by decide) hlt).1
    have r := dump_sm_read_form m f g p (depth + 1) hfit hp hlt hv hf hfu
    simp only [sm_read_object, _sm_read_object]
    simp [h0, r, inc_depth, dec_depth, lift_ok, outcome_bind_ok, outcome_pure,
      Outcome.prepend, dump_object]
end

end cfr_read


namespace cfr_read

open cfr

theorem ref_form_list_eq (fs : List sm_obj_form) :
    ref_form_list fs = ref_obj_list (fs.map .obj_form) := by
  induction fs with
  | nil => simp [ref_form_list, ref_obj_list]
  | cons f fs ih => simp [ref_form_list, ref_obj_list, ref_object, ih]

theorem valid_form_list_eq (fs : List sm_obj_form) :
    valid_form_list fs = valid_obj_list (fs.map .obj_form) := by
  induction fs with
  | nil => simp [valid_form_list, valid_obj_list]
  | cons f fs ih => simp [valid_form_list, valid_obj_list, valid_object, ih]

theorem dump_form_list_eq (fs : List sm_obj_form) (d : Int) :
    dump_form_list fs d = dump_obj_list (fs.map .obj_form) d := by
  induction fs with
  | nil => simp [dump_form_list, dump_obj_list]
  | cons f fs ih => simp [dump_form_list, dump_obj_list, dump_object, ih]

/-- The debug decoder on a buffer that starts with the image of a tree and has a readable
word that is not the help-text tag right after it. -/
theorem dump_sm_read_cfr (b : Mem) (r : setup_menu_root) (crc fuel : Nat)
    (hfit : Fits (ref_root r crc) b) (hcrc : crc < 2 ^ 32)
    (hlt : (ref_root r 0).length < 2 ^ 32) (hv : valid_form_list r.form_list = true)
    (hf : no_helptext_at b (ref_root r 0).length) (hfu : (ref_root r 0).length ≤ fuel) :
    sm_read_cfr fuel b = .ok 0 (dump_root r crc) := by
  have hlen := ref_root_length r crc
  have hlen0 := ref_root_length r 0
  unfold dump_root
  generalize hsz : (ref_root r 0).length = size at *
  rw [← List.drop_zero b, ref_root_shape, hlen, ← hlen0] at hfit
  obtain ⟨h0, h1⟩ := load32_header b 0 _ _ _ _ hfit (by decide) hlt
  have h2 := load32_field b 0 [LB_TAG_CFR, size] _ _ _ hfit
  simp only [List.length_cons, List.length_nil, Nat.zero_add] at h2
  rw [Nat.mod_eq_of_lt hcrc] at h2
  rw [fits_at_append] at hfit
  have hc := hfit.2
  simp only [ref_fields_length, List.length_cons, List.length_nil, Nat.zero_add] at hc
  rw [ref_form_list_eq] at hc hlen0
  rw [valid_form_list_eq] at hv
  have r3 := dump_read_objects b (r.form_list.map .obj_form) fuel 12 0 (by simpa using hc)
    (by decide) (by omega) hv (by rw [← hlen0]; exact hf) (by omega)
  rw [← hlen0] at r3
  simp only [sm_read_cfr]
  simp [h0, h1, h2, r3, dump_tag_ok b 0 _ h0, dump_print_record b 0 _ _ rfl h0 h1, lift_ok,
    outcome_bind_ok, emit_eq, outcome_pure, Outcome.prepend, dump_form_list_eq]

end cfr_read


namespace cfr

/-! ## Round trip: the parts of the option images -/

theorem numeric_parts (m : Mem) (p tag oid : Nat) (opt ui help : Option (List Nat))
    (fl dv : Nat) (v : List Cell)
    (hfit : Fits (ref_numeric tag oid opt ui help fl dv v) (m.drop p)) (htag : tag < 2 ^ 32)
    (hlt : (ref_numeric tag oid opt ui help fl dv v).length < 2 ^ 32) :
    load32 m p = .ok tag ∧
      load32 m (p + 4) = .ok (ref_numeric tag oid opt ui help fl dv v).length ∧
      load32 m (p + 8) = .ok (oid % 2 ^ 32) ∧ load32 m (p + 12) = .ok (fl % 2 ^ 32) ∧
      load32 m (p + 16) = .ok (dv % 2 ^ 32) ∧
      Fits (ref_string LB_TAG_CFR_VARCHAR_OPT_NAME opt) (m.drop (p + 20)) ∧
      Fits (ref_string LB_TAG_CFR_VARCHAR_UI_NAME ui)
        (m.drop (p + 20 + (ref_string LB_TAG_CFR_VARCHAR_OPT_NAME opt).length)) ∧
      Fits (ref_helptext help)
        (m.drop (p + 20 + (ref_string LB_TAG_CFR_VARCHAR_OPT_NAME opt).length
          + (ref_string LB_TAG_CFR_VARCHAR_UI_NAME ui).length)) ∧
      Fits v
        (m.drop (p + 20 + (ref_string LB_TAG_CFR_VARCHAR_OPT_NAME opt).length
          + (ref_string LB_TAG_CFR_VARCHAR_UI_NAME ui).length + (ref_helptext help).length)) := by
  generalize hsz : (ref_numeric tag oid opt ui help fl dv v).length = size at *
  rw [ref_numeric_shape, hsz] at hfit
  obtain ⟨h0, h1⟩ := load32_header m p _ _ _ _ hfit htag hlt
  have h2 := load32_field m p [tag, size] _ _ _ hfit
  have h3 := load32_field m p [tag, size, oid] _ _ _ hfit
  have h4 := load32_field m p [tag, size, oid, fl] _ _ _ hfit
  simp only [List.length_cons, List.length_nil, Nat.zero_add] at h2 h3 h4
  rw [fits_at_append] at hfit
  have hc := hfit.2
  simp only [ref_fields_length, List.length_cons, List.length_nil] at hc
  rw [fits_at_append] at hc
  obtain ⟨hA, hc⟩ := hc
  rw [fits_at_append] at hc
  obtain ⟨hB, hc⟩ := hc
  rw [fits_at_append] at hc
  obtain ⟨hC, hD⟩ := hc
  exact ⟨h0, h1, h2, h3, h4, by simpa using hA, by simpa using hB,
    by simpa [Nat.add_assoc] using hC, by simpa [Nat.add_assoc] using hD⟩

theorem opt_varchar_parts (m : Mem) (p : Nat) (o : sm_obj_varchar)
    (hfit : Fits (ref_opt_varchar o) (m.drop p))
    (hlt : (ref_opt_varchar o).length < 2 ^ 32) :
    load32 m p = .ok LB_TAG_CFR_OPTION_VARCHAR ∧
      load32 m (p + 4) = .ok (ref_opt_varchar o).length ∧
      load32 m (p + 8) = .ok (o.object_id % 2 ^ 32) ∧
      load32 m (p + 12) = .ok (o.flags % 2 ^ 32) ∧
      Fits (ref_string LB_TAG_CFR_VARCHAR_DEF_VALUE o.default_value) (m.drop (p + 16)) ∧
      Fits (ref_string LB_TAG_CFR_VARCHAR_OPT_NAME o.opt_name)
        (m.drop (p + 16 + (ref_string LB_TAG_CFR_VARCHAR_DEF_VALUE o.default_value).length)) ∧
      Fits (ref_string LB_TAG_CFR_VARCHAR_UI_NAME o.ui_name)
        (m.drop (p + 16 + (ref_string LB_TAG_CFR_VARCHAR_DEF_VALUE o.default_value).length
          + (ref_string LB_TAG_CFR_VARCHAR_OPT_NAME o.opt_name).length)) ∧
      Fits (ref_helptext o.ui_helptext)
        (m.drop (p + 16 + (ref_string LB_TAG_CFR_VARCHAR_DEF_VALUE o.default_value).length
          + (ref_string LB_TAG_CFR_VARCHAR_OPT_NAME o.opt_name).length
          + (ref_string LB_TAG_CFR_VARCHAR_UI_NAME o.ui_name).length)) := by
  generalize hsz : (ref_opt_varchar o).length = size at *
  rw [ref_opt_varchar_shape, hsz] at hfit
  obtain ⟨h0, h1⟩ := load32_header m p _ _ _ _ hfit (by decide) hlt
  have h2 := load32_field m p [LB_TAG_CFR_OPTION_VARCHAR, size] _ _ _ hfit
  have h3 := load32_field m p [LB_TAG_CFR_OPTION_VARCHAR, size, o.object_id] _ _ _ hfit
  simp only [List.length_cons, List.length_nil, Nat.zero_add] at h2 h3
  rw [fits_at_append] at hfit
  have hc := hfit.2
  simp only [ref_fields_length, List.length_cons, List.length_nil] at hc
  rw [fits_at_append] at hc
  obtain ⟨hA, hc⟩ := hc
  rw [fits_at_append] at hc
  obtain ⟨hB, hc⟩ := hc
  rw [fits_at_append] at hc
  obtain ⟨hC, hD⟩ := hc
  exact ⟨h0, h1, h2, h3, by simpa using hA, by simpa using hB,
    by simpa [Nat.add_assoc] using hC, by simpa [Nat.add_assoc] using hD⟩

theorem opt_comment_parts (m : Mem) (p : Nat) (o : sm_obj_comment)
    (hfit : Fits (ref_opt_comment o) (m.drop p))
    (hlt : (ref_opt_comment o).length < 2 ^ 32) :
    load32 m p = .ok LB_TAG_CFR_OPTION_COMMENT ∧
      load32 m (p + 4) = .ok (ref_opt_comment o).length ∧
      load32 m (p + 8) = .ok (o.object_id % 2 ^ 32) ∧
      load32 m (p + 12) = .ok (o.flags % 2 ^ 32) ∧
      Fits (ref_string LB_TAG_CFR_VARCHAR_UI_NAME o.ui_name) (m.drop (p + 16)) ∧
      Fits (ref_helptext o.ui_helptext)
        (m.drop (p + 16 + (ref_string LB_TAG_CFR_VARCHAR_UI_NAME o.ui_name).length)) := by
  generalize hsz : (ref_opt_comment o).length = size at *
  rw [ref_opt_comment_shape, hsz] at hfit
  obtain ⟨h0, h1⟩ := load32_header m p _ _ _ _ hfit (by decide) hlt
  have h2 := load32_field m p [LB_TAG_CFR_OPTION_COMMENT, size] _ _ _ hfit
  have h3 := load32_field m p [LB_TAG_CFR_OPTION_COMMENT, size, o.object_id] _ _ _ hfit
  simp only [List.length_cons, List.length_nil, Nat.zero_add] at h2 h3
  rw [fits_at_append] at hfit
  have hc := hfit.2
  simp only [ref_fields_length, List.length_cons, List.length_nil] at hc
  rw [fits_at_append] at hc
  obtain ⟨hA, hB⟩ := hc
  exact ⟨h0, h1, h2, h3, by simpa using hA, by simpa using hB⟩

theorem form_parts (m : Mem) (p oid fl : Nat) (ui : Option (List Nat)) (os : List sm_object)
    (hfit : Fits (ref_form (.mk oid fl ui os)) (m.drop p))
    (hlt : (ref_form (.mk oid fl ui os)).length < 2 ^ 32) :
    load32 m p = .ok LB_TAG_CFR_OPTION_FORM ∧
      load32 m (p + 4) = .ok (ref_form (.mk oid fl ui os)).length ∧
      load32 m (p + 8) = .ok (oid % 2 ^ 32) ∧
      load32 m (p + 12) = .ok (fl % 2 ^ 32) ∧
      Fits (ref_string LB_TAG_CFR_VARCHAR_UI_NAME ui) (m.drop (p + 16)) ∧
      Fits (ref_obj_list os)
        (m.drop (p + 16 + (ref_string LB_TAG_CFR_VARCHAR_UI_NAME ui).length)) := by
  generalize hsz : (ref_form (.mk oid fl ui os)).length = size at *
  rw [ref_form_shape, hsz] at hfit
  obtain ⟨h0, h1⟩ := load32_header m p _ _ _ _ hfit (by decide) hlt
  have h2 := load32_field m p [LB_TAG_CFR_OPTION_FORM, size] _ _ _ hfit
  have h3 := load32_field m p [LB_TAG_CFR_OPTION_FORM, size, oid] _ _ _ hfit
  simp only [List.length_cons, List.length_nil, Nat.zero_add] at h2 h3
  rw [fits_at_append] at hfit
  have hc := hfit.2
  simp only [ref_fields_length, List.length_cons, List.length_nil] at hc
  rw [fits_at_append] at hc
  obtain ⟨hA, hB⟩ := hc
  exact ⟨h0, h1, h2, h3, by simpa using hA, by simpa using hB⟩

end cfr

namespace cfr_to_html

open cfr

theorem html_tag_ok (m : Mem) (p tag : Nat) (h0 : load32 m p = .ok tag) :
    _tag_ok m p tag = .ok () [] := by
  simp [_tag_ok, h0, lift_ok, outcome_bind_ok, outcome_pure, Outcome.prepend]

theorem html_read_cfr_varchar (m : Mem) (p tag : Nat) (s : List Nat)
    (hfit : Fits (ref_varchar tag s) (m.drop p)) (htag : tag < 2 ^ 32)
    (hlt : (ref_varchar tag s).length < 2 ^ 32) :
    read_cfr_varchar m p tag = .ok (cstr s, (ref_varchar tag s).length) [] := by
  obtain ⟨h0, h1, h2, h3, h4⟩ := varchar_fields m p tag s hfit htag hlt
  simp only [read_cfr_varchar]
  rw [html_tag_neq_eq m p tag tag h0]
  simp [h1, h2, h3, h4, lift_ok, outcome_bind_ok, outcome_pure, Outcome.prepend, strlen_cstr]

theorem html_read_cfr_varchar_absent (m : Mem) (p : Nat) (hf : no_helptext_at m p) :
    read_cfr_varchar m p LB_TAG_CFR_VARCHAR_UI_HELPTEXT = .ok ([], 0) [] := by
  obtain ⟨t, ht, hne⟩ := hf
  simp only [read_cfr_varchar]
  rw [html_tag_neq_eq m p _ t ht]
  simp [hne, outcome_bind_ok, outcome_pure, Outcome.prepend]

theorem html_read_string (m : Mem) (p tag : Nat) (str : Option (List Nat))
    (hs : str.isSome = true) (hfit : Fits (ref_string tag str) (m.drop p))
    (htag : tag < 2 ^ 32) (hlt : (ref_string tag str).length < 2 ^ 32) :
    read_cfr_varchar m p tag = .ok (opt_cstr str, (ref_string tag str).length) [] := by
  cases str with
  | none => simp at hs
  | some s => exact html_read_cfr_varchar m p tag s hfit htag hlt

theorem html_sm_read_ui_helptext (m : Mem) (p : Nat) (str : Option (List Nat))
    (hfit : Fits (ref_helptext str) (m.drop p)) (hlt : (ref_helptext str).length < 2 ^ 32)
    (hf : no_helptext_at m (p + (ref_helptext str).length)) :
    sm_read_ui_helptext m p = .ok (opt_cstr str, (ref_helptext str).length) [] := by
  unfold sm_read_ui_helptext
  cases str with
  | none =>
    simp only [ref_helptext, opt_cstr, List.length_nil, Nat.add_zero] at hf ⊢
    exact html_read_cfr_varchar_absent m p hf
  | some s =>
    by_cases hc : cstr s = []
    · simp only [ref_helptext, hc, if_true, opt_cstr, List.length_nil, Nat.add_zero] at hf ⊢
      exact html_read_cfr_varchar_absent m p hf
    · simp only [ref_helptext, hc, if_false, opt_cstr] at hfit hlt ⊢
      exact html_read_cfr_varchar m p _ s hfit (by decide) hlt

end cfr_to_html


namespace cfr_to_html

open cfr

theorem html_sm_read_enum_value (m : Mem) (p dflt : Nat) (e : sm_enum_value)
    (hs : e.ui_name.isSome = true)
    (hfit : Fits (ref_enum_value e) (m.drop p))
    (hlt : (ref_enum_value e).length < 2 ^ 32) :
    sm_read_enum_value m p dflt
      = .ok (ref_enum_value e).length
          [.option (e.value % 2 ^ 32) (decide (e.value % 2 ^ 32 = dflt))
            (opt_cstr e.ui_name)] := by
  have hlen := ref_enum_value_length e
  rw [ref_enum_value_shape] at hfit
  obtain ⟨h0, h1⟩ := load32_header m p _ _ _ _ hfit (by decide) hlt
  have h2 := load32_field m p [LB_TAG_CFR_ENUM_VALUE, (ref_enum_value e).length] _ _ _ hfit
  simp only [List.length_cons, List.length_nil, Nat.zero_add] at h2
  rw [fits_at_append] at hfit
  have hc := hfit.2
  simp only [ref_fields_length, List.length_cons, List.length_nil] at hc
  have hu : sm_read_ui_name m (p + 12)
      = .ok (opt_cstr e.ui_name, (ref_string LB_TAG_CFR_VARCHAR_UI_NAME e.ui_name).length) [] :=
    html_read_string m (p + 12) _ e.ui_name hs (by simpa using hc) (by decide) (by omega)
  simp only [sm_read_enum_value]
  simp [h1, h2, hu, html_tag_ok m p _ h0, lift_ok, outcome_bind_ok, emit_eq,
    outcome_pure, Outcome.prepend, hlen, Nat.add_assoc]

theorem html_read_enum_values (m : Mem) (dv : Nat) : ∀ (vs : List sm_enum_value)
    (fuel p : Nat), Fits (ref_enum_values vs) (m.drop p) →
    (ref_enum_values vs).length < 2 ^ 32 → (ref_enum_values vs).length + 1 ≤ fuel →
    read_enum_values fuel m (p + (ref_enum_values vs).length) p (dv % 2 ^ 32)
      = .ok (p + (ref_enum_values vs).length) (html_enum_values vs dv) := by
  intro vs
  induction vs with
  | nil =>
    intro fuel p _ _ hfu
    cases fuel with
    | zero => omega
    | succ f => simp [read_enum_values, ref_enum_values, html_enum_values, outcome_pure]
  | cons e es ih =>
    intro fuel p hfit hlt hfu
    cases fuel with
    | zero => omega
    | succ f =>
      cases hu : e.ui_name with
      | none => simp [read_enum_values, ref_enum_values, html_enum_values, hu, outcome_pure]
      | some s =>
        simp only [ref_enum_values, html_enum_values, hu] at hfit hlt hfu ⊢
        rw [fits_at_append] at hfit
        rw [List.length_append] at hlt hfu ⊢
        have hpos : 0 < (ref_enum_value e).length := by
          have := ref_enum_value_length e; omega
        have hv := html_sm_read_enum_value m p (dv % 2 ^ 32) e (by simp [hu]) hfit.1
          (by omega)
        have hrest := ih f (p + (ref_enum_value e).length) hfit.2 (by omega) (by omega)
        rw [← Nat.add_assoc]
        simp only [read_enum_values]
        rw [if_pos (by omega)]
        simp only [Nat.reducePow] at hv hrest
        simp [hv, hrest, outcome_bind_ok, Outcome.prepend, hu, opt_cstr]

theorem html_read_numeric_enum (fuel : Nat) (m : Mem) (p oid : Nat)
    (opt ui help : Option (List Nat)) (fl dv : Nat) (vs : List sm_enum_value)
    (hfit : Fits (ref_numeric LB_TAG_CFR_OPTION_ENUM oid opt ui help fl dv
      (ref_enum_values vs)) (m.drop p))
    (hlt : (ref_numeric LB_TAG_CFR_OPTION_ENUM oid opt ui help fl dv
      (ref_enum_values vs)).length < 2 ^ 32)
    (ho : opt.isSome = true) (hu : ui.isSome = true)
    (hf : no_helptext_at m (p + (ref_numeric LB_TAG_CFR_OPTION_ENUM oid opt ui help fl dv
      (ref_enum_values vs)).length))
    (hfu : (ref_numeric LB_TAG_CFR_OPTION_ENUM oid opt ui help fl dv
      (ref_enum_values vs)).length ≤ fuel + 2) :
    sm_read_opt_enum fuel m p
      = .ok (ref_numeric LB_TAG_CFR_OPTION_ENUM oid opt ui help fl dv
          (ref_enum_values vs)).length
          (.select_open (oid % 2 ^ 32) (opt_cstr opt) (print_flags (fl % 2 ^ 32)) (opt_cstr ui)
            :: html_enum_values vs dv ++ [.select_close (opt_cstr help)]) := by
  have hlen := ref_numeric_length LB_TAG_CFR_OPTION_ENUM oid opt ui help fl dv
    (ref_enum_values vs)
  obtain ⟨h0, h1, h2, h3, h4, hA, hB, hC, hD⟩ := numeric_parts m p _ _ _ _ _ _ _ _ hfit
    (by decide) hlt
  generalize hsz : (ref_numeric LB_TAG_CFR_OPTION_ENUM oid opt ui help fl dv
    (ref_enum_values vs)).length = size at *
  have hend : p + 20 + (ref_string LB_TAG_CFR_VARCHAR_OPT_NAME opt).length
      + (ref_string LB_TAG_CFR_VARCHAR_UI_NAME ui).length
      + (ref_helptext help).length + (ref_enum_values vs).length = p + size := by omega
  have r1 : sm_read_opt_name m (p + 20) = _ :=
    html_read_string m (p + 20) _ opt ho hA (by decide) (by omega)
  have r2 : sm_read_ui_name m (p + 20 + (ref_string LB_TAG_CFR_VARCHAR_OPT_NAME opt).length)
      = _ := html_read_string m _ _ ui hu hB (by decide) (by omega)
  have r3 := html_sm_read_ui_helptext m _ help hC (by omega)
    (no_helptext_enum_values m _ vs hD (by rw [hend]; exact hf))
  have r4 := html_read_enum_values m dv vs fuel _ hD (by omega) (by omega)
  rw [hend] at r4
  simp only [Nat.reducePow] at r4
  simp only [sm_read_opt_enum]
  simp [h1, h2, h3, h4, r1, r2, r3, r4, html_tag_ok m p _ h0, lift_ok, outcome_bind_ok,
    emit_eq, outcome_pure, Outcome.prepend]

theorem html_sm_read_opt_number (m : Mem) (p : Nat) (o : sm_obj_number)
    (hfit : Fits (ref_opt_number o) (m.drop p)) (hlt : (ref_opt_number o).length < 2 ^ 32)
    (hv : valid_numeric o.opt_name o.ui_name = true)
    (hf : no_helptext_at m (p + (ref_opt_number o).length)) :
    sm_read_opt_number m p
      = .ok (ref_opt_number o).length
          [.number (o.object_id % 2 ^ 32) (opt_cstr o.opt_name) (o.default_value % 2 ^ 32)
            (print_flags (o.flags % 2 ^ 32)) (opt_cstr o.ui_name)
            (opt_cstr o.ui_helptext)] := by
  simp only [valid_numeric, Bool.and_eq_true] at hv
  unfold ref_opt_number at hfit hlt hf ⊢
  have hlen := ref_numeric_length LB_TAG_CFR_OPTION_NUMBER o.object_id o.opt_name o.ui_name
    o.ui_helptext o.flags o.default_value []
  obtain ⟨h0, h1, h2, h3, h4, hA, hB, hC, _⟩ := numeric_parts m p _ _ _ _ _ _ _ _ hfit
    (by decide) hlt
  generalize hsz : (ref_numeric LB_TAG_CFR_OPTION_NUMBER o.object_id o.opt_name o.ui_name
    o.ui_helptext o.flags o.default_value []).length = size at *
  simp only [List.length_nil, Nat.add_zero] at hlen
  have hend : p + 20 + (ref_string LB_TAG_CFR_VARCHAR_OPT_NAME o.opt_name).length
      + (ref_string LB_TAG_CFR_VARCHAR_UI_NAME o.ui_name).length
      + (ref_helptext o.ui_helptext).length = p + size := by omega
  have r1 : sm_read_opt_name m (p + 20) = _ :=
    html_read_string m (p + 20) _ o.opt_name hv.1 hA (by decide) (by omega)
  have r2 : sm_read_ui_name m
      (p + 20 + (ref_string LB_TAG_CFR_VARCHAR_OPT_NAME o.opt_name).length) = _ :=
    html_read_string m _ _ o.ui_name hv.2 hB (by decide) (by omega)
  have r3 := html_sm_read_ui_helptext m _ o.ui_helptext hC (by omega)
    (by rw [hend]; exact hf)
  simp only [sm_read_opt_number]
  simp [h1, h2, h3, h4, r1, r2, r3, hend, html_tag_ok m p _ h0, lift_ok, outcome_bind_ok,
    emit_eq, outcome_pure, Outcome.prepend]

theorem html_sm_read_opt_bool (m : Mem) (p : Nat) (o : sm_obj_bool)
    (hfit : Fits (ref_opt_bool o) (m.drop p)) (hlt : (ref_opt_bool o).length < 2 ^ 32)
    (hv : valid_numeric o.opt_name o.ui_name = true)
    (hf : no_helptext_at m (p + (ref_opt_bool o).length)) :
    sm_read_opt_bool m p
      = .ok (ref_opt_bool o).length
          [.checkbox (o.object_id % 2 ^ 32) (opt_cstr o.opt_name) o.default_value
            (print_flags (o.flags % 2 ^ 32)) (opt_cstr o.ui_name)
            (opt_cstr o.ui_helptext)] := by
  simp only [valid_numeric, Bool.and_eq_true] at hv
  unfold ref_opt_bool at hfit hlt hf ⊢
  have hlen := ref_numeric_length LB_TAG_CFR_OPTION_BOOL o.object_id o.opt_name o.ui_name
    o.ui_helptext o.flags (if o.default_value then 1 else 0) []
  obtain ⟨h0, h1, h2, h3, h4, hA, hB, hC, _⟩ := numeric_parts m p _ _ _ _ _ _ _ _ hfit
    (by decide) hlt
  generalize hsz : (ref_numeric LB_TAG_CFR_OPTION_BOOL o.object_id o.opt_name o.ui_name
    o.ui_helptext o.flags (if o.default_value then 1 else 0) []).length = size at *
  simp only [List.length_nil, Nat.add_zero] at hlen
  have hend : p + 20 + (ref_string LB_TAG_CFR_VARCHAR_OPT_NAME o.opt_name).length
      + (ref_string LB_TAG_CFR_VARCHAR_UI_NAME o.ui_name).length
      + (ref_helptext o.ui_helptext).length = p + size := by omega
  have r1 : sm_read_opt_name m (p + 20) = _ :=
    html_read_string m (p + 20) _ o.opt_name hv.1 hA (by decide) (by omega)
  have r2 : sm_read_ui_name m
      (p + 20 + (ref_string LB_TAG_CFR_VARCHAR_OPT_NAME o.opt_name).length) = _ :=
    html_read_string m _ _ o.ui_name hv.2 hB (by decide) (by omega)
  have r3 := html_sm_read_ui_helptext m _ o.ui_helptext hC (by omega)
    (by rw [hend]; exact hf)
  have hb : decide ((if o.default_value = true then 1 else 0) % 2 ^ 32 ≠ 0)
      = o.default_value := by
    cases o.default_value <;> simp
  simp only [sm_read_opt_bool]
  simp only [h1, h2, h3, h4, r1, r2, r3, hend, html_tag_ok m p _ h0, lift_ok,
    outcome_bind_ok, emit_eq, outcome_pure, Outcome.prepend, hb]
  simp

end cfr_to_html


namespace cfr_to_html

open cfr

theorem html_sm_read_opt_enum (fuel : Nat) (m : Mem) (p : Nat) (o : sm_obj_enum)
    (hfit : Fits (ref_opt_enum o) (m.drop p))
    (hlt : (ref_opt_enum o).length < 2 ^ 32) (hv : valid_opt_enum o = true)
    (hf : no_helptext_at m (p + (ref_opt_enum o).length))
    (hfu : (ref_opt_enum o).length ≤ fuel + 2) :
    sm_read_opt_enum fuel m p
      = .ok (ref_opt_enum o).length
          (.select_open (o.object_id % 2 ^ 32) (opt_cstr o.opt_name)
              (print_flags (o.flags % 2 ^ 32)) (opt_cstr o.ui_name)
            :: html_opt_values o ++ [.select_close (opt_cstr o.ui_helptext)]) := by
  simp only [valid_opt_enum, valid_numeric, Bool.and_eq_true] at hv
  obtain ⟨⟨ho, hu⟩, _⟩ := hv
  unfold html_opt_values
  unfold ref_opt_enum at hfit hlt hf hfu ⊢
  cases hval : o.values with
  | none =>
    simp only [hval] at hfit hlt hf hfu ⊢
    exact html_read_numeric_enum fuel m p _ _ _ _ _ _ [] hfit hlt ho hu hf hfu
  | some vs =>
    simp only [hval] at hfit hlt hf hfu ⊢
    exact html_read_numeric_enum fuel m p _ _ _ _ _ _ vs hfit hlt ho hu hf hfu

theorem html_sm_read_opt_varchar (m : Mem) (p : Nat) (o : sm_obj_varchar)
    (hfit : Fits (ref_opt_varchar o) (m.drop p))
    (hlt : (ref_opt_varchar o).length < 2 ^ 32) (hv : valid_opt_varchar o = true)
    (hf : no_helptext_at m (p + (ref_opt_varchar o).length)) :
    sm_read_opt_varchar m p
      = .ok (ref_opt_varchar o).length
          [.text (o.object_id % 2 ^ 32) (opt_cstr o.opt_name) (opt_cstr o.default_value)
            (print_flags (o.flags % 2 ^ 32)) (opt_cstr o.ui_name)
            (opt_cstr o.ui_helptext)] := by
  have hlen := ref_opt_varchar_length o
  simp only [valid_opt_varchar, Bool.and_eq_true] at hv
  obtain ⟨⟨hd, ho⟩, hu⟩ := hv
  obtain ⟨h0, h1, h2, h3, hA, hB, hC, hD⟩ := opt_varchar_parts m p o hfit hlt
  generalize hsz : (ref_opt_varchar o).length = size at *
  have hend : p + 16 + (ref_string LB_TAG_CFR_VARCHAR_DEF_VALUE o.default_value).length
      + (ref_string LB_TAG_CFR_VARCHAR_OPT_NAME o.opt_name).length
      + (ref_string LB_TAG_CFR_VARCHAR_UI_NAME o.ui_name).length
      + (ref_helptext o.ui_helptext).length = p + size := by omega
  have r0 : sm_read_string_default_value m (p + 16) = _ :=
    html_read_string m (p + 16) _ o.default_value hd hA (by decide) (by omega)
  have r1 : sm_read_opt_name m
      (p + 16 + (ref_string LB_TAG_CFR_VARCHAR_DEF_VALUE o.default_value).length) = _ :=
    html_read_string m _ _ o.opt_name ho hB (by decide) (by omega)
  have r2 : sm_read_ui_name m
      (p + 16 + (ref_string LB_TAG_CFR_VARCHAR_DEF_VALUE o.default_value).length
        + (ref_string LB_TAG_CFR_VARCHAR_OPT_NAME o.opt_name).length) = _ :=
    html_read_string m _ _ o.ui_name hu hC (by decide) (by omega)
  have r3 := html_sm_read_ui_helptext m _ o.ui_helptext hD (by omega)
    (by rw [hend]; exact hf)
  simp only [sm_read_opt_varchar]
  simp [h1, h2, h3, r0, r1, r2, r3, hend, html_tag_ok m p _ h0, lift_ok, outcome_bind_ok,
    emit_eq, outcome_pure, Outcome.prepend]

theorem html_sm_read_opt_comment (m : Mem) (p : Nat) (o : sm_obj_comment)
    (hfit : Fits (ref_opt_comment o) (m.drop p))
    (hlt : (ref_opt_comment o).length < 2 ^ 32) (hu : o.ui_name.isSome = true)
    (hf : no_helptext_at m (p + (ref_opt_comment o).length)) :
    sm_read_opt_comment m p
      = .ok (ref_opt_comment o).length
          [.comment (o.object_id % 2 ^ 32) (print_flags (o.flags % 2 ^ 32))
            (opt_cstr o.ui_name) (opt_cstr o.ui_helptext)] := by
  have hlen := ref_opt_comment_length o
  obtain ⟨h0, h1, h2, h3, hA, hB⟩ := opt_comment_parts m p o hfit hlt
  generalize hsz : (ref_opt_comment o).length = size at *
  have hend : p + 16 + (ref_string LB_TAG_CFR_VARCHAR_UI_NAME o.ui_name).length
      + (ref_helptext o.ui_helptext).length = p + size := by omega
  have r2 : sm_read_ui_name m (p + 16) = _ :=
    html_read_string m _ _ o.ui_name hu hA (by decide) (by omega)
  have r3 := html_sm_read_ui_helptext m _ o.ui_helptext hB (by omega)
    (by rw [hend]; exact hf)
  simp only [sm_read_opt_comment]
  simp [h1, h2, h3, r2, r3, hend, html_tag_ok m p _ h0, lift_ok, outcome_bind_ok,
    emit_eq, outcome_pure, Outcome.prepend]

theorem html_object_nil (o : sm_object) (he : ref_object o = []) : html_object o = [] := by
  rcases cfr_read.ref_object_nil_cases o he with h | ⟨k, h⟩ <;> subst h <;> simp [html_object]

mutual
theorem html_read_objects (m : Mem) : ∀ (os : List sm_object) (fuel p : Nat),
    Fits (ref_obj_list os) (m.drop p) → (ref_obj_list os).length < 2 ^ 32 →
    valid_obj_list os = true → no_helptext_at m (p + (ref_obj_list os).length) →
    (ref_obj_list os).length + 1 ≤ fuel →
    read_objects fuel m (p + (ref_obj_list os).length) p
      = .ok (p + (ref_obj_list os).length) (html_obj_list os)
  | [], fuel, p, _, _, _, _, hfu => by
    cases fuel with
    | zero => omega
    | succ g => simp [read_objects, ref_obj_list, html_obj_list, outcome_pure]
  | o :: os, fuel, p, hfit, hlt, hv, hf, hfu => by
    rw [ref_obj_list_cons] at hfit hlt hf hfu ⊢
    rw [fits_at_append] at hfit
    rw [List.length_append] at hlt hf hfu ⊢
    simp only [valid_obj_list, Bool.and_eq_true] at hv
    by_cases he : ref_object o = []
    · have hd : html_object o = [] := html_object_nil o he
      have ih := html_read_objects m os fuel p (by simpa [he] using hfit.2)
        (by omega) hv.2 (by simpa [he, Nat.add_assoc] using hf) (by omega)
      simp only [html_obj_list, hd, he, List.length_nil, Nat.zero_add, List.nil_append]
      exact ih
    · have hpos : 0 < (ref_object o).length := List.length_pos.2 he
      cases fuel with
      | zero => omega
      | succ g =>
        have r1 := html_sm_read_object m o g p he hfit.1 (by omega) hv.1
          (no_helptext_obj_list m os _ hfit.2 (by rw [Nat.add_assoc]; exact hf)) (by omega)
        have r2 := html_read_objects m os g (p + (ref_object o).length) hfit.2
          (by omega) hv.2 (by rw [Nat.add_assoc]; exact hf) (by omega)
        rw [Nat.add_assoc] at r2
        simp only [read_objects]
        rw [if_pos (by omega)]
        simp [r1, r2, outcome_bind_ok, Outcome.prepend, html_obj_list]
theorem html_sm_read_object (m : Mem) : ∀ (o : sm_object) (fuel p : Nat),
    ref_object o ≠ [] → Fits (ref_object o) (m.drop p) →
    (ref_object o).length < 2 ^ 32 → valid_object o = true →
    no_helptext_at m (p + (ref_object o).length) → (ref_object o).length ≤ fuel →
    sm_read_object fuel m p = .ok (ref_object o).length (html_object o)
  | .obj_none, _, _, he, _, _, _, _, _ => by simp [ref_object] at he
  | .unknown _, _, _, he, _, _, _, _, _ => by simp [ref_object] at he
  | .obj_enum o, fuel, p, _, hfit, hlt, hv, hf, hfu => by
    simp only [ref_object, valid_object] at hfit hlt hv hf hfu ⊢
    have hl : 20 ≤ (ref_opt_enum o).length := by
      unfold ref_opt_enum; rw [ref_numeric_length]; omega
    obtain ⟨g, rfl⟩ : ∃ g, fuel = g + 2 := ⟨fuel - 2, by omega⟩
    have h0 : load32 m p = .ok LB_TAG_CFR_OPTION_ENUM :=
      (numeric_parts m p _ _ _ _ _ _ _ _ hfit (by decide) hlt).1
    have r := html_sm_read_opt_enum g m p o hfit hlt hv hf hfu
    simp only [sm_read_object, _sm_read_object]
    simp [h0, r, lift_ok, outcome_bind_ok, outcome_pure, emit_eq, Outcome.prepend,
      html_object]
  | .obj_number o, fuel, p, _, hfit, hlt, hv, hf, hfu => by
    simp only [ref_object, valid_object] at hfit hlt hv hf hfu ⊢
    have hl : 20 ≤ (ref_opt_number o).length := by
      unfold ref_opt_number; rw [ref_numeric_length]; omega
    obtain ⟨g, rfl⟩ : ∃ g, fuel = g + 2 := ⟨fuel - 2, by omega⟩
    have h0 : load32 m p = .ok LB_TAG_CFR_OPTION_NUMBER :=
      (numeric_parts m p _ _ _ _ _ _ _ _ hfit (by decide) hlt).1
    have r := html_sm_read_opt_number m p o hfit hlt hv hf
    simp only [sm_read_object, _sm_read_object]
    simp [h0, r, lift_ok, outcome_bind_ok, outcome_pure, emit_eq, Outcome.prepend,
      html_object]
  | .obj_bool o, fuel, p, _, hfit, hlt, hv, hf, hfu => by
    simp only [ref_object, valid_object] at hfit hlt hv hf hfu ⊢
    have hl : 20 ≤ (ref_opt_bool o).length := by
      unfold ref_opt_bool; rw [ref_numeric_length]; omega
    obtain ⟨g, rfl⟩ : ∃ g, fuel = g + 2 := ⟨fuel - 2, by omega⟩
    have h0 : load32 m p = .ok LB_TAG_CFR_OPTION_BOOL :=
      (numeric_parts m p _ _ _ _ _ _ _ _ hfit (by decide) hlt).1
    have r := html_sm_read_opt_bool m p o hfit hlt hv hf
    simp only [sm_read_object, _sm_read_object]
    simp [h0, r, lift_ok, outcome_bind_ok, outcome_pure, emit_eq, Outcome.prepend,
      html_object]
  | .obj_varchar o, fuel, p, _, hfit, hlt, hv, hf, hfu => by
    simp only [ref_object, valid_object] at hfit hlt hv hf hfu ⊢
    have hl : 16 ≤ (ref_opt_varchar o).length := by
      rw [ref_opt_varchar_length]; omega
    obtain ⟨g, rfl⟩ : ∃ g, fuel = g + 2 := ⟨fuel - 2, by omega⟩
    have h0 := (opt_varchar_parts m p o hfit hlt).1
    have r := html_sm_read_opt_varchar m p o hfit hlt hv hf
    simp only [sm_read_object, _sm_read_object]
    simp [h0, r, lift_ok, outcome_bind_ok, outcome_pure, emit_eq, Outcome.prepend,
      html_object]
  | .obj_comment o, fuel, p, _, hfit, hlt, hv, hf, hfu => by
    simp only [ref_object, valid_object] at hfit hlt hv hf hfu ⊢
    have hl : 16 ≤ (ref_opt_comment o).length := by
      rw [ref_opt_comment_length]; omega
    obtain ⟨g, rfl⟩ : ∃ g, fuel = g + 2 := ⟨fuel - 2, by omega⟩
    have h0 := (opt_comment_parts m p o hfit hlt).1
    have r := html_sm_read_opt_comment m p o hfit hlt hv hf
    simp only [sm_read_object, _sm_read_object]
    simp [h0, r, lift_ok, outcome_bind_ok, outcome_pure, emit_eq, Outcome.prepend,
      html_object]
  | .obj_form (.mk oid fl ui os), fuel, p, _, hfit, hlt, hv, hf, hfu => by
    simp only [ref_object, valid_object, valid_form, Bool.and_eq_true] at hfit hlt hv hf hfu ⊢
    obtain ⟨hu, hvo⟩ := hv
    have hlen := ref_form_length oid fl ui os
    have hge := cfr_read.ref_string_length_ge LB_TAG_CFR_VARCHAR_UI_NAME ui hu
    obtain ⟨h0, h1, h2, h3, hA, hB⟩ := form_parts m p oid fl ui os hfit hlt
    generalize hsz : (ref_form (.mk oid fl ui os)).length = size at *
    have hend : p + 16 + (ref_string LB_TAG_CFR_VARCHAR_UI_NAME ui).length
        + (ref_obj_list os).length = p + size := by omega
    obtain ⟨g, rfl⟩ : ∃ g, fuel = g + 3 := ⟨fuel - 3, by omega⟩
    have r2 : sm_read_ui_name m (p + 16) = _ :=
      html_read_string m _ _ ui hu hA (by decide) (by omega)
    have r3 := html_read_objects m os g _ hB (by omega) hvo (by rw [hend]; exact hf)
      (by omega)
    rw [hend] at r3
    simp only [sm_read_object, _sm_read_object, sm_read_form]
    simp [h0, h1, h2, h3, r2, r3, html_tag_ok m p _ h0, lift_ok, outcome_bind_ok,
      outcome_pure, emit_eq, Outcome.prepend, html_object]
end

end cfr_to_html


namespace cfr_to_html

open cfr

theorem html_sm_read_form_tab (fuel : Nat) (m : Mem) (p tab_idx oid fl : Nat)
    (ui : Option (List Nat)) (os : List sm_object)
    (hfit : Fits (ref_form (.mk oid fl ui os)) (m.drop p))
    (hlt : (ref_form (.mk oid fl ui os)).length < 2 ^ 32)
    (hv : valid_form (.mk oid fl ui os) = true)
    (hf : no_helptext_at m (p + (ref_form (.mk oid fl ui os)).length))
    (hfu : (ref_form (.mk oid fl ui os)).length ≤ fuel + 1) :
    sm_read_form_tab fuel m p tab_idx
      = .ok (ref_form (.mk oid fl ui os)).length
          (.tab_open (oid % 2 ^ 32) (print_flags (fl % 2 ^ 32)) (decide (tab_idx = 1))
              (opt_cstr ui)
            :: html_obj_list os ++ [.tab_close]) := by
  simp only [valid_form, Bool.and_eq_true] at hv
  obtain ⟨hu, hvo⟩ := hv
  have hlen := ref_form_length oid fl ui os
  have hge := cfr_read.ref_string_length_ge LB_TAG_CFR_VARCHAR_UI_NAME ui hu
  obtain ⟨h0, h1, h2, h3, hA, hB⟩ := form_parts m p oid fl ui os hfit hlt
  generalize hsz : (ref_form (.mk oid fl ui os)).length = size at *
  have hend : p + 16 + (ref_string LB_TAG_CFR_VARCHAR_UI_NAME ui).length
      + (ref_obj_list os).length = p + size := by omega
  have r2 : sm_read_ui_name m (p + 16) = _ :=
    html_read_string m _ _ ui hu hA (by decide) (by omega)
  have r3 := html_read_objects m os fuel _ hB (by omega) hvo (by rw [hend]; exact hf)
    (by omega)
  rw [hend] at r3
  simp only [sm_read_form_tab]
  simp [h1, h2, h3, r2, r3, html_tag_ok m p _ h0, lift_ok, outcome_bind_ok,
    outcome_pure, emit_eq, Outcome.prepend]

theorem html_read_form_tabs (m : Mem) : ∀ (fs : List sm_obj_form) (fuel p idx : Nat),
    Fits (ref_form_list fs) (m.drop p) → valid_form_list fs = true →
    no_helptext_at m (p + (ref_form_list fs).length) →
    (ref_form_list fs).length + 1 ≤ fuel → idx + (ref_form_list fs).length < 2 ^ 32 →
    read_form_tabs fuel m (p + (ref_form_list fs).length) p idx
      = .ok (p + (ref_form_list fs).length) (html_form_tabs fs (decide (idx = 0))) := by
  intro fs
  induction fs with
  | nil =>
    intro fuel p idx _ _ _ hfu _
    cases fuel with
    | zero => omega
    | succ g => simp [read_form_tabs, ref_form_list, html_form_tabs, outcome_pure]
  | cons f fs ih =>
    intro fuel p idx hfit hv hf hfu hidx
    cases f with
    | mk oid fl ui os =>
      simp only [ref_form_list, valid_form_list, Bool.and_eq_true] at hfit hv hf hfu hidx ⊢
      rw [fits_at_append] at hfit
      rw [List.length_append] at hf hfu hidx ⊢
      have hl : 16 ≤ (ref_form (.mk oid fl ui os)).length := by
        rw [ref_form_length]; omega
      cases fuel with
      | zero => omega
      | succ g =>
        have r1 := html_sm_read_form_tab g m p (idx + 1) oid fl ui os hfit.1 (by omega) hv.1
          (no_helptext_form_list m fs _ hfit.2 (by rw [Nat.add_assoc]; exact hf)) (by omega)
        have r2 := ih g (p + (ref_form (.mk oid fl ui os)).length) (idx + 1) hfit.2 hv.2
          (by rw [Nat.add_assoc]; exact hf) (by omega) (by omega)
        rw [Nat.add_assoc] at r2
        have hmod : (idx + 1) % 2 ^ 32 = idx + 1 := Nat.mod_eq_of_lt (by omega)
        simp only [read_form_tabs]
        rw [if_pos (by omega)]
        simp only [hmod, r1, r2, outcome_bind_ok, Outcome.prepend, html_form_tabs]
        simp

/-- The HTML decoder on a buffer that starts with the image of a tree and has a readable
word that is not the help-text tag right after it. -/
theorem html_sm_read_cfr (b : Mem) (r : setup_menu_root) (crc fuel : Nat)
    (hfit : Fits (ref_root r crc) b) (hcrc : crc < 2 ^ 32)
    (hlt : (ref_root r 0).length < 2 ^ 32) (hv : valid_form_list r.form_list = true)
    (hf : no_helptext_at b (ref_root r 0).length) (hfu : (ref_root r 0).length ≤ fuel) :
    sm_read_cfr fuel b = .ok () (html_root r crc) := by
  have hlen := ref_root_length r crc
  have hlen0 := ref_root_length r 0
  unfold html_root
  generalize hsz : (ref_root r 0).length = size at *
  rw [← List.drop_zero b, ref_root_shape, hlen, ← hlen0] at hfit
  obtain ⟨h0, h1⟩ := load32_header b 0 _ _ _ _ hfit (by decide) hlt
  have h2 := load32_field b 0 [LB_TAG_CFR, size] _ _ _ hfit
  simp only [List.length_cons, List.length_nil, Nat.zero_add] at h2
  rw [Nat.mod_eq_of_lt hcrc] at h2
  rw [fits_at_append] at hfit
  have hc := hfit.2
  simp only [ref_fields_length, List.length_cons, List.length_nil, Nat.zero_add] at hc
  have r3 := html_read_form_tabs b r.form_list fuel 12 0 (by simpa using hc) hv
    (by rw [← hlen0]; exact hf) (by omega) (by omega)
  rw [← hlen0] at r3
  simp only [sm_read_cfr]
  simp [h0, h1, h2, r3, html_tag_ok b 0 _ h0, lift_ok, outcome_bind_ok, emit_eq,
    outcome_pure, Outcome.prepend]

end cfr_to_html

namespace cfr

theorem zero_word_after (N : Nat) (img : List Cell) (h : img.length + 4 ≤ N) :
    no_helptext_at (blit (List.replicate N 0) 0 img) img.length := by
  refine ⟨0, ?_, by decide⟩
  have hd : (blit (List.replicate N 0) 0 img).drop img.length
      = le32 0 ++ List.replicate (N - img.length - 4) 0 := by
    have := blit_drop (List.replicate N 0) 0 img.length img (by simp)
    rw [Nat.zero_add] at this
    rw [this, overlay_drop img _ img.length (Nat.le_refl _)]
    simp only [List.drop_zero, List.drop_replicate]
    have e1 : N - img.length = (N - img.length - 4) + 4 := by omega
    generalize N - img.length - 4 = k at e1 ⊢
    rw [Nat.sub_zero, e1]
    simp [le32, List.replicate_succ]
  have := load32_of_drop _ _ 0 _ hd
  simpa using this

end cfr


namespace cfr

/-- C18. Record size computation: for every pair of positions, `cfr_record_size` returns
`endp - startp` when `startp <= endp` and the difference is at most 2^32 - 1, and otherwise
ends the process (`exit(-1)` after the diagnostic); a size it returns is the true distance
and fits 32 bits, so it is never truncated or negative. -/
theorem cfr_record_size_spec (startp endp : Nat) :
    cfr_record_size startp endp
        = (if startp ≤ endp ∧ endp - startp ≤ 2 ^ 32 - 1 then .ok (endp - startp)
           else .error .fatal) ∧
      ∀ n, cfr_record_size startp endp = .ok n → startp + n = endp ∧ n ≤ 2 ^ 32 - 1 := by
  have hU : UINT32_MAX = 2 ^ 32 - 1 := by decide
  constructor
  · unfold cfr_record_size
    rw [hU]
    by_cases h : startp ≤ endp ∧ endp - startp ≤ 2 ^ 32 - 1
    · rw [if_pos h, if_neg (by omega)]
    · rw [if_neg h, if_pos (by omega)]
  · intro n hn
    unfold cfr_record_size at hn
    rw [hU] at hn
    by_cases h : startp > endp ∨ endp - startp > 2 ^ 32 - 1
    · rw [if_pos h] at hn; cases hn
    · rw [if_neg h] at hn
      injection hn with hn
      omega

/-- C16. Root tag validation: on every buffer whose first 32-bit word `t` is not the Root
tag `0x0100`, both decoders stop in `_tag_ok` with the fatal fault, whatever the size, the
checksum and the remaining bytes are, and the only output is the diagnostic of `_tag_ok`: no
node is reported or rendered. (The size field is read before the tag is checked; when the
buffer ends before it, the run stops there with no output at all.) -/
theorem root_tag_validation (m : Mem) (fuel t : Nat) (ht : load32 m 0 = .ok t)
    (hne : t ≠ LB_TAG_CFR) :
    (∀ size, load32 m 4 = .ok size →
      cfr_read.sm_read_cfr fuel m = .fail .fatal [.bail LB_TAG_CFR t] ∧
      cfr_to_html.sm_read_cfr fuel m = .fail .fatal [.stderr_bail LB_TAG_CFR t]) ∧
    (∀ e, load32 m 4 = .error e →
      cfr_read.sm_read_cfr fuel m = .fail e [] ∧
      cfr_to_html.sm_read_cfr fuel m = .fail e []) := by
  constructor
  · intro size hs
    constructor
    · simp [cfr_read.sm_read_cfr, cfr_read._tag_ok, ht, hs, hne, lift_ok, outcome_bind_ok,
        outcome_bind_fail, emit_eq, abort_eq, Outcome.prepend]
    · simp [cfr_to_html.sm_read_cfr, cfr_to_html._tag_ok, ht, hs, hne, lift_ok,
        outcome_bind_ok, outcome_bind_fail, emit_eq, abort_eq, Outcome.prepend]
  · intro e hs
    constructor
    · simp [cfr_read.sm_read_cfr, hs, lift_error, outcome_bind_fail]
    · simp [cfr_to_html.sm_read_cfr, hs, lift_error, outcome_bind_fail]

theorem root_tag_validation_witness :
    load32 [1, 1, 0, 0, 132, 0, 0, 0, 219, 170, 235, 107, 1, 1, 0, 0] 0 = .ok 0x0101 ∧
      0x0101 ≠ LB_TAG_CFR ∧
      cfr_read.sm_read_cfr 10 [1, 1, 0, 0, 132, 0, 0, 0, 219, 170, 235, 107, 1, 1, 0, 0]
        = .fail .fatal [.bail LB_TAG_CFR 0x0101] ∧
      cfr_to_html.sm_read_cfr 10 [1, 1, 0, 0, 132, 0, 0, 0, 219, 170, 235, 107, 1, 1, 0, 0]
        = .fail .fatal [.stderr_bail LB_TAG_CFR 0x0101] :=
  have h := (root_tag_validation [1, 1, 0, 0, 132, 0, 0, 0, 219, 170, 235, 107, 1, 1, 0, 0]
    10 0x0101 (by decide) (by decide)).1 132 (by decide)
  ⟨by decide, by decide, h.1, h.2⟩

end cfr


namespace cfr

/-- C13. Unknown tags are skipped. While a decoder scans an object list (the loop runs while
the cursor is below the limit), a record whose tag is none of the six option tags makes the
cursor advance by exactly the `size` field of that record, and the scan goes on with the
record that follows. Nothing of the record but its `tag` and `size` is read: `cfr_to_html`
writes an empty table row, `cfr_read` (on a record that starts at a multiple of 4) prints
the tag and the size. So a Form that holds such a record still decodes, provided the cursor
ends at the end of the Form. -/
theorem unknown_tag_skipped (fuel : Nat) (m : Mem) (limit p tag size : Nat) (depth : Int)
    (ht : load32 m p = .ok tag) (hs : load32 m (p + 4) = .ok size)
    (hunk : tag ≠ LB_TAG_CFR_OPTION_ENUM ∧ tag ≠ LB_TAG_CFR_OPTION_NUMBER ∧
      tag ≠ LB_TAG_CFR_OPTION_BOOL ∧ tag ≠ LB_TAG_CFR_OPTION_VARCHAR ∧
      tag ≠ LB_TAG_CFR_OPTION_COMMENT ∧ tag ≠ LB_TAG_CFR_OPTION_FORM)
    (hlt : p < limit) :
    cfr_to_html.sm_read_object (fuel + 2) m p = .ok size [.row_open, .row_close] ∧
    cfr_to_html.read_objects (fuel + 3) m limit p
      = (cfr_to_html.read_objects (fuel + 2) m limit (p + size)).prepend
          [.row_open, .row_close] ∧
    (p % 4 = 0 →
      cfr_read.sm_read_object (fuel + 2) m p depth
        = .ok (size, depth) [.brace_open, .record tag size, .brace_close depth] ∧
      cfr_read.read_objects (fuel + 3) m limit p depth
        = (cfr_read.read_objects (fuel + 2) m limit (p + size) depth).prepend
            [.brace_open, .record tag size, .brace_close depth]) := by
  obtain ⟨h1, h2, h3, h4, h5, h6⟩ := hunk
  have a : cfr_to_html.sm_read_object (fuel + 2) m p = .ok size [.row_open, .row_close] := by
    simp only [cfr_to_html.sm_read_object, cfr_to_html._sm_read_object]
    simp [ht, hs, h1, h2, h3, h4, h5, h6, lift_ok, outcome_bind_ok, outcome_pure, emit_eq,
      Outcome.prepend]
  refine ⟨a, ?_, ?_⟩
  · rw [show fuel + 3 = (fuel + 2) + 1 from rfl, cfr_to_html.read_objects]
    rw [if_pos hlt, a]
    rfl
  · intro hp
    have b : cfr_read.sm_read_object (fuel + 2) m p depth
        = .ok (size, depth) [.brace_open, .record tag size, .brace_close depth] := by
      simp only [cfr_read.sm_read_object, cfr_read._sm_read_object]
      simp [ht, hs, h1, h2, h3, h4, h5, h6, cfr_read.inc_depth, cfr_read.dec_depth,
        cfr_read.dump_print_record m p tag size hp ht hs, lift_ok, outcome_bind_ok,
        outcome_pure, emit_eq, Outcome.prepend]
    refine ⟨b, ?_⟩
    rw [show fuel + 3 = (fuel + 2) + 1 from rfl, cfr_read.read_objects]
    rw [if_pos hlt, b]
    rfl

theorem unknown_tag_skipped_witness :
    load32 unknown_record_blob 48 = .ok 0x0999 ∧
      load32 unknown_record_blob 52 = .ok 12 ∧
      cfr_to_html.read_objects 10 unknown_record_blob 108 48
        = (cfr_to_html.read_objects 9 unknown_record_blob 108 60).prepend
            [.row_open, .row_close] ∧
      cfr_read.read_objects 10 unknown_record_blob 108 48 1
        = (cfr_read.read_objects 9 unknown_record_blob 108 60 1).prepend
            [.brace_open, .record 0x0999 12, .brace_close 1] ∧
      cfr_to_html.sm_read_cfr 10 unknown_record_blob
        = .ok () [.page_open 0, .tab_open 1 "" true (ascii "Main"), .row_open, .row_close,
            .row_open, .comment 2 "" (ascii "c") (ascii "h"), .row_close, .tab_close,
            .tabs_close, .page_close] ∧
      (cfr_read.sm_read_cfr 10 unknown_record_blob).fault = none :=
  have h := unknown_tag_skipped 7 unknown_record_blob 108 48 0x0999 12 1
    (by decide!) (by decide!) (by decide) (by decide)
  ⟨by decide!, by decide!, h.2.1, (h.2.2 (by decide)).2, by decide!, by decide!⟩

end cfr


namespace cfr

/-- C14 (wrong tag on an interpreted node), evaluated at `enum_value_tag_blob`. Every reader
that starts with `ensure_tag_ok` stops with the fatal fault on a record with another tag: in
`cfr_read` the readers of the Root, the Form and the five option kinds, in `cfr_to_html`
these and the reader of an EnumValue. The reader of an EnumValue in `cfr_read` has no such
check: on the record with tag `0x0999` in the value list of the EnumOption it returns and
reports the record as an enum value, and the whole blob decodes; `cfr_to_html` stops on the
same record. -/
theorem wrong_tag_on_interpreted_node :
    (∀ (m : Mem) (p t size : Nat), load32 m (p + 4) = .ok size → load32 m p = .ok t →
      (∀ fuel tag depth, t ≠ tag →
        cfr_read.read_numeric_option fuel m p tag depth = .fail .fatal [.bail tag t]) ∧
      (∀ depth, t ≠ LB_TAG_CFR_OPTION_VARCHAR →
        cfr_read.sm_read_opt_varchar m p depth
          = .fail .fatal [.bail LB_TAG_CFR_OPTION_VARCHAR t]) ∧
      (∀ depth, t ≠ LB_TAG_CFR_OPTION_COMMENT →
        cfr_read.sm_read_opt_comment m p depth
          = .fail .fatal [.bail LB_TAG_CFR_OPTION_COMMENT t]) ∧
      (∀ fuel depth, t ≠ LB_TAG_CFR_OPTION_FORM →
        cfr_read.sm_read_form (fuel + 1) m p depth
          = .fail .fatal [.bail LB_TAG_CFR_OPTION_FORM t]) ∧
      (∀ dflt, t ≠ LB_TAG_CFR_ENUM_VALUE →
        cfr_to_html.sm_read_enum_value m p dflt
          = .fail .fatal [.stderr_bail LB_TAG_CFR_ENUM_VALUE t]) ∧
      (∀ fuel, t ≠ LB_TAG_CFR_OPTION_ENUM →
        cfr_to_html.sm_read_opt_enum fuel m p
          = .fail .fatal [.stderr_bail LB_TAG_CFR_OPTION_ENUM t]) ∧
      (t ≠ LB_TAG_CFR_OPTION_NUMBER →
        cfr_to_html.sm_read_opt_number m p
          = .fail .fatal [.stderr_bail LB_TAG_CFR_OPTION_NUMBER t]) ∧
      (t ≠ LB_TAG_CFR_OPTION_BOOL →
        cfr_to_html.sm_read_opt_bool m p
          = .fail .fatal [.stderr_bail LB_TAG_CFR_OPTION_BOOL t]) ∧
      (t ≠ LB_TAG_CFR_OPTION_VARCHAR →
        cfr_to_html.sm_read_opt_varchar m p
          = .fail .fatal [.stderr_bail LB_TAG_CFR_OPTION_VARCHAR t]) ∧
      (t ≠ LB_TAG_CFR_OPTION_COMMENT →
        cfr_to_html.sm_read_opt_comment m p
          = .fail .fatal [.stderr_bail LB_TAG_CFR_OPTION_COMMENT t]) ∧
      (∀ fuel, t ≠ LB_TAG_CFR_OPTION_FORM →
        cfr_to_html.sm_read_form (fuel + 1) m p
          = .fail .fatal [.stderr_bail LB_TAG_CFR_OPTION_FORM t]) ∧
      (∀ fuel tab_idx, t ≠ LB_TAG_CFR_OPTION_FORM →
        cfr_to_html.sm_read_form_tab fuel m p tab_idx
          = .fail .fatal [.stderr_bail LB_TAG_CFR_OPTION_FORM t])) ∧
    load32 enum_value_tag_blob 100 = .ok 0x0999 ∧
    cfr_read.sm_read_enum_value enum_value_tag_blob 100 3
      = .ok (28, 3) [.record 0x0999 28, .val .value 7, .prop .ui_name, .brace_open,
          .record LB_TAG_CFR_VARCHAR_UI_NAME 16, .val .data_length 3, .data (ascii "On"),
          .brace_close 3] ∧
    (cfr_read.sm_read_cfr 10 enum_value_tag_blob).fault = none ∧
    ((cfr_read.sm_read_cfr 10 enum_value_tag_blob).output.drop 33).take 4
      = [.prop .enum_values, .brace_open, .record 0x0999 28, .val .value 7] ∧
    cfr_to_html.sm_read_enum_value enum_value_tag_blob 100 7
      = .fail .fatal [.stderr_bail LB_TAG_CFR_ENUM_VALUE 0x0999] ∧
    cfr_to_html.sm_read_cfr 10 enum_value_tag_blob
      = .fail .fatal [.page_open 0, .tab_open 1 "" true (ascii "Main"), .row_open,
          .select_open 2 (ascii "m") "" (ascii "M"),
          .stderr_bail LB_TAG_CFR_ENUM_VALUE 0x0999] := by
  refine ⟨?_, by decide!, by decide!, by decide!, by decide!, by decide!, by decide!⟩
  intro m p t size hs ht
  refine ⟨?_, ?_, ?_, ?_, ?_, ?_, ?_, ?_, ?_, ?_, ?_, ?_⟩
  · intro fuel tag depth hne
    simp [cfr_read.read_numeric_option, cfr_read._tag_ok, ht, hs, hne, lift_ok,
      outcome_bind_ok, outcome_bind_fail, emit_eq, abort_eq, Outcome.prepend]
  · intro depth hne
    simp [cfr_read.sm_read_opt_varchar, cfr_read._tag_ok, ht, hs, hne, lift_ok,
      outcome_bind_ok, outcome_bind_fail, emit_eq, abort_eq, Outcome.prepend]
  · intro depth hne
    simp [cfr_read.sm_read_opt_comment, cfr_read._tag_ok, ht, hs, hne, lift_ok,
      outcome_bind_ok, outcome_bind_fail, emit_eq, abort_eq, Outcome.prepend]
  · intro fuel depth hne
    simp only [cfr_read.sm_read_form]
    simp [cfr_read._tag_ok, ht, hs, hne, lift_ok,
      outcome_bind_ok, outcome_bind_fail, emit_eq, abort_eq, Outcome.prepend]
  · intro dflt hne
    simp [cfr_to_html.sm_read_enum_value, cfr_to_html._tag_ok, ht, hs, hne, lift_ok,
      outcome_bind_ok, outcome_bind_fail, emit_eq, abort_eq, Outcome.prepend]
  · intro fuel hne
    simp [cfr_to_html.sm_read_opt_enum, cfr_to_html._tag_ok, ht, hs, hne, lift_ok,
      outcome_bind_ok, outcome_bind_fail, emit_eq, abort_eq, Outcome.prepend]
  · intro hne
    simp [cfr_to_html.sm_read_opt_number, cfr_to_html._tag_ok, ht, hs, hne, lift_ok,
      outcome_bind_ok, outcome_bind_fail, emit_eq, abort_eq, Outcome.prepend]
  · intro hne
    simp [cfr_to_html.sm_read_opt_bool, cfr_to_html._tag_ok, ht, hs, hne, lift_ok,
      outcome_bind_ok, outcome_bind_fail, emit_eq, abort_eq, Outcome.prepend]
  · intro hne
    simp [cfr_to_html.sm_read_opt_varchar, cfr_to_html._tag_ok, ht, hs, hne, lift_ok,
      outcome_bind_ok, outcome_bind_fail, emit_eq, abort_eq, Outcome.prepend]
  · intro hne
    simp [cfr_to_html.sm_read_opt_comment, cfr_to_html._tag_ok, ht, hs, hne, lift_ok,
      outcome_bind_ok, outcome_bind_fail, emit_eq, abort_eq, Outcome.prepend]
  · intro fuel hne
    simp only [cfr_to_html.sm_read_form]
    simp [cfr_to_html._tag_ok, ht, hs, hne, lift_ok,
      outcome_bind_ok, outcome_bind_fail, emit_eq, abort_eq, Outcome.prepend]
  · intro fuel tab_idx hne
    simp [cfr_to_html.sm_read_form_tab, cfr_to_html._tag_ok, ht, hs, hne, lift_ok,
      outcome_bind_ok, outcome_bind_fail, emit_eq, abort_eq, Outcome.prepend]

end cfr


namespace cfr

end cfr


namespace cfr

/-! ## Records that start at an offset that is not a multiple of 4 -/

theorem dump_alignment_check (fuel : Nat) (m : Mem) (p t size : Nat) (depth : Int)
    (ht : load32 m p = .ok t) (hs : load32 m (p + 4) = .ok size) (hp : p % 4 ≠ 0) :
    cfr_read.sm_read_object (fuel + 3) m p depth = .fail .fatal [.brace_open, .unaligned p] ∧
    cfr_read.sm_read_enum_value m p depth = .fail .fatal [.unaligned p] ∧
    cfr_read.read_cfr_varchar m p t depth = .fail .fatal [.brace_open, .unaligned p] := by
  have hpr : cfr_read._print_record m p = .fail .fatal [.unaligned p] := by
    simp [cfr_read._print_record, hp, emit_eq, abort_eq, outcome_bind_ok, Outcome.prepend]
  refine ⟨?_, ?_, ?_⟩
  · simp only [cfr_read.sm_read_object, cfr_read._sm_read_object, cfr_read.sm_read_opt_enum,
      cfr_read.sm_read_opt_number, cfr_read.sm_read_opt_bool, cfr_read.read_numeric_option,
      cfr_read.sm_read_opt_varchar, cfr_read.sm_read_opt_comment, cfr_read.sm_read_form]
    by_cases h1 : t = LB_TAG_CFR_OPTION_ENUM
    · subst h1
      simp [ht, hs, hpr, cfr_read.dump_tag_ok m p _ ht, cfr_read.inc_depth, lift_ok,
        outcome_bind_ok, outcome_bind_fail, Outcome.prepend]
    by_cases h2 : t = LB_TAG_CFR_OPTION_NUMBER
    · subst h2
      simp [ht, hs, hpr, cfr_read.dump_tag_ok m p _ ht, cfr_read.inc_depth, lift_ok,
        outcome_bind_ok, outcome_bind_fail, Outcome.prepend]
    by_cases h3 : t = LB_TAG_CFR_OPTION_BOOL
    · subst h3
      simp [ht, hs, hpr, cfr_read.dump_tag_ok m p _ ht, cfr_read.inc_depth, lift_ok,
        outcome_bind_ok, outcome_bind_fail, Outcome.prepend]
    by_cases h4 : t = LB_TAG_CFR_OPTION_VARCHAR
    · subst h4
      simp [ht, hs, hpr, cfr_read.dump_tag_ok m p _ ht, cfr_read.inc_depth, lift_ok,
        outcome_bind_ok, outcome_bind_fail, Outcome.prepend]
    by_cases h5 : t = LB_TAG_CFR_OPTION_COMMENT
    · subst h5
      simp [ht, hs, hpr, cfr_read.dump_tag_ok m p _ ht, cfr_read.inc_depth, lift_ok,
        outcome_bind_ok, outcome_bind_fail, Outcome.prepend]
    by_cases h6 : t = LB_TAG_CFR_OPTION_FORM
    · subst h6
      simp [ht, hs, hpr, cfr_read.dump_tag_ok m p _ ht, cfr_read.inc_depth, lift_ok,
        outcome_bind_ok, outcome_bind_fail, Outcome.prepend]
    simp [ht, hs, hpr, h1, h2, h3, h4, h5, h6, cfr_read.inc_depth, lift_ok,
      outcome_bind_ok, outcome_bind_fail, Outcome.prepend]
  · simp [cfr_read.sm_read_enum_value, hs, hpr, lift_ok, outcome_bind_ok, outcome_bind_fail,
      Outcome.prepend]
  · simp only [cfr_read.read_cfr_varchar]
    rw [cfr_read.dump_tag_neq_eq m p t t ht]
    simp [hpr, cfr_read.inc_depth, outcome_bind_ok, outcome_bind_fail, Outcome.prepend]

end cfr


namespace cfr

theorem strlen_replicate (n b : Nat) (hb : b ≠ 0) : strlen (List.replicate n b) = n := by
  unfold strlen
  have : (List.replicate n b).takeWhile (· ≠ 0) = List.replicate n b := by
    rw [List.takeWhile_eq_self_iff]
    intro x hx
    have := List.eq_of_mem_replicate hx
    subst this
    simpa using hb
  rw [this, List.length_replicate]

theorem write_cfr_varchar_never_fatal (m : Mem) (current : Nat) (s : List Nat) (tag : Nat) :
    write_cfr_varchar m current (some s) tag ≠ .error .fatal := by
  have hsb : ∀ (m : Mem) (a : Nat) (bs : List Nat), store_bytes m a bs ≠ .error .fatal := by
    intro m a bs
    unfold store_bytes
    split <;> simp
  have hs32 : ∀ (m : Mem) (a v : Nat), store32 m a v ≠ .error .fatal := fun m a v => hsb m a _
  simp only [write_cfr_varchar, bind, Except.bind]
  cases h1 : store32 m current tag with
  | error e => intro h; have := hs32 m current tag; rw [h1] at this; simp_all
  | ok m1 =>
    simp only
    cases h2 : store32 m1 (current + 8) ((strlen s + 1) % 2 ^ 32) with
    | error e => intro h; have := hs32 m1 (current + 8) ((strlen s + 1) % 2 ^ 32); simp_all
    | ok m2 =>
      simp only
      cases h3 : store_bytes m2 (current + 12) ((s ++ [0]).take ((strlen s + 1) % 2 ^ 32)) with
      | error e =>
        intro h
        have := hsb m2 (current + 12) ((s ++ [0]).take ((strlen s + 1) % 2 ^ 32))
        simp_all
      | ok m3 =>
        simp only
        cases h4 : store32 m3 (current + 4)
            (ALIGN_UP (12 + (strlen s + 1) % 2 ^ 32) LB_ENTRY_ALIGN % 2 ^ 32) with
        | error e =>
          intro h
          have := hs32 m3 (current + 4)
            (ALIGN_UP (12 + (strlen s + 1) % 2 ^ 32) LB_ENTRY_ALIGN % 2 ^ 32)
          simp_all
        | ok m4 => simp [pure, Except.pure]

theorem write_cfr_varchar_wrapped (n : Nat) (tag : Nat) (h : (n + 1) % 2 ^ 32 = 0) :
    write_cfr_varchar [0, 0, 0, 0, 0, 0, 0, 0, 0, 0, 0, 0] 0 (some (List.replicate n 65)) tag
      = .ok (le32 tag ++ [12, 0, 0, 0, 0, 0, 0, 0], 12) := by
  simp only [write_cfr_varchar, strlen_replicate n 65 (by decide), h, List.take_zero,
    Nat.add_zero]
  have e : ALIGN_UP 12 LB_ENTRY_ALIGN % 2 ^ 32 = 12 := by decide
  rw [e]
  simp [store32, store_bytes, le32, bind, Except.bind, pure, Except.pure]

end cfr

namespace cfr

theorem write_cfr_varchar_size (m : Mem) (current : Nat) (s : List Nat) (tag : Nat)
    (m' : Mem) (size : Nat) (h : write_cfr_varchar m current (some s) tag = .ok (m', size)) :
    size = ALIGN_UP (12 + (strlen s + 1) % 2 ^ 32) LB_ENTRY_ALIGN % 2 ^ 32 := by
  simp only [write_cfr_varchar, bind, Except.bind] at h
  cases h1 : store32 m current tag with
  | error e => rw [h1] at h; cases h
  | ok m1 =>
    rw [h1] at h; simp only at h
    cases h2 : store32 m1 (current + 8) ((strlen s + 1) % 2 ^ 32) with
    | error e => rw [h2] at h; cases h
    | ok m2 =>
      rw [h2] at h; simp only at h
      cases h3 : store_bytes m2 (current + 12) ((s ++ [0]).take ((strlen s + 1) % 2 ^ 32)) with
      | error e => rw [h3] at h; cases h
      | ok m3 =>
        rw [h3] at h; simp only at h
        cases h4 : store32 m3 (current + 4)
            (ALIGN_UP (12 + (strlen s + 1) % 2 ^ 32) LB_ENTRY_ALIGN % 2 ^ 32) with
        | error e => rw [h4] at h; cases h
        | ok m4 =>
          rw [h4] at h
          simp only [pure, Except.pure] at h
          injection h with h
          injection h with _ h
          exact h.symm

/-- C19 (no silently truncated node), evaluated at a string of 2^32 - 1 bytes. The string
leaf writer `write_cfr_varchar` never ends the process: for a string that is present it
returns (or runs off the buffer), and the size it returns is computed from `data_length`
reduced modulo 2^32 and is itself reduced modulo 2^32. For the string of 2^32 - 1 bytes `A`
the leaf has the true length 2^32 + 12; the writer stores `data_length` 0 and `size` 12,
copies no byte and returns 12. The containers measure their size with `cfr_record_size`,
which does end the process on a distance of 2^32 or more. -/
theorem string_leaf_size_truncated :
    (∀ (m : Mem) (current : Nat) (s : List Nat) (tag : Nat),
      write_cfr_varchar m current (some s) tag ≠ .error .fatal ∧
      ∀ m' size, write_cfr_varchar m current (some s) tag = .ok (m', size) →
        size = ALIGN_UP (12 + (strlen s + 1) % 2 ^ 32) LB_ENTRY_ALIGN % 2 ^ 32) ∧
    strlen (List.replicate (2 ^ 32 - 1) 65) = 2 ^ 32 - 1 ∧
    write_cfr_varchar [0, 0, 0, 0, 0, 0, 0, 0, 0, 0, 0, 0] 0
        (some (List.replicate (2 ^ 32 - 1) 65)) LB_TAG_CFR_VARCHAR_UI_NAME
      = .ok (le32 LB_TAG_CFR_VARCHAR_UI_NAME ++ [12, 0, 0, 0, 0, 0, 0, 0], 12) ∧
    (∀ start, cfr_record_size start (start + 2 ^ 32) = .error .fatal) := by
  refine ⟨fun m current s tag => ⟨write_cfr_varchar_never_fatal m current s tag,
      fun m' size h => write_cfr_varchar_size m current s tag m' size h⟩,
    strlen_replicate _ 65 (by decide),
    write_cfr_varchar_wrapped _ _ (by decide), ?_⟩
  intro start
  unfold cfr_record_size
  rw [if_pos]
  right
  have hU : UINT32_MAX = 2 ^ 32 - 1 := by decide
  rw [hU]
  omega

end cfr


namespace cfr

theorem ref_enum_values_eq_join (vs : List sm_enum_value) :
    ref_enum_values vs = ((enum_entries vs).map ref_enum_value).flatten := by
  induction vs with
  | nil => rfl
  | cons e es ih =>
    cases hu : e.ui_name with
    | none => simp [ref_enum_values, enum_entries, hu]
    | some s =>
      simp only [ref_enum_values, hu]
      have : enum_entries (e :: es) = e :: enum_entries es := by
        simp [enum_entries, hu]
      rw [this, List.map_cons, List.flatten_cons, ih]

theorem html_enum_values_eq_map (vs : List sm_enum_value) (dv : Nat) :
    cfr_to_html.html_enum_values vs dv
      = (enum_entries vs).map (fun e =>
          cfr_to_html.Html.option (e.value % 2 ^ 32)
            (decide (e.value % 2 ^ 32 = dv % 2 ^ 32)) (opt_cstr e.ui_name)) := by
  induction vs with
  | nil => rfl
  | cons e es ih =>
    cases hu : e.ui_name with
    | none => simp [cfr_to_html.html_enum_values, enum_entries, hu]
    | some s =>
      have : enum_entries (e :: es) = e :: enum_entries es := by
        simp [enum_entries, hu]
      rw [this]
      simp only [cfr_to_html.html_enum_values, hu, List.map_cons, ih, opt_cstr]

theorem enum_entries_ui_name (vs : List sm_enum_value) (e : sm_enum_value)
    (he : e ∈ enum_entries vs) : e.ui_name.isSome = true := by
  have := List.mem_takeWhile_imp he
  simpa using this

/-- C20. Enum values on the wire. For a value list that holds an end marker, with `k` entries
before it (`enum_entries`), the loop of `write_numeric_option` lays exactly the images of
these `k` entries over the buffer, one after the other in list order and nothing else: no
record for the end marker or for an entry after it. Each image is the 12-byte EnumValue
header with the value of the entry followed by the UI-name leaf with its label. A null
value list leaves the buffer and the cursor as they are. Read back by `cfr_to_html`, the
records give exactly `k` option elements in list order with the values and labels of the
entries. -/
theorem enum_values_on_the_wire (m : Mem) (current dv : Nat) (vs : List sm_enum_value)
    (hv : valid_enum_values vs = true)
    (hm : current + ((enum_entries vs).map ref_enum_value).flatten.length ≤ m.length)
    (hlt : ((enum_entries vs).map ref_enum_value).flatten.length < 2 ^ 32) :
    write_numeric_option_values m current LB_TAG_CFR_OPTION_ENUM (some vs)
      = .ok (blit m current ((enum_entries vs).map ref_enum_value).flatten,
          current + ((enum_entries vs).map ref_enum_value).flatten.length) ∧
    (∀ e ∈ enum_entries vs, ∃ s, e.ui_name = some s ∧
      ref_enum_value e
        = ref_fields [LB_TAG_CFR_ENUM_VALUE,
            12 + (ref_varchar LB_TAG_CFR_VARCHAR_UI_NAME s).length, e.value]
          ++ ref_varchar LB_TAG_CFR_VARCHAR_UI_NAME s) ∧
    write_numeric_option_values m current LB_TAG_CFR_OPTION_ENUM none = .ok (m, current) ∧
    (∀ fuel, ((enum_entries vs).map ref_enum_value).flatten.length + 1 ≤ fuel →
      cfr_to_html.read_enum_values fuel
          (blit m current ((enum_entries vs).map ref_enum_value).flatten)
          (current + ((enum_entries vs).map ref_enum_value).flatten.length) current
          (dv % 2 ^ 32)
        = .ok (current + ((enum_entries vs).map ref_enum_value).flatten.length)
            ((enum_entries vs).map (fun e =>
              cfr_to_html.Html.option (e.value % 2 ^ 32)
                (decide (e.value % 2 ^ 32 = dv % 2 ^ 32)) (opt_cstr e.ui_name)))) := by
  rw [← ref_enum_values_eq_join] at hm hlt ⊢
  refine ⟨?_, ?_, rfl, ?_⟩
  · simp only [write_numeric_option_values, if_true]
    exact write_enum_values_eq vs m current hv hm hlt
  · intro e he
    have hs := enum_entries_ui_name vs e he
    cases hu : e.ui_name with
    | none => rw [hu] at hs; simp at hs
    | some s => exact ⟨s, rfl, by simp [ref_enum_value, hu, ref_string]⟩
  · intro fuel hfu
    rw [← html_enum_values_eq_map]
    exact cfr_to_html.html_read_enum_values _ dv vs fuel current
      (fits_blit m current _ hm) hlt hfu

end cfr

namespace cfr

theorem scenario_b_html (c : Nat) :
    cfr_to_html.html_root scenario_b c
      = [.page_open c, .tab_open 2 "" true (ascii "Main"), .row_open,
          .select_open 1 (ascii "mode") "" (ascii "Mode"),
          .option 0 false (ascii "Off"), .option 1 true (ascii "On"),
          .option 2 false (ascii "Auto"), .select_close (ascii "Pick one"),
          .row_close, .tab_close, .tabs_close, .page_close] := by
  have h : ∀ (l : List cfr_to_html.Html),
      cfr_to_html.html_form_tabs scenario_b.form_list true ++ [.tabs_close, .page_close] = l →
      cfr_to_html.html_root scenario_b c = .page_open c :: l := by
    intro l hl; rw [← hl]; rfl
  exact h _ (by decide!)

theorem scenario_b_decodes :
    ∃ m' c, cfr_write_setup_menu (List.replicate 224 0) scenario_b = .ok m' ∧
      cfr_to_html.sm_read_cfr 220 m'
        = .ok () [.page_open c, .tab_open 2 "" true (ascii "Main"), .row_open,
            .select_open 1 (ascii "mode") "" (ascii "Mode"),
            .option 0 false (ascii "Off"), .option 1 true (ascii "On"),
            .option 2 false (ascii "Auto"), .select_close (ascii "Pick one"),
            .row_close, .tab_close, .tabs_close, .page_close] := by
  have hv : valid_form_list scenario_b.form_list = true := by decide!
  have hl : (ref_root scenario_b 0).length = 220 := by decide!
  have henc := cfr_write_setup_menu_eq (List.replicate 224 0) scenario_b hv
    (by rw [hl, List.length_replicate]; omega) (by rw [hl]; decide)
  generalize hcrc : crc32 ((blit (List.replicate 224 0) 0 (ref_root scenario_b 0)).take
    (ref_root scenario_b 0).length) = crc at henc
  have hc : crc < 2 ^ 32 := by rw [← hcrc]; exact crc32_lt _
  have hlc : (ref_root scenario_b crc).length = 220 := by
    rw [ref_root_length, ← ref_root_length scenario_b 0, hl]
  have hfit := fits_blit (List.replicate 224 0) 0 (ref_root scenario_b crc)
    (by rw [hlc, List.length_replicate]; omega)
  rw [List.drop_zero] at hfit
  have hf := zero_word_after 224 (ref_root scenario_b crc) (by rw [hlc])
  rw [hlc, ← hl] at hf
  refine ⟨_, crc, henc, ?_⟩
  rw [← scenario_b_html crc]
  exact cfr_to_html.html_sm_read_cfr _ scenario_b crc 220 hfit hc (by rw [hl]; decide) hv hf
    (by rw [hl])

theorem enum_values_on_the_wire_witness :
    valid_enum_values [⟨some (ascii "Off"), 0⟩, ⟨some (ascii "On"), 1⟩,
        ⟨some (ascii "Auto"), 2⟩, ⟨none, 0⟩] = true ∧
      enum_entries [⟨some (ascii "Off"), 0⟩, ⟨some (ascii "On"), 1⟩,
          ⟨some (ascii "Auto"), 2⟩, ⟨none, 0⟩]
        = [⟨some (ascii "Off"), 0⟩, ⟨some (ascii "On"), 1⟩, ⟨some (ascii "Auto"), 2⟩] ∧
      cfr_to_html.read_enum_values 89
          (blit (List.replicate 88 0) 0
            ((enum_entries [⟨some (ascii "Off"), 0⟩, ⟨some (ascii "On"), 1⟩,
              ⟨some (ascii "Auto"), 2⟩, ⟨none, 0⟩]).map ref_enum_value).flatten)
          (0 + ((enum_entries [⟨some (ascii "Off"), 0⟩, ⟨some (ascii "On"), 1⟩,
              ⟨some (ascii "Auto"), 2⟩, ⟨none, 0⟩]).map ref_enum_value).flatten.length) 0
          (1 % 2 ^ 32)
        = .ok (0 + ((enum_entries [⟨some (ascii "Off"), 0⟩, ⟨some (ascii "On"), 1⟩,
              ⟨some (ascii "Auto"), 2⟩, ⟨none, 0⟩]).map ref_enum_value).flatten.length)
            ((enum_entries [⟨some (ascii "Off"), 0⟩, ⟨some (ascii "On"), 1⟩,
              ⟨some (ascii "Auto"), 2⟩, ⟨none, 0⟩]).map (fun e =>
                cfr_to_html.Html.option (e.value % 2 ^ 32)
                  (decide (e.value % 2 ^ 32 = 1 % 2 ^ 32)) (opt_cstr e.ui_name))) ∧
      ∃ m' c, cfr_write_setup_menu (List.replicate 224 0) scenario_b = .ok m' ∧
        cfr_to_html.sm_read_cfr 220 m'
          = .ok () [.page_open c, .tab_open 2 "" true (ascii "Main"), .row_open,
              .select_open 1 (ascii "mode") "" (ascii "Mode"),
              .option 0 false (ascii "Off"), .option 1 true (ascii "On"),
              .option 2 false (ascii "Auto"), .select_close (ascii "Pick one"),
              .row_close, .tab_close, .tabs_close, .page_close] :=
  ⟨by decide!, by decide!,
    (enum_values_on_the_wire (List.replicate 88 0) 0 1
      [⟨some (ascii "Off"), 0⟩, ⟨some (ascii "On"), 1⟩, ⟨some (ascii "Auto"), 2⟩, ⟨none, 0⟩]
      (by decide!) (by decide!) (by decide!)).2.2.2 89 (by decide!),
    scenario_b_decodes⟩

end cfr


namespace cfr

/-! ## Exact consumption: what a run that returned went through -/

theorem outcome_bind_eq_ok {ω α β : Type} {x : Outcome ω α} {f : α → Outcome ω β} {b : β}
    {out : List ω} (h : (x >>= f) = .ok b out) :
    ∃ a o1 o2, x = .ok a o1 ∧ f a = .ok b o2 ∧ out = o1 ++ o2 := by
  cases x with
  | fail e o => cases h
  | ok a o1 =>
    rw [outcome_bind_ok] at h
    cases hf : f a with
    | fail e o => rw [hf] at h; cases h
    | ok b' o2 =>
      rw [hf] at h
      simp only [Outcome.prepend] at h
      injection h with h1 h2
      exact ⟨a, o1, o2, rfl, by rw [← h1]; exact hf, h2.symm⟩

theorem lift_eq_ok {ω α : Type} {x : Except Fault α} {a : α} {o : List ω}
    (h : (lift x : Outcome ω α) = .ok a o) : x = .ok a ∧ o = [] := by
  cases x with
  | error e => cases h
  | ok a' =>
    rw [lift_ok] at h
    injection h with h1 h2
    exact ⟨by rw [h1], h2.symm⟩

theorem emit_bind_eq_ok {ω β : Type} {i : ω} {f : Unit → Outcome ω β} {b : β}
    {out : List ω} (h : (emit i >>= f) = .ok b out) :
    ∃ o2, f () = .ok b o2 ∧ out = i :: o2 := by
  obtain ⟨a, o1, o2, h1, h2, h3⟩ := outcome_bind_eq_ok h
  rw [emit_eq] at h1
  injection h1 with _ h1
  exact ⟨o2, h2, by rw [h3, ← h1]; rfl⟩

theorem ite_pure_abort_eq_ok {ω α : Type} {c : Prop} [Decidable c] {a b : α} {o : List ω}
    (h : (if c then (pure a : Outcome ω α) else abort .fatal) = .ok b o) :
    c ∧ b = a ∧ o = [] := by
  by_cases hc : c
  · rw [if_pos hc, outcome_pure] at h
    injection h with h1 h2
    exact ⟨hc, h1.symm, h2.symm⟩
  · rw [if_neg hc] at h; cases h

theorem fault_prepend {ω α : Type} (o : List ω) (x : Outcome ω α) :
    (x.prepend o).fault = x.fault := by
  cases x <;> rfl

theorem fault_ite_pure_abort {ω α : Type} {c : Prop} [Decidable c] (a : α) (hc : ¬ c) :
    (if c then (pure a : Outcome ω α) else abort .fatal).fault = some .fatal := by
  rw [if_neg hc]; rfl

end cfr

namespace cfr_to_html

open cfr

theorem html_tag_ok_eq_ok {m : Mem} {p tag : Nat} {o : List Html}
    (h : _tag_ok m p tag = .ok () o) : load32 m p = .ok tag ∧ o = [] := by
  unfold _tag_ok at h
  obtain ⟨t, o1, o2, h1, h2, h3⟩ := outcome_bind_eq_ok h
  obtain ⟨hl, rfl⟩ := lift_eq_ok h1
  by_cases ht : t ≠ tag
  · rw [if_pos ht] at h2
    obtain ⟨o3, h4, _⟩ := emit_bind_eq_ok h2
    cases h4
  · rw [if_neg ht, outcome_pure] at h2
    injection h2 with _ h2
    have : t = tag := by simpa using ht
    exact ⟨by rw [hl, this], by rw [h3, ← h2]; rfl⟩

/-- A loop of `cfr_to_html` over enum values only returns with the cursor at or past the
limit. -/
theorem html_read_enum_values_ge (m : Mem) (limit dflt : Nat) : ∀ (fuel cur cur' : Nat)
    (o : List Html), read_enum_values fuel m limit cur dflt = .ok cur' o →
    limit ≤ cur' ∧ cur ≤ cur' := by
  intro fuel
  induction fuel with
  | zero => intro cur cur' o h; cases h
  | succ f ih =>
    intro cur cur' o h
    simp only [read_enum_values] at h
    by_cases hc : cur < limit
    · rw [if_pos hc] at h
      obtain ⟨n, o1, o2, _, h2, _⟩ := outcome_bind_eq_ok h
      have := ih _ _ _ h2
      omega
    · rw [if_neg hc, outcome_pure] at h
      injection h with h1 _
      omega

end cfr_to_html


namespace cfr_to_html

open cfr

theorem html_sm_read_enum_value_exact {m : Mem} {p dflt n : Nat} {out : List Html}
    (h : sm_read_enum_value m p dflt = .ok n out) :
    load32 m (p + 4) = .ok n ∧ load32 m p = .ok LB_TAG_CFR_ENUM_VALUE ∧
    ∃ ui k o, sm_read_ui_name m (p + 12) = .ok (ui, k) o ∧ p + 12 + k = p + n := by
  simp only [sm_read_enum_value] at h
  obtain ⟨size, _, _, h1, h, -⟩ := outcome_bind_eq_ok h
  obtain ⟨h1, -⟩ := lift_eq_ok h1
  obtain ⟨_, _, _, h2, h, -⟩ := outcome_bind_eq_ok h
  obtain ⟨h2, -⟩ := html_tag_ok_eq_ok h2
  obtain ⟨⟨ui, k⟩, o3, _, h3, h, -⟩ := outcome_bind_eq_ok h
  obtain ⟨v, _, _, h4, h, -⟩ := outcome_bind_eq_ok h
  obtain ⟨_, h, -⟩ := emit_bind_eq_ok h
  obtain ⟨hc, rfl, -⟩ := ite_pure_abort_eq_ok h
  exact ⟨h1, h2, ui, k, o3, h3, hc⟩

theorem html_sm_read_enum_value_fatal {m : Mem} {p dflt size k v : Nat} {ui : List Nat}
    {o : List Html} (hs : load32 m (p + 4) = .ok size)
    (ht : load32 m p = .ok LB_TAG_CFR_ENUM_VALUE)
    (h1 : sm_read_ui_name m (p + 12) = .ok (ui, k) o) (hv : load32 m (p + 8) = .ok v)
    (hne : p + 12 + k ≠ p + size) :
    (sm_read_enum_value m p dflt).fault = some .fatal := by
  simp only [sm_read_enum_value]
  simp [hs, html_tag_ok m p _ ht, h1, hv, outcome_bind_ok, lift_ok, emit_eq, fault_prepend,
    fault_ite_pure_abort _ hne]

theorem html_sm_read_opt_number_exact {m : Mem} {p n : Nat} {out : List Html}
    (h : sm_read_opt_number m p = .ok n out) :
    load32 m (p + 4) = .ok n ∧ load32 m p = .ok LB_TAG_CFR_OPTION_NUMBER ∧
    ∃ opt k1 o1 ui k2 o2 help k3 o3,
      sm_read_opt_name m (p + 20) = .ok (opt, k1) o1 ∧
      sm_read_ui_name m (p + 20 + k1) = .ok (ui, k2) o2 ∧
      sm_read_ui_helptext m (p + 20 + k1 + k2) = .ok (help, k3) o3 ∧
      p + 20 + k1 + k2 + k3 = p + n := by
  simp only [sm_read_opt_number] at h
  obtain ⟨size, _, _, h1, h, -⟩ := outcome_bind_eq_ok h
  obtain ⟨h1, -⟩ := lift_eq_ok h1
  obtain ⟨_, _, _, h2, h, -⟩ := outcome_bind_eq_ok h
  obtain ⟨h2, -⟩ := html_tag_ok_eq_ok h2
  obtain ⟨⟨opt, k1⟩, o3, _, h3, h, -⟩ := outcome_bind_eq_ok h
  obtain ⟨⟨ui, k2⟩, o4, _, h4, h, -⟩ := outcome_bind_eq_ok h
  obtain ⟨⟨help, k3⟩, o5, _, h5, h, -⟩ := outcome_bind_eq_ok h
  obtain ⟨_, _, _, -, h, -⟩ := outcome_bind_eq_ok h
  obtain ⟨_, _, _, -, h, -⟩ := outcome_bind_eq_ok h
  obtain ⟨_, _, _, -, h, -⟩ := outcome_bind_eq_ok h
  obtain ⟨_, h, -⟩ := emit_bind_eq_ok h
  obtain ⟨hc, rfl, -⟩ := ite_pure_abort_eq_ok h
  exact ⟨h1, h2, opt, k1, o3, ui, k2, o4, help, k3, o5, h3, h4, h5, hc⟩

theorem html_sm_read_opt_number_fatal {m : Mem} {p size k1 k2 k3 oid fl dv : Nat}
    {opt ui help : List Nat} {o1 o2 o3 : List Html} (hs : load32 m (p + 4) = .ok size)
    (ht : load32 m p = .ok LB_TAG_CFR_OPTION_NUMBER)
    (h1 : sm_read_opt_name m (p + 20) = .ok (opt, k1) o1)
    (h2 : sm_read_ui_name m (p + 20 + k1) = .ok (ui, k2) o2)
    (h3 : sm_read_ui_helptext m (p + 20 + k1 + k2) = .ok (help, k3) o3)
    (hoid : load32 m (p + 8) = .ok oid) (hfl : load32 m (p + 12) = .ok fl)
    (hdv : load32 m (p + 16) = .ok dv) (hne : p + 20 + k1 + k2 + k3 ≠ p + size) :
    (sm_read_opt_number m p).fault = some .fatal := by
  simp only [sm_read_opt_number]
  simp [hs, html_tag_ok m p _ ht, h1, h2, h3, hoid, hfl, hdv, outcome_bind_ok, lift_ok,
    emit_eq, fault_prepend, fault_ite_pure_abort _ hne]

theorem html_sm_read_opt_bool_exact {m : Mem} {p n : Nat} {out : List Html}
    (h : sm_read_opt_bool m p = .ok n out) :
    load32 m (p + 4) = .ok n ∧ load32 m p = .ok LB_TAG_CFR_OPTION_BOOL ∧
    ∃ opt k1 o1 ui k2 o2 help k3 o3,
      sm_read_opt_name m (p + 20) = .ok (opt, k1) o1 ∧
      sm_read_ui_name m (p + 20 + k1) = .ok (ui, k2) o2 ∧
      sm_read_ui_helptext m (p + 20 + k1 + k2) = .ok (help, k3) o3 ∧
      p + 20 + k1 + k2 + k3 = p + n := by
  simp only [sm_read_opt_bool] at h
  obtain ⟨size, _, _, h1, h, -⟩ := outcome_bind_eq_ok h
  obtain ⟨h1, -⟩ := lift_eq_ok h1
  obtain ⟨_, _, _, h2, h, -⟩ := outcome_bind_eq_ok h
  obtain ⟨h2, -⟩ := html_tag_ok_eq_ok h2
  obtain ⟨⟨opt, k1⟩, o3, _, h3, h, -⟩ := outcome_bind_eq_ok h
  obtain ⟨⟨ui, k2⟩, o4, _, h4, h, -⟩ := outcome_bind_eq_ok h
  obtain ⟨⟨help, k3⟩, o5, _, h5, h, -⟩ := outcome_bind_eq_ok h
  obtain ⟨_, _, _, -, h, -⟩ := outcome_bind_eq_ok h
  obtain ⟨_, _, _, -, h, -⟩ := outcome_bind_eq_ok h
  obtain ⟨_, _, _, -, h, -⟩ := outcome_bind_eq_ok h
  obtain ⟨_, h, -⟩ := emit_bind_eq_ok h
  obtain ⟨hc, rfl, -⟩ := ite_pure_abort_eq_ok h
  exact ⟨h1, h2, opt, k1, o3, ui, k2, o4, help, k3, o5, h3, h4, h5, hc⟩

theorem html_sm_read_opt_bool_fatal {m : Mem} {p size k1 k2 k3 oid fl dv : Nat}
    {opt ui help : List Nat} {o1 o2 o3 : List Html} (hs : load32 m (p + 4) = .ok size)
    (ht : load32 m p = .ok LB_TAG_CFR_OPTION_BOOL)
    (h1 : sm_read_opt_name m (p + 20) = .ok (opt, k1) o1)
    (h2 : sm_read_ui_name m (p + 20 + k1) = .ok (ui, k2) o2)
    (h3 : sm_read_ui_helptext m (p + 20 + k1 + k2) = .ok (help, k3) o3)
    (hoid : load32 m (p + 8) = .ok oid) (hfl : load32 m (p + 12) = .ok fl)
    (hdv : load32 m (p + 16) = .ok dv) (hne : p + 20 + k1 + k2 + k3 ≠ p + size) :
    (sm_read_opt_bool m p).fault = some .fatal := by
  simp only [sm_read_opt_bool]
  simp [hs, html_tag_ok m p _ ht, h1, h2, h3, hoid, hfl, hdv, outcome_bind_ok, lift_ok,
    emit_eq, fault_prepend, fault_ite_pure_abort _ hne]

theorem html_sm_read_opt_enum_exact {fuel : Nat} {m : Mem} {p n : Nat} {out : List Html}
    (h : sm_read_opt_enum fuel m p = .ok n out) :
    load32 m (p + 4) = .ok n ∧ load32 m p = .ok LB_TAG_CFR_OPTION_ENUM ∧
    ∃ opt k1 o1 ui k2 o2 help k3 o3 dv o4,
      sm_read_opt_name m (p + 20) = .ok (opt, k1) o1 ∧
      sm_read_ui_name m (p + 20 + k1) = .ok (ui, k2) o2 ∧
      sm_read_ui_helptext m (p + 20 + k1 + k2) = .ok (help, k3) o3 ∧
      read_enum_values fuel m (p + n) (p + 20 + k1 + k2 + k3) dv = .ok (p + n) o4 := by
  simp only [sm_read_opt_enum] at h
  obtain ⟨size, _, _, h1, h, -⟩ := outcome_bind_eq_ok h
  obtain ⟨h1, -⟩ := lift_eq_ok h1
  obtain ⟨_, _, _, h2, h, -⟩ := outcome_bind_eq_ok h
  obtain ⟨h2, -⟩ := html_tag_ok_eq_ok h2
  obtain ⟨⟨opt, k1⟩, o3, _, h3, h, -⟩ := outcome_bind_eq_ok h
  obtain ⟨⟨ui, k2⟩, o4, _, h4, h, -⟩ := outcome_bind_eq_ok h
  obtain ⟨⟨help, k3⟩, o5, _, h5, h, -⟩ := outcome_bind_eq_ok h
  obtain ⟨_, _, _, -, h, -⟩ := outcome_bind_eq_ok h
  obtain ⟨_, _, _, -, h, -⟩ := outcome_bind_eq_ok h
  obtain ⟨_, h, -⟩ := emit_bind_eq_ok h
  obtain ⟨dv, _, _, -, h, -⟩ := outcome_bind_eq_ok h
  obtain ⟨cur, o6, _, h6, h, -⟩ := outcome_bind_eq_ok h
  obtain ⟨_, h, -⟩ := emit_bind_eq_ok h
  obtain ⟨hc, rfl, -⟩ := ite_pure_abort_eq_ok h
  dsimp only at hc h6
  rw [hc] at h6
  exact ⟨h1, h2, opt, k1, o3, ui, k2, o4, help, k3, o5, dv, o6, h3, h4, h5, h6⟩

theorem html_sm_read_opt_enum_fatal {fuel : Nat} {m : Mem} {p size k1 k2 k3 oid fl dv cur : Nat}
    {opt ui help : List Nat} {o1 o2 o3 o4 : List Html} (hs : load32 m (p + 4) = .ok size)
    (ht : load32 m p = .ok LB_TAG_CFR_OPTION_ENUM)
    (h1 : sm_read_opt_name m (p + 20) = .ok (opt, k1) o1)
    (h2 : sm_read_ui_name m (p + 20 + k1) = .ok (ui, k2) o2)
    (h3 : sm_read_ui_helptext m (p + 20 + k1 + k2) = .ok (help, k3) o3)
    (hoid : load32 m (p + 8) = .ok oid) (hfl : load32 m (p + 12) = .ok fl)
    (hdv : load32 m (p + 16) = .ok dv)
    (h4 : read_enum_values fuel m (p + size) (p + 20 + k1 + k2 + k3) dv = .ok cur o4)
    (hne : cur ≠ p + size) :
    (sm_read_opt_enum fuel m p).fault = some .fatal := by
  simp only [sm_read_opt_enum]
  simp [hs, html_tag_ok m p _ ht, h1, h2, h3, h4, hoid, hfl, hdv, outcome_bind_ok, lift_ok,
    emit_eq, fault_prepend, fault_ite_pure_abort _ hne]

theorem html_sm_read_opt_varchar_exact {m : Mem} {p n : Nat} {out : List Html}
    (h : sm_read_opt_varchar m p = .ok n out) :
    load32 m (p + 4) = .ok n ∧ load32 m p = .ok LB_TAG_CFR_OPTION_VARCHAR ∧
    ∃ dv k0 o0 opt k1 o1 ui k2 o2 help k3 o3,
      sm_read_string_default_value m (p + 16) = .ok (dv, k0) o0 ∧
      sm_read_opt_name m (p + 16 + k0) = .ok (opt, k1) o1 ∧
      sm_read_ui_name m (p + 16 + k0 + k1) = .ok (ui, k2) o2 ∧
      sm_read_ui_helptext m (p + 16 + k0 + k1 + k2) = .ok (help, k3) o3 ∧
      p + 16 + k0 + k1 + k2 + k3 = p + n := by
  simp only [sm_read_opt_varchar] at h
  obtain ⟨size, _, _, h1, h, -⟩ := outcome_bind_eq_ok h
  obtain ⟨h1, -⟩ := lift_eq_ok h1
  obtain ⟨_, _, _, h2, h, -⟩ := outcome_bind_eq_ok h
  obtain ⟨h2, -⟩ := html_tag_ok_eq_ok h2
  obtain ⟨⟨dv, k0⟩, o2, _, h6, h, -⟩ := outcome_bind_eq_ok h
  obtain ⟨⟨opt, k1⟩, o3, _, h3, h, -⟩ := outcome_bind_eq_ok h
  obtain ⟨⟨ui, k2⟩, o4, _, h4, h, -⟩ := outcome_bind_eq_ok h
  obtain ⟨⟨help, k3⟩, o5, _, h5, h, -⟩ := outcome_bind_eq_ok h
  obtain ⟨_, _, _, -, h, -⟩ := outcome_bind_eq_ok h
  obtain ⟨_, _, _, -, h, -⟩ := outcome_bind_eq_ok h
  obtain ⟨_, h, -⟩ := emit_bind_eq_ok h
  obtain ⟨hc, rfl, -⟩ := ite_pure_abort_eq_ok h
  exact ⟨h1, h2, dv, k0, o2, opt, k1, o3, ui, k2, o4, help, k3, o5, h6, h3, h4, h5, hc⟩

theorem html_sm_read_opt_varchar_fatal {m : Mem} {p size k0 k1 k2 k3 oid fl : Nat}
    {dv opt ui help : List Nat} {o0 o1 o2 o3 : List Html} (hs : load32 m (p + 4) = .ok size)
    (ht : load32 m p = .ok LB_TAG_CFR_OPTION_VARCHAR)
    (h0 : sm_read_string_default_value m (p + 16) = .ok (dv, k0) o0)
    (h1 : sm_read_opt_name m (p + 16 + k0) = .ok (opt, k1) o1)
    (h2 : sm_read_ui_name m (p + 16 + k0 + k1) = .ok (ui, k2) o2)
    (h3 : sm_read_ui_helptext m (p + 16 + k0 + k1 + k2) = .ok (help, k3) o3)
    (hoid : load32 m (p + 8) = .ok oid) (hfl : load32 m (p + 12) = .ok fl)
    (hne : p + 16 + k0 + k1 + k2 + k3 ≠ p + size) :
    (sm_read_opt_varchar m p).fault = some .fatal := by
  simp only [sm_read_opt_varchar]
  simp [hs, html_tag_ok m p _ ht, h0, h1, h2, h3, hoid, hfl, outcome_bind_ok, lift_ok,
    emit_eq, fault_prepend, fault_ite_pure_abort _ hne]

theorem html_sm_read_opt_comment_exact {m : Mem} {p n : Nat} {out : List Html}
    (h : sm_read_opt_comment m p = .ok n out) :
    load32 m (p + 4) = .ok n ∧ load32 m p = .ok LB_TAG_CFR_OPTION_COMMENT ∧
    ∃ ui k2 o2 help k3 o3,
      sm_read_ui_name m (p + 16) = .ok (ui, k2) o2 ∧
      sm_read_ui_helptext m (p + 16 + k2) = .ok (help, k3) o3 ∧
      p + 16 + k2 + k3 = p + n := by
  simp only [sm_read_opt_comment] at h
  obtain ⟨size, _, _, h1, h, -⟩ := outcome_bind_eq_ok h
  obtain ⟨h1, -⟩ := lift_eq_ok h1
  obtain ⟨_, _, _, h2, h, -⟩ := outcome_bind_eq_ok h
  obtain ⟨h2, -⟩ := html_tag_ok_eq_ok h2
  obtain ⟨⟨ui, k2⟩, o4, _, h4, h, -⟩ := outcome_bind_eq_ok h
  obtain ⟨⟨help, k3⟩, o5, _, h5, h, -⟩ := outcome_bind_eq_ok h
  obtain ⟨_, _, _, -, h, -⟩ := outcome_bind_eq_ok h
  obtain ⟨_, _, _, -, h, -⟩ := outcome_bind_eq_ok h
  obtain ⟨_, h, -⟩ := emit_bind_eq_ok h
  obtain ⟨hc, rfl, -⟩ := ite_pure_abort_eq_ok h
  exact ⟨h1, h2, ui, k2, o4, help, k3, o5, h4, h5, hc⟩

theorem html_sm_read_opt_comment_fatal {m : Mem} {p size k2 k3 oid fl : Nat}
    {ui help : List Nat} {o2 o3 : List Html} (hs : load32 m (p + 4) = .ok size)
    (ht : load32 m p = .ok LB_TAG_CFR_OPTION_COMMENT)
    (h2 : sm_read_ui_name m (p + 16) = .ok (ui, k2) o2)
    (h3 : sm_read_ui_helptext m (p + 16 + k2) = .ok (help, k3) o3)
    (hoid : load32 m (p + 8) = .ok oid) (hfl : load32 m (p + 12) = .ok fl)
    (hne : p + 16 + k2 + k3 ≠ p + size) :
    (sm_read_opt_comment m p).fault = some .fatal := by
  simp only [sm_read_opt_comment]
  simp [hs, html_tag_ok m p _ ht, h2, h3, hoid, hfl, outcome_bind_ok, lift_ok,
    emit_eq, fault_prepend, fault_ite_pure_abort _ hne]

theorem html_sm_read_form_exact {fuel : Nat} {m : Mem} {p n : Nat} {out : List Html}
    (h : sm_read_form (fuel + 1) m p = .ok n out) :
    load32 m (p + 4) = .ok n ∧ load32 m p = .ok LB_TAG_CFR_OPTION_FORM ∧
    ∃ ui k o1 o2,
      sm_read_ui_name m (p + 16) = .ok (ui, k) o1 ∧
      read_objects fuel m (p + n) (p + 16 + k) = .ok (p + n) o2 := by
  simp only [sm_read_form] at h
  obtain ⟨size, _, _, h1, h, -⟩ := outcome_bind_eq_ok h
  obtain ⟨h1, -⟩ := lift_eq_ok h1
  obtain ⟨_, _, _, h2, h, -⟩ := outcome_bind_eq_ok h
  obtain ⟨h2, -⟩ := html_tag_ok_eq_ok h2
  obtain ⟨⟨ui, k⟩, o4, _, h4, h, -⟩ := outcome_bind_eq_ok h
  obtain ⟨_, _, _, -, h, -⟩ := outcome_bind_eq_ok h
  obtain ⟨_, _, _, -, h, -⟩ := outcome_bind_eq_ok h
  obtain ⟨_, h, -⟩ := emit_bind_eq_ok h
  obtain ⟨cur, o6, _, h6, h, -⟩ := outcome_bind_eq_ok h
  obtain ⟨_, h, -⟩ := emit_bind_eq_ok h
  obtain ⟨hc, rfl, -⟩ := ite_pure_abort_eq_ok h
  dsimp only at hc h6
  rw [hc] at h6
  exact ⟨h1, h2, ui, k, o4, o6, h4, h6⟩

theorem html_sm_read_form_fatal {fuel : Nat} {m : Mem} {p size k oid fl cur : Nat}
    {ui : List Nat} {o1 o2 : List Html} (hs : load32 m (p + 4) = .ok size)
    (ht : load32 m p = .ok LB_TAG_CFR_OPTION_FORM)
    (h1 : sm_read_ui_name m (p + 16) = .ok (ui, k) o1)
    (hoid : load32 m (p + 8) = .ok oid) (hfl : load32 m (p + 12) = .ok fl)
    (h2 : read_objects fuel m (p + size) (p + 16 + k) = .ok cur o2)
    (hne : cur ≠ p + size) :
    (sm_read_form (fuel + 1) m p).fault = some .fatal := by
  simp only [sm_read_form]
  simp [hs, html_tag_ok m p _ ht, h1, h2, hoid, hfl, outcome_bind_ok, lift_ok,
    emit_eq, fault_prepend, fault_ite_pure_abort _ hne]

theorem html_sm_read_form_tab_exact {fuel : Nat} {m : Mem} {p idx n : Nat} {out : List Html}
    (h : sm_read_form_tab fuel m p idx = .ok n out) :
    load32 m (p + 4) = .ok n ∧ load32 m p = .ok LB_TAG_CFR_OPTION_FORM ∧
    ∃ ui k o1 o2,
      sm_read_ui_name m (p + 16) = .ok (ui, k) o1 ∧
      read_objects fuel m (p + n) (p + 16 + k) = .ok (p + n) o2 := by
  simp only [sm_read_form_tab] at h
  obtain ⟨size, _, _, h1, h, -⟩ := outcome_bind_eq_ok h
  obtain ⟨h1, -⟩ := lift_eq_ok h1
  obtain ⟨_, _, _, h2, h, -⟩ := outcome_bind_eq_ok h
  obtain ⟨h2, -⟩ := html_tag_ok_eq_ok h2
  obtain ⟨⟨ui, k⟩, o4, _, h4, h, -⟩ := outcome_bind_eq_ok h
  obtain ⟨_, _, _, -, h, -⟩ := outcome_bind_eq_ok h
  obtain ⟨_, _, _, -, h, -⟩ := outcome_bind_eq_ok h
  obtain ⟨_, h, -⟩ := emit_bind_eq_ok h
  obtain ⟨cur, o6, _, h6, h, -⟩ := outcome_bind_eq_ok h
  obtain ⟨_, h, -⟩ := emit_bind_eq_ok h
  obtain ⟨hc, rfl, -⟩ := ite_pure_abort_eq_ok h
  dsimp only at hc h6
  rw [hc] at h6
  exact ⟨h1, h2, ui, k, o4, o6, h4, h6⟩

theorem html_sm_read_form_tab_fatal {fuel : Nat} {m : Mem} {p idx size k oid fl cur : Nat}
    {ui : List Nat} {o1 o2 : List Html} (hs : load32 m (p + 4) = .ok size)
    (ht : load32 m p = .ok LB_TAG_CFR_OPTION_FORM)
    (h1 : sm_read_ui_name m (p + 16) = .ok (ui, k) o1)
    (hoid : load32 m (p + 8) = .ok oid) (hfl : load32 m (p + 12) = .ok fl)
    (h2 : read_objects fuel m (p + size) (p + 16 + k) = .ok cur o2)
    (hne : cur ≠ p + size) :
    (sm_read_form_tab fuel m p idx).fault = some .fatal := by
  simp only [sm_read_form_tab]
  simp [hs, html_tag_ok m p _ ht, h1, h2, hoid, hfl, outcome_bind_ok, lift_ok,
    emit_eq, fault_prepend, fault_ite_pure_abort _ hne]

theorem html_sm_read_cfr_exact {fuel : Nat} {m : Mem} {out : List Html}
    (h : sm_read_cfr fuel m = .ok () out) :
    load32 m 0 = .ok LB_TAG_CFR ∧
    ∃ size o1, load32 m 4 = .ok size ∧ read_form_tabs fuel m size 12 0 = .ok size o1 := by
  simp only [sm_read_cfr, Nat.zero_add] at h
  obtain ⟨size, _, _, h1, h, -⟩ := outcome_bind_eq_ok h
  obtain ⟨h1, -⟩ := lift_eq_ok h1
  obtain ⟨_, _, _, h2, h, -⟩ := outcome_bind_eq_ok h
  obtain ⟨h2, -⟩ := html_tag_ok_eq_ok h2
  obtain ⟨_, _, _, -, h, -⟩ := outcome_bind_eq_ok h
  obtain ⟨_, h, -⟩ := emit_bind_eq_ok h
  obtain ⟨cur, o6, _, h6, h, -⟩ := outcome_bind_eq_ok h
  obtain ⟨_, h, -⟩ := emit_bind_eq_ok h
  by_cases hc : cur = size
  · rw [hc] at h6
    exact ⟨h2, size, o6, h1, h6⟩
  · rw [if_neg hc] at h
    cases h

theorem html_sm_read_cfr_fatal {fuel : Nat} {m : Mem} {size crc cur : Nat} {o1 : List Html}
    (ht : load32 m 0 = .ok LB_TAG_CFR) (hs : load32 m 4 = .ok size)
    (hcrc : load32 m 8 = .ok crc) (h1 : read_form_tabs fuel m size 12 0 = .ok cur o1)
    (hne : cur ≠ size) :
    (sm_read_cfr fuel m).fault = some .fatal := by
  simp only [sm_read_cfr, Nat.zero_add]
  simp [hs, html_tag_ok m 0 _ ht, h1, hcrc, outcome_bind_ok, lift_ok, emit_eq, fault_prepend,
    hne]
  rfl

/-- The object loop of `cfr_to_html` only returns with the cursor at or past the limit. -/
theorem html_read_objects_ge (m : Mem) (limit : Nat) : ∀ (fuel cur cur' : Nat)
    (o : List Html), read_objects fuel m limit cur = .ok cur' o →
    limit ≤ cur' ∧ cur ≤ cur' := by
  intro fuel
  induction fuel with
  | zero => intro cur cur' o h; simp only [read_objects] at h; cases h
  | succ f ih =>
    intro cur cur' o h
    simp only [read_objects] at h
    by_cases hc : cur < limit
    · rw [if_pos hc] at h
      obtain ⟨n, o1, o2, _, h2, _⟩ := outcome_bind_eq_ok h
      have := ih _ _ _ h2
      omega
    · rw [if_neg hc, outcome_pure] at h
      injection h with h1 _
      omega

/-- The tab loop of `cfr_to_html` only returns with the cursor at or past the limit. -/
theorem html_read_form_tabs_ge (m : Mem) (limit : Nat) : ∀ (fuel cur idx cur' : Nat)
    (o : List Html), read_form_tabs fuel m limit cur idx = .ok cur' o →
    limit ≤ cur' ∧ cur ≤ cur' := by
  intro fuel
  induction fuel with
  | zero => intro cur idx cur' o h; cases h
  | succ f ih =>
    intro cur idx cur' o h
    simp only [read_form_tabs] at h
    by_cases hc : cur < limit
    · rw [if_pos hc] at h
      obtain ⟨n, o1, o2, _, h2, _⟩ := outcome_bind_eq_ok h
      have := ih _ _ _ _ h2
      omega
    · rw [if_neg hc, outcome_pure] at h
      injection h with h1 _
      omega

end cfr_to_html


namespace cfr_read

open cfr

theorem dump_tag_ok_eq_ok {m : Mem} {p tag : Nat} {o : List Out}
    (h : _tag_ok m p tag = .ok () o) : load32 m p = .ok tag := by
  unfold _tag_ok at h
  obtain ⟨t, o1, o2, h1, h2, h3⟩ := outcome_bind_eq_ok h
  obtain ⟨hl, rfl⟩ := lift_eq_ok h1
  by_cases ht : t ≠ tag
  · rw [if_pos ht] at h2
    obtain ⟨o3, h4, _⟩ := emit_bind_eq_ok h2
    cases h4
  · have : t = tag := by simpa using ht
    rw [hl, this]

theorem dump_sm_read_enum_value_exact {m : Mem} {p n : Nat} {depth d : Int} {out : List Out}
    (h : sm_read_enum_value m p depth = .ok (n, d) out) :
    load32 m (p + 4) = .ok n ∧
    ∃ k o, sm_read_ui_name m (p + 12) depth = .ok (k, d) o ∧ p + 12 + k = p + n := by
  simp only [sm_read_enum_value] at h
  obtain ⟨size, _, _, h1, h, -⟩ := outcome_bind_eq_ok h
  obtain ⟨h1, -⟩ := lift_eq_ok h1
  obtain ⟨_, _, _, -, h, -⟩ := outcome_bind_eq_ok h
  obtain ⟨v, _, _, -, h, -⟩ := outcome_bind_eq_ok h
  obtain ⟨_, h, -⟩ := emit_bind_eq_ok h
  obtain ⟨⟨k, d1⟩, o3, _, h3, h, -⟩ := outcome_bind_eq_ok h
  obtain ⟨hc, hr, -⟩ := ite_pure_abort_eq_ok h
  injection hr with hr1 hr2
  subst hr1 hr2
  exact ⟨h1, k, o3, h3, hc⟩

theorem dump_sm_read_enum_value_fatal {m : Mem} {p t size k v : Nat} {depth d : Int}
    {o : List Out} (hp : p % 4 = 0) (hs : load32 m (p + 4) = .ok size)
    (ht : load32 m p = .ok t) (hv : load32 m (p + 8) = .ok v)
    (h1 : sm_read_ui_name m (p + 12) depth = .ok (k, d) o)
    (hne : p + 12 + k ≠ p + size) :
    (sm_read_enum_value m p depth).fault = some .fatal := by
  simp only [sm_read_enum_value]
  simp [hs, dump_print_record m p _ _ hp ht hs, h1, hv, outcome_bind_ok, lift_ok, emit_eq,
    fault_prepend, fault_ite_pure_abort _ hne]

theorem dump_read_numeric_option_exact {fuel : Nat} {m : Mem} {p tag n : Nat} {depth d : Int}
    {out : List Out} (h : read_numeric_option fuel m p tag depth = .ok (n, d) out) :
    load32 m (p + 4) = .ok n ∧ load32 m p = .ok tag ∧
    ∃ k1 d1 o1 k2 d2 o2 k3 d3 o3,
      sm_read_opt_name m (p + 20) depth = .ok (k1, d1) o1 ∧
      sm_read_ui_name m (p + 20 + k1) d1 = .ok (k2, d2) o2 ∧
      sm_read_ui_helptext m (p + 20 + k1 + k2) d2 = .ok (k3, d3) o3 ∧
      (tag = LB_TAG_CFR_OPTION_ENUM →
        ∃ o4, read_enum_values fuel m (p + n) (p + 20 + k1 + k2 + k3) d3 = .ok (p + n, d) o4) ∧
      (tag ≠ LB_TAG_CFR_OPTION_ENUM → p + 20 + k1 + k2 + k3 = p + n ∧ d = d3) := by
  simp only [read_numeric_option] at h
  obtain ⟨size, _, _, h1, h, -⟩ := outcome_bind_eq_ok h
  obtain ⟨h1, -⟩ := lift_eq_ok h1
  obtain ⟨_, _, _, h2, h, -⟩ := outcome_bind_eq_ok h
  have h2 := dump_tag_ok_eq_ok h2
  obtain ⟨_, _, _, -, h, -⟩ := outcome_bind_eq_ok h
  obtain ⟨_, _, _, -, h, -⟩ := outcome_bind_eq_ok h
  obtain ⟨_, h, -⟩ := emit_bind_eq_ok h
  obtain ⟨_, _, _, -, h, -⟩ := outcome_bind_eq_ok h
  obtain ⟨_, h, -⟩ := emit_bind_eq_ok h
  obtain ⟨_, _, _, -, h, -⟩ := outcome_bind_eq_ok h
  obtain ⟨_, h, -⟩ := emit_bind_eq_ok h
  obtain ⟨⟨k1, d1⟩, o3, _, h3, h, -⟩ := outcome_bind_eq_ok h
  obtain ⟨⟨k2, d2⟩, o4, _, h4, h, -⟩ := outcome_bind_eq_ok h
  obtain ⟨⟨k3, d3⟩, o5, _, h5, h, -⟩ := outcome_bind_eq_ok h
  obtain ⟨rtag, _, _, h6, h, -⟩ := outcome_bind_eq_ok h
  obtain ⟨h6, -⟩ := lift_eq_ok h6
  rw [h2] at h6
  injection h6 with h6
  subst h6
  obtain ⟨⟨cur, d4⟩, o7, _, h7, h, -⟩ := outcome_bind_eq_ok h
  obtain ⟨hc, hr, -⟩ := ite_pure_abort_eq_ok h
  injection hr with hr1 hr2
  subst hr1 hr2
  dsimp only at hc h7 h3 h4 h5
  refine ⟨h1, h2, k1, d1, o3, k2, d2, o4, k3, d3, o5, h3, h4, h5, ?_, ?_⟩
  · intro he
    rw [if_pos he] at h7
    obtain ⟨o8, h8, -⟩ := emit_bind_eq_ok h7
    rw [hc] at h8
    exact ⟨o8, h8⟩
  · intro he
    rw [if_neg he, outcome_pure] at h7
    injection h7 with h7 _
    injection h7 with h71 h72
    subst h71 h72
    exact ⟨hc, rfl⟩

theorem dump_read_numeric_option_fatal {fuel : Nat} {m : Mem} {p tag size k1 k2 k3 oid fl dv : Nat}
    {depth d1 d2 d3 : Int} {o1 o2 o3 : List Out} (hp : p % 4 = 0)
    (hs : load32 m (p + 4) = .ok size) (ht : load32 m p = .ok tag)
    (hoid : load32 m (p + 8) = .ok oid) (hfl : load32 m (p + 12) = .ok fl)
    (hdv : load32 m (p + 16) = .ok dv)
    (h1 : sm_read_opt_name m (p + 20) depth = .ok (k1, d1) o1)
    (h2 : sm_read_ui_name m (p + 20 + k1) d1 = .ok (k2, d2) o2)
    (h3 : sm_read_ui_helptext m (p + 20 + k1 + k2) d2 = .ok (k3, d3) o3) :
    (tag ≠ LB_TAG_CFR_OPTION_ENUM → p + 20 + k1 + k2 + k3 ≠ p + size →
      (read_numeric_option fuel m p tag depth).fault = some .fatal) ∧
    (tag = LB_TAG_CFR_OPTION_ENUM → ∀ cur d4 o4,
      read_enum_values fuel m (p + size) (p + 20 + k1 + k2 + k3) d3 = .ok (cur, d4) o4 →
      cur ≠ p + size → (read_numeric_option fuel m p tag depth).fault = some .fatal) := by
  constructor
  · intro he hne
    simp only [read_numeric_option]
    simp [hs, dump_tag_ok m p _ ht, dump_print_record m p _ _ hp ht hs, h1, h2, h3, hoid, hfl,
      hdv, ht, he, outcome_bind_ok, outcome_pure, outcome_prepend_ok, lift_ok, emit_eq,
      fault_prepend, hne]
    rfl
  · intro he cur d4 o4 h4 hne
    subst he
    simp only [read_numeric_option]
    simp [hs, dump_tag_ok m p _ ht, dump_print_record m p _ _ hp ht hs, h1, h2, h3, h4, hoid,
      hfl, hdv, ht, outcome_bind_ok, outcome_prepend_ok, lift_ok, emit_eq, fault_prepend,
      fault_ite_pure_abort _ hne]

theorem dump_sm_read_opt_varchar_exact {m : Mem} {p n : Nat} {depth d : Int}
    {out : List Out} (h : sm_read_opt_varchar m p depth = .ok (n, d) out) :
    load32 m (p + 4) = .ok n ∧ load32 m p = .ok LB_TAG_CFR_OPTION_VARCHAR ∧
    ∃ k0 d0 o0 k1 d1 o1 k2 d2 o2 k3 o3,
      sm_read_string_default_value m (p + 16) depth = .ok (k0, d0) o0 ∧
      sm_read_opt_name m (p + 16 + k0) d0 = .ok (k1, d1) o1 ∧
      sm_read_ui_name m (p + 16 + k0 + k1) d1 = .ok (k2, d2) o2 ∧
      sm_read_ui_helptext m (p + 16 + k0 + k1 + k2) d2 = .ok (k3, d) o3 ∧
      p + 16 + k0 + k1 + k2 + k3 = p + n := by
  simp only [sm_read_opt_varchar] at h
  obtain ⟨size, _, _, h1, h, -⟩ := outcome_bind_eq_ok h
  obtain ⟨h1, -⟩ := lift_eq_ok h1
  obtain ⟨_, _, _, h2, h, -⟩ := outcome_bind_eq_ok h
  have h2 := dump_tag_ok_eq_ok h2
  obtain ⟨_, _, _, -, h, -⟩ := outcome_bind_eq_ok h
  obtain ⟨_, _, _, -, h, -⟩ := outcome_bind_eq_ok h
  obtain ⟨_, h, -⟩ := emit_bind_eq_ok h
  obtain ⟨_, _, _, -, h, -⟩ := outcome_bind_eq_ok h
  obtain ⟨_, h, -⟩ := emit_bind_eq_ok h
  obtain ⟨⟨k0, d0⟩, o2, _, h6, h, -⟩ := outcome_bind_eq_ok h
  obtain ⟨⟨k1, d1⟩, o3, _, h3, h, -⟩ := outcome_bind_eq_ok h
  obtain ⟨⟨k2, d2⟩, o4, _, h4, h, -⟩ := outcome_bind_eq_ok h
  obtain ⟨⟨k3, d3⟩, o5, _, h5, h, -⟩ := outcome_bind_eq_ok h
  obtain ⟨hc, hr, -⟩ := ite_pure_abort_eq_ok h
  injection hr with hr1 hr2
  subst hr1 hr2
  exact ⟨h1, h2, k0, d0, o2, k1, d1, o3, k2, d2, o4, k3, o5, h6, h3, h4, h5, hc⟩

theorem dump_sm_read_opt_varchar_fatal {m : Mem} {p size k0 k1 k2 k3 oid fl : Nat}
    {depth d0 d1 d2 d3 : Int} {o0 o1 o2 o3 : List Out} (hp : p % 4 = 0)
    (hs : load32 m (p + 4) = .ok size) (ht : load32 m p = .ok LB_TAG_CFR_OPTION_VARCHAR)
    (hoid : load32 m (p + 8) = .ok oid) (hfl : load32 m (p + 12) = .ok fl)
    (h0 : sm_read_string_default_value m (p + 16) depth = .ok (k0, d0) o0)
    (h1 : sm_read_opt_name m (p + 16 + k0) d0 = .ok (k1, d1) o1)
    (h2 : sm_read_ui_name m (p + 16 + k0 + k1) d1 = .ok (k2, d2) o2)
    (h3 : sm_read_ui_helptext m (p + 16 + k0 + k1 + k2) d2 = .ok (k3, d3) o3)
    (hne : p + 16 + k0 + k1 + k2 + k3 ≠ p + size) :
    (sm_read_opt_varchar m p depth).fault = some .fatal := by
  simp only [sm_read_opt_varchar]
  simp [hs, dump_tag_ok m p _ ht, dump_print_record m p _ _ hp ht hs, h0, h1, h2, h3, hoid,
    hfl, outcome_bind_ok, lift_ok, emit_eq, fault_prepend, fault_ite_pure_abort _ hne]

theorem dump_sm_read_opt_comment_exact {m : Mem} {p n : Nat} {depth d : Int}
    {out : List Out} (h : sm_read_opt_comment m p depth = .ok (n, d) out) :
    load32 m (p + 4) = .ok n ∧ load32 m p = .ok LB_TAG_CFR_OPTION_COMMENT ∧
    ∃ k2 d2 o2 k3 o3,
      sm_read_ui_name m (p + 16) depth = .ok (k2, d2) o2 ∧
      sm_read_ui_helptext m (p + 16 + k2) d2 = .ok (k3, d) o3 ∧
      p + 16 + k2 + k3 = p + n := by
  simp only [sm_read_opt_comment] at h
  obtain ⟨size, _, _, h1, h, -⟩ := outcome_bind_eq_ok h
  obtain ⟨h1, -⟩ := lift_eq_ok h1
  obtain ⟨_, _, _, h2, h, -⟩ := outcome_bind_eq_ok h
  have h2 := dump_tag_ok_eq_ok h2
  obtain ⟨_, _, _, -, h, -⟩ := outcome_bind_eq_ok h
  obtain ⟨_, _, _, -, h, -⟩ := outcome_bind_eq_ok h
  obtain ⟨_, h, -⟩ := emit_bind_eq_ok h
  obtain ⟨_, _, _, -, h, -⟩ := outcome_bind_eq_ok h
  obtain ⟨_, h, -⟩ := emit_bind_eq_ok h
  obtain ⟨⟨k2, d2⟩, o4, _, h4, h, -⟩ := outcome_bind_eq_ok h
  obtain ⟨⟨k3, d3⟩, o5, _, h5, h, -⟩ := outcome_bind_eq_ok h
  obtain ⟨hc, hr, -⟩ := ite_pure_abort_eq_ok h
  injection hr with hr1 hr2
  subst hr1 hr2
  exact ⟨h1, h2, k2, d2, o4, k3, o5, h4, h5, hc⟩

theorem dump_sm_read_opt_comment_fatal {m : Mem} {p size k2 k3 oid fl : Nat}
    {depth d2 d3 : Int} {o2 o3 : List Out} (hp : p % 4 = 0)
    (hs : load32 m (p + 4) = .ok size) (ht : load32 m p = .ok LB_TAG_CFR_OPTION_COMMENT)
    (hoid : load32 m (p + 8) = .ok oid) (hfl : load32 m (p + 12) = .ok fl)
    (h2 : sm_read_ui_name m (p + 16) depth = .ok (k2, d2) o2)
    (h3 : sm_read_ui_helptext m (p + 16 + k2) d2 = .ok (k3, d3) o3)
    (hne : p + 16 + k2 + k3 ≠ p + size) :
    (sm_read_opt_comment m p depth).fault = some .fatal := by
  simp only [sm_read_opt_comment]
  simp [hs, dump_tag_ok m p _ ht, dump_print_record m p _ _ hp ht hs, h2, h3, hoid,
    hfl, outcome_bind_ok, lift_ok, emit_eq, fault_prepend, fault_ite_pure_abort _ hne]

theorem dump_sm_read_form_exact {fuel : Nat} {m : Mem} {p n : Nat} {depth d : Int}
    {out : List Out} (h : sm_read_form (fuel + 1) m p depth = .ok (n, d) out) :
    load32 m (p + 4) = .ok n ∧ load32 m p = .ok LB_TAG_CFR_OPTION_FORM ∧
    ∃ k d1 o1 o2,
      sm_read_ui_name m (p + 16) depth = .ok (k, d1) o1 ∧
      read_objects fuel m (p + n) (p + 16 + k) d1 = .ok (p + n, d) o2 := by
  simp only [sm_read_form] at h
  obtain ⟨size, _, _, h1, h, -⟩ := outcome_bind_eq_ok h
  obtain ⟨h1, -⟩ := lift_eq_ok h1
  obtain ⟨_, _, _, h2, h, -⟩ := outcome_bind_eq_ok h
  have h2 := dump_tag_ok_eq_ok h2
  obtain ⟨_, _, _, -, h, -⟩ := outcome_bind_eq_ok h
  obtain ⟨_, _, _, -, h, -⟩ := outcome_bind_eq_ok h
  obtain ⟨_, h, -⟩ := emit_bind_eq_ok h
  obtain ⟨_, _, _, -, h, -⟩ := outcome_bind_eq_ok h
  obtain ⟨_, h, -⟩ := emit_bind_eq_ok h
  obtain ⟨⟨k, d1⟩, o4, _, h4, h, -⟩ := outcome_bind_eq_ok h
  obtain ⟨_, h, -⟩ := emit_bind_eq_ok h
  obtain ⟨⟨cur, d2⟩, o6, _, h6, h, -⟩ := outcome_bind_eq_ok h
  obtain ⟨hc, hr, -⟩ := ite_pure_abort_eq_ok h
  injection hr with hr1 hr2
  subst hr1 hr2
  dsimp only at hc h6
  rw [hc] at h6
  exact ⟨h1, h2, k, d1, o4, o6, h4, h6⟩

theorem dump_sm_read_form_fatal {fuel : Nat} {m : Mem} {p size k oid fl cur : Nat}
    {depth d1 d2 : Int} {o1 o2 : List Out} (hp : p % 4 = 0)
    (hs : load32 m (p + 4) = .ok size) (ht : load32 m p = .ok LB_TAG_CFR_OPTION_FORM)
    (hoid : load32 m (p + 8) = .ok oid) (hfl : load32 m (p + 12) = .ok fl)
    (h1 : sm_read_ui_name m (p + 16) depth = .ok (k, d1) o1)
    (h2 : read_objects fuel m (p + size) (p + 16 + k) d1 = .ok (cur, d2) o2)
    (hne : cur ≠ p + size) :
    (sm_read_form (fuel + 1) m p depth).fault = some .fatal := by
  simp only [sm_read_form]
  simp [hs, dump_tag_ok m p _ ht, dump_print_record m p _ _ hp ht hs, h1, h2, hoid,
    hfl, outcome_bind_ok, lift_ok, emit_eq, fault_prepend, fault_ite_pure_abort _ hne]

theorem dump_sm_read_cfr_exact {fuel : Nat} {m : Mem} {d : Int} {out : List Out}
    (h : sm_read_cfr fuel m = .ok d out) :
    load32 m 0 = .ok LB_TAG_CFR ∧
    ∃ size o1, load32 m 4 = .ok size ∧ read_objects fuel m size 12 0 = .ok (size, d) o1 := by
  simp only [sm_read_cfr, Nat.zero_add] at h
  obtain ⟨size, _, _, h1, h, -⟩ := outcome_bind_eq_ok h
  obtain ⟨h1, -⟩ := lift_eq_ok h1
  obtain ⟨_, _, _, h2, h, -⟩ := outcome_bind_eq_ok h
  have h2 := dump_tag_ok_eq_ok h2
  obtain ⟨_, _, _, -, h, -⟩ := outcome_bind_eq_ok h
  obtain ⟨_, _, _, -, h, -⟩ := outcome_bind_eq_ok h
  obtain ⟨_, h, -⟩ := emit_bind_eq_ok h
  obtain ⟨_, h, -⟩ := emit_bind_eq_ok h
  obtain ⟨⟨cur, d2⟩, o6, _, h6, h, -⟩ := outcome_bind_eq_ok h
  dsimp only at h
  by_cases hc : cur = size
  · rw [if_pos hc] at h
    obtain ⟨_, h, -⟩ := emit_bind_eq_ok h
    obtain ⟨_, h, -⟩ := emit_bind_eq_ok h
    obtain ⟨_, h, -⟩ := emit_bind_eq_ok h
    rw [outcome_pure] at h
    injection h with hd _
    subst hd
    rw [hc] at h6
    exact ⟨h2, size, o6, h1, h6⟩
  · rw [if_neg hc] at h
    cases h

theorem dump_sm_read_cfr_fatal {fuel : Nat} {m : Mem} {size crc cur : Nat} {d : Int}
    {o1 : List Out} (ht : load32 m 0 = .ok LB_TAG_CFR) (hs : load32 m 4 = .ok size)
    (hcrc : load32 m 8 = .ok crc) (h1 : read_objects fuel m size 12 0 = .ok (cur, d) o1)
    (hne : cur ≠ size) :
    (sm_read_cfr fuel m).fault = some .fatal := by
  simp only [sm_read_cfr, Nat.zero_add]
  simp [hs, dump_tag_ok m 0 _ ht, dump_print_record m 0 _ _ rfl ht hs, h1, hcrc,
    outcome_bind_ok, lift_ok, emit_eq, fault_prepend, hne]
  rfl

/-- The enum-value loop of `cfr_read` only returns with the cursor at or past the limit. -/
theorem dump_read_enum_values_ge (m : Mem) (limit : Nat) : ∀ (fuel cur : Nat) (depth : Int)
    (cur' : Nat) (d : Int) (o : List Out),
    read_enum_values fuel m limit cur depth = .ok (cur', d) o →
    limit ≤ cur' ∧ cur ≤ cur' := by
  intro fuel
  induction fuel with
  | zero => intro cur depth cur' d o h; cases h
  | succ f ih =>
    intro cur depth cur' d o h
    simp only [read_enum_values] at h
    by_cases hc : cur < limit
    · rw [if_pos hc] at h
      obtain ⟨_, _, _, -, h, -⟩ := outcome_bind_eq_ok h
      obtain ⟨⟨n, d1⟩, _, _, -, h, -⟩ := outcome_bind_eq_ok h
      obtain ⟨_, _, _, -, h, -⟩ := outcome_bind_eq_ok h
      have := ih _ _ _ _ _ h
      omega
    · rw [if_neg hc, outcome_pure] at h
      injection h with h1 _
      injection h1 with h1 _
      omega

/-- The object loop of `cfr_read` only returns with the cursor at or past the limit. -/
theorem dump_read_objects_ge (m : Mem) (limit : Nat) : ∀ (fuel cur : Nat) (depth : Int)
    (cur' : Nat) (d : Int) (o : List Out),
    read_objects fuel m limit cur depth = .ok (cur', d) o →
    limit ≤ cur' ∧ cur ≤ cur' := by
  intro fuel
  induction fuel with
  | zero => intro cur depth cur' d o h; simp only [read_objects] at h; cases h
  | succ f ih =>
    intro cur depth cur' d o h
    simp only [read_objects] at h
    by_cases hc : cur < limit
    · rw [if_pos hc] at h
      obtain ⟨⟨n, d1⟩, _, _, -, h, -⟩ := outcome_bind_eq_ok h
      have := ih _ _ _ _ _ h
      omega
    · rw [if_neg hc, outcome_pure] at h
      injection h with h1 _
      injection h1 with h1 _
      omega

end cfr_read


namespace cfr

/-- C11 (exact consumption by containers). In `cfr_to_html` and in `cfr_read`, for the record
at `p` of the buffer `m`: each reader of a Root, Form, option or EnumValue record returns only
if its header, its string leaves and its child loop were read and left the cursor at exactly
`p + size` (its return value is the size field); each child loop returns only with the cursor
at or past its limit; and whenever the header and the sub-reads succeed but leave the cursor
elsewhere than at `p + size` (the children overrun the size, or the size of a Number, Bool,
Varchar or Comment option is larger or smaller than its header plus leaves), the reader
fails with the fatal fault. On the two example blobs (a Comment that declares four bytes too
many, a Form whose child ends past its end) both decoders end fatally. -/
theorem container_exact_consumption (fuel : Nat) (m : Mem) (p : Nat) :
    -- cfr_to_html: a reader that returns has consumed exactly its size
    ((∀ dflt n out, cfr_to_html.sm_read_enum_value m p dflt = .ok n out →
        load32 m (p + 4) = .ok n ∧ load32 m p = .ok LB_TAG_CFR_ENUM_VALUE ∧
        ∃ ui k o, cfr_to_html.sm_read_ui_name m (p + 12) = .ok (ui, k) o ∧
          p + 12 + k = p + n) ∧
     (∀ n out, cfr_to_html.sm_read_opt_enum fuel m p = .ok n out →
        load32 m (p + 4) = .ok n ∧ load32 m p = .ok LB_TAG_CFR_OPTION_ENUM ∧
        ∃ opt k1 o1 ui k2 o2 help k3 o3 dv o4,
          cfr_to_html.sm_read_opt_name m (p + 20) = .ok (opt, k1) o1 ∧
          cfr_to_html.sm_read_ui_name m (p + 20 + k1) = .ok (ui, k2) o2 ∧
          cfr_to_html.sm_read_ui_helptext m (p + 20 + k1 + k2) = .ok (help, k3) o3 ∧
          cfr_to_html.read_enum_values fuel m (p + n) (p + 20 + k1 + k2 + k3) dv =
            .ok (p + n) o4) ∧
     (∀ n out, cfr_to_html.sm_read_opt_number m p = .ok n out →
        load32 m (p + 4) = .ok n ∧ load32 m p = .ok LB_TAG_CFR_OPTION_NUMBER ∧
        ∃ opt k1 o1 ui k2 o2 help k3 o3,
          cfr_to_html.sm_read_opt_name m (p + 20) = .ok (opt, k1) o1 ∧
          cfr_to_html.sm_read_ui_name m (p + 20 + k1) = .ok (ui, k2) o2 ∧
          cfr_to_html.sm_read_ui_helptext m (p + 20 + k1 + k2) = .ok (help, k3) o3 ∧
          p + 20 + k1 + k2 + k3 = p + n) ∧
     (∀ n out, cfr_to_html.sm_read_opt_bool m p = .ok n out →
        load32 m (p + 4) = .ok n ∧ load32 m p = .ok LB_TAG_CFR_OPTION_BOOL ∧
        ∃ opt k1 o1 ui k2 o2 help k3 o3,
          cfr_to_html.sm_read_opt_name m (p + 20) = .ok (opt, k1) o1 ∧
          cfr_to_html.sm_read_ui_name m (p + 20 + k1) = .ok (ui, k2) o2 ∧
          cfr_to_html.sm_read_ui_helptext m (p + 20 + k1 + k2) = .ok (help, k3) o3 ∧
          p + 20 + k1 + k2 + k3 = p + n) ∧
     (∀ n out, cfr_to_html.sm_read_opt_varchar m p = .ok n out →
        load32 m (p + 4) = .ok n ∧ load32 m p = .ok LB_TAG_CFR_OPTION_VARCHAR ∧
        ∃ dv k0 o0 opt k1 o1 ui k2 o2 help k3 o3,
          cfr_to_html.sm_read_string_default_value m (p + 16) = .ok (dv, k0) o0 ∧
          cfr_to_html.sm_read_opt_name m (p + 16 + k0) = .ok (opt, k1) o1 ∧
          cfr_to_html.sm_read_ui_name m (p + 16 + k0 + k1) = .ok (ui, k2) o2 ∧
          cfr_to_html.sm_read_ui_helptext m (p + 16 + k0 + k1 + k2) = .ok (help, k3) o3 ∧
          p + 16 + k0 + k1 + k2 + k3 = p + n) ∧
     (∀ n out, cfr_to_html.sm_read_opt_comment m p = .ok n out →
        load32 m (p + 4) = .ok n ∧ load32 m p = .ok LB_TAG_CFR_OPTION_COMMENT ∧
        ∃ ui k2 o2 help k3 o3,
          cfr_to_html.sm_read_ui_name m (p + 16) = .ok (ui, k2) o2 ∧
          cfr_to_html.sm_read_ui_helptext m (p + 16 + k2) = .ok (help, k3) o3 ∧
          p + 16 + k2 + k3 = p + n) ∧
     (∀ n out, cfr_to_html.sm_read_form (fuel + 1) m p = .ok n out →
        load32 m (p + 4) = .ok n ∧ load32 m p = .ok LB_TAG_CFR_OPTION_FORM ∧
        ∃ ui k o1 o2,
          cfr_to_html.sm_read_ui_name m (p + 16) = .ok (ui, k) o1 ∧
          cfr_to_html.read_objects fuel m (p + n) (p + 16 + k) = .ok (p + n) o2) ∧
     (∀ idx n out, cfr_to_html.sm_read_form_tab fuel m p idx = .ok n out →
        load32 m (p + 4) = .ok n ∧ load32 m p = .ok LB_TAG_CFR_OPTION_FORM ∧
        ∃ ui k o1 o2,
          cfr_to_html.sm_read_ui_name m (p + 16) = .ok (ui, k) o1 ∧
          cfr_to_html.read_objects fuel m (p + n) (p + 16 + k) = .ok (p + n) o2) ∧
     (∀ out, cfr_to_html.sm_read_cfr fuel m = .ok () out →
        load32 m 0 = .ok LB_TAG_CFR ∧
        ∃ size o1, load32 m 4 = .ok size ∧
          cfr_to_html.read_form_tabs fuel m size 12 0 = .ok size o1)) ∧
    -- cfr_to_html: the loops stop only at or past the limit
    ((∀ limit dflt cur o, cfr_to_html.read_enum_values fuel m limit p dflt = .ok cur o →
        limit ≤ cur ∧ p ≤ cur) ∧
     (∀ limit cur o, cfr_to_html.read_objects fuel m limit p = .ok cur o →
        limit ≤ cur ∧ p ≤ cur) ∧
     (∀ limit idx cur o, cfr_to_html.read_form_tabs fuel m limit p idx = .ok cur o →
        limit ≤ cur ∧ p ≤ cur)) ∧
    -- cfr_to_html: a cursor that misses `p + size` is fatal
    ((∀ dflt size k v ui o, load32 m (p + 4) = .ok size →
        load32 m p = .ok LB_TAG_CFR_ENUM_VALUE →
        cfr_to_html.sm_read_ui_name m (p + 12) = .ok (ui, k) o →
        load32 m (p + 8) = .ok v → p + 12 + k ≠ p + size →
        (cfr_to_html.sm_read_enum_value m p dflt).fault = some .fatal) ∧
     (∀ size k1 k2 k3 oid fl dv cur opt ui help o1 o2 o3 o4,
        load32 m (p + 4) = .ok size → load32 m p = .ok LB_TAG_CFR_OPTION_ENUM →
        cfr_to_html.sm_read_opt_name m (p + 20) = .ok (opt, k1) o1 →
        cfr_to_html.sm_read_ui_name m (p + 20 + k1) = .ok (ui, k2) o2 →
        cfr_to_html.sm_read_ui_helptext m (p + 20 + k1 + k2) = .ok (help, k3) o3 →
        load32 m (p + 8) = .ok oid → load32 m (p + 12) = .ok fl →
        load32 m (p + 16) = .ok dv →
        cfr_to_html.read_enum_values fuel m (p + size) (p + 20 + k1 + k2 + k3) dv =
          .ok cur o4 →
        cur ≠ p + size → (cfr_to_html.sm_read_opt_enum fuel m p).fault = some .fatal) ∧
     (∀ size k1 k2 k3 oid fl dv opt ui help o1 o2 o3,
        load32 m (p + 4) = .ok size → load32 m p = .ok LB_TAG_CFR_OPTION_NUMBER →
        cfr_to_html.sm_read_opt_name m (p + 20) = .ok (opt, k1) o1 →
        cfr_to_html.sm_read_ui_name m (p + 20 + k1) = .ok (ui, k2) o2 →
        cfr_to_html.sm_read_ui_helptext m (p + 20 + k1 + k2) = .ok (help, k3) o3 →
        load32 m (p + 8) = .ok oid → load32 m (p + 12) = .ok fl →
        load32 m (p + 16) = .ok dv → p + 20 + k1 + k2 + k3 ≠ p + size →
        (cfr_to_html.sm_read_opt_number m p).fault = some .fatal) ∧
     (∀ size k1 k2 k3 oid fl dv opt ui help o1 o2 o3,
        load32 m (p + 4) = .ok size → load32 m p = .ok LB_TAG_CFR_OPTION_BOOL →
        cfr_to_html.sm_read_opt_name m (p + 20) = .ok (opt, k1) o1 →
        cfr_to_html.sm_read_ui_name m (p + 20 + k1) = .ok (ui, k2) o2 →
        cfr_to_html.sm_read_ui_helptext m (p + 20 + k1 + k2) = .ok (help, k3) o3 →
        load32 m (p + 8) = .ok oid → load32 m (p + 12) = .ok fl →
        load32 m (p + 16) = .ok dv → p + 20 + k1 + k2 + k3 ≠ p + size →
        (cfr_to_html.sm_read_opt_bool m p).fault = some .fatal) ∧
     (∀ size k0 k1 k2 k3 oid fl dv opt ui help o0 o1 o2 o3,
        load32 m (p + 4) = .ok size → load32 m p = .ok LB_TAG_CFR_OPTION_VARCHAR →
        cfr_to_html.sm_read_string_default_value m (p + 16) = .ok (dv, k0) o0 →
        cfr_to_html.sm_read_opt_name m (p + 16 + k0) = .ok (opt, k1) o1 →
        cfr_to_html.sm_read_ui_name m (p + 16 + k0 + k1) = .ok (ui, k2) o2 →
        cfr_to_html.sm_read_ui_helptext m (p + 16 + k0 + k1 + k2) = .ok (help, k3) o3 →
        load32 m (p + 8) = .ok oid → load32 m (p + 12) = .ok fl →
        p + 16 + k0 + k1 + k2 + k3 ≠ p + size →
        (cfr_to_html.sm_read_opt_varchar m p).fault = some .fatal) ∧
     (∀ size k2 k3 oid fl ui help o2 o3,
        load32 m (p + 4) = .ok size → load32 m p = .ok LB_TAG_CFR_OPTION_COMMENT →
        cfr_to_html.sm_read_ui_name m (p + 16) = .ok (ui, k2) o2 →
        cfr_to_html.sm_read_ui_helptext m (p + 16 + k2) = .ok (help, k3) o3 →
        load32 m (p + 8) = .ok oid → load32 m (p + 12) = .ok fl →
        p + 16 + k2 + k3 ≠ p + size →
        (cfr_to_html.sm_read_opt_comment m p).fault = some .fatal) ∧
     (∀ size k oid fl cur ui o1 o2,
        load32 m (p + 4) = .ok size → load32 m p = .ok LB_TAG_CFR_OPTION_FORM →
        cfr_to_html.sm_read_ui_name m (p + 16) = .ok (ui, k) o1 →
        load32 m (p + 8) = .ok oid → load32 m (p + 12) = .ok fl →
        cfr_to_html.read_objects fuel m (p + size) (p + 16 + k) = .ok cur o2 →
        cur ≠ p + size →
        (cfr_to_html.sm_read_form (fuel + 1) m p).fault = some .fatal ∧
        ∀ idx, (cfr_to_html.sm_read_form_tab fuel m p idx).fault = some .fatal) ∧
     (∀ size crc cur o1,
        load32 m 0 = .ok LB_TAG_CFR → load32 m 4 = .ok size → load32 m 8 = .ok crc →
        cfr_to_html.read_form_tabs fuel m size 12 0 = .ok cur o1 → cur ≠ size →
        (cfr_to_html.sm_read_cfr fuel m).fault = some .fatal)) ∧
    -- cfr_read: a reader that returns has consumed exactly its size
    ((∀ depth n d out, cfr_read.sm_read_enum_value m p depth = .ok (n, d) out →
        load32 m (p + 4) = .ok n ∧
        ∃ k o, cfr_read.sm_read_ui_name m (p + 12) depth = .ok (k, d) o ∧
          p + 12 + k = p + n) ∧
     (∀ tag depth n d out, cfr_read.read_numeric_option fuel m p tag depth = .ok (n, d) out →
        load32 m (p + 4) = .ok n ∧ load32 m p = .ok tag ∧
        ∃ k1 d1 o1 k2 d2 o2 k3 d3 o3,
          cfr_read.sm_read_opt_name m (p + 20) depth = .ok (k1, d1) o1 ∧
          cfr_read.sm_read_ui_name m (p + 20 + k1) d1 = .ok (k2, d2) o2 ∧
          cfr_read.sm_read_ui_helptext m (p + 20 + k1 + k2) d2 = .ok (k3, d3) o3 ∧
          (tag = LB_TAG_CFR_OPTION_ENUM →
            ∃ o4, cfr_read.read_enum_values fuel m (p + n) (p + 20 + k1 + k2 + k3) d3 =
              .ok (p + n, d) o4) ∧
          (tag ≠ LB_TAG_CFR_OPTION_ENUM → p + 20 + k1 + k2 + k3 = p + n ∧ d = d3)) ∧
     (∀ depth n d out, cfr_read.sm_read_opt_varchar m p depth = .ok (n, d) out →
        load32 m (p + 4) = .ok n ∧ load32 m p = .ok LB_TAG_CFR_OPTION_VARCHAR ∧
        ∃ k0 d0 o0 k1 d1 o1 k2 d2 o2 k3 o3,
          cfr_read.sm_read_string_default_value m (p + 16) depth = .ok (k0, d0) o0 ∧
          cfr_read.sm_read_opt_name m (p + 16 + k0) d0 = .ok (k1, d1) o1 ∧
          cfr_read.sm_read_ui_name m (p + 16 + k0 + k1) d1 = .ok (k2, d2) o2 ∧
          cfr_read.sm_read_ui_helptext m (p + 16 + k0 + k1 + k2) d2 = .ok (k3, d) o3 ∧
          p + 16 + k0 + k1 + k2 + k3 = p + n) ∧
     (∀ depth n d out, cfr_read.sm_read_opt_comment m p depth = .ok (n, d) out →
        load32 m (p + 4) = .ok n ∧ load32 m p = .ok LB_TAG_CFR_OPTION_COMMENT ∧
        ∃ k2 d2 o2 k3 o3,
          cfr_read.sm_read_ui_name m (p + 16) depth = .ok (k2, d2) o2 ∧
          cfr_read.sm_read_ui_helptext m (p + 16 + k2) d2 = .ok (k3, d) o3 ∧
          p + 16 + k2 + k3 = p + n) ∧
     (∀ depth n d out, cfr_read.sm_read_form (fuel + 1) m p depth = .ok (n, d) out →
        load32 m (p + 4) = .ok n ∧ load32 m p = .ok LB_TAG_CFR_OPTION_FORM ∧
        ∃ k d1 o1 o2,
          cfr_read.sm_read_ui_name m (p + 16) depth = .ok (k, d1) o1 ∧
          cfr_read.read_objects fuel m (p + n) (p + 16 + k) d1 = .ok (p + n, d) o2) ∧
     (∀ d out, cfr_read.sm_read_cfr fuel m = .ok d out →
        load32 m 0 = .ok LB_TAG_CFR ∧
        ∃ size o1, load32 m 4 = .ok size ∧
          cfr_read.read_objects fuel m size 12 0 = .ok (size, d) o1)) ∧
    -- cfr_read: the loops stop only at or past the limit
    ((∀ limit depth cur d o, cfr_read.read_enum_values fuel m limit p depth = .ok (cur, d) o →
        limit ≤ cur ∧ p ≤ cur) ∧
     (∀ limit depth cur d o, cfr_read.read_objects fuel m limit p depth = .ok (cur, d) o →
        limit ≤ cur ∧ p ≤ cur)) ∧
    -- cfr_read: a cursor that misses `p + size` is fatal
    ((∀ t size k v depth d o, p % 4 = 0 → load32 m (p + 4) = .ok size →
        load32 m p = .ok t → load32 m (p + 8) = .ok v →
        cfr_read.sm_read_ui_name m (p + 12) depth = .ok (k, d) o →
        p + 12 + k ≠ p + size →
        (cfr_read.sm_read_enum_value m p depth).fault = some .fatal) ∧
     (∀ tag size k1 k2 k3 oid fl dv depth d1 d2 d3 o1 o2 o3, p % 4 = 0 →
        load32 m (p + 4) = .ok size → load32 m p = .ok tag →
        load32 m (p + 8) = .ok oid → load32 m (p + 12) = .ok fl →
        load32 m (p + 16) = .ok dv →
        cfr_read.sm_read_opt_name m (p + 20) depth = .ok (k1, d1) o1 →
        cfr_read.sm_read_ui_name m (p + 20 + k1) d1 = .ok (k2, d2) o2 →
        cfr_read.sm_read_ui_helptext m (p + 20 + k1 + k2) d2 = .ok (k3, d3) o3 →
        (tag ≠ LB_TAG_CFR_OPTION_ENUM → p + 20 + k1 + k2 + k3 ≠ p + size →
          (cfr_read.read_numeric_option fuel m p tag depth).fault = some .fatal) ∧
        (tag = LB_TAG_CFR_OPTION_ENUM → ∀ cur d4 o4,
          cfr_read.read_enum_values fuel m (p + size) (p + 20 + k1 + k2 + k3) d3 =
            .ok (cur, d4) o4 →
          cur ≠ p + size →
          (cfr_read.read_numeric_option fuel m p tag depth).fault = some .fatal)) ∧
     (∀ size k0 k1 k2 k3 oid fl depth d0 d1 d2 d3 o0 o1 o2 o3, p % 4 = 0 →
        load32 m (p + 4) = .ok size → load32 m p = .ok LB_TAG_CFR_OPTION_VARCHAR →
        load32 m (p + 8) = .ok oid → load32 m (p + 12) = .ok fl →
        cfr_read.sm_read_string_default_value m (p + 16) depth = .ok (k0, d0) o0 →
        cfr_read.sm_read_opt_name m (p + 16 + k0) d0 = .ok (k1, d1) o1 →
        cfr_read.sm_read_ui_name m (p + 16 + k0 + k1) d1 = .ok (k2, d2) o2 →
        cfr_read.sm_read_ui_helptext m (p + 16 + k0 + k1 + k2) d2 = .ok (k3, d3) o3 →
        p + 16 + k0 + k1 + k2 + k3 ≠ p + size →
        (cfr_read.sm_read_opt_varchar m p depth).fault = some .fatal) ∧
     (∀ size k2 k3 oid fl depth d2 d3 o2 o3, p % 4 = 0 →
        load32 m (p + 4) = .ok size → load32 m p = .ok LB_TAG_CFR_OPTION_COMMENT →
        load32 m (p + 8) = .ok oid → load32 m (p + 12) = .ok fl →
        cfr_read.sm_read_ui_name m (p + 16) depth = .ok (k2, d2) o2 →
        cfr_read.sm_read_ui_helptext m (p + 16 + k2) d2 = .ok (k3, d3) o3 →
        p + 16 + k2 + k3 ≠ p + size →
        (cfr_read.sm_read_opt_comment m p depth).fault = some .fatal) ∧
     (∀ size k oid fl cur depth d1 d2 o1 o2, p % 4 = 0 →
        load32 m (p + 4) = .ok size → load32 m p = .ok LB_TAG_CFR_OPTION_FORM →
        load32 m (p + 8) = .ok oid → load32 m (p + 12) = .ok fl →
        cfr_read.sm_read_ui_name m (p + 16) depth = .ok (k, d1) o1 →
        cfr_read.read_objects fuel m (p + size) (p + 16 + k) d1 = .ok (cur, d2) o2 →
        cur ≠ p + size →
        (cfr_read.sm_read_form (fuel + 1) m p depth).fault = some .fatal) ∧
     (∀ size crc cur d o1,
        load32 m 0 = .ok LB_TAG_CFR → load32 m 4 = .ok size → load32 m 8 = .ok crc →
        cfr_read.read_objects fuel m size 12 0 = .ok (cur, d) o1 → cur ≠ size →
        (cfr_read.sm_read_cfr fuel m).fault = some .fatal)) ∧
    -- the two example blobs
    ((cfr_to_html.sm_read_cfr 100 oversize_comment_blob).fault = some .fatal ∧
     (cfr_read.sm_read_cfr 100 oversize_comment_blob).fault = some .fatal ∧
     (cfr_to_html.sm_read_cfr 96 overrun_form_blob).fault = some .fatal ∧
     (cfr_read.sm_read_cfr 96 overrun_form_blob).fault = some .fatal) := by
  refine ⟨⟨?_, ?_, ?_, ?_, ?_, ?_, ?_, ?_, ?_⟩, ⟨?_, ?_, ?_⟩, ⟨?_, ?_, ?_, ?_, ?_, ?_, ?_, ?_⟩,
    ⟨?_, ?_, ?_, ?_, ?_, ?_⟩, ⟨?_, ?_⟩, ⟨?_, ?_, ?_, ?_, ?_, ?_⟩, ?_⟩
  · intro dflt n out h; exact cfr_to_html.html_sm_read_enum_value_exact h
  · intro n out h; exact cfr_to_html.html_sm_read_opt_enum_exact h
  · intro n out h; exact cfr_to_html.html_sm_read_opt_number_exact h
  · intro n out h; exact cfr_to_html.html_sm_read_opt_bool_exact h
  · intro n out h; exact cfr_to_html.html_sm_read_opt_varchar_exact h
  · intro n out h; exact cfr_to_html.html_sm_read_opt_comment_exact h
  · intro n out h; exact cfr_to_html.html_sm_read_form_exact h
  · intro idx n out h; exact cfr_to_html.html_sm_read_form_tab_exact h
  · intro out h; exact cfr_to_html.html_sm_read_cfr_exact h
  · intro limit dflt cur o h; exact cfr_to_html.html_read_enum_values_ge m limit dflt _ _ _ _ h
  · intro limit cur o h; exact cfr_to_html.html_read_objects_ge m limit _ _ _ _ h
  · intro limit idx cur o h; exact cfr_to_html.html_read_form_tabs_ge m limit _ _ _ _ _ h
  · intro dflt size k v ui o hs ht h1 hv hne
    exact cfr_to_html.html_sm_read_enum_value_fatal hs ht h1 hv hne
  · intro size k1 k2 k3 oid fl dv cur opt ui help o1 o2 o3 o4 hs ht h1 h2 h3 hoid hfl hdv h4 hne
    exact cfr_to_html.html_sm_read_opt_enum_fatal hs ht h1 h2 h3 hoid hfl hdv h4 hne
  · intro size k1 k2 k3 oid fl dv opt ui help o1 o2 o3 hs ht h1 h2 h3 hoid hfl hdv hne
    exact cfr_to_html.html_sm_read_opt_number_fatal hs ht h1 h2 h3 hoid hfl hdv hne
  · intro size k1 k2 k3 oid fl dv opt ui help o1 o2 o3 hs ht h1 h2 h3 hoid hfl hdv hne
    exact cfr_to_html.html_sm_read_opt_bool_fatal hs ht h1 h2 h3 hoid hfl hdv hne
  · intro size k0 k1 k2 k3 oid fl dv opt ui help o0 o1 o2 o3 hs ht h0 h1 h2 h3 hoid hfl hne
    exact cfr_to_html.html_sm_read_opt_varchar_fatal hs ht h0 h1 h2 h3 hoid hfl hne
  · intro size k2 k3 oid fl ui help o2 o3 hs ht h2 h3 hoid hfl hne
    exact cfr_to_html.html_sm_read_opt_comment_fatal hs ht h2 h3 hoid hfl hne
  · intro size k oid fl cur ui o1 o2 hs ht h1 hoid hfl h2 hne
    exact ⟨cfr_to_html.html_sm_read_form_fatal hs ht h1 hoid hfl h2 hne,
      fun idx => cfr_to_html.html_sm_read_form_tab_fatal hs ht h1 hoid hfl h2 hne⟩
  · intro size crc cur o1 ht hs hcrc h1 hne
    exact cfr_to_html.html_sm_read_cfr_fatal ht hs hcrc h1 hne
  · intro depth n d out h; exact cfr_read.dump_sm_read_enum_value_exact h
  · intro tag depth n d out h; exact cfr_read.dump_read_numeric_option_exact h
  · intro depth n d out h; exact cfr_read.dump_sm_read_opt_varchar_exact h
  · intro depth n d out h; exact cfr_read.dump_sm_read_opt_comment_exact h
  · intro depth n d out h; exact cfr_read.dump_sm_read_form_exact h
  · intro d out h; exact cfr_read.dump_sm_read_cfr_exact h
  · intro limit depth cur d o h; exact cfr_read.dump_read_enum_values_ge m limit _ _ _ _ _ _ h
  · intro limit depth cur d o h; exact cfr_read.dump_read_objects_ge m limit _ _ _ _ _ _ h
  · intro t size k v depth d o hp hs ht hv h1 hne
    exact cfr_read.dump_sm_read_enum_value_fatal hp hs ht hv h1 hne
  · intro tag size k1 k2 k3 oid fl dv depth d1 d2 d3 o1 o2 o3 hp hs ht hoid hfl hdv h1 h2 h3
    exact cfr_read.dump_read_numeric_option_fatal hp hs ht hoid hfl hdv h1 h2 h3
  · intro size k0 k1 k2 k3 oid fl depth d0 d1 d2 d3 o0 o1 o2 o3 hp hs ht hoid hfl h0 h1 h2 h3 hne
    exact cfr_read.dump_sm_read_opt_varchar_fatal hp hs ht hoid hfl h0 h1 h2 h3 hne
  · intro size k2 k3 oid fl depth d2 d3 o2 o3 hp hs ht hoid hfl h2 h3 hne
    exact cfr_read.dump_sm_read_opt_comment_fatal hp hs ht hoid hfl h2 h3 hne
  · intro size k oid fl cur depth d1 d2 o1 o2 hp hs ht hoid hfl h1 h2 hne
    exact cfr_read.dump_sm_read_form_fatal hp hs ht hoid hfl h1 h2 hne
  · intro size crc cur d o1 ht hs hcrc h1 hne
    exact cfr_read.dump_sm_read_cfr_fatal ht hs hcrc h1 hne
  · exact ⟨by decide!, by decide!, by decide!, by decide!⟩

/-- Witness for C11 on the example blobs: the Comment at offset 48 of `oversize_comment_blob`
(size 52, header and leaves 48) is fatal in both decoders, the Form at offset 12 of
`overrun_form_blob` (size 80, child loop ends at 96) is fatal in both decoders, and the
Comment at offset 60 of `unknown_record_blob`, which `cfr_to_html` reads, has its leaves end
at its declared end. -/
theorem container_exact_consumption_witness :
    (cfr_to_html.sm_read_opt_comment oversize_comment_blob 48).fault = some .fatal ∧
    (cfr_read.sm_read_opt_comment oversize_comment_blob 48 2).fault = some .fatal ∧
    (cfr_to_html.sm_read_form (4 + 1) overrun_form_blob 12).fault = some .fatal ∧
    (cfr_read.sm_read_form (4 + 1) overrun_form_blob 12 1).fault = some .fatal ∧
    (cfr_to_html.sm_read_opt_comment unknown_record_blob 60 =
        .ok 48 [.comment 2 "" [99] [104]] ∧
      ∃ ui k2 o2 help k3 o3,
        cfr_to_html.sm_read_ui_name unknown_record_blob (60 + 16) = .ok (ui, k2) o2 ∧
        cfr_to_html.sm_read_ui_helptext unknown_record_blob (60 + 16 + k2) =
          .ok (help, k3) o3 ∧
        60 + 16 + k2 + k3 = 60 + 48) := by
  refine ⟨?_, ?_, ?_, ?_, ?_⟩
  · exact (container_exact_consumption 0 oversize_comment_blob 48).2.2.1.2.2.2.2.2.1
      52 16 16 2 0 [99] [104] [] [] (by decide!) (by decide!) (by decide!) (by decide!)
      (by decide!) (by decide!) (by decide)
  · exact (container_exact_consumption 0 oversize_comment_blob 48).2.2.2.2.2.1.2.2.2.1
      52 16 16 2 0 2 _ _ _ _ (by decide) (by decide!) (by decide!) (by decide!) (by decide!)
      (by decide! : cfr_read.sm_read_ui_name oversize_comment_blob (48 + 16) 2 =
        .ok (16, 2) [.prop .ui_name, .brace_open, .record 264 16, .val .data_length 2,
          .data [99], .brace_close 2])
      (by decide! : cfr_read.sm_read_ui_helptext oversize_comment_blob (48 + 16 + 16) 2 =
        .ok (16, 2) [.prop .ui_helptext, .brace_open, .record 265 16, .val .data_length 2,
          .data [104], .brace_close 2])
      (by decide)
  · exact ((container_exact_consumption 4 overrun_form_blob 12).2.2.1.2.2.2.2.2.2.1
      80 20 1 0 96 [77, 97, 105, 110] []
      [.row_open, .comment 2 "" [99] [104], .row_close]
      (by decide!) (by decide!) (by decide!) (by decide!) (by decide!) (by decide!)
      (by decide)).1
  · exact (container_exact_consumption 4 overrun_form_blob 12).2.2.2.2.2.1.2.2.2.2.1
      80 20 1 0 96 1 1 1 _ _ (by decide) (by decide!) (by decide!) (by decide!) (by decide!)
      (by decide! : cfr_read.sm_read_ui_name overrun_form_blob (12 + 16) 1 =
        .ok (20, 1) [.prop .ui_name, .brace_open, .record 264 20, .val .data_length 5,
          .data [77, 97, 105, 110], .brace_close 1])
      (by decide! : cfr_read.read_objects 4 overrun_form_blob (12 + 80) (12 + 16 + 20) 1 =
        .ok (96, 1) [.brace_open, .record 267 48, .val .object_id 2, .val .flags 0,
          .prop .ui_name, .brace_open, .record 264 16, .val .data_length 2, .data [99],
          .brace_close 2, .prop .ui_helptext, .brace_open, .record 265 16,
          .val .data_length 2, .data [104], .brace_close 2, .brace_close 1])
      (by decide)
  · have h : cfr_to_html.sm_read_opt_comment unknown_record_blob 60 =
        .ok 48 [.comment 2 "" [99] [104]] := by decide!
    exact ⟨h, ((container_exact_consumption 0 unknown_record_blob 60).1.2.2.2.2.2.1
      _ _ h).2.2⟩

end cfr


namespace cfr

/-! ## Buffers that differ only in the checksum field -/

theorem drop_agree {m1 m2 : Mem} (h12 : m1.drop 12 = m2.drop 12) (a : Nat) (ha : 12 ≤ a) :
    m1.drop a = m2.drop a := by
  have e : a = 12 + (a - 12) := by omega
  rw [e, ← List.drop_drop, ← List.drop_drop, h12]

theorem load32_agree {m1 m2 : Mem} (h12 : m1.drop 12 = m2.drop 12) (a : Nat) (ha : 12 ≤ a) :
    load32 m1 a = load32 m2 a := by
  unfold load32
  rw [drop_agree h12 a ha]

theorem load_bytes_agree {m1 m2 : Mem} (hl : m1.length = m2.length)
    (h12 : m1.drop 12 = m2.drop 12) (a n : Nat) (ha : 12 ≤ a) :
    load_bytes m1 a n = load_bytes m2 a n := by
  unfold load_bytes
  rw [drop_agree h12 a ha, hl]

theorem load_cstr_agree {m1 m2 : Mem} (h12 : m1.drop 12 = m2.drop 12) (a : Nat) (ha : 12 ≤ a) :
    load_cstr m1 a = load_cstr m2 a := by
  unfold load_cstr
  rw [drop_agree h12 a ha]

theorem load32_take (m : Mem) (a n : Nat) (h : a + 4 ≤ n) :
    load32 (m.take n) a = load32 m a := by
  unfold load32
  rw [List.drop_take]
  obtain ⟨k, hk⟩ : ∃ k, n - a = k + 4 := ⟨n - a - 4, by omega⟩
  rw [hk]
  generalize m.drop a = l
  rcases l with _ | ⟨b0, _ | ⟨b1, _ | ⟨b2, _ | ⟨b3, t⟩⟩⟩⟩ <;> simp [List.take]

theorem load32_head_agree {m1 m2 : Mem} (h8 : m1.take 8 = m2.take 8) (a : Nat) (ha : a + 4 ≤ 8) :
    load32 m1 a = load32 m2 a := by
  rw [← load32_take m1 a 8 ha, ← load32_take m2 a 8 ha, h8]

theorem load32_cases (m : Mem) (a : Nat) :
    (a + 4 ≤ m.length ∧ ∃ c, load32 m a = .ok c) ∨
    (¬ a + 4 ≤ m.length ∧ load32 m a = .error .oob) := by
  unfold load32
  have hlen : (m.drop a).length = m.length - a := List.length_drop a m
  generalize m.drop a = l at hlen
  rcases l with _ | ⟨b0, _ | ⟨b1, _ | ⟨b2, _ | ⟨b3, t⟩⟩⟩⟩ <;>
    simp only [List.length_cons, List.length_nil] at hlen
  · right; exact ⟨by omega, rfl⟩
  · right; exact ⟨by omega, rfl⟩
  · right; exact ⟨by omega, rfl⟩
  · right; exact ⟨by omega, rfl⟩
  · left; exact ⟨by omega, _, rfl⟩

theorem map_output_bind_congr {ω α β : Type} (g : ω → ω) (x : Outcome ω α)
    (f f2 : α → Outcome ω β) (h : ∀ a, (f a).map_output g = (f2 a).map_output g) :
    (x >>= f).map_output g = (x >>= f2).map_output g := by
  cases x with
  | fail e o => rfl
  | ok a o =>
    rw [outcome_bind_ok, outcome_bind_ok]
    have := h a
    cases hf : f a <;> cases hf2 : f2 a <;> rw [hf, hf2] at this <;>
      simp_all [Outcome.prepend, Outcome.map_output]

theorem map_output_fault {ω α : Type} (g : ω → ω) (x : Outcome ω α) :
    (x.map_output g).fault = x.fault := by
  cases x <;> rfl

end cfr

namespace cfr_read

open cfr

theorem dump_read_cfr_varchar_agree {m1 m2 : Mem} (hl : m1.length = m2.length)
    (h12 : m1.drop 12 = m2.drop 12) (p tag : Nat) (depth : Int) (hp : 12 ≤ p) :
    read_cfr_varchar m1 p tag depth = read_cfr_varchar m2 p tag depth := by
  simp only [read_cfr_varchar, _tag_neq, _print_record]
  simp (disch := omega) only [load32_agree h12, load_bytes_agree hl h12, load_cstr_agree h12]

theorem dump_sm_read_string_default_value_agree {m1 m2 : Mem} (hl : m1.length = m2.length)
    (h12 : m1.drop 12 = m2.drop 12) (p : Nat) (depth : Int) (hp : 12 ≤ p) :
    sm_read_string_default_value m1 p depth = sm_read_string_default_value m2 p depth := by
  simp only [sm_read_string_default_value, dump_read_cfr_varchar_agree hl h12 p _ depth hp]

theorem dump_sm_read_opt_name_agree {m1 m2 : Mem} (hl : m1.length = m2.length)
    (h12 : m1.drop 12 = m2.drop 12) (p : Nat) (depth : Int) (hp : 12 ≤ p) :
    sm_read_opt_name m1 p depth = sm_read_opt_name m2 p depth := by
  simp only [sm_read_opt_name, dump_read_cfr_varchar_agree hl h12 p _ depth hp]

theorem dump_sm_read_ui_name_agree {m1 m2 : Mem} (hl : m1.length = m2.length)
    (h12 : m1.drop 12 = m2.drop 12) (p : Nat) (depth : Int) (hp : 12 ≤ p) :
    sm_read_ui_name m1 p depth = sm_read_ui_name m2 p depth := by
  simp only [sm_read_ui_name, dump_read_cfr_varchar_agree hl h12 p _ depth hp]

theorem dump_sm_read_ui_helptext_agree {m1 m2 : Mem} (hl : m1.length = m2.length)
    (h12 : m1.drop 12 = m2.drop 12) (p : Nat) (depth : Int) (hp : 12 ≤ p) :
    sm_read_ui_helptext m1 p depth = sm_read_ui_helptext m2 p depth := by
  simp only [sm_read_ui_helptext, dump_read_cfr_varchar_agree hl h12 p _ depth hp]

theorem dump_sm_read_enum_value_agree {m1 m2 : Mem} (hl : m1.length = m2.length)
    (h12 : m1.drop 12 = m2.drop 12) (p : Nat) (depth : Int) (hp : 12 ≤ p) :
    sm_read_enum_value m1 p depth = sm_read_enum_value m2 p depth := by
  simp only [sm_read_enum_value, _print_record]
  simp (disch := omega) only [load32_agree h12, dump_sm_read_ui_name_agree hl h12]

theorem dump_read_enum_values_agree {m1 m2 : Mem} (hl : m1.length = m2.length)
    (h12 : m1.drop 12 = m2.drop 12) (limit : Nat) : ∀ (fuel p : Nat) (depth : Int), 12 ≤ p →
    read_enum_values fuel m1 limit p depth = read_enum_values fuel m2 limit p depth := by
  intro fuel
  induction fuel with
  | zero => intro p depth hp; rfl
  | succ f ih =>
    intro p depth hp
    simp only [read_enum_values]
    simp (disch := omega) only [dump_sm_read_enum_value_agree hl h12, ih]

theorem dump_read_numeric_option_agree {m1 m2 : Mem} (hl : m1.length = m2.length)
    (h12 : m1.drop 12 = m2.drop 12) (fuel p tag : Nat) (depth : Int) (hp : 12 ≤ p) :
    read_numeric_option fuel m1 p tag depth = read_numeric_option fuel m2 p tag depth := by
  simp only [read_numeric_option, _tag_ok, _print_record]
  simp (disch := omega) only [load32_agree h12, dump_sm_read_opt_name_agree hl h12,
    dump_sm_read_ui_name_agree hl h12, dump_sm_read_ui_helptext_agree hl h12,
    dump_read_enum_values_agree hl h12]

theorem dump_sm_read_opt_varchar_agree {m1 m2 : Mem} (hl : m1.length = m2.length)
    (h12 : m1.drop 12 = m2.drop 12) (p : Nat) (depth : Int) (hp : 12 ≤ p) :
    sm_read_opt_varchar m1 p depth = sm_read_opt_varchar m2 p depth := by
  simp only [sm_read_opt_varchar, _tag_ok, _print_record]
  simp (disch := omega) only [load32_agree h12, dump_sm_read_opt_name_agree hl h12,
    dump_sm_read_ui_name_agree hl h12, dump_sm_read_ui_helptext_agree hl h12,
    dump_sm_read_string_default_value_agree hl h12]

theorem dump_sm_read_opt_comment_agree {m1 m2 : Mem} (hl : m1.length = m2.length)
    (h12 : m1.drop 12 = m2.drop 12) (p : Nat) (depth : Int) (hp : 12 ≤ p) :
    sm_read_opt_comment m1 p depth = sm_read_opt_comment m2 p depth := by
  simp only [sm_read_opt_comment, _tag_ok, _print_record]
  simp (disch := omega) only [load32_agree h12,
    dump_sm_read_ui_name_agree hl h12, dump_sm_read_ui_helptext_agree hl h12]

theorem dump_objects_agree {m1 m2 : Mem} (hl : m1.length = m2.length)
    (h12 : m1.drop 12 = m2.drop 12) : ∀ (fuel p : Nat) (depth : Int), 12 ≤ p →
    sm_read_form fuel m1 p depth = sm_read_form fuel m2 p depth ∧
    (∀ limit, read_objects fuel m1 limit p depth = read_objects fuel m2 limit p depth) ∧
    sm_read_object fuel m1 p depth = sm_read_object fuel m2 p depth ∧
    _sm_read_object fuel m1 p depth = _sm_read_object fuel m2 p depth := by
  intro fuel
  induction fuel with
  | zero =>
    intro p depth hp
    simp only [sm_read_form, read_objects, sm_read_object, _sm_read_object, implies_true,
      and_self]
  | succ f ih =>
    intro p depth hp
    have ih1 : ∀ (p : Nat) (depth : Int), 12 ≤ p →
        sm_read_form f m1 p depth = sm_read_form f m2 p depth := fun p d h => (ih p d h).1
    have ih2 : ∀ (limit p : Nat) (depth : Int), 12 ≤ p →
        read_objects f m1 limit p depth = read_objects f m2 limit p depth :=
      fun l p d h => (ih p d h).2.1 l
    have ih3 : ∀ (p : Nat) (depth : Int), 12 ≤ p →
        sm_read_object f m1 p depth = sm_read_object f m2 p depth :=
      fun p d h => (ih p d h).2.2.1
    have ih4 : ∀ (p : Nat) (depth : Int), 12 ≤ p →
        _sm_read_object f m1 p depth = _sm_read_object f m2 p depth :=
      fun p d h => (ih p d h).2.2.2
    refine ⟨?_, ?_, ?_, ?_⟩
    · simp only [sm_read_form, _tag_ok, _print_record]
      simp (disch := omega) only [load32_agree h12, dump_sm_read_ui_name_agree hl h12, ih2]
    · intro limit
      simp only [read_objects]
      simp (disch := omega) only [ih3, ih2]
    · simp only [sm_read_object]
      simp (disch := omega) only [ih4]
    · simp only [_sm_read_object, sm_read_opt_enum, sm_read_opt_number, sm_read_opt_bool,
        _print_record]
      simp (disch := omega) only [load32_agree h12, dump_read_numeric_option_agree hl h12,
        dump_sm_read_opt_varchar_agree hl h12, dump_sm_read_opt_comment_agree hl h12, ih1]

end cfr_read


namespace cfr_to_html

open cfr

theorem html_read_cfr_varchar_agree {m1 m2 : Mem}
    (h12 : m1.drop 12 = m2.drop 12) (p tag : Nat) (hp : 12 ≤ p) :
    read_cfr_varchar m1 p tag = read_cfr_varchar m2 p tag := by
  simp only [read_cfr_varchar, _tag_neq]
  simp (disch := omega) only [load32_agree h12, load_cstr_agree h12]

theorem html_sm_read_string_default_value_agree {m1 m2 : Mem}
    (h12 : m1.drop 12 = m2.drop 12) (p : Nat) (hp : 12 ≤ p) :
    sm_read_string_default_value m1 p = sm_read_string_default_value m2 p := by
  simp only [sm_read_string_default_value, html_read_cfr_varchar_agree h12 p _ hp]

theorem html_sm_read_opt_name_agree {m1 m2 : Mem}
    (h12 : m1.drop 12 = m2.drop 12) (p : Nat) (hp : 12 ≤ p) :
    sm_read_opt_name m1 p = sm_read_opt_name m2 p := by
  simp only [sm_read_opt_name, html_read_cfr_varchar_agree h12 p _ hp]

theorem html_sm_read_ui_name_agree {m1 m2 : Mem}
    (h12 : m1.drop 12 = m2.drop 12) (p : Nat) (hp : 12 ≤ p) :
    sm_read_ui_name m1 p = sm_read_ui_name m2 p := by
  simp only [sm_read_ui_name, html_read_cfr_varchar_agree h12 p _ hp]

theorem html_sm_read_ui_helptext_agree {m1 m2 : Mem}
    (h12 : m1.drop 12 = m2.drop 12) (p : Nat) (hp : 12 ≤ p) :
    sm_read_ui_helptext m1 p = sm_read_ui_helptext m2 p := by
  simp only [sm_read_ui_helptext, html_read_cfr_varchar_agree h12 p _ hp]

theorem html_sm_read_enum_value_agree {m1 m2 : Mem}
    (h12 : m1.drop 12 = m2.drop 12) (p dflt : Nat) (hp : 12 ≤ p) :
    sm_read_enum_value m1 p dflt = sm_read_enum_value m2 p dflt := by
  simp only [sm_read_enum_value, _tag_ok]
  simp (disch := omega) only [load32_agree h12, html_sm_read_ui_name_agree h12]

theorem html_read_enum_values_agree {m1 m2 : Mem}
    (h12 : m1.drop 12 = m2.drop 12) (limit dflt : Nat) : ∀ (fuel p : Nat), 12 ≤ p →
    read_enum_values fuel m1 limit p dflt = read_enum_values fuel m2 limit p dflt := by
  intro fuel
  induction fuel with
  | zero => intro p hp; rfl
  | succ f ih =>
    intro p hp
    simp only [read_enum_values]
    simp (disch := omega) only [html_sm_read_enum_value_agree h12, ih]

theorem html_sm_read_opt_enum_agree {m1 m2 : Mem}
    (h12 : m1.drop 12 = m2.drop 12) (fuel p : Nat) (hp : 12 ≤ p) :
    sm_read_opt_enum fuel m1 p = sm_read_opt_enum fuel m2 p := by
  simp only [sm_read_opt_enum, _tag_ok]
  simp (disch := omega) only [load32_agree h12, html_sm_read_opt_name_agree h12,
    html_sm_read_ui_name_agree h12, html_sm_read_ui_helptext_agree h12,
    html_read_enum_values_agree h12]

theorem html_sm_read_opt_number_agree {m1 m2 : Mem}
    (h12 : m1.drop 12 = m2.drop 12) (p : Nat) (hp : 12 ≤ p) :
    sm_read_opt_number m1 p = sm_read_opt_number m2 p := by
  simp only [sm_read_opt_number, _tag_ok]
  simp (disch := omega) only [load32_agree h12, html_sm_read_opt_name_agree h12,
    html_sm_read_ui_name_agree h12, html_sm_read_ui_helptext_agree h12]

theorem html_sm_read_opt_bool_agree {m1 m2 : Mem}
    (h12 : m1.drop 12 = m2.drop 12) (p : Nat) (hp : 12 ≤ p) :
    sm_read_opt_bool m1 p = sm_read_opt_bool m2 p := by
  simp only [sm_read_opt_bool, _tag_ok]
  simp (disch := omega) only [load32_agree h12, html_sm_read_opt_name_agree h12,
    html_sm_read_ui_name_agree h12, html_sm_read_ui_helptext_agree h12]

theorem html_sm_read_opt_varchar_agree {m1 m2 : Mem}
    (h12 : m1.drop 12 = m2.drop 12) (p : Nat) (hp : 12 ≤ p) :
    sm_read_opt_varchar m1 p = sm_read_opt_varchar m2 p := by
  simp only [sm_read_opt_varchar, _tag_ok]
  simp (disch := omega) only [load32_agree h12, html_sm_read_opt_name_agree h12,
    html_sm_read_ui_name_agree h12, html_sm_read_ui_helptext_agree h12,
    html_sm_read_string_default_value_agree h12]

theorem html_sm_read_opt_comment_agree {m1 m2 : Mem}
    (h12 : m1.drop 12 = m2.drop 12) (p : Nat) (hp : 12 ≤ p) :
    sm_read_opt_comment m1 p = sm_read_opt_comment m2 p := by
  simp only [sm_read_opt_comment, _tag_ok]
  simp (disch := omega) only [load32_agree h12,
    html_sm_read_ui_name_agree h12, html_sm_read_ui_helptext_agree h12]

theorem html_objects_agree {m1 m2 : Mem}
    (h12 : m1.drop 12 = m2.drop 12) : ∀ (fuel p : Nat), 12 ≤ p →
    sm_read_form fuel m1 p = sm_read_form fuel m2 p ∧
    (∀ limit, read_objects fuel m1 limit p = read_objects fuel m2 limit p) ∧
    sm_read_object fuel m1 p = sm_read_object fuel m2 p ∧
    _sm_read_object fuel m1 p = _sm_read_object fuel m2 p := by
  intro fuel
  induction fuel with
  | zero =>
    intro p hp
    simp only [sm_read_form, read_objects, sm_read_object, _sm_read_object, implies_true,
      and_self]
  | succ f ih =>
    intro p hp
    have ih1 : ∀ (p : Nat), 12 ≤ p →
        sm_read_form f m1 p = sm_read_form f m2 p := fun p h => (ih p h).1
    have ih2 : ∀ (limit p : Nat), 12 ≤ p →
        read_objects f m1 limit p = read_objects f m2 limit p :=
      fun l p h => (ih p h).2.1 l
    have ih3 : ∀ (p : Nat), 12 ≤ p →
        sm_read_object f m1 p = sm_read_object f m2 p :=
      fun p h => (ih p h).2.2.1
    have ih4 : ∀ (p : Nat), 12 ≤ p →
        _sm_read_object f m1 p = _sm_read_object f m2 p :=
      fun p h => (ih p h).2.2.2
    refine ⟨?_, ?_, ?_, ?_⟩
    · simp only [sm_read_form, _tag_ok]
      simp (disch := omega) only [load32_agree h12, html_sm_read_ui_name_agree h12, ih2]
    · intro limit
      simp only [read_objects]
      simp (disch := omega) only [ih3, ih2]
    · simp only [sm_read_object]
      simp (disch := omega) only [ih4]
    · simp only [_sm_read_object]
      simp (disch := omega) only [load32_agree h12, html_sm_read_opt_enum_agree h12,
        html_sm_read_opt_number_agree h12, html_sm_read_opt_bool_agree h12,
        html_sm_read_opt_varchar_agree h12, html_sm_read_opt_comment_agree h12, ih1]

theorem html_sm_read_form_tab_agree {m1 m2 : Mem}
    (h12 : m1.drop 12 = m2.drop 12) (fuel p idx : Nat) (hp : 12 ≤ p) :
    sm_read_form_tab fuel m1 p idx = sm_read_form_tab fuel m2 p idx := by
  have hobj : ∀ (limit p : Nat), 12 ≤ p →
      read_objects fuel m1 limit p = read_objects fuel m2 limit p :=
    fun l p h => (html_objects_agree h12 fuel p h).2.1 l
  simp only [sm_read_form_tab, _tag_ok]
  simp (disch := omega) only [load32_agree h12, html_sm_read_ui_name_agree h12, hobj]

theorem html_read_form_tabs_agree {m1 m2 : Mem}
    (h12 : m1.drop 12 = m2.drop 12) (limit : Nat) : ∀ (fuel p idx : Nat), 12 ≤ p →
    read_form_tabs fuel m1 limit p idx = read_form_tabs fuel m2 limit p idx := by
  intro fuel
  induction fuel with
  | zero => intro p idx hp; rfl
  | succ f ih =>
    intro p idx hp
    simp only [read_form_tabs]
    simp (disch := omega) only [html_sm_read_form_tab_agree h12, ih]

/-- The page of `cfr_to_html` for two buffers that differ at most in the checksum field is
the same up to the checksum shown. -/
theorem html_sm_read_cfr_agree {m1 m2 : Mem} (hl : m1.length = m2.length)
    (h8 : m1.take 8 = m2.take 8) (h12 : m1.drop 12 = m2.drop 12) (fuel : Nat) :
    (sm_read_cfr fuel m1).map_output html_hide_checksum
      = (sm_read_cfr fuel m2).map_output html_hide_checksum := by
  have h0 := load32_head_agree h8 0 (by omega)
  have h4 := load32_head_agree h8 4 (by omega)
  have ht := html_read_form_tabs_agree h12
  simp only [sm_read_cfr, _tag_ok, Nat.zero_add]
  simp only [h0, h4, ht _ fuel 12 0 (Nat.le_refl _)]
  apply map_output_bind_congr
  intro size
  apply map_output_bind_congr
  intro _
  rcases load32_cases m1 8 with ⟨hlen, c1, hc1⟩ | ⟨hlen, hc1⟩
  · rcases load32_cases m2 8 with ⟨_, c2, hc2⟩ | ⟨hlen2, _⟩
    · rw [hc1, hc2]
      simp only [lift_ok, outcome_bind_ok, emit_eq, outcome_prepend_nil]
      generalize (read_form_tabs fuel m2 size 12 0 >>= _) = rest
      cases rest <;> simp [Outcome.prepend, Outcome.map_output, html_hide_checksum]
    · omega
  · rcases load32_cases m2 8 with ⟨hlen2, _⟩ | ⟨_, hc2⟩
    · omega
    · rw [hc1, hc2]

end cfr_to_html

namespace cfr_read

open cfr

/-- The dump of `cfr_read` for two buffers that differ at most in the checksum field is the
same up to the checksum shown. -/
theorem dump_sm_read_cfr_agree {m1 m2 : Mem} (hl : m1.length = m2.length)
    (h8 : m1.take 8 = m2.take 8) (h12 : m1.drop 12 = m2.drop 12) (fuel : Nat) :
    (sm_read_cfr fuel m1).map_output dump_hide_checksum
      = (sm_read_cfr fuel m2).map_output dump_hide_checksum := by
  have h0 := load32_head_agree h8 0 (by omega)
  have h4 := load32_head_agree h8 4 (by omega)
  have ht : ∀ limit depth, read_objects fuel m1 limit 12 depth
      = read_objects fuel m2 limit 12 depth :=
    fun l d => (dump_objects_agree hl h12 fuel 12 d (Nat.le_refl _)).2.1 l
  simp only [sm_read_cfr, _tag_ok, _print_record, Nat.zero_add]
  simp only [h0, h4, ht]
  apply map_output_bind_congr
  intro size
  apply map_output_bind_congr
  intro _
  apply map_output_bind_congr
  intro _
  rcases load32_cases m1 8 with ⟨hlen, c1, hc1⟩ | ⟨hlen, hc1⟩
  · rcases load32_cases m2 8 with ⟨_, c2, hc2⟩ | ⟨hlen2, _⟩
    · rw [hc1, hc2]
      simp only [lift_ok, outcome_bind_ok, emit_eq, outcome_prepend_nil]
      generalize (read_objects fuel m2 size 12 0 >>= _) = rest
      cases rest <;> simp [Outcome.prepend, Outcome.map_output, dump_hide_checksum]
    · omega
  · rcases load32_cases m2 8 with ⟨hlen2, _⟩ | ⟨_, hc2⟩
    · omega
    · rw [hc1, hc2]

end cfr_read


namespace cfr

/-- C17 (the checksum is not verified). For two buffers of the same length that differ at
most in the bytes 8 to 11 (the checksum field of the Root), with any step budget: `cfr_read`
returns on both or stops on both with the same fault, and prints the same items, apart from
the checksum value shown; the same holds for `cfr_to_html` and its page. And a blob that the
encoder wrote for a valid tree, with any bytes at all put in its checksum field, is decoded to
completion by both decoders, with the report of the tree. -/
theorem checksum_mismatch_not_fatal (fuel : Nat) (m1 m2 : Mem)
    (hl : m1.length = m2.length) (h8 : m1.take 8 = m2.take 8)
    (h12 : m1.drop 12 = m2.drop 12) :
    (cfr_read.sm_read_cfr fuel m1).map_output cfr_read.dump_hide_checksum
      = (cfr_read.sm_read_cfr fuel m2).map_output cfr_read.dump_hide_checksum ∧
    (cfr_to_html.sm_read_cfr fuel m1).map_output cfr_to_html.html_hide_checksum
      = (cfr_to_html.sm_read_cfr fuel m2).map_output cfr_to_html.html_hide_checksum ∧
    (cfr_read.sm_read_cfr fuel m1).fault = (cfr_read.sm_read_cfr fuel m2).fault ∧
    (cfr_to_html.sm_read_cfr fuel m1).fault = (cfr_to_html.sm_read_cfr fuel m2).fault ∧
    (∀ (N : Nat) (sm_root : setup_menu_root), valid_form_list sm_root.form_list = true →
      (ref_root sm_root 0).length < 2 ^ 32 → (ref_root sm_root 0).length + 4 ≤ N →
      ∃ m', cfr_write_setup_menu (List.replicate N 0) sm_root = .ok m' ∧
        ∀ b : Mem, b.length = m'.length → b.take 8 = m'.take 8 → b.drop 12 = m'.drop 12 →
          ∀ steps, (ref_root sm_root 0).length ≤ steps →
            (cfr_read.sm_read_cfr steps b).map_output cfr_read.dump_hide_checksum
              = .ok 0 ((cfr_read.dump_root sm_root 0).map cfr_read.dump_hide_checksum) ∧
            (cfr_to_html.sm_read_cfr steps b).map_output cfr_to_html.html_hide_checksum
              = .ok () ((cfr_to_html.html_root sm_root 0).map
                  cfr_to_html.html_hide_checksum)) := by
  have hd := cfr_read.dump_sm_read_cfr_agree hl h8 h12 fuel
  have hh := cfr_to_html.html_sm_read_cfr_agree hl h8 h12 fuel
  refine ⟨hd, hh, ?_, ?_, ?_⟩
  · have := congrArg Outcome.fault hd
    rw [map_output_fault, map_output_fault] at this
    exact this
  · have := congrArg Outcome.fault hh
    rw [map_output_fault, map_output_fault] at this
    exact this
  · intro N sm_root hv hlt hN
    generalize hcrc : crc32 ((blit (List.replicate N 0) 0 (ref_root sm_root 0)).take
      (ref_root sm_root 0).length) = crc
    have hc : crc < 2 ^ 32 := by rw [← hcrc]; exact crc32_lt _
    have hlen : (ref_root sm_root crc).length = (ref_root sm_root 0).length := by
      rw [ref_root_length, ref_root_length]
    have henc := cfr_write_setup_menu_eq (List.replicate N 0) sm_root hv
      (by simp; omega) hlt
    rw [hcrc] at henc
    have hfit := fits_blit (List.replicate N 0) 0 (ref_root sm_root crc)
      (by simp; omega)
    rw [List.drop_zero] at hfit
    have hf := zero_word_after N (ref_root sm_root crc) (by rw [hlen]; exact hN)
    rw [hlen] at hf
    refine ⟨_, henc, ?_⟩
    intro b hbl hb8 hb12 steps hfu
    rw [cfr_read.dump_sm_read_cfr_agree hbl hb8 hb12 steps,
      cfr_to_html.html_sm_read_cfr_agree hbl hb8 hb12 steps,
      cfr_read.dump_sm_read_cfr _ sm_root crc steps hfit hc hlt hv hf hfu,
      cfr_to_html.html_sm_read_cfr _ sm_root crc steps hfit hc hlt hv hf hfu]
    constructor
    · simp [Outcome.map_output, cfr_read.dump_root, cfr_read.dump_hide_checksum]
    · simp [Outcome.map_output, cfr_to_html.html_root, cfr_to_html.html_hide_checksum]

/-- Witness for C17: `unknown_record_blob` (checksum field 0) and `wrong_checksum_blob`
(checksum field `0xDEADBEEF`) differ only in the checksum field; neither value is the CRC of
the blob, and both decoders run to completion on both. -/
theorem checksum_mismatch_not_fatal_witness :
    unknown_record_blob.length = wrong_checksum_blob.length ∧
    unknown_record_blob.take 8 = wrong_checksum_blob.take 8 ∧
    unknown_record_blob.drop 12 = wrong_checksum_blob.drop 12 ∧
    load32 unknown_record_blob 8 = .ok 0 ∧
    load32 wrong_checksum_blob 8 = .ok 0xDEADBEEF ∧
    crc32 (with_zero_checksum wrong_checksum_blob) ≠ 0 ∧
    crc32 (with_zero_checksum wrong_checksum_blob) ≠ 0xDEADBEEF ∧
    (cfr_read.sm_read_cfr 108 wrong_checksum_blob).fault = none ∧
    (cfr_to_html.sm_read_cfr 108 wrong_checksum_blob).fault = none ∧
    (cfr_read.sm_read_cfr 108 unknown_record_blob).map_output cfr_read.dump_hide_checksum
      = (cfr_read.sm_read_cfr 108 wrong_checksum_blob).map_output
          cfr_read.dump_hide_checksum ∧
    (cfr_to_html.sm_read_cfr 108 unknown_record_blob).map_output
        cfr_to_html.html_hide_checksum
      = (cfr_to_html.sm_read_cfr 108 wrong_checksum_blob).map_output
          cfr_to_html.html_hide_checksum :=
  have h := checksum_mismatch_not_fatal 108 unknown_record_blob wrong_checksum_blob
    (by decide!) (by decide!) (by decide!)
  ⟨by decide!, by decide!, by decide!, by decide!, by decide!, by decide!, by decide!,
    by decide!, by decide!, h.1, h.2.1⟩

end cfr


namespace cfr

end cfr


namespace cfr_write

/-! ## Object ids -/

theorem atlas_calls_eq : ∀ (n s : Nat), s + n < 2 ^ 32 →
    atlas_calls n s = List.range' (s + 1) n
  | 0, _, _ => rfl
  | n + 1, s, h => by
    have e : (s + 1) % 2 ^ 32 = s + 1 := Nat.mod_eq_of_lt (by omega)
    simp only [atlas_calls, atlas_get_object_id, e, List.range'_succ]
    rw [atlas_calls_eq n (s + 1) (by omega)]

/-- C24 (object id generator). Starting from the initial state 0 of the static counter, the
first `n` calls of `atlas_get_object_id`, for every `n` up to 2^32 - 1, return 1, 2, ..., `n`
in this order: the `k`-th call returns `k`, the results increase strictly and 0 is not among
them. -/
theorem atlas_get_object_id_sequence (n : Nat) (hn : n ≤ 2 ^ 32 - 1) :
    atlas_calls n 0 = List.range' 1 n ∧
    (∀ k, 1 ≤ k → k ≤ n → (atlas_calls n 0)[k - 1]? = some k) ∧
    (atlas_calls n 0).Pairwise (· < ·) ∧ 0 ∉ atlas_calls n 0 ∧
    (1 ≤ n → (atlas_calls n 0).head? = some 1) := by
  have h := atlas_calls_eq n 0 (by omega)
  rw [Nat.zero_add] at h
  rw [h]
  refine ⟨rfl, ?_, ?_, ?_, ?_⟩
  · intro k h1 h2
    rw [List.getElem?_range' _ _ (by omega)]
    simp; omega
  · exact List.pairwise_lt_range' 1 n
  · simp only [List.mem_range', not_exists, not_and]
    intro x _ h0
    omega
  · intro h1
    obtain ⟨k, rfl⟩ : ∃ k, n = k + 1 := ⟨n - 1, by omega⟩
    simp [List.range'_succ]

theorem atlas_get_object_id_sequence_witness :
    3 ≤ 2 ^ 32 - 1 ∧ atlas_calls 3 0 = [1, 2, 3] ∧
      (atlas_get_object_id 0).1 = 1 :=
  ⟨by decide, (atlas_get_object_id_sequence 3 (by decide)).1.trans (by decide), by decide⟩

end cfr_write

namespace cfr_to_html

open cfr

/-! ## Flag attributes -/

theorem and_bit_eq_zero (flags i : Nat) : (flags &&& 2 ^ i = 0) ↔ flags.testBit i = false := by
  rw [Nat.and_two_pow]
  cases flags.testBit i <;> simp

/-- C27 (HTML flag attributes). For every flags value `print_flags` returns the attribute
` readonly` if bit 0 is set, then ` disabled` if bit 1 is set, then ` hidden` if bit 2 is
set, and nothing else: the result depends on the three low bits only (bit 3, volatile, and
the higher bits add nothing), and it is empty when none of the three is set. -/
theorem print_flags_spec (flags : Nat) :
    print_flags flags
      = (if flags.testBit 0 then " readonly" else "")
        ++ (if flags.testBit 1 then " disabled" else "")
        ++ (if flags.testBit 2 then " hidden" else "") ∧
    print_flags flags = print_flags (flags % 8) ∧
    (flags % 8 = 0 → print_flags flags = "") ∧
    print_flags (flags ||| CFR_OPTFLAG_VOLATILE) = print_flags flags := by
  have key : ∀ f : Nat, print_flags f
      = (if f.testBit 0 then " readonly" else "")
        ++ (if f.testBit 1 then " disabled" else "")
        ++ (if f.testBit 2 then " hidden" else "") := by
    intro f
    have h0 := and_bit_eq_zero f 0
    have h1 := and_bit_eq_zero f 1
    have h2 := and_bit_eq_zero f 2
    have h3 := and_bit_eq_zero f 3
    simp only [print_flags, List.foldl, CFR_OPTFLAG_READONLY, CFR_OPTFLAG_GRAYOUT,
      CFR_OPTFLAG_SUPPRESS, CFR_OPTFLAG_VOLATILE, Nat.one_shiftLeft, h0, h1, h2, h3]
    cases f.testBit 0 <;> cases f.testBit 1 <;> cases f.testBit 2 <;> cases f.testBit 3 <;>
      simp
  have hm : ∀ i, i < 3 → (flags % 8).testBit i = flags.testBit i := by
    intro i hi
    rw [show (8 : Nat) = 2 ^ 3 from rfl, Nat.testBit_mod_two_pow]
    simp [hi]
  refine ⟨key flags, ?_, ?_, ?_⟩
  · rw [key flags, key (flags % 8), hm 0 (by omega), hm 1 (by omega), hm 2 (by omega)]
  · intro h
    rw [key flags, ← hm 0 (by omega), ← hm 1 (by omega), ← hm 2 (by omega), h]
    simp
  · have e1 : Nat.testBit 8 1 = false := by decide
    have e2 : Nat.testBit 8 2 = false := by decide
    have e0 : Nat.testBit 8 0 = false := by decide
    rw [key, key flags]
    simp only [CFR_OPTFLAG_VOLATILE, Nat.one_shiftLeft, Nat.reducePow, Nat.testBit_or, e0, e1,
      e2, Bool.or_false]

end cfr_to_html


namespace cfr

/-! ## Loaders -/

theorem load32_ok_iff (m : Mem) (a : Nat) : (∃ v, load32 m a = .ok v) ↔ a + 4 ≤ m.length := by
  rcases load32_cases m a with ⟨h, v, hv⟩ | ⟨h, hv⟩
  · exact ⟨fun _ => h, fun _ => ⟨v, hv⟩⟩
  · constructor
    · rintro ⟨v, h2⟩
      rw [hv] at h2
      cases h2
    · intro h2
      exact absurd h2 h

theorem take_length_eq_iff (file : List Nat) (n : Nat) :
    (file.take n).length = n ↔ n ≤ file.length := by
  rw [List.length_take]
  omega

end cfr

namespace cfr_read

open cfr

theorem dump_read_from_file_iff (file buffer : List Nat) :
    read_from_file file = .ok buffer ↔
      8 ≤ file.length ∧ load32 file 0 = .ok LB_TAG_CFR ∧
        ∃ size, load32 file 4 = .ok size ∧ size ≤ file.length ∧ buffer = file.take size := by
  unfold read_from_file
  rcases load32_cases file 0 with ⟨h0, t, ht⟩ | ⟨h0, ht⟩
  · rcases load32_cases file 4 with ⟨h4, s, hs⟩ | ⟨h4, hs⟩
    · rw [ht, hs]
      simp only [alloc_and_read]
      by_cases htag : t = LB_TAG_CFR
      · rw [if_pos htag]
        by_cases hsz : s ≤ file.length
        · rw [if_pos ((take_length_eq_iff file s).2 hsz)]
          constructor
          · intro h
            injection h with h
            exact ⟨h4, by rw [htag], s, rfl, hsz, h.symm⟩
          · rintro ⟨_, _, s2, h2, _, h3⟩
            injection h2 with h2
            rw [h3, ← h2]
        · rw [if_neg (fun h => hsz ((take_length_eq_iff file s).1 h))]
          constructor
          · intro h; cases h
          · rintro ⟨_, _, s2, h2, h3, _⟩
            injection h2 with h2
            exact absurd (h2 ▸ h3) hsz
      · rw [if_neg htag]
        constructor
        · intro h; cases h
        · rintro ⟨_, h1, _⟩
          injection h1 with h1
          exact absurd h1 htag
    · rw [ht, hs]
      constructor
      · intro h; cases h
      · rintro ⟨h8, _⟩
        omega
  · rw [ht]
    constructor
    · intro h; cases h
    · rintro ⟨h8, _⟩
      omega

end cfr_read

namespace cfr_to_html

open cfr

end cfr_to_html

namespace cfr

/-- C25 (loader). For every file content, `read_from_file` of `cfr_read` and of
`cfr_to_html` returns a buffer exactly when the file holds at least 8 bytes, its first word
is `LB_TAG_CFR` and the file holds at least `size` bytes, `size` being its second word; the
buffer is then the first `size` bytes of the file, and `main` runs `sm_read_cfr` on this
buffer. In every other case `read_from_file` returns an error and `main` returns with it,
running no decoder. On the 132 bytes of Scenario A: the file itself is loaded whole, bytes
after the declared size are dropped, a file cut short is refused, and so is a file with
another first word. -/
theorem read_from_file_spec (file : List Nat) :
    (∀ buffer, cfr_read.read_from_file file = .ok buffer ↔
      8 ≤ file.length ∧ load32 file 0 = .ok LB_TAG_CFR ∧
        ∃ size, load32 file 4 = .ok size ∧ size ≤ file.length ∧ buffer = file.take size) ∧
    (∀ buffer, cfr_to_html.read_from_file file = .ok buffer ↔
      8 ≤ file.length ∧ load32 file 0 = .ok LB_TAG_CFR ∧
        ∃ size, load32 file 4 = .ok size ∧ size ≤ file.length ∧ buffer = file.take size) ∧
    (∀ fuel buffer, cfr_read.read_from_file file = .ok buffer →
      cfr_read.main fuel file = .ok (cfr_read.sm_read_cfr fuel buffer)) ∧
    (∀ fuel buffer, cfr_to_html.read_from_file file = .ok buffer →
      cfr_to_html.main fuel file = .ok (cfr_to_html.sm_read_cfr fuel buffer)) ∧
    (∀ fuel e, cfr_read.read_from_file file = .error e → cfr_read.main fuel file = .error e) ∧
    (∀ fuel e, cfr_to_html.read_from_file file = .error e →
      cfr_to_html.main fuel file = .error e) ∧
    (cfr_read.read_from_file scenario_a_blob = .ok scenario_a_blob ∧
     cfr_to_html.read_from_file (scenario_a_blob ++ [1, 2, 3]) = .ok scenario_a_blob ∧
     cfr_read.read_from_file (scenario_a_blob.take 131) = .error .short_data ∧
     cfr_to_html.read_from_file (scenario_a_blob.take 7) = .error .short_record ∧
     cfr_read.read_from_file (scenario_a_blob.drop 12)
       = .error (.not_root LB_TAG_CFR_OPTION_FORM)) := by
  refine ⟨fun b => cfr_read.dump_read_from_file_iff file b,
    fun b => cfr_read.dump_read_from_file_iff file b, ?_, ?_, ?_, ?_, ?_⟩
  · intro fuel buffer h
    simp only [cfr_read.main, h]
  · intro fuel buffer h
    simp only [cfr_to_html.main, h]
  · intro fuel e h
    simp only [cfr_read.main, h]
  · intro fuel e h
    simp only [cfr_to_html.main, h]
  · exact ⟨by decide!, by decide!, by decide!, by decide!, by decide!⟩

end cfr


namespace cfr_to_html

open cfr

/-! ## The selected attribute of enum values -/

theorem html_tag_neq_eq_ok {m : Mem} {p tag : Nat} {b : Bool} {o : List Html}
    (h : _tag_neq m p tag = .ok b o) (hb : b = false ∨ tag = LB_TAG_CFR_VARCHAR_UI_HELPTEXT) :
    o = [] := by
  unfold _tag_neq at h
  obtain ⟨t, o1, o2, h1, h2, h3⟩ := outcome_bind_eq_ok h
  obtain ⟨-, rfl⟩ := lift_eq_ok h1
  by_cases hc : t ≠ tag ∧ tag ≠ LB_TAG_CFR_VARCHAR_UI_HELPTEXT
  · rw [if_pos hc] at h2
    obtain ⟨o3, h4, -⟩ := emit_bind_eq_ok h2
    rw [outcome_pure] at h4
    injection h4 with h4 _
    rcases hb with hb | hb
    · rw [hb] at h4
      simp at h4
      exact absurd h4 hc.1
    · exact absurd hb hc.2
  · rw [if_neg hc, outcome_pure] at h2
    injection h2 with _ h2
    rw [h3, ← h2]
    rfl

theorem html_read_cfr_varchar_out {m : Mem} {p tag : Nat} {r : List Nat × Nat} {o : List Html}
    (h : read_cfr_varchar m p tag = .ok r o) : o = [] := by
  simp only [read_cfr_varchar] at h
  obtain ⟨neq, o1, o2, h1, h2, e0⟩ := outcome_bind_eq_ok h
  cases neq with
  | true =>
    simp only [if_true] at h2
    by_cases ht : tag = LB_TAG_CFR_VARCHAR_UI_HELPTEXT
    · rw [if_pos ht, outcome_pure] at h2
      injection h2 with _ h2
      rw [e0, html_tag_neq_eq_ok h1 (Or.inr ht), ← h2]
      rfl
    · rw [if_neg ht] at h2
      obtain ⟨o3, h4, -⟩ := emit_bind_eq_ok h2
      cases h4
  | false =>
    have e1 := html_tag_neq_eq_ok h1 (Or.inl rfl)
    simp only [Bool.false_eq_true, if_false] at h2
    obtain ⟨dl, a3, b3, h3, h2, e3⟩ := outcome_bind_eq_ok h2
    obtain ⟨-, ea3⟩ := lift_eq_ok h3
    obtain ⟨data, a4, b4, h4, h2, e4⟩ := outcome_bind_eq_ok h2
    obtain ⟨-, ea4⟩ := lift_eq_ok h4
    by_cases hc : strlen (List.take (dl - 1) data) + 1 = dl
    · rw [if_pos hc] at h2
      obtain ⟨size, a5, b5, h5, h2, e5⟩ := outcome_bind_eq_ok h2
      obtain ⟨-, ea5⟩ := lift_eq_ok h5
      by_cases hs : size > dl
      · rw [if_pos hs, outcome_pure] at h2
        injection h2 with _ h2
        rw [e0, e1, e3, ea3, e4, ea4, e5, ea5, ← h2]
        rfl
      · rw [if_neg hs] at h2
        cases h2
    · rw [if_neg hc] at h2
      cases h2

theorem html_sm_read_enum_value_out {m : Mem} {p dflt n : Nat} {out : List Html}
    (h : sm_read_enum_value m p dflt = .ok n out) :
    ∃ v name, load32 m (p + 8) = .ok v ∧ load32 m p = .ok LB_TAG_CFR_ENUM_VALUE ∧ 12 ≤ n ∧
      out = [.option v (decide (v = dflt)) name] := by
  simp only [sm_read_enum_value] at h
  obtain ⟨size, a1, b1, h1, h, e1⟩ := outcome_bind_eq_ok h
  obtain ⟨h1, ea1⟩ := lift_eq_ok h1
  obtain ⟨_, a2, b2, h2, h, e2⟩ := outcome_bind_eq_ok h
  obtain ⟨h2, ea2⟩ := html_tag_ok_eq_ok h2
  obtain ⟨⟨ui, k⟩, a3, b3, h3, h, e3⟩ := outcome_bind_eq_ok h
  have ea3 := html_read_cfr_varchar_out h3
  obtain ⟨v, a4, b4, h4, h, e4⟩ := outcome_bind_eq_ok h
  obtain ⟨h4, ea4⟩ := lift_eq_ok h4
  obtain ⟨b5, h, e5⟩ := emit_bind_eq_ok h
  obtain ⟨hc, en, eb5⟩ := ite_pure_abort_eq_ok h
  dsimp only at hc
  refine ⟨v, ui, h4, h2, by omega, ?_⟩
  rw [e1, ea1, e2, ea2, e3, ea3, e4, ea4, e5, eb5]
  rfl

theorem html_read_enum_values_out (m : Mem) (limit dflt : Nat) : ∀ (fuel cur cur' : Nat)
    (out : List Html), read_enum_values fuel m limit cur dflt = .ok cur' out →
    ∀ x ∈ out, ∃ r v name, cur ≤ r ∧ r < limit ∧ load32 m r = .ok LB_TAG_CFR_ENUM_VALUE ∧
      load32 m (r + 8) = .ok v ∧ x = .option v (decide (v = dflt)) name := by
  intro fuel
  induction fuel with
  | zero => intro cur cur' out h; cases h
  | succ f ih =>
    intro cur cur' out h
    simp only [read_enum_values] at h
    by_cases hc : cur < limit
    · rw [if_pos hc] at h
      obtain ⟨n, o1, o2, h1, h2, e0⟩ := outcome_bind_eq_ok h
      obtain ⟨v, name, hv, ht, hn, e1⟩ := html_sm_read_enum_value_out h1
      intro x hx
      rw [e0, e1] at hx
      rcases List.mem_append.1 hx with hx | hx
      · rw [List.mem_singleton] at hx
        exact ⟨cur, v, name, Nat.le_refl _, hc, ht, hv, hx⟩
      · obtain ⟨r, v2, name2, h3, h4, h5, h6, h7⟩ := ih _ _ _ h2 x hx
        exact ⟨r, v2, name2, by omega, h4, h5, h6, h7⟩
    · rw [if_neg hc, outcome_pure] at h
      injection h with _ h
      rw [← h]
      intro x hx
      cases hx

theorem html_sm_read_opt_enum_out {fuel : Nat} {m : Mem} {p n : Nat} {out : List Html}
    (h : sm_read_opt_enum fuel m p = .ok n out) :
    ∃ oid fl dv opt ui help options, load32 m (p + 16) = .ok dv ∧
      out = .select_open oid opt (print_flags fl) ui :: options ++ [.select_close help] ∧
      ∀ x ∈ options, ∃ r v name, p + 20 ≤ r ∧ r < p + n ∧
        load32 m r = .ok LB_TAG_CFR_ENUM_VALUE ∧ load32 m (r + 8) = .ok v ∧
        x = .option v (decide (v = dv)) name := by
  simp only [sm_read_opt_enum] at h
  obtain ⟨size, a1, b1, h1, h, e1⟩ := outcome_bind_eq_ok h
  obtain ⟨h1, ea1⟩ := lift_eq_ok h1
  obtain ⟨_, a2, b2, h2, h, e2⟩ := outcome_bind_eq_ok h
  obtain ⟨h2, ea2⟩ := html_tag_ok_eq_ok h2
  obtain ⟨⟨opt, k1⟩, a3, b3, h3, h, e3⟩ := outcome_bind_eq_ok h
  obtain ⟨⟨ui, k2⟩, a4, b4, h4, h, e4⟩ := outcome_bind_eq_ok h
  obtain ⟨⟨help, k3⟩, a5, b5, h5, h, e5⟩ := outcome_bind_eq_ok h
  have ea3 := html_read_cfr_varchar_out h3
  have ea4 := html_read_cfr_varchar_out h4
  have ea5 := html_read_cfr_varchar_out h5
  obtain ⟨oid, a6, b6, h6, h, e6⟩ := outcome_bind_eq_ok h
  obtain ⟨-, ea6⟩ := lift_eq_ok h6
  obtain ⟨fl, a7, b7, h7, h, e7⟩ := outcome_bind_eq_ok h
  obtain ⟨-, ea7⟩ := lift_eq_ok h7
  obtain ⟨b8, h, e8⟩ := emit_bind_eq_ok h
  obtain ⟨dv, a9, b9, h8, h, e9⟩ := outcome_bind_eq_ok h
  obtain ⟨h8, ea9⟩ := lift_eq_ok h8
  obtain ⟨cur, o6, b10, h9, h, e10⟩ := outcome_bind_eq_ok h
  obtain ⟨b11, h, e11⟩ := emit_bind_eq_ok h
  obtain ⟨hc, en, eb11⟩ := ite_pure_abort_eq_ok h
  dsimp only at hc h9
  refine ⟨oid, fl, dv, opt, ui, help, o6, h8, ?_, ?_⟩
  · rw [e1, ea1, e2, ea2, e3, ea3, e4, ea4, e5, ea5, e6, ea6, e7, ea7, e8, e9, ea9, e10, e11,
      eb11]
    rfl
  · intro x hx
    obtain ⟨r, v, name, c1, c2, c3, c4, c5⟩ :=
      html_read_enum_values_out m _ dv _ _ _ _ h9 x hx
    rw [en]
    exact ⟨r, v, name, by omega, c2, c3, c4, c5⟩

end cfr_to_html

namespace cfr

/-- C29 (selected enum value in HTML). When `sm_read_opt_enum` of `cfr_to_html` returns, its
output is the opening of the select element, one option element for each EnumValue record
read and the closing; each option element carries the value field of its record, and its
`selected` attribute is set exactly when that value equals the `default_value` field of the
EnumOption (the word at offset 16). An EnumValue reader alone writes one option element,
selected exactly when its value field equals the default handed to it. So no option is
selected when no value matches (`enum_none_selected_blob`, default 9, values 7 and 7), and
several are when several match (`enum_two_selected_blob`, default 7). -/
theorem enum_option_selected (fuel : Nat) (m : Mem) (p : Nat) :
    (∀ n out, cfr_to_html.sm_read_opt_enum fuel m p = .ok n out →
      ∃ oid fl dv opt ui help options, load32 m (p + 16) = .ok dv ∧
        out = .select_open oid opt (cfr_to_html.print_flags fl) ui :: options
          ++ [.select_close help] ∧
        ∀ x ∈ options, ∃ r v name, p + 20 ≤ r ∧ r < p + n ∧
          load32 m r = .ok LB_TAG_CFR_ENUM_VALUE ∧ load32 m (r + 8) = .ok v ∧
          x = .option v (decide (v = dv)) name) ∧
    (∀ dflt n out, cfr_to_html.sm_read_enum_value m p dflt = .ok n out →
      ∃ v name, load32 m (p + 8) = .ok v ∧ load32 m p = .ok LB_TAG_CFR_ENUM_VALUE ∧ 12 ≤ n ∧
        out = [.option v (decide (v = dflt)) name]) ∧
    cfr_to_html.sm_read_opt_enum 3 enum_two_selected_blob 48
      = .ok 108 [.select_open 2 (ascii "m") "" (ascii "M"), .option 7 true (ascii "A"),
          .option 7 true (ascii "B"), .select_close []] ∧
    cfr_to_html.sm_read_opt_enum 3 enum_none_selected_blob 48
      = .ok 108 [.select_open 2 (ascii "m") "" (ascii "M"), .option 7 false (ascii "A"),
          .option 7 false (ascii "B"), .select_close []] ∧
    (cfr_to_html.sm_read_cfr 10 enum_two_selected_blob).fault = none ∧
    (cfr_to_html.sm_read_cfr 10 enum_none_selected_blob).fault = none := by
  refine ⟨fun n out h => cfr_to_html.html_sm_read_opt_enum_out h,
    fun dflt n out h => cfr_to_html.html_sm_read_enum_value_out h,
    by decide!, by decide!, by decide!, by decide!⟩

end cfr


namespace cfr_to_html

open cfr

theorem html_root_child_not_form (fuel : Nat) (m : Mem) (size crc t s : Nat)
    (h0 : load32 m 0 = .ok LB_TAG_CFR) (h4 : load32 m 4 = .ok size)
    (h8 : load32 m 8 = .ok crc) (hlt : 12 < size) (ht : load32 m 12 = .ok t)
    (hs : load32 m 16 = .ok s) (hne : t ≠ LB_TAG_CFR_OPTION_FORM) :
    sm_read_cfr (fuel + 1) m
      = .fail .fatal [.page_open crc, .stderr_bail LB_TAG_CFR_OPTION_FORM t] := by
  have hbail : _tag_ok m 12 LB_TAG_CFR_OPTION_FORM
      = .fail .fatal [.stderr_bail LB_TAG_CFR_OPTION_FORM t] := by
    simp [_tag_ok, ht, hne, lift_ok, outcome_bind_ok, emit_eq, abort_eq, Outcome.prepend]
  simp only [sm_read_cfr, Nat.zero_add, read_form_tabs, sm_read_form_tab]
  simp [h0, h4, h8, hs, hlt, hbail, html_tag_ok m 0 _ h0, lift_ok, outcome_bind_ok,
    outcome_bind_fail, emit_eq, Outcome.prepend]

end cfr_to_html

namespace cfr_read

open cfr

theorem dump_root_children_any (fuel : Nat) (m : Mem) (size crc : Nat) (d : Int)
    (o : List Out) (h0 : load32 m 0 = .ok LB_TAG_CFR) (h4 : load32 m 4 = .ok size)
    (h8 : load32 m 8 = .ok crc) (hr : read_objects fuel m size 12 0 = .ok (size, d) o) :
    sm_read_cfr fuel m
      = .ok d ([.record LB_TAG_CFR size, .val .checksum crc, .prop .form_list] ++ o
          ++ [.val .length size, .val .size size, .depth d]) := by
  simp only [sm_read_cfr, Nat.zero_add]
  simp [h0, h4, h8, hr, dump_tag_ok m 0 _ h0, dump_print_record m 0 _ _ rfl h0 h4, lift_ok,
    outcome_bind_ok, emit_eq, outcome_pure, Outcome.prepend]

end cfr_read

namespace cfr

/-- C28 (root children must be Forms), evaluated at `root_comment_blob` and
`root_unknown_blob`. `cfr_to_html` stops with the fatal tag mismatch on every buffer whose
Root has a first child with another tag than `LB_TAG_CFR_OPTION_FORM`, before writing
anything for the child. `cfr_read` does not: its root loop is the object loop of a Form, and
the Root is accepted whenever that loop ends at the end of the Root; on the two blobs it
reports the Comment, and skips the unknown record, and decodes to completion. -/
theorem root_children_must_be_forms :
    (∀ (fuel : Nat) (m : Mem) (size crc t s : Nat), load32 m 0 = .ok LB_TAG_CFR →
      load32 m 4 = .ok size → load32 m 8 = .ok crc → 12 < size → load32 m 12 = .ok t →
      load32 m 16 = .ok s → t ≠ LB_TAG_CFR_OPTION_FORM →
      cfr_to_html.sm_read_cfr (fuel + 1) m
        = .fail .fatal [.page_open crc, .stderr_bail LB_TAG_CFR_OPTION_FORM t]) ∧
    (∀ (fuel : Nat) (m : Mem) (size crc : Nat) (d : Int) (o : List cfr_read.Out),
      load32 m 0 = .ok LB_TAG_CFR → load32 m 4 = .ok size → load32 m 8 = .ok crc →
      cfr_read.read_objects fuel m size 12 0 = .ok (size, d) o →
      cfr_read.sm_read_cfr fuel m
        = .ok d ([.record LB_TAG_CFR size, .val .checksum crc, .prop .form_list] ++ o
            ++ [.val .length size, .val .size size, .depth d])) ∧
    load32 root_comment_blob 12 = .ok LB_TAG_CFR_OPTION_COMMENT ∧
    cfr_to_html.sm_read_cfr 10 root_comment_blob
      = .fail .fatal [.page_open 0,
          .stderr_bail LB_TAG_CFR_OPTION_FORM LB_TAG_CFR_OPTION_COMMENT] ∧
    cfr_read.sm_read_cfr 10 root_comment_blob
      = .ok 0 [.record LB_TAG_CFR 60, .val .checksum 0, .prop .form_list, .brace_open,
          .record LB_TAG_CFR_OPTION_COMMENT 48, .val .object_id 2, .val .flags 0,
          .prop .ui_name, .brace_open, .record LB_TAG_CFR_VARCHAR_UI_NAME 16,
          .val .data_length 2, .data (ascii "c"), .brace_close 1, .prop .ui_helptext,
          .brace_open, .record LB_TAG_CFR_VARCHAR_UI_HELPTEXT 16, .val .data_length 2,
          .data (ascii "h"), .brace_close 1, .brace_close 0, .val .length 60, .val .size 60,
          .depth 0] ∧
    load32 root_unknown_blob 12 = .ok 0x0999 ∧
    cfr_to_html.sm_read_cfr 10 root_unknown_blob
      = .fail .fatal [.page_open 0, .stderr_bail LB_TAG_CFR_OPTION_FORM 0x0999] ∧
    cfr_read.sm_read_cfr 10 root_unknown_blob
      = .ok 0 [.record LB_TAG_CFR 24, .val .checksum 0, .prop .form_list, .brace_open,
          .record 0x0999 12, .brace_close 0, .val .length 24, .val .size 24, .depth 0] := by
  refine ⟨cfr_to_html.html_root_child_not_form, cfr_read.dump_root_children_any,
    by decide!, by decide!, by decide!, by decide!, by decide!, by decide!⟩

end cfr


namespace cfr

/-! ## Tags -/

theorem blit_first_word (m : Mem) (c tag size : Nat) (post : List Nat) (rest img : List Cell)
    (himg : img = ref_fields (tag :: size :: post) ++ rest) (htag : tag < 2 ^ 32)
    (hm : c + img.length ≤ m.length) : load32 (blit m c img) c = .ok tag := by
  have hfit := fits_blit m c img hm
  generalize blit m c img = b at hfit ⊢
  rw [himg] at hfit
  have h := load32_field b c [] tag (size :: post) rest hfit
  rw [Nat.mod_eq_of_lt htag] at h
  simpa using h

theorem tags_list_append (a b : List Shape) :
    Shape.tags_list (a ++ b) = Shape.tags_list a ++ Shape.tags_list b := by
  induction a with
  | nil => simp [Shape.tags_list]
  | cons x xs ih => simp [Shape.tags_list, ih]

theorem tags_shape_string (tag : Nat) (s : Option (List Nat)) :
    ∀ t ∈ Shape.tags_list (shape_string tag s), t = tag := by
  cases s <;> simp [shape_string, Shape.tags_list, Shape.tags]

theorem tags_shape_helptext (s : Option (List Nat)) :
    ∀ t ∈ Shape.tags_list (shape_helptext s), t = LB_TAG_CFR_VARCHAR_UI_HELPTEXT := by
  cases s with
  | none => simp [shape_helptext, Shape.tags_list]
  | some s =>
    by_cases h : cstr s = [] <;> simp [shape_helptext, h, Shape.tags_list, Shape.tags]

theorem tags_shape_enum_values : ∀ (vs : List sm_enum_value),
    ∀ t ∈ Shape.tags_list (shape_enum_values vs), t ∈ all_tags.tail
  | [] => by simp [shape_enum_values, Shape.tags_list]
  | e :: es => by
    intro t ht
    simp only [shape_enum_values] at ht
    cases hu : e.ui_name with
    | none => simp [hu, Shape.tags_list] at ht
    | some s =>
      simp only [hu, Shape.tags_list, Shape.tags, shape_string, List.append_nil,
        List.mem_append, List.mem_cons, List.mem_singleton, List.not_mem_nil, or_false] at ht
      rcases ht with (h | h) | h
      · subst h; decide
      · subst h; decide
      · exact tags_shape_enum_values es t h

theorem tags_shape_numeric (tag : Nat) (opt ui help : Option (List Nat)) (values : List Shape)
    (htag : tag ∈ all_tags.tail) (hv : ∀ t ∈ Shape.tags_list values, t ∈ all_tags.tail) :
    ∀ t ∈ Shape.tags (shape_numeric tag opt ui help values), t ∈ all_tags.tail := by
  intro t ht
  simp only [shape_numeric, Shape.tags, tags_list_append, List.mem_cons, List.mem_append] at ht
  rcases ht with h | ((h | h) | h) | h
  · subst h; exact htag
  · rw [tags_shape_string _ _ t h]; decide
  · rw [tags_shape_string _ _ t h]; decide
  · rw [tags_shape_helptext _ t h]; decide
  · exact hv t h

mutual
theorem tags_shape_form : ∀ (f : sm_obj_form), ∀ t ∈ Shape.tags (shape_form f),
    t ∈ all_tags.tail
  | .mk oid fl ui os => by
    intro t ht
    simp only [shape_form, Shape.tags, tags_list_append, List.mem_cons, List.mem_append] at ht
    rcases ht with h | h | h
    · subst h; decide
    · rw [tags_shape_string _ _ t h]; decide
    · exact tags_shape_obj_list os t h
theorem tags_shape_obj_list : ∀ (os : List sm_object),
    ∀ t ∈ Shape.tags_list (shape_obj_list os), t ∈ all_tags.tail
  | [] => by simp [shape_obj_list, Shape.tags_list]
  | o :: os => by
    intro t ht
    simp only [shape_obj_list, tags_list_append, List.mem_append] at ht
    rcases ht with h | h
    · exact tags_shape_object o t h
    · exact tags_shape_obj_list os t h
theorem tags_shape_object : ∀ (o : sm_object),
    ∀ t ∈ Shape.tags_list (shape_object o), t ∈ all_tags.tail
  | .obj_none => by simp [shape_object, Shape.tags_list]
  | .unknown _ => by simp [shape_object, Shape.tags_list]
  | .obj_enum o => by
    intro t ht
    simp only [shape_object, Shape.tags_list, List.append_nil] at ht
    refine tags_shape_numeric _ _ _ _ _ (by decide) ?_ t ht
    cases o.values with
    | none => simp [Shape.tags_list]
    | some vs => exact tags_shape_enum_values vs
  | .obj_number o => by
    intro t ht
    simp only [shape_object, Shape.tags_list, List.append_nil] at ht
    exact tags_shape_numeric _ _ _ _ _ (by decide) (by simp [Shape.tags_list]) t ht
  | .obj_bool o => by
    intro t ht
    simp only [shape_object, Shape.tags_list, List.append_nil] at ht
    exact tags_shape_numeric _ _ _ _ _ (by decide) (by simp [Shape.tags_list]) t ht
  | .obj_varchar o => by
    intro t ht
    simp only [shape_object, Shape.tags_list, Shape.tags, tags_list_append, List.append_nil,
      List.mem_cons, List.mem_append] at ht
    rcases ht with h | ((h | h) | h) | h
    · subst h; decide
    · rw [tags_shape_string _ _ t h]; decide
    · rw [tags_shape_string _ _ t h]; decide
    · rw [tags_shape_string _ _ t h]; decide
    · rw [tags_shape_helptext _ t h]; decide
  | .obj_comment o => by
    intro t ht
    simp only [shape_object, Shape.tags_list, Shape.tags, tags_list_append, List.append_nil,
      List.mem_cons, List.mem_append] at ht
    rcases ht with h | h | h
    · subst h; decide
    · rw [tags_shape_string _ _ t h]; decide
    · rw [tags_shape_helptext _ t h]; decide
  | .obj_form f => by
    intro t ht
    simp only [shape_object, Shape.tags_list, List.append_nil] at ht
    exact tags_shape_form f t ht
end

theorem tags_shape_form_list : ∀ (fs : List sm_obj_form),
    ∀ t ∈ Shape.tags_list (shape_form_list fs), t ∈ all_tags.tail
  | [] => by simp [shape_form_list, Shape.tags_list]
  | f :: fs => by
    intro t ht
    simp only [shape_form_list, Shape.tags_list, List.mem_append] at ht
    rcases ht with h | h
    · exact tags_shape_form f t h
    · exact tags_shape_form_list fs t h

theorem root_tag_not_in_tail : LB_TAG_CFR ∉ all_tags.tail := by decide

/-- What the encoder returns for a valid tree: the blob passes `walk` along the shape of the
tree and starts with the Root tag. -/
theorem encoder_blob_walk (m : Mem) (sm_root : setup_menu_root)
    (hv : valid_form_list sm_root.form_list = true)
    (hm : (ref_root sm_root 0).length ≤ m.length)
    (hlt : (ref_root sm_root 0).length < 2 ^ 32) :
    ∃ m' size, cfr_write_setup_menu m sm_root = .ok m' ∧ load32 m' 0 = .ok LB_TAG_CFR ∧
      load32 m' 4 = .ok size ∧ size ≤ m'.length ∧
      walk (m'.take size) (shape_root sm_root) 0 = some size := by
  generalize hcrc : crc32 ((blit m 0 (ref_root sm_root 0)).take (ref_root sm_root 0).length)
    = crc
  have hl : ∀ c, (ref_root sm_root c).length = (ref_root sm_root 0).length := by
    intro c; rw [ref_root_length, ref_root_length]
  have henc := cfr_write_setup_menu_eq m sm_root hv hm hlt
  rw [hcrc] at henc
  have hfit := fits_blit m 0 (ref_root sm_root crc) (by rw [hl]; omega)
  rw [List.drop_zero] at hfit
  have hhdr : load32 (blit m 0 (ref_root sm_root crc)) 0 = .ok LB_TAG_CFR ∧
      load32 (blit m 0 (ref_root sm_root crc)) (0 + 4) = .ok (ref_root sm_root crc).length := by
    have hfit2 := hfit
    generalize blit m 0 (ref_root sm_root crc) = b at hfit2 ⊢
    rw [← List.drop_zero b, ref_root_shape] at hfit2
    exact load32_header b 0 _ _ _ _ hfit2 (by decide) (by rw [hl]; exact hlt)
  refine ⟨_, _, henc, hhdr.1, hhdr.2, ?_, ?_⟩
  · rw [blit_length, hl]; exact hm
  · exact walk_root _ sm_root crc (fits_take _ _ _ (Nat.le_refl _) hfit)
      (by rw [hl]; exact hlt)

/-- C23 (root tag uniqueness). For every valid tree whose encoding fits the buffer, the blob
the encoder returns starts with the Root tag at offset 0 and passes `walk` along the shape
of the tree, so its records, at every nesting level, carry the tags `Shape.tags` lists; in
this list the first entry, the outermost record, is `LB_TAG_CFR`, every other entry is one
of the eleven other tags, and `LB_TAG_CFR` occurs exactly once. -/
theorem root_tag_unique (m : Mem) (sm_root : setup_menu_root)
    (hv : valid_form_list sm_root.form_list = true)
    (hm : (ref_root sm_root 0).length ≤ m.length)
    (hlt : (ref_root sm_root 0).length < 2 ^ 32) :
    (∃ m' size, cfr_write_setup_menu m sm_root = .ok m' ∧ load32 m' 0 = .ok LB_TAG_CFR ∧
      load32 m' 4 = .ok size ∧ size ≤ m'.length ∧
      walk (m'.take size) (shape_root sm_root) 0 = some size) ∧
    (shape_root sm_root).tags
      = LB_TAG_CFR :: Shape.tags_list (shape_form_list sm_root.form_list) ∧
    (∀ t ∈ Shape.tags_list (shape_form_list sm_root.form_list),
      t ∈ all_tags.tail ∧ t ≠ LB_TAG_CFR) ∧
    (shape_root sm_root).tags.count LB_TAG_CFR = 1 := by
  have hne : ∀ t ∈ Shape.tags_list (shape_form_list sm_root.form_list),
      t ∈ all_tags.tail ∧ t ≠ LB_TAG_CFR := by
    intro t ht
    have h := tags_shape_form_list sm_root.form_list t ht
    exact ⟨h, fun e => root_tag_not_in_tail (e ▸ h)⟩
  refine ⟨encoder_blob_walk m sm_root hv hm hlt, rfl, hne, ?_⟩
  simp only [shape_root, Shape.tags, List.count_cons_self]
  rw [List.count_eq_zero_of_not_mem]
  intro h
  exact (hne _ h).2 rfl

theorem root_tag_unique_witness :
    valid_form_list scenario_c.form_list = true ∧
      (ref_root scenario_c 0).length ≤ (List.replicate 256 0).length ∧
      (ref_root scenario_c 0).length < 2 ^ 32 ∧
      (shape_root scenario_c).tags
        = [LB_TAG_CFR, LB_TAG_CFR_OPTION_FORM, LB_TAG_CFR_VARCHAR_UI_NAME,
           LB_TAG_CFR_OPTION_FORM, LB_TAG_CFR_VARCHAR_UI_NAME, LB_TAG_CFR_OPTION_NUMBER,
           LB_TAG_CFR_VARCHAR_OPT_NAME, LB_TAG_CFR_VARCHAR_UI_NAME,
           LB_TAG_CFR_OPTION_COMMENT, LB_TAG_CFR_VARCHAR_UI_NAME] ∧
      (shape_root scenario_c).tags.count LB_TAG_CFR = 1 ∧
      ∃ m' size, cfr_write_setup_menu (List.replicate 256 0) scenario_c = .ok m' ∧
        load32 m' 0 = .ok LB_TAG_CFR ∧ load32 m' 4 = .ok size ∧ size ≤ m'.length ∧
        walk (m'.take size) (shape_root scenario_c) 0 = some size :=
  have h := root_tag_unique (List.replicate 256 0) scenario_c (by decide!)
    (by rw [List.length_replicate]; decide!) (by decide!)
  ⟨by decide!, by rw [List.length_replicate]; decide!, by decide!, by decide!, h.2.2.2, h.1⟩

end cfr


namespace cfr

theorem write_string_first_word (m : Mem) (c tag : Nat) (str : Option (List Nat))
    (hv : str.isSome = true) (htag : tag < 2 ^ 32)
    (hm : c + (ref_string tag str).length ≤ m.length)
    (hlt : (ref_string tag str).length < 2 ^ 32) :
    ∃ m' n, write_cfr_varchar m c str tag = .ok (m', n) ∧ load32 m' c = .ok tag := by
  refine ⟨_, _, write_string_eq m c tag str hv hm hlt, ?_⟩
  cases str with
  | none => simp at hv
  | some s =>
    simp only [ref_string] at hm ⊢
    exact blit_first_word m c tag _ _ _ _ (ref_varchar_shape tag s) htag hm

theorem sm_write_object_first_word (m : Mem) (c tag size : Nat) (post : List Nat)
    (rest : List Cell) (o : sm_object)
    (himg : ref_object o = ref_fields (tag :: size :: post) ++ rest) (htag : tag < 2 ^ 32)
    (hv : valid_object o = true) (hm : c + (ref_object o).length ≤ m.length)
    (hlt : (ref_object o).length < 2 ^ 32) :
    ∃ m' n, sm_write_object m c o = .ok (m', n) ∧ load32 m' c = .ok tag :=
  ⟨_, _, sm_write_object_eq o m c hv hm hlt, blit_first_word m c tag _ _ _ _ himg htag hm⟩

/-- C22 (tag vocabulary). The twelve tag constants have the values `0x0100` to `0x010b` of
`cfr.h` and are pairwise distinct. Every writer of the encoder, on any buffer with room at
any cursor, leaves the tag of its kind in the first word of the record it wrote: the four
string writers, `sm_write_enum_value`, `sm_write_object` for each of the six kinds of object,
and `cfr_write_setup_menu` for the Root. And in the blob the encoder returns for a valid
tree, every record of the tree still starts with the tag of its kind (the check `walk` along
the shape of the tree). -/
theorem tag_vocabulary (m : Mem) (sm_root : setup_menu_root)
    (hv : valid_form_list sm_root.form_list = true)
    (hm : (ref_root sm_root 0).length ≤ m.length)
    (hlt : (ref_root sm_root 0).length < 2 ^ 32) :
    all_tags = [0x0100, 0x0101, 0x0102, 0x0103, 0x0104, 0x0105, 0x0106, 0x0107, 0x0108,
      0x0109, 0x010a, 0x010b] ∧ all_tags.Nodup ∧
    (LB_TAG_CFR = 0x0100 ∧ LB_TAG_CFR_OPTION_FORM = 0x0101 ∧ LB_TAG_CFR_ENUM_VALUE = 0x0102 ∧
      LB_TAG_CFR_OPTION_ENUM = 0x0103 ∧ LB_TAG_CFR_OPTION_NUMBER = 0x0104 ∧
      LB_TAG_CFR_OPTION_BOOL = 0x0105 ∧ LB_TAG_CFR_OPTION_VARCHAR = 0x0106 ∧
      LB_TAG_CFR_VARCHAR_OPT_NAME = 0x0107 ∧ LB_TAG_CFR_VARCHAR_UI_NAME = 0x0108 ∧
      LB_TAG_CFR_VARCHAR_UI_HELPTEXT = 0x0109 ∧ LB_TAG_CFR_VARCHAR_DEF_VALUE = 0x010a ∧
      LB_TAG_CFR_OPTION_COMMENT = 0x010b) ∧
    (∀ (mm : Mem) (c : Nat) (s : List Nat),
      c + (ref_varchar 0 s).length ≤ mm.length → (ref_varchar 0 s).length < 2 ^ 32 →
      (∃ m' n, sm_write_opt_name mm c (some s) = .ok (m', n) ∧
        load32 m' c = .ok LB_TAG_CFR_VARCHAR_OPT_NAME) ∧
      (∃ m' n, sm_write_ui_name mm c (some s) = .ok (m', n) ∧
        load32 m' c = .ok LB_TAG_CFR_VARCHAR_UI_NAME) ∧
      (∃ m' n, sm_write_string_default_value mm c (some s) = .ok (m', n) ∧
        load32 m' c = .ok LB_TAG_CFR_VARCHAR_DEF_VALUE) ∧
      (cstr s ≠ [] → ∃ m' n, sm_write_ui_helptext mm c (some s) = .ok (m', n) ∧
        load32 m' c = .ok LB_TAG_CFR_VARCHAR_UI_HELPTEXT)) ∧
    (∀ (mm : Mem) (c : Nat) (e : sm_enum_value), e.ui_name.isSome = true →
      c + (ref_enum_value e).length ≤ mm.length → (ref_enum_value e).length < 2 ^ 32 →
      ∃ m' n, sm_write_enum_value mm c e = .ok (m', n) ∧
        load32 m' c = .ok LB_TAG_CFR_ENUM_VALUE) ∧
    (∀ (mm : Mem) (c : Nat) (o : sm_object), valid_object o = true →
      c + (ref_object o).length ≤ mm.length → (ref_object o).length < 2 ^ 32 →
      (∀ x, o = .obj_enum x → ∃ m' n, sm_write_object mm c o = .ok (m', n) ∧
        load32 m' c = .ok LB_TAG_CFR_OPTION_ENUM) ∧
      (∀ x, o = .obj_number x → ∃ m' n, sm_write_object mm c o = .ok (m', n) ∧
        load32 m' c = .ok LB_TAG_CFR_OPTION_NUMBER) ∧
      (∀ x, o = .obj_bool x → ∃ m' n, sm_write_object mm c o = .ok (m', n) ∧
        load32 m' c = .ok LB_TAG_CFR_OPTION_BOOL) ∧
      (∀ x, o = .obj_varchar x → ∃ m' n, sm_write_object mm c o = .ok (m', n) ∧
        load32 m' c = .ok LB_TAG_CFR_OPTION_VARCHAR) ∧
      (∀ x, o = .obj_comment x → ∃ m' n, sm_write_object mm c o = .ok (m', n) ∧
        load32 m' c = .ok LB_TAG_CFR_OPTION_COMMENT) ∧
      (∀ x, o = .obj_form x → ∃ m' n, sm_write_object mm c o = .ok (m', n) ∧
        load32 m' c = .ok LB_TAG_CFR_OPTION_FORM)) ∧
    (∃ m' size, cfr_write_setup_menu m sm_root = .ok m' ∧ load32 m' 0 = .ok LB_TAG_CFR ∧
      load32 m' 4 = .ok size ∧ size ≤ m'.length ∧
      walk (m'.take size) (shape_root sm_root) 0 = some size) := by
  refine ⟨by decide, by decide, by decide, ?_, ?_, ?_, encoder_blob_walk m sm_root hv hm hlt⟩
  · intro mm c s hmm hl
    have hlen : ∀ tag, (ref_string tag (some s)).length = (ref_varchar 0 s).length := by
      intro tag
      simp only [ref_string]
      rw [ref_varchar_length, ref_varchar_length]
    refine ⟨?_, ?_, ?_, ?_⟩
    · exact write_string_first_word mm c _ (some s) rfl (by decide)
        (by rw [hlen]; exact hmm) (by rw [hlen]; exact hl)
    · exact write_string_first_word mm c _ (some s) rfl (by decide)
        (by rw [hlen]; exact hmm) (by rw [hlen]; exact hl)
    · exact write_string_first_word mm c _ (some s) rfl (by decide)
        (by rw [hlen]; exact hmm) (by rw [hlen]; exact hl)
    · intro hne
      have h0 : strlen s ≠ 0 := by
        intro h
        apply hne
        unfold strlen at h
        exact List.length_eq_zero.1 h
      simp only [sm_write_ui_helptext, h0, if_false]
      exact write_string_first_word mm c _ (some s) rfl (by decide)
        (by rw [hlen]; exact hmm) (by rw [hlen]; exact hl)
  · intro mm c e hu hmm hl
    exact ⟨_, _, sm_write_enum_value_eq mm c e hu hmm hl,
      blit_first_word mm c _ _ _ _ _ (ref_enum_value_shape e) (by decide) hmm⟩
  · intro mm c o hvo hmm hl
    refine ⟨?_, ?_, ?_, ?_, ?_, ?_⟩
    · intro x hx
      subst hx
      exact sm_write_object_first_word mm c _ _ _ _ _
        (by simp only [ref_object, ref_opt_enum]; exact ref_numeric_shape ..) (by decide)
        hvo hmm hl
    · intro x hx
      subst hx
      exact sm_write_object_first_word mm c _ _ _ _ _
        (by simp only [ref_object, ref_opt_number]; exact ref_numeric_shape ..) (by decide)
        hvo hmm hl
    · intro x hx
      subst hx
      exact sm_write_object_first_word mm c _ _ _ _ _
        (by simp only [ref_object, ref_opt_bool]; exact ref_numeric_shape ..) (by decide)
        hvo hmm hl
    · intro x hx
      subst hx
      exact sm_write_object_first_word mm c _ _ _ _ _
        (by simp only [ref_object]; exact ref_opt_varchar_shape x) (by decide) hvo hmm hl
    · intro x hx
      subst hx
      exact sm_write_object_first_word mm c _ _ _ _ _
        (by simp only [ref_object]; exact ref_opt_comment_shape x) (by decide) hvo hmm hl
    · intro x hx
      subst hx
      cases x with
      | mk oid fl ui os =>
        exact sm_write_object_first_word mm c _ _ _ _ _
          (by simp only [ref_object]; exact ref_form_shape oid fl ui os) (by decide)
          hvo hmm hl

theorem tag_vocabulary_witness :
    valid_form_list scenario_b.form_list = true ∧
      (ref_root scenario_b 0).length ≤ (List.replicate 256 0).length ∧
      (ref_root scenario_b 0).length < 2 ^ 32 ∧
      all_tags.Nodup ∧
      ∃ m' size, cfr_write_setup_menu (List.replicate 256 0) scenario_b = .ok m' ∧
        load32 m' 0 = .ok LB_TAG_CFR ∧ load32 m' 4 = .ok size ∧ size ≤ m'.length ∧
        walk (m'.take size) (shape_root scenario_b) 0 = some size :=
  have h := tag_vocabulary (List.replicate 256 0) scenario_b (by decide!)
    (by rw [List.length_replicate]; decide!) (by decide!)
  ⟨by decide!, by rw [List.length_replicate]; decide!, by decide!, h.2.1, h.2.2.2.2.2.2⟩

end cfr


namespace cfr

/-! ## Nested forms -/

theorem overlay_of_fits (i : List Cell) : ∀ s, Fits i s → overlay i s = s := by
  induction i with
  | nil => intro s _; rfl
  | cons c cs ih =>
    intro s h
    cases s with
    | nil => rfl
    | cons b bs =>
      simp only [Fits] at h
      simp only [overlay, ih bs h.2]
      rcases h.1 with h1 | h1 <;> simp [h1]

theorem blit_of_fits (m : Mem) (c : Nat) (i : List Cell) (h : Fits i (m.drop c)) :
    blit m c i = m := by
  unfold blit
  rw [overlay_of_fits i _ h, List.take_append_drop]

theorem no_helptext_blit (m : Mem) (c : Nat) (img : List Cell) (hc : c ≤ m.length)
    (h : no_helptext_at m (c + img.length)) :
    no_helptext_at (blit m c img) (c + img.length) := by
  obtain ⟨t, ht, hne⟩ := h
  refine ⟨t, ?_, hne⟩
  unfold load32 at ht ⊢
  rw [blit_drop m c _ img hc, overlay_drop img _ _ (Nat.le_refl _), ← drop_add_of_drop]
  exact ht

theorem ref_obj_list_append (a b : List sm_object) :
    ref_obj_list (a ++ b) = ref_obj_list a ++ ref_obj_list b := by
  induction a with
  | nil => simp [ref_obj_list]
  | cons x xs ih => simp [ref_obj_list_cons, ih]

theorem valid_obj_list_append (a b : List sm_object) :
    valid_obj_list (a ++ b) = (valid_obj_list a && valid_obj_list b) := by
  induction a with
  | nil => simp [valid_obj_list]
  | cons x xs ih => simp [valid_obj_list, ih, Bool.and_assoc]

end cfr

namespace cfr_read

open cfr

theorem dump_obj_list_append (a b : List sm_object) (d : Int) :
    dump_obj_list (a ++ b) d = dump_obj_list a d ++ dump_obj_list b d := by
  induction a with
  | nil => simp [dump_obj_list]
  | cons x xs ih => simp [dump_obj_list, ih]

end cfr_read

namespace cfr_to_html

open cfr

theorem html_obj_list_append (a b : List sm_object) :
    html_obj_list (a ++ b) = html_obj_list a ++ html_obj_list b := by
  induction a with
  | nil => simp [html_obj_list]
  | cons x xs ih => simp [html_obj_list, ih]

end cfr_to_html

namespace cfr

/-- C21 (nested forms). Let `f` be a valid Form whose objects are `pre`, then the Form
`inner`, then `post`, written by `sm_write_form` at the cursor `c` of a buffer with room for
it and one readable word after it that is not a help-text tag. In the buffer returned, the
record of `inner` starts at `off`, right after the header of `f`, its UI-name and the objects
`pre`; it carries the Form tag and its own length as size, it is the record `sm_write_form`
writes for `inner` alone (writing it again there changes nothing), and it lies inside the
extent of `f`. `cfr_read` (for `c` a multiple of 4) reports the fields and UI-name of `f`,
then the objects `pre`, then `inner` with all its children between its braces, then the
objects `post`; `cfr_to_html` writes the rows of `pre`, then the row of `inner` with all its
rows, then the rows of `post`. -/
theorem nested_form_order (m : Mem) (c oid fl off fuel idx : Nat) (ui : Option (List Nat))
    (pre post : List sm_object) (inner f : sm_obj_form) (depth : Int)
    (hf : f = .mk oid fl ui (pre ++ .obj_form inner :: post))
    (hoff : off = c + 16 + (ref_string LB_TAG_CFR_VARCHAR_UI_NAME ui).length
      + (ref_obj_list pre).length)
    (hv : valid_form f = true) (hm : c + (ref_form f).length ≤ m.length)
    (hlt : (ref_form f).length < 2 ^ 32)
    (hnh : no_helptext_at m (c + (ref_form f).length))
    (hfu : (ref_form f).length ≤ fuel) :
    ∃ m', sm_write_form m c f = .ok (m', (ref_form f).length) ∧
      load32 m' (c + 4) = .ok (ref_form f).length ∧
      load32 m' off = .ok LB_TAG_CFR_OPTION_FORM ∧
      load32 m' (off + 4) = .ok (ref_form inner).length ∧
      sm_write_form m' off inner = .ok (m', (ref_form inner).length) ∧
      c + 16 ≤ off ∧ off + (ref_form inner).length ≤ c + (ref_form f).length ∧
      (c % 4 = 0 →
        cfr_read.sm_read_form fuel m' c depth
          = .ok ((ref_form f).length, depth)
              ([.record LB_TAG_CFR_OPTION_FORM (ref_form f).length,
                .val .object_id (oid % 2 ^ 32), .val .flags (fl % 2 ^ 32)]
                ++ cfr_read.dump_string .ui_name LB_TAG_CFR_VARCHAR_UI_NAME ui depth
                ++ [.prop .object_list]
                ++ cfr_read.dump_obj_list pre depth
                ++ ([.brace_open] ++ cfr_read.dump_form inner (depth + 1)
                      ++ [.brace_close depth])
                ++ cfr_read.dump_obj_list post depth)) ∧
      cfr_to_html.sm_read_form_tab fuel m' c idx
        = .ok (ref_form f).length
            ([.tab_open (oid % 2 ^ 32) (cfr_to_html.print_flags (fl % 2 ^ 32))
                (decide (idx = 1)) (opt_cstr ui)]
              ++ cfr_to_html.html_obj_list pre
              ++ cfr_to_html.html_object (.obj_form inner)
              ++ cfr_to_html.html_obj_list post ++ [.tab_close]) ∧
      cfr_to_html.sm_read_object fuel m' c
        = .ok (ref_form f).length
            ([.row_open, .form_open (oid % 2 ^ 32) (cfr_to_html.print_flags (fl % 2 ^ 32))]
              ++ cfr_to_html.html_obj_list pre
              ++ cfr_to_html.html_object (.obj_form inner)
              ++ cfr_to_html.html_obj_list post ++ [.form_close, .row_close]) := by
  subst hf
  have hfit := fits_blit m c _ hm
  have hnh2 := no_helptext_blit m c _ (by omega) hnh
  have hlen := ref_form_length oid fl ui (pre ++ .obj_form inner :: post)
  have hv2 := hv
  simp only [valid_form, Bool.and_eq_true, valid_obj_list_append, valid_obj_list,
    valid_object] at hv2
  obtain ⟨hu, hvpre, hvin, hvpost⟩ := hv2
  have hol : (ref_obj_list (pre ++ .obj_form inner :: post)).length
      = (ref_obj_list pre).length + ((ref_form inner).length + (ref_obj_list post).length) := by
    rw [ref_obj_list_append, ref_obj_list_cons]
    simp [ref_object]
  generalize hb : blit m c (ref_form (.mk oid fl ui (pre ++ .obj_form inner :: post))) = b
    at hfit hnh2
  have hbl : b.length = m.length := by rw [← hb, blit_length]
  -- the header of the outer form and the place of the inner one
  have hfit2 := hfit
  rw [ref_form_shape] at hfit2
  have hhdr := load32_header b c _ _ _ _ hfit2 (by decide) hlt
  rw [fits_at_append, fits_at_append, ref_obj_list_append, ref_obj_list_cons, fits_at_append,
    fits_at_append] at hfit2
  simp only [ref_fields_length, List.length_cons, List.length_nil, ref_object] at hfit2
  have hfin : Fits (ref_form inner) (b.drop off) := by
    rw [hoff]
    have := hfit2.2.2.2.1
    simpa [Nat.add_assoc, Nat.mul_comm] using this
  have hinhdr : load32 b off = .ok LB_TAG_CFR_OPTION_FORM ∧
      load32 b (off + 4) = .ok (ref_form inner).length := by
    cases inner with
    | mk ioid ifl iui ios =>
      have h2 := hfin
      rw [ref_form_shape] at h2
      exact load32_header b off _ _ _ _ h2 (by decide) (by omega)
  have hinw : sm_write_form b off inner = .ok (b, (ref_form inner).length) := by
    have := sm_write_form_eq inner b off hvin (by omega) (by omega)
    rw [blit_of_fits b off _ hfin] at this
    exact this
  refine ⟨b, ?_, hhdr.2, hinhdr.1, hinhdr.2, hinw, by omega, by omega, ?_, ?_, ?_⟩
  · rw [← hb]
    exact sm_write_form_eq _ m c hv hm hlt
  · intro hc
    have h := cfr_read.dump_sm_read_form b _ fuel c depth hfit hc hlt hv hnh2 (by omega)
    rw [h]
    simp [cfr_read.dump_form, cfr_read.dump_obj_list_append, cfr_read.dump_obj_list,
      cfr_read.dump_object]
  · have h := cfr_to_html.html_sm_read_form_tab fuel b c idx oid fl ui _ hfit hlt hv hnh2
      (by omega)
    have e2 : cfr_to_html.html_obj_list (.obj_form inner :: post)
        = cfr_to_html.html_object (.obj_form inner) ++ cfr_to_html.html_obj_list post := by
      simp only [cfr_to_html.html_obj_list]
    rw [h, cfr_to_html.html_obj_list_append, e2]
    simp only [List.append_assoc, List.cons_append, List.nil_append]
  · have h := cfr_to_html.html_sm_read_object b
      (.obj_form (.mk oid fl ui (pre ++ .obj_form inner :: post))) fuel c
      (by simp only [ref_object]; intro h0; rw [h0, List.length_nil] at hlen; omega)
      (by simpa only [ref_object] using hfit) (by simpa only [ref_object] using hlt)
      (by simpa only [valid_object] using hv) (by simpa only [ref_object] using hnh2)
      (by simpa only [ref_object] using hfu)
    simp only [ref_object] at h
    have e : cfr_to_html.html_object
        (.obj_form (.mk oid fl ui (pre ++ .obj_form inner :: post)))
        = [.row_open, .form_open (oid % 2 ^ 32) (cfr_to_html.print_flags (fl % 2 ^ 32))]
          ++ cfr_to_html.html_obj_list (pre ++ .obj_form inner :: post)
          ++ [.form_close, .row_close] := by
      simp only [cfr_to_html.html_object]
    have e2 : cfr_to_html.html_obj_list (.obj_form inner :: post)
        = cfr_to_html.html_object (.obj_form inner) ++ cfr_to_html.html_obj_list post := by
      simp only [cfr_to_html.html_obj_list]
    rw [h, e, cfr_to_html.html_obj_list_append, e2]
    simp only [List.append_assoc]

/-- Witness for C21: the outer Form of Scenario C, written at offset 12 of a buffer of 256
zero bytes. The inner Form starts at offset 48 with size 88, inside the outer Form (offsets
12 to 172), and the page shows the inner Form with its Number option before the Comment that
follows it. -/
theorem nested_form_order_witness :
    scenario_c = ⟨[scenario_c_outer]⟩ ∧
    scenario_c_outer = .mk 3 0 (some (ascii "Outer"))
      ([] ++ .obj_form scenario_c_inner :: [.obj_comment ⟨4, 0, some (ascii "after"), none⟩]) ∧
    valid_form scenario_c_outer = true ∧
    12 + (ref_form scenario_c_outer).length ≤ (List.replicate 256 0).length ∧
    (ref_form scenario_c_outer).length < 2 ^ 32 ∧
    no_helptext_at (List.replicate 256 0) (12 + (ref_form scenario_c_outer).length) ∧
    (ref_form scenario_c_outer).length ≤ 160 ∧
    ∃ m', sm_write_form (List.replicate 256 0) 12 scenario_c_outer = .ok (m', 160) ∧
      load32 m' 48 = .ok LB_TAG_CFR_OPTION_FORM ∧ load32 m' (48 + 4) = .ok 88 ∧
      sm_write_form m' 48 scenario_c_inner = .ok (m', 88) ∧
      cfr_to_html.sm_read_form_tab 160 m' 12 1
        = .ok 160 [.tab_open 3 "" true (ascii "Outer"), .row_open, .form_open 2 "", .row_open,
            .number 1 (ascii "n") 42 " readonly" (ascii "N") [], .row_close, .form_close,
            .row_close, .row_open, .comment 4 "" (ascii "after") [], .row_close,
            .tab_close] := by
  have hlen : (ref_form scenario_c_outer).length = 160 := by decide!
  have hin : (ref_form scenario_c_inner).length = 88 := by decide!
  have hm : 12 + (ref_form scenario_c_outer).length ≤ (List.replicate 256 0).length := by
    rw [hlen, List.length_replicate]; omega
  have hnh : no_helptext_at (List.replicate 256 0) (12 + (ref_form scenario_c_outer).length) :=
    ⟨0, by decide!, by decide⟩
  obtain ⟨m', h1, -, h3, h4, h5, -, -, -, h9, -⟩ :=
    nested_form_order (List.replicate 256 0) 12 3 0 48 160 1 (some (ascii "Outer")) []
      [.obj_comment ⟨4, 0, some (ascii "after"), none⟩] scenario_c_inner scenario_c_outer 1
      rfl (by decide!) (by decide!) hm (by decide!) hnh (by decide!)
  rw [hlen] at h1 h9
  rw [hin] at h4 h5
  exact ⟨rfl, rfl, by decide!, hm, by decide!, hnh, by decide!, m', h1, h3, h4, h5,
    h9.trans (by decide!)⟩

end cfr


namespace cfr

/-! ## Padding -/

theorem overlay_getElem_none (i : List Cell) : ∀ (s : List Nat) (k : Nat),
    i[k]? = some none → (overlay i s)[k]? = s[k]? := by
  induction i with
  | nil => intro s k h; simp at h
  | cons c cs ih =>
    intro s k h
    cases s with
    | nil => simp [overlay]
    | cons b bs =>
      cases k with
      | zero =>
        simp only [List.getElem?_cons_zero, Option.some.injEq] at h
        simp [overlay, h]
      | succ k =>
        simp only [List.getElem?_cons_succ] at h
        simp [overlay, ih bs k h]

theorem ref_fields_getElem (vs : List Nat) (k : Nat) : (ref_fields vs)[k]? ≠ some none := by
  induction vs generalizing k with
  | nil => simp [ref_fields]
  | cons v vs ih =>
    simp only [ref_fields]
    by_cases hk : k < ((le32 v).map some).length
    · rw [List.getElem?_append_left hk]
      simp [List.getElem?_map]
    · rw [List.getElem?_append_right (by omega)]
      exact ih _

theorem ref_varchar_getElem_none (tag : Nat) (s : List Nat) (k : Nat) :
    (ref_varchar tag s)[k]? = some none ↔
      12 + ((cstr s).length + 1) ≤ k ∧ k < (ref_varchar tag s).length := by
  have hl := ref_varchar_length_ge tag s
  have hs := ref_varchar_shape tag s
  generalize hN : (ref_varchar tag s).length = N at hs hl ⊢
  rw [hs]
  have h12 : (ref_fields [tag, N, (cstr s).length + 1]).length = 12 := by
    simp [ref_fields_length]
  by_cases h1 : k < 12
  · rw [List.getElem?_append_left (by omega)]
    constructor
    · intro h; exact absurd h (ref_fields_getElem _ k)
    · intro h; omega
  · rw [List.getElem?_append_right (by omega), h12]
    by_cases h2 : k - 12 < ((cstr s ++ [0]).map some).length
    · rw [List.getElem?_append_left h2]
      simp only [List.length_map, List.length_append, List.length_singleton] at h2
      constructor
      · intro h
        rw [List.getElem?_map] at h
        cases hx : (cstr s ++ [0])[k - 12]? <;> rw [hx] at h <;> simp at h
      · intro h; omega
    · rw [List.getElem?_append_right (by omega)]
      simp only [List.length_map, List.length_append, List.length_singleton] at h2 ⊢
      rw [List.getElem?_replicate]
      constructor
      · intro h
        split at h
        · omega
        · cases h
      · intro h
        rw [if_pos (by omega)]

/-- C30 (padding is never written). For every valid tree and every initial content `m` of a
buffer with room for the encoding: the encoder returns a buffer of the same length, whose
bytes from the final size of the Root on are those of `m`, and whose byte at every padding
position of the encoding (a cell `none` of the image `ref_root`) is the byte of `m` there;
so such a byte is 0 where `m` holds 0. The padding positions of a string leaf are the
positions from the end of the terminator to the end of the leaf, and `write_cfr_varchar`
leaves every byte before the leaf and from the end of the terminator on as it found it. The
blob and its checksum depend on `m`: for `padding_tree` a buffer of zero bytes and a buffer
of bytes 255 give blobs that differ in the padding byte, at offset 43, and in the
checksum. -/
theorem padding_never_written (m : Mem) (sm_root : setup_menu_root)
    (hv : valid_form_list sm_root.form_list = true)
    (hm : (ref_root sm_root 0).length ≤ m.length)
    (hlt : (ref_root sm_root 0).length < 2 ^ 32) :
    (∃ (m' : List Nat) (crc : Nat), cfr_write_setup_menu m sm_root = .ok m' ∧
      load32 m' 8 = .ok crc ∧
      m'.length = m.length ∧
      m'.drop (ref_root sm_root 0).length = m.drop (ref_root sm_root 0).length ∧
      (∀ k : Nat, (ref_root sm_root crc)[k]? = some none → m'[k]? = m[k]?) ∧
      (∀ k : Nat, (ref_root sm_root crc)[k]? = some none → m[k]? = some 0 → m'[k]? = some 0)) ∧
    (∀ (tag : Nat) (s : List Nat) (k : Nat), (ref_varchar tag s)[k]? = some none ↔
      12 + ((cstr s).length + 1) ≤ k ∧ k < (ref_varchar tag s).length) ∧
    (∀ (mm : Mem) (c tag : Nat) (s : List Nat), (cstr s).length + 16 < 2 ^ 32 →
      c + (ref_varchar tag s).length ≤ mm.length →
      ∃ (m2 : Mem) (size : Nat), write_cfr_varchar mm c (some s) tag = .ok (m2, size) ∧
        12 + ((cstr s).length + 1) ≤ size ∧ size ≤ 12 + ((cstr s).length + 1) + 3 ∧
        m2.take c = mm.take c ∧
        m2.drop (c + (12 + ((cstr s).length + 1)))
          = mm.drop (c + (12 + ((cstr s).length + 1)))) ∧
    (cfr_write_setup_menu (List.replicate 44 0) padding_tree
        = .ok [0, 1, 0, 0, 44, 0, 0, 0, 120, 185, 47, 232,
               1, 1, 0, 0, 32, 0, 0, 0, 1, 0, 0, 0, 0, 0, 0, 0,
               8, 1, 0, 0, 16, 0, 0, 0, 3, 0, 0, 0, 65, 98, 0, 0] ∧
     cfr_write_setup_menu (List.replicate 44 255) padding_tree
        = .ok [0, 1, 0, 0, 44, 0, 0, 0, 204, 249, 216, 89,
               1, 1, 0, 0, 32, 0, 0, 0, 1, 0, 0, 0, 0, 0, 0, 0,
               8, 1, 0, 0, 16, 0, 0, 0, 3, 0, 0, 0, 65, 98, 0, 255]) := by
  refine ⟨?_, ref_varchar_getElem_none, ?_, by decide!, by decide!⟩
  · generalize hcrc : crc32 ((blit m 0 (ref_root sm_root 0)).take (ref_root sm_root 0).length)
      = crc
    have hc : crc < 2 ^ 32 := by rw [← hcrc]; exact crc32_lt _
    have hl : (ref_root sm_root crc).length = (ref_root sm_root 0).length := by
      rw [ref_root_length, ref_root_length]
    have henc := cfr_write_setup_menu_eq m sm_root hv hm hlt
    rw [hcrc] at henc
    have hfit := fits_blit m 0 (ref_root sm_root crc) (by rw [hl]; omega)
    have h8 : load32 (blit m 0 (ref_root sm_root crc)) 8 = .ok crc := by
      have h := hfit
      generalize blit m 0 (ref_root sm_root crc) = b at h ⊢
      rw [ref_root_shape] at h
      have h2 := load32_field b 0 [LB_TAG_CFR, (ref_root sm_root crc).length] _ _ _ h
      simp only [List.length_cons, List.length_nil, Nat.zero_add] at h2
      rw [Nat.mod_eq_of_lt hc] at h2
      exact h2
    have hkeep : ∀ k : Nat, (ref_root sm_root crc)[k]? = some none →
        (blit m 0 (ref_root sm_root crc))[k]? = m[k]? := by
      intro k hk
      have := overlay_getElem_none (ref_root sm_root crc) m k hk
      simpa [blit] using this
    refine ⟨_, crc, henc, h8, blit_length _ _ _, ?_, hkeep, ?_⟩
    · have := blit_drop m 0 (ref_root sm_root 0).length (ref_root sm_root crc) (Nat.zero_le _)
      rw [Nat.zero_add, List.drop_zero, overlay_drop _ _ _ (by rw [hl])] at this
      exact this
    · intro k hk h0
      rw [hkeep k hk, h0]
  · intro mm c tag s hn hmm
    have hge := ref_varchar_length_ge tag s
    have hlen := ref_varchar_length tag s
    refine ⟨_, _, write_cfr_varchar_eq mm c tag s hn (by omega), hge, ?_, ?_, ?_⟩
    · rw [hlen]; omega
    · exact blit_take_self mm c _ (by omega)
    · rw [blit_drop mm c _ _ (by omega)]
      rw [ref_varchar_shape]
      have e : ref_fields [tag, (ref_varchar tag s).length, (cstr s).length + 1]
          ++ ((cstr s ++ [0]).map some ++ List.replicate
            ((ref_varchar tag s).length - (12 + ((cstr s).length + 1))) none)
          = (ref_fields [tag, (ref_varchar tag s).length, (cstr s).length + 1]
              ++ (cstr s ++ [0]).map some) ++ List.replicate
            ((ref_varchar tag s).length - (12 + ((cstr s).length + 1))) none := by
        rw [List.append_assoc]
      rw [e, overlay_append, overlay_replicate_none]
      have hl2 : (ref_fields [tag, (ref_varchar tag s).length, (cstr s).length + 1]
          ++ (cstr s ++ [0]).map some).length = 12 + ((cstr s).length + 1) := by
        simp [ref_fields_length]
      have hl3 : ((overlay (ref_fields [tag, (ref_varchar tag s).length, (cstr s).length + 1]
          ++ (cstr s ++ [0]).map some) (mm.drop c)).take
            (ref_fields [tag, (ref_varchar tag s).length, (cstr s).length + 1]
              ++ (cstr s ++ [0]).map some).length).length = 12 + ((cstr s).length + 1) := by
        rw [List.length_take, overlay_length, hl2, List.length_drop]
        omega
      rw [List.drop_append_eq_append_drop, hl3, Nat.sub_self, List.drop_zero,
        List.drop_eq_nil_of_le (by rw [hl3]), List.nil_append, hl2, ← drop_add_of_drop]

/-- Witness for C30: `padding_tree` in a buffer of 44 bytes 255; offset 43 is a padding
position. -/
theorem padding_never_written_witness :
    valid_form_list padding_tree.form_list = true ∧
    (ref_root padding_tree 0).length ≤ (List.replicate 44 255).length ∧
    (ref_root padding_tree 0).length < 2 ^ 32 ∧
    (ref_root padding_tree 0)[43]? = some none ∧
    ∃ (m' : List Nat) (crc : Nat),
      cfr_write_setup_menu (List.replicate 44 255) padding_tree = .ok m' ∧
      load32 m' 8 = .ok crc ∧ m'.length = (List.replicate 44 255).length ∧
      m'.drop (ref_root padding_tree 0).length
        = (List.replicate 44 255).drop (ref_root padding_tree 0).length ∧
      (∀ k : Nat, (ref_root padding_tree crc)[k]? = some none →
        m'[k]? = (List.replicate 44 255)[k]?) ∧
      (∀ k : Nat, (ref_root padding_tree crc)[k]? = some none →
        (List.replicate 44 255)[k]? = some 0 → m'[k]? = some 0) :=
  ⟨by decide!, by decide!, by decide!, by decide!,
    (padding_never_written (List.replicate 44 255) padding_tree (by decide!) (by decide!)
      (by decide!)).1⟩

end cfr


namespace cfr

/-! ## Termination of the child loops -/

theorem fault_bind_fault {ω α β : Type} {x : Outcome ω α} {f : α → Outcome ω β} {e : Fault}
    (h : x.fault = some e) : (x >>= f).fault = some e := by
  cases x with
  | ok a o => cases h
  | fail e2 o => exact h

theorem fault_bind_ok {ω α β : Type} {x : Outcome ω α} {a : α} {o : List ω}
    (h : x = .ok a o) (f : α → Outcome ω β) : (x >>= f).fault = (f a).fault := by
  rw [h, outcome_bind_ok, fault_prepend]

end cfr

namespace cfr_to_html

open cfr

theorem html_zero_size_object : ∀ fuel, (sm_read_object fuel zero_size_record_blob 48).fault
      = some .fuel ∨
    sm_read_object fuel zero_size_record_blob 48 = .ok 0 [.row_open, .row_close]
  | 0 => Or.inl (by simp only [sm_read_object]; rfl)
  | 1 => Or.inl (by decide!)
  | fuel + 2 => Or.inr (by
      have h0 : load32 zero_size_record_blob 48 = .ok 0x0999 := by decide!
      have h1 : load32 zero_size_record_blob (48 + 4) = .ok 0 := by decide!
      simp only [sm_read_object, _sm_read_object]
      simp [h0, h1, lift_ok, outcome_bind_ok, emit_eq, outcome_pure, Outcome.prepend])

theorem html_zero_size_loop : ∀ fuel,
    (read_objects fuel zero_size_record_blob 56 48).fault = some .fuel
  | 0 => by simp only [read_objects]; rfl
  | fuel + 1 => by
    simp only [read_objects]
    rw [if_pos (by omega)]
    rcases html_zero_size_object fuel with h | h
    · exact fault_bind_fault h
    · rw [fault_bind_ok h]
      exact html_zero_size_loop fuel

theorem html_zero_size_tab (fuel idx : Nat) :
    (sm_read_form_tab fuel zero_size_record_blob 12 idx).fault = some .fuel := by
  have h0 : load32 zero_size_record_blob 12 = .ok LB_TAG_CFR_OPTION_FORM := by decide!
  have h1 : load32 zero_size_record_blob (12 + 4) = .ok 44 := by decide!
  have h2 : load32 zero_size_record_blob (12 + 8) = .ok 1 := by decide!
  have h3 : load32 zero_size_record_blob (12 + 12) = .ok 0 := by decide!
  have h4 : sm_read_ui_name zero_size_record_blob (12 + 16) = .ok (ascii "Main", 20) [] := by
    decide!
  simp only [sm_read_form_tab]
  simp only [h0, h1, h2, h3, h4, html_tag_ok _ 12 _ h0, lift_ok, outcome_bind_ok, emit_eq,
    fault_prepend]
  exact fault_bind_fault (html_zero_size_loop fuel)

theorem html_zero_size_cfr (fuel : Nat) :
    (sm_read_cfr fuel zero_size_record_blob).fault = some .fuel := by
  have h0 : load32 zero_size_record_blob 0 = .ok LB_TAG_CFR := by decide!
  have h1 : load32 zero_size_record_blob 4 = .ok 56 := by decide!
  have h2 : load32 zero_size_record_blob 8 = .ok 0 := by decide!
  simp only [sm_read_cfr, Nat.zero_add]
  simp only [h0, h1, h2, html_tag_ok _ 0 _ h0, lift_ok, outcome_bind_ok, emit_eq,
    fault_prepend]
  apply fault_bind_fault
  cases fuel with
  | zero => rfl
  | succ f =>
    simp only [read_form_tabs]
    rw [if_pos (by omega)]
    exact fault_bind_fault (html_zero_size_tab f _)

end cfr_to_html

namespace cfr_read

open cfr

theorem dump_zero_size_object : ∀ (fuel : Nat) (depth : Int),
    (sm_read_object fuel zero_size_record_blob 48 depth).fault = some .fuel ∨
    sm_read_object fuel zero_size_record_blob 48 depth
      = .ok (0, depth) [.brace_open, .record 0x0999 0, .brace_close depth]
  | 0, _ => Or.inl (by simp only [sm_read_object]; rfl)
  | 1, _ => Or.inl (by
      simp only [sm_read_object, _sm_read_object, inc_depth, outcome_bind_ok, fault_prepend]
      rfl)
  | fuel + 2, depth => Or.inr (by
      have h0 : load32 zero_size_record_blob 48 = .ok 0x0999 := by decide!
      have h1 : load32 zero_size_record_blob (48 + 4) = .ok 0 := by decide!
      simp only [sm_read_object, _sm_read_object]
      simp [h0, h1, inc_depth, dec_depth, dump_print_record _ 48 _ _ (by decide) h0 h1,
        lift_ok, outcome_bind_ok, emit_eq, outcome_pure, Outcome.prepend])

theorem dump_zero_size_loop : ∀ (fuel : Nat) (depth : Int),
    (read_objects fuel zero_size_record_blob 56 48 depth).fault = some .fuel
  | 0, _ => by simp only [read_objects]; rfl
  | fuel + 1, depth => by
    simp only [read_objects]
    rw [if_pos (by omega)]
    rcases dump_zero_size_object fuel depth with h | h
    · exact fault_bind_fault h
    · rw [fault_bind_ok h]
      exact dump_zero_size_loop fuel depth

theorem dump_zero_size_form (fuel : Nat) (depth : Int) :
    (sm_read_form fuel zero_size_record_blob 12 depth).fault = some .fuel := by
  cases fuel with
  | zero => simp only [sm_read_form]; rfl
  | succ f =>
    have h0 : load32 zero_size_record_blob 12 = .ok LB_TAG_CFR_OPTION_FORM := by decide!
    have h1 : load32 zero_size_record_blob (12 + 4) = .ok 44 := by decide!
    have h2 : load32 zero_size_record_blob (12 + 8) = .ok 1 := by decide!
    have h3 : load32 zero_size_record_blob (12 + 12) = .ok 0 := by decide!
    have h4 : sm_read_ui_name zero_size_record_blob (12 + 16) depth
        = .ok (20, depth) [.prop .ui_name, .brace_open, .record LB_TAG_CFR_VARCHAR_UI_NAME 20,
            .val .data_length 5, .data (ascii "Main"), .brace_close depth] := by
      have a0 : load32 zero_size_record_blob 28 = .ok LB_TAG_CFR_VARCHAR_UI_NAME := by decide!
      have a1 : load32 zero_size_record_blob (28 + 4) = .ok 20 := by decide!
      have a2 : load32 zero_size_record_blob (28 + 8) = .ok 5 := by decide!
      have a3 : load_cstr zero_size_record_blob (28 + 12) = .ok (ascii "Main") := by decide!
      simp only [sm_read_ui_name, read_cfr_varchar]
      rw [dump_tag_neq_eq _ 28 _ _ a0]
      simp [a0, a1, a2, a3, inc_depth, dec_depth, dump_print_record _ 28 _ _ (by decide) a0 a1,
        lift_ok, outcome_bind_ok, emit_eq, outcome_pure, Outcome.prepend]
    simp only [sm_read_form]
    simp only [h0, h1, h2, h3, h4, dump_tag_ok _ 12 _ h0,
      dump_print_record _ 12 _ _ (by decide) h0 h1, lift_ok, outcome_bind_ok, emit_eq,
      fault_prepend]
    exact fault_bind_fault (dump_zero_size_loop f depth)

theorem dump_zero_size_root_loop : ∀ (fuel : Nat),
    (read_objects fuel zero_size_record_blob 56 12 0).fault = some .fuel
  | 0 => by simp only [read_objects]; rfl
  | 1 => by
    simp only [read_objects]
    rw [if_pos (by omega)]
    apply fault_bind_fault
    simp only [sm_read_object]
    rfl
  | 2 => by
    simp only [read_objects]
    rw [if_pos (by omega)]
    apply fault_bind_fault
    simp only [sm_read_object, _sm_read_object, inc_depth, outcome_bind_ok, fault_prepend]
    rfl
  | fuel + 3 => by
    have h0 : load32 zero_size_record_blob 12 = .ok LB_TAG_CFR_OPTION_FORM := by decide!
    simp only [read_objects]
    rw [if_pos (by omega)]
    apply fault_bind_fault
    simp only [sm_read_object, _sm_read_object]
    simp only [inc_depth, outcome_bind_ok, fault_prepend, h0, lift_ok]
    apply fault_bind_fault
    simp only [outcome_prepend_nil]
    have := dump_zero_size_form fuel (0 + 1)
    simpa using this

theorem dump_zero_size_cfr (fuel : Nat) :
    (sm_read_cfr fuel zero_size_record_blob).fault = some .fuel := by
  have h0 : load32 zero_size_record_blob 0 = .ok LB_TAG_CFR := by decide!
  have h1 : load32 zero_size_record_blob 4 = .ok 56 := by decide!
  have h2 : load32 zero_size_record_blob 8 = .ok 0 := by decide!
  simp only [sm_read_cfr, Nat.zero_add]
  simp only [h0, h1, h2, dump_tag_ok _ 0 _ h0, dump_print_record _ 0 _ _ rfl h0 h1, lift_ok,
    outcome_bind_ok, emit_eq, fault_prepend]
  exact fault_bind_fault (dump_zero_size_root_loop fuel)

end cfr_read


namespace cfr

/-! ### The result does not depend on the number of steps allowed -/

/-- Sequencing respects "the same result once the steps suffice". -/
theorem stable_bind {ω α β : Type} {x2 x : Outcome ω α} {f2 f : α → Outcome ω β}
    (hx : x.fault ≠ some .fuel → x2 = x)
    (hf : ∀ a o, x = .ok a o → (f a).fault ≠ some .fuel → f2 a = f a)
    (h : (x >>= f).fault ≠ some .fuel) : (x2 >>= f2) = (x >>= f) := by
  cases x with
  | fail e o =>
    rw [hx h]
    rfl
  | ok a o =>
    rw [hx (by simp [Outcome.fault])]
    rw [outcome_bind_ok, fault_prepend] at h
    rw [outcome_bind_ok, outcome_bind_ok, hf a o rfl h]

theorem stable_ite {ω α : Type} {c : Prop} [Decidable c] {x2 x y2 y : Outcome ω α}
    (hx : c → x.fault ≠ some .fuel → x2 = x) (hy : ¬ c → y.fault ≠ some .fuel → y2 = y)
    (h : (if c then x else y).fault ≠ some .fuel) :
    (if c then x2 else y2) = (if c then x else y) := by
  by_cases hc : c
  · rw [if_pos hc] at h ⊢
    rw [if_pos hc]
    exact hx hc h
  · rw [if_neg hc] at h ⊢
    rw [if_neg hc]
    exact hy hc h

end cfr

namespace cfr_to_html

open cfr

theorem html_read_enum_values_mono (m : Mem) (limit dflt : Nat) : ∀ (fuel cur : Nat),
    (read_enum_values fuel m limit cur dflt).fault ≠ some .fuel →
    read_enum_values (fuel + 1) m limit cur dflt = read_enum_values fuel m limit cur dflt := by
  intro fuel
  induction fuel with
  | zero => intro cur h; exact absurd rfl h
  | succ f ih =>
    intro cur h
    rw [read_enum_values] at h
    conv_lhs => rw [read_enum_values]
    conv_rhs => rw [read_enum_values]
    revert h
    apply stable_ite
    · intro _
      apply stable_bind (fun _ => rfl)
      intro n _ _
      exact ih _
    · intro _ _
      rfl

theorem html_sm_read_opt_enum_mono (fuel : Nat) (m : Mem) (p : Nat)
    (h : (sm_read_opt_enum fuel m p).fault ≠ some .fuel) :
    sm_read_opt_enum (fuel + 1) m p = sm_read_opt_enum fuel m p := by
  simp only [sm_read_opt_enum] at h ⊢
  revert h
  repeat' (first
    | (intro _; with_reducible rfl)
    | exact html_read_enum_values_mono _ _ _ _ _
    | with_reducible apply stable_bind
    | with_reducible apply stable_ite
    | intro _)

theorem html_objects_mono (m : Mem) : ∀ (fuel p : Nat),
    ((sm_read_form fuel m p).fault ≠ some .fuel →
      sm_read_form (fuel + 1) m p = sm_read_form fuel m p) ∧
    (∀ limit, (read_objects fuel m limit p).fault ≠ some .fuel →
      read_objects (fuel + 1) m limit p = read_objects fuel m limit p) ∧
    ((sm_read_object fuel m p).fault ≠ some .fuel →
      sm_read_object (fuel + 1) m p = sm_read_object fuel m p) ∧
    ((_sm_read_object fuel m p).fault ≠ some .fuel →
      _sm_read_object (fuel + 1) m p = _sm_read_object fuel m p) := by
  intro fuel
  induction fuel with
  | zero =>
    intro p
    refine ⟨?_, ?_, ?_, ?_⟩
    · intro h; simp only [sm_read_form] at h; exact absurd rfl h
    · intro limit h; simp only [read_objects] at h; exact absurd rfl h
    · intro h; simp only [sm_read_object] at h; exact absurd rfl h
    · intro h; simp only [_sm_read_object] at h; exact absurd rfl h
  | succ f ih =>
    intro p
    refine ⟨?_, ?_, ?_, ?_⟩
    · intro h
      rw [sm_read_form] at h
      conv_lhs => rw [sm_read_form]
      conv_rhs => rw [sm_read_form]
      revert h
      repeat' (first
        | (intro _; with_reducible rfl)
        | exact (ih _).2.1 _
        | with_reducible apply stable_bind
        | with_reducible apply stable_ite
        | intro _)
    · intro limit h
      rw [read_objects] at h
      conv_lhs => rw [read_objects]
      conv_rhs => rw [read_objects]
      revert h
      repeat' (first
        | (intro _; with_reducible rfl)
        | exact (ih _).2.1 _
        | exact (ih _).2.2.1
        | with_reducible apply stable_bind
        | with_reducible apply stable_ite
        | intro _)
    · intro h
      rw [sm_read_object] at h
      conv_lhs => rw [sm_read_object]
      conv_rhs => rw [sm_read_object]
      revert h
      repeat' (first
        | (intro _; with_reducible rfl)
        | exact (ih _).2.2.2
        | with_reducible apply stable_bind
        | with_reducible apply stable_ite
        | intro _)
    · intro h
      rw [_sm_read_object] at h
      conv_lhs => rw [_sm_read_object]
      conv_rhs => rw [_sm_read_object]
      revert h
      repeat' (first
        | (intro _; with_reducible rfl)
        | exact (ih _).1
        | exact html_sm_read_opt_enum_mono _ _ _
        | with_reducible apply stable_bind
        | with_reducible apply stable_ite
        | intro _)

end cfr_to_html

namespace cfr_to_html

open cfr

theorem html_sm_read_form_tab_mono (fuel : Nat) (m : Mem) (p idx : Nat)
    (h : (sm_read_form_tab fuel m p idx).fault ≠ some .fuel) :
    sm_read_form_tab (fuel + 1) m p idx = sm_read_form_tab fuel m p idx := by
  simp only [sm_read_form_tab] at h ⊢
  revert h
  repeat' (first
    | (intro _; with_reducible rfl)
    | exact (html_objects_mono _ _ _).2.1 _
    | with_reducible apply stable_bind
    | with_reducible apply stable_ite
    | intro _)

theorem html_read_form_tabs_mono (m : Mem) (limit : Nat) : ∀ (fuel cur idx : Nat),
    (read_form_tabs fuel m limit cur idx).fault ≠ some .fuel →
    read_form_tabs (fuel + 1) m limit cur idx = read_form_tabs fuel m limit cur idx := by
  intro fuel
  induction fuel with
  | zero => intro cur idx h; exact absurd rfl h
  | succ f ih =>
    intro cur idx h
    rw [read_form_tabs] at h
    conv_lhs => rw [read_form_tabs]
    conv_rhs => rw [read_form_tabs]
    revert h
    apply stable_ite
    · intro _
      apply stable_bind (html_sm_read_form_tab_mono _ _ _ _)
      intro n _ _
      exact ih _ _
    · intro _ _
      rfl

theorem html_sm_read_cfr_mono (fuel : Nat) (m : Mem)
    (h : (sm_read_cfr fuel m).fault ≠ some .fuel) :
    sm_read_cfr (fuel + 1) m = sm_read_cfr fuel m := by
  simp only [sm_read_cfr] at h ⊢
  revert h
  repeat' (first
    | (intro _; with_reducible rfl)
    | exact html_read_form_tabs_mono _ _ _ _ _
    | with_reducible apply stable_bind
    | with_reducible apply stable_ite
    | intro _)

theorem html_sm_read_object_mono_le (m : Mem) (p : Nat) (fuel : Nat)
    (h : (sm_read_object fuel m p).fault ≠ some .fuel) : ∀ k,
    sm_read_object (fuel + k) m p = sm_read_object fuel m p
  | 0 => rfl
  | k + 1 => by
    have ih := html_sm_read_object_mono_le m p fuel h k
    rw [← Nat.add_assoc, (html_objects_mono m (fuel + k) p).2.2.1 (by rw [ih]; exact h), ih]

theorem html_sm_read_cfr_mono_le (m : Mem) (fuel : Nat)
    (h : (sm_read_cfr fuel m).fault ≠ some .fuel) : ∀ k,
    sm_read_cfr (fuel + k) m = sm_read_cfr fuel m
  | 0 => rfl
  | k + 1 => by
    have ih := html_sm_read_cfr_mono_le m fuel h k
    rw [← Nat.add_assoc, html_sm_read_cfr_mono (fuel + k) m (by rw [ih]; exact h), ih]

/-- A cursor at which the object reader returns 0 is never left. -/
theorem html_read_objects_stuck (m : Mem) (limit p G : Nat) (o : List Html)
    (h0 : sm_read_object G m p = .ok 0 o) (hp : p < limit) : ∀ H, H ≤ G + 1 →
    (read_objects H m limit p).fault = some .fuel
  | 0, _ => by rw [read_objects]; rfl
  | H + 1, hH => by
    rw [read_objects, if_pos hp]
    by_cases hc : (sm_read_object H m p).fault = some .fuel
    · exact fault_bind_fault hc
    · have e : sm_read_object G m p = sm_read_object H m p := by
        have := html_sm_read_object_mono_le m p H hc (G - H)
        rwa [Nat.add_sub_cancel' (by omega)] at this
      rw [fault_bind_ok (e ▸ h0)]
      exact html_read_objects_stuck m limit p G o h0 hp H (by omega)

theorem html_sm_read_object_ok_bound {fuel : Nat} {m : Mem} {p n : Nat} {o : List Html}
    (h : sm_read_object fuel m p = .ok n o) : p + 4 ≤ m.length := by
  cases fuel with
  | zero => rw [sm_read_object] at h; cases h
  | succ f =>
    rw [sm_read_object] at h
    obtain ⟨_, h, -⟩ := emit_bind_eq_ok h
    obtain ⟨r, _, _, h1, -, -⟩ := outcome_bind_eq_ok h
    cases f with
    | zero => rw [_sm_read_object] at h1; cases h1
    | succ f =>
      rw [_sm_read_object] at h1
      obtain ⟨t, _, _, h2, -, -⟩ := outcome_bind_eq_ok h1
      obtain ⟨h2, -⟩ := lift_eq_ok h2
      exact (load32_ok_iff m p).1 ⟨t, h2⟩

end cfr_to_html


namespace cfr_to_html

open cfr

/-! ### A run of `cfr_to_html` that ends needs no more steps than the buffer has bytes -/

theorem html_read_enum_values_bounded (m : Mem) (limit dflt : Nat) : ∀ (G F cur : Nat),
    (read_enum_values G m limit cur dflt).fault ≠ some .fuel →
    (m.length - cur) + 1 ≤ F →
    read_enum_values F m limit cur dflt = read_enum_values G m limit cur dflt := by
  intro G
  induction G with
  | zero => intro F cur h; exact absurd rfl h
  | succ g ih =>
    intro F cur h hB
    obtain ⟨F0, rfl⟩ : ∃ F0, F = F0 + 1 := ⟨F - 1, by omega⟩
    rw [read_enum_values] at h
    conv_lhs => rw [read_enum_values]
    conv_rhs => rw [read_enum_values]
    revert h
    apply stable_ite
    · intro _
      apply stable_bind (fun _ => rfl)
      intro n o hx hnf
      obtain ⟨h1, -, ui, k, o3, -, hk⟩ := html_sm_read_enum_value_exact hx
      have hq := (load32_ok_iff m (cur + 4)).1 ⟨n, h1⟩
      exact ih F0 (cur + n) hnf (by omega)
    · intro _ _
      rfl

theorem html_sm_read_opt_enum_bounded (G F : Nat) (m : Mem) (p : Nat)
    (h : (sm_read_opt_enum G m p).fault ≠ some .fuel) (hB : (m.length - p) + 1 ≤ F) :
    sm_read_opt_enum F m p = sm_read_opt_enum G m p := by
  simp only [sm_read_opt_enum] at h ⊢
  revert h
  repeat' (first
    | (intro _; with_reducible rfl)
    | (intro h; exact html_read_enum_values_bounded m _ _ _ _ _ h (by omega))
    | with_reducible apply stable_bind
    | with_reducible apply stable_ite
    | intro _)

theorem html_objects_bounded (m : Mem) : ∀ (G F p : Nat),
    ((sm_read_form G m p).fault ≠ some .fuel → (m.length - p) + 1 ≤ F →
      sm_read_form F m p = sm_read_form G m p) ∧
    (∀ limit, (read_objects G m limit p).fault ≠ some .fuel → (m.length - p) + 4 ≤ F →
      read_objects F m limit p = read_objects G m limit p) ∧
    ((sm_read_object G m p).fault ≠ some .fuel → (m.length - p) + 3 ≤ F →
      sm_read_object F m p = sm_read_object G m p) ∧
    ((_sm_read_object G m p).fault ≠ some .fuel → (m.length - p) + 2 ≤ F →
      _sm_read_object F m p = _sm_read_object G m p) := by
  intro G
  induction G with
  | zero =>
    intro F p
    refine ⟨?_, ?_, ?_, ?_⟩
    · intro h; simp only [sm_read_form] at h; exact absurd rfl h
    · intro limit h; simp only [read_objects] at h; exact absurd rfl h
    · intro h; simp only [sm_read_object] at h; exact absurd rfl h
    · intro h; simp only [_sm_read_object] at h; exact absurd rfl h
  | succ g ih =>
    intro F p
    refine ⟨?_, ?_, ?_, ?_⟩
    · intro h hB
      obtain ⟨F0, rfl⟩ : ∃ F0, F = F0 + 1 := ⟨F - 1, by omega⟩
      rw [sm_read_form] at h
      conv_lhs => rw [sm_read_form]
      conv_rhs => rw [sm_read_form]
      revert h
      apply stable_bind (fun _ => rfl)
      intro size o hsz
      have hq := (load32_ok_iff m (p + 4)).1 ⟨size, (lift_eq_ok hsz).1⟩
      repeat' (first
        | (intro _; with_reducible rfl)
        | (intro h; exact (ih _ _).2.1 _ h (by omega))
        | with_reducible apply stable_bind
        | with_reducible apply stable_ite
        | intro _)
    · intro limit h hB
      obtain ⟨F0, rfl⟩ : ∃ F0, F = F0 + 1 := ⟨F - 1, by omega⟩
      rw [read_objects] at h
      conv_lhs => rw [read_objects]
      conv_rhs => rw [read_objects]
      revert h
      apply stable_ite
      · intro hp
        apply stable_bind (fun h => (ih _ _).2.2.1 h (by omega))
        intro n o hx hnf
        have hq := html_sm_read_object_ok_bound hx
        have hn : n ≠ 0 := by
          rintro rfl
          exact hnf (html_read_objects_stuck m limit p g o hx hp g (by omega))
        exact (ih _ _).2.1 _ hnf (by omega)
      · intro _ _
        rfl
    · intro h hB
      obtain ⟨F0, rfl⟩ : ∃ F0, F = F0 + 1 := ⟨F - 1, by omega⟩
      rw [sm_read_object] at h
      conv_lhs => rw [sm_read_object]
      conv_rhs => rw [sm_read_object]
      revert h
      repeat' (first
        | (intro _; with_reducible rfl)
        | (intro h; exact (ih _ _).2.2.2 h (by omega))
        | with_reducible apply stable_bind
        | with_reducible apply stable_ite
        | intro _)
    · intro h hB
      obtain ⟨F0, rfl⟩ : ∃ F0, F = F0 + 1 := ⟨F - 1, by omega⟩
      rw [_sm_read_object] at h
      conv_lhs => rw [_sm_read_object]
      conv_rhs => rw [_sm_read_object]
      revert h
      repeat' (first
        | (intro _; with_reducible rfl)
        | (intro h; exact (ih _ _).1 h (by omega))
        | (intro h; exact html_sm_read_opt_enum_bounded _ _ _ _ h (by omega))
        | with_reducible apply stable_bind
        | with_reducible apply stable_ite
        | intro _)

theorem html_sm_read_form_tab_bounded (G F : Nat) (m : Mem) (p idx : Nat)
    (h : (sm_read_form_tab G m p idx).fault ≠ some .fuel) (hB : (m.length - p) + 1 ≤ F) :
    sm_read_form_tab F m p idx = sm_read_form_tab G m p idx := by
  simp only [sm_read_form_tab] at h ⊢
  revert h
  apply stable_bind (fun _ => rfl)
  intro size o hsz
  have hq := (load32_ok_iff m (p + 4)).1 ⟨size, (lift_eq_ok hsz).1⟩
  repeat' (first
    | (intro _; with_reducible rfl)
    | (intro h; exact (html_objects_bounded m _ _ _).2.1 _ h (by omega))
    | with_reducible apply stable_bind
    | with_reducible apply stable_ite
    | intro _)

theorem html_read_form_tabs_bounded (m : Mem) (limit : Nat) : ∀ (G F cur idx : Nat),
    (read_form_tabs G m limit cur idx).fault ≠ some .fuel →
    (m.length - cur) + 2 ≤ F →
    read_form_tabs F m limit cur idx = read_form_tabs G m limit cur idx := by
  intro G
  induction G with
  | zero => intro F cur idx h; exact absurd rfl h
  | succ g ih =>
    intro F cur idx h hB
    obtain ⟨F0, rfl⟩ : ∃ F0, F = F0 + 1 := ⟨F - 1, by omega⟩
    rw [read_form_tabs] at h
    conv_lhs => rw [read_form_tabs]
    conv_rhs => rw [read_form_tabs]
    revert h
    apply stable_ite
    · intro _
      apply stable_bind (fun h => html_sm_read_form_tab_bounded _ _ _ _ _ h (by omega))
      intro n o hx hnf
      obtain ⟨h1, -, ui, k, o1, o2, -, hro⟩ := html_sm_read_form_tab_exact hx
      have hq := (load32_ok_iff m (cur + 4)).1 ⟨n, h1⟩
      have hge := (html_read_objects_ge m _ _ _ _ _ hro).2
      exact ih F0 (cur + n) _ hnf (by omega)
    · intro _ _
      rfl

/-- A run of `cfr_to_html` that ends with some number of steps ends with the same result
within `m.length + 2` steps. -/
theorem html_sm_read_cfr_bounded (G F : Nat) (m : Mem)
    (h : (sm_read_cfr G m).fault ≠ some .fuel) (hB : m.length + 2 ≤ F) :
    sm_read_cfr F m = sm_read_cfr G m := by
  simp only [sm_read_cfr] at h ⊢
  revert h
  repeat' (first
    | (intro _; with_reducible rfl)
    | (intro h; exact html_read_form_tabs_bounded m _ _ _ _ _ h (by omega))
    | with_reducible apply stable_bind
    | with_reducible apply stable_ite
    | intro _)

end cfr_to_html


namespace cfr

theorem stable_bind_pair {ω α β γ : Type} {x2 x : Outcome ω (α × β)}
    {f2 f : α × β → Outcome ω γ}
    (hx : x.fault ≠ some .fuel → x2 = x)
    (hf : ∀ a b o, x = .ok (a, b) o → (f (a, b)).fault ≠ some .fuel → f2 (a, b) = f (a, b))
    (h : (x >>= f).fault ≠ some .fuel) : (x2 >>= f2) = (x >>= f) :=
  stable_bind hx (fun p o => hf p.1 p.2 o) h

end cfr

namespace cfr_read

open cfr

/-! ### The result of `cfr_read` does not depend on the number of steps allowed -/

theorem dump_read_enum_values_mono (m : Mem) (limit : Nat) : ∀ (fuel cur : Nat) (depth : Int),
    (read_enum_values fuel m limit cur depth).fault ≠ some .fuel →
    read_enum_values (fuel + 1) m limit cur depth = read_enum_values fuel m limit cur depth := by
  intro fuel
  induction fuel with
  | zero => intro cur depth h; exact absurd rfl h
  | succ f ih =>
    intro cur depth h
    rw [read_enum_values] at h
    conv_lhs => rw [read_enum_values]
    conv_rhs => rw [read_enum_values]
    revert h
    repeat' (first
      | (intro _; with_reducible rfl)
      | exact ih _ _
      | with_reducible apply stable_bind_pair
      | with_reducible apply stable_bind
      | with_reducible apply stable_ite
      | intro _)

theorem dump_read_numeric_option_mono (fuel : Nat) (m : Mem) (p tag : Nat) (depth : Int)
    (h : (read_numeric_option fuel m p tag depth).fault ≠ some .fuel) :
    read_numeric_option (fuel + 1) m p tag depth = read_numeric_option fuel m p tag depth := by
  simp only [read_numeric_option] at h ⊢
  revert h
  repeat' (first
    | (intro _; with_reducible rfl)
    | exact dump_read_enum_values_mono _ _ _ _ _
    | with_reducible apply stable_bind_pair
    | with_reducible apply stable_bind
    | with_reducible apply stable_ite
    | intro _)

theorem dump_objects_mono (m : Mem) : ∀ (fuel p : Nat) (depth : Int),
    ((sm_read_form fuel m p depth).fault ≠ some .fuel →
      sm_read_form (fuel + 1) m p depth = sm_read_form fuel m p depth) ∧
    (∀ limit, (read_objects fuel m limit p depth).fault ≠ some .fuel →
      read_objects (fuel + 1) m limit p depth = read_objects fuel m limit p depth) ∧
    ((sm_read_object fuel m p depth).fault ≠ some .fuel →
      sm_read_object (fuel + 1) m p depth = sm_read_object fuel m p depth) ∧
    ((_sm_read_object fuel m p depth).fault ≠ some .fuel →
      _sm_read_object (fuel + 1) m p depth = _sm_read_object fuel m p depth) := by
  intro fuel
  induction fuel with
  | zero =>
    intro p depth
    refine ⟨?_, ?_, ?_, ?_⟩
    · intro h; simp only [sm_read_form] at h; exact absurd rfl h
    · intro limit h; simp only [read_objects] at h; exact absurd rfl h
    · intro h; simp only [sm_read_object] at h; exact absurd rfl h
    · intro h; simp only [_sm_read_object] at h; exact absurd rfl h
  | succ f ih =>
    intro p depth
    refine ⟨?_, ?_, ?_, ?_⟩
    · intro h
      rw [sm_read_form] at h
      conv_lhs => rw [sm_read_form]
      conv_rhs => rw [sm_read_form]
      revert h
      repeat' (first
        | (intro _; with_reducible rfl)
        | exact (ih _ _).2.1 _
        | with_reducible apply stable_bind_pair
        | with_reducible apply stable_bind
        | with_reducible apply stable_ite
        | intro _)
    · intro limit h
      rw [read_objects] at h
      conv_lhs => rw [read_objects]
      conv_rhs => rw [read_objects]
      revert h
      repeat' (first
        | (intro _; with_reducible rfl)
        | exact (ih _ _).2.1 _
        | exact (ih _ _).2.2.1
        | with_reducible apply stable_bind_pair
        | with_reducible apply stable_bind
        | with_reducible apply stable_ite
        | intro _)
    · intro h
      rw [sm_read_object] at h
      conv_lhs => rw [sm_read_object]
      conv_rhs => rw [sm_read_object]
      revert h
      repeat' (first
        | (intro _; with_reducible rfl)
        | exact (ih _ _).2.2.2
        | with_reducible apply stable_bind_pair
        | with_reducible apply stable_bind
        | with_reducible apply stable_ite
        | intro _)
    · intro h
      rw [_sm_read_object] at h
      conv_lhs => rw [_sm_read_object]
      conv_rhs => rw [_sm_read_object]
      simp only [sm_read_opt_enum, sm_read_opt_number, sm_read_opt_bool] at h ⊢
      revert h
      repeat' (first
        | (intro _; with_reducible rfl)
        | exact (ih _ _).1
        | exact dump_read_numeric_option_mono _ _ _ _ _
        | with_reducible apply stable_bind_pair
        | with_reducible apply stable_bind
        | with_reducible apply stable_ite
        | intro _)

theorem dump_sm_read_cfr_mono (fuel : Nat) (m : Mem)
    (h : (sm_read_cfr fuel m).fault ≠ some .fuel) :
    sm_read_cfr (fuel + 1) m = sm_read_cfr fuel m := by
  simp only [sm_read_cfr] at h ⊢
  revert h
  repeat' (first
    | (intro _; with_reducible rfl)
    | exact (dump_objects_mono _ _ _ _).2.1 _
    | with_reducible apply stable_bind_pair
    | with_reducible apply stable_bind
    | with_reducible apply stable_ite
    | intro _)

theorem dump_sm_read_object_mono_le (m : Mem) (p : Nat) (depth : Int) (fuel : Nat)
    (h : (sm_read_object fuel m p depth).fault ≠ some .fuel) : ∀ k,
    sm_read_object (fuel + k) m p depth = sm_read_object fuel m p depth
  | 0 => rfl
  | k + 1 => by
    have ih := dump_sm_read_object_mono_le m p depth fuel h k
    rw [← Nat.add_assoc, (dump_objects_mono m (fuel + k) p depth).2.2.1 (by rw [ih]; exact h),
      ih]

theorem dump_sm_read_cfr_mono_le (m : Mem) (fuel : Nat)
    (h : (sm_read_cfr fuel m).fault ≠ some .fuel) : ∀ k,
    sm_read_cfr (fuel + k) m = sm_read_cfr fuel m
  | 0 => rfl
  | k + 1 => by
    have ih := dump_sm_read_cfr_mono_le m fuel h k
    rw [← Nat.add_assoc, dump_sm_read_cfr_mono (fuel + k) m (by rw [ih]; exact h), ih]

end cfr_read


namespace cfr_read

open cfr

/-! ### A run of `cfr_read` that ends needs no more steps than the buffer has bytes -/

theorem dump_sm_read_object_ok_bound {fuel : Nat} {m : Mem} {p n : Nat} {depth d : Int}
    {o : List Out} (h : sm_read_object fuel m p depth = .ok (n, d) o) : p + 4 ≤ m.length := by
  cases fuel with
  | zero => rw [sm_read_object] at h; cases h
  | succ f =>
    rw [sm_read_object] at h
    obtain ⟨d1, _, _, -, h, -⟩ := outcome_bind_eq_ok h
    obtain ⟨⟨r, d2⟩, _, _, h1, -, -⟩ := outcome_bind_eq_ok h
    cases f with
    | zero => rw [_sm_read_object] at h1; cases h1
    | succ f =>
      rw [_sm_read_object] at h1
      obtain ⟨t, _, _, h2, -, -⟩ := outcome_bind_eq_ok h1
      obtain ⟨h2, -⟩ := lift_eq_ok h2
      exact (load32_ok_iff m p).1 ⟨t, h2⟩

/-- Only the skip of an unknown record returns 0, and it leaves the depth as it was. -/
theorem dump_sm_read_object_zero {fuel : Nat} {m : Mem} {p : Nat} {depth d : Int}
    {o : List Out} (h : sm_read_object fuel m p depth = .ok (0, d) o) : d = depth := by
  cases fuel with
  | zero => rw [sm_read_object] at h; cases h
  | succ f =>
    rw [sm_read_object] at h
    obtain ⟨d1, _, _, hinc, h, -⟩ := outcome_bind_eq_ok h
    obtain ⟨⟨r, d2⟩, _, _, h1, h, -⟩ := outcome_bind_eq_ok h
    obtain ⟨d3, _, _, hdec, h, -⟩ := outcome_bind_eq_ok h
    simp only [inc_depth] at hinc
    injection hinc with hinc _
    simp only [dec_depth] at hdec
    injection hdec with hdec _
    rw [outcome_pure] at h
    injection h with h _
    injection h with hr hd
    subst hr
    suffices hd2 : d2 = d1 by omega
    cases f with
    | zero => rw [_sm_read_object] at h1; cases h1
    | succ f =>
      rw [_sm_read_object] at h1
      obtain ⟨t, _, _, -, h1, -⟩ := outcome_bind_eq_ok h1
      split at h1
      · obtain ⟨-, -, k1, _, _, k2, _, _, k3, _, _, -, -, -, he, -⟩ :=
          dump_read_numeric_option_exact h1
        obtain ⟨_, he⟩ := he rfl
        have := (dump_read_enum_values_ge m _ _ _ _ _ _ _ he).2
        omega
      · split at h1
        · obtain ⟨-, -, k1, _, _, k2, _, _, k3, _, _, -, -, -, -, he⟩ :=
            dump_read_numeric_option_exact h1
          have := (he (by decide)).1
          omega
        · split at h1
          · obtain ⟨-, -, k1, _, _, k2, _, _, k3, _, _, -, -, -, -, he⟩ :=
              dump_read_numeric_option_exact h1
            have := (he (by decide)).1
            omega
          · split at h1
            · obtain ⟨-, -, _, _, _, _, _, _, _, _, _, _, _, -, -, -, -, he⟩ :=
                dump_sm_read_opt_varchar_exact h1
              omega
            · split at h1
              · obtain ⟨-, -, _, _, _, _, _, -, -, he⟩ := dump_sm_read_opt_comment_exact h1
                omega
              · split at h1
                · cases f with
                  | zero => rw [sm_read_form] at h1; cases h1
                  | succ f =>
                    obtain ⟨-, -, k, _, _, _, -, he⟩ := dump_sm_read_form_exact h1
                    have := (dump_read_objects_ge m _ _ _ _ _ _ _ he).2
                    omega
                · obtain ⟨_, _, _, -, h1, -⟩ := outcome_bind_eq_ok h1
                  obtain ⟨_, _, _, -, h1, -⟩ := outcome_bind_eq_ok h1
                  rw [outcome_pure] at h1
                  injection h1 with h1 _
                  injection h1 with _ h1
                  exact h1.symm

/-- A cursor at which the object reader returns 0 is never left. -/
theorem dump_read_objects_stuck (m : Mem) (limit p G : Nat) (depth : Int) (o : List Out)
    (h0 : sm_read_object G m p depth = .ok (0, depth) o) (hp : p < limit) : ∀ H, H ≤ G + 1 →
    (read_objects H m limit p depth).fault = some .fuel
  | 0, _ => by rw [read_objects]; rfl
  | H + 1, hH => by
    rw [read_objects, if_pos hp]
    by_cases hc : (sm_read_object H m p depth).fault = some .fuel
    · exact fault_bind_fault hc
    · have e : sm_read_object G m p depth = sm_read_object H m p depth := by
        have := dump_sm_read_object_mono_le m p depth H hc (G - H)
        rwa [Nat.add_sub_cancel' (by omega)] at this
      rw [fault_bind_ok (e ▸ h0)]
      exact dump_read_objects_stuck m limit p G depth o h0 hp H (by omega)

theorem dump_read_enum_values_bounded (m : Mem) (limit : Nat) : ∀ (G F cur : Nat) (depth : Int),
    (read_enum_values G m limit cur depth).fault ≠ some .fuel →
    (m.length - cur) + 1 ≤ F →
    read_enum_values F m limit cur depth = read_enum_values G m limit cur depth := by
  intro G
  induction G with
  | zero => intro F cur depth h; exact absurd rfl h
  | succ g ih =>
    intro F cur depth h hB
    obtain ⟨F0, rfl⟩ : ∃ F0, F = F0 + 1 := ⟨F - 1, by omega⟩
    rw [read_enum_values] at h
    conv_lhs => rw [read_enum_values]
    conv_rhs => rw [read_enum_values]
    revert h
    apply stable_ite
    · intro _
      apply stable_bind (fun _ => rfl)
      intro d1 o1 _
      apply stable_bind_pair (fun _ => rfl)
      intro n d2 o2 hx
      apply stable_bind (fun _ => rfl)
      intro d3 o3 _ hnf
      obtain ⟨h1, k, _, -, hk⟩ := dump_sm_read_enum_value_exact hx
      have hq := (load32_ok_iff m (cur + 4)).1 ⟨n, h1⟩
      exact ih F0 (cur + n) _ hnf (by omega)
    · intro _ _
      rfl

theorem dump_read_numeric_option_bounded (G F : Nat) (m : Mem) (p tag : Nat) (depth : Int)
    (h : (read_numeric_option G m p tag depth).fault ≠ some .fuel)
    (hB : (m.length - p) + 1 ≤ F) :
    read_numeric_option F m p tag depth = read_numeric_option G m p tag depth := by
  simp only [read_numeric_option] at h ⊢
  revert h
  repeat' (first
    | (intro _; with_reducible rfl)
    | (intro h; exact dump_read_enum_values_bounded m _ _ _ _ _ h (by omega))
    | with_reducible apply stable_bind_pair
    | with_reducible apply stable_bind
    | with_reducible apply stable_ite
    | intro _)

theorem dump_objects_bounded (m : Mem) : ∀ (G F p : Nat) (depth : Int),
    ((sm_read_form G m p depth).fault ≠ some .fuel → (m.length - p) + 1 ≤ F →
      sm_read_form F m p depth = sm_read_form G m p depth) ∧
    (∀ limit, (read_objects G m limit p depth).fault ≠ some .fuel → (m.length - p) + 4 ≤ F →
      read_objects F m limit p depth = read_objects G m limit p depth) ∧
    ((sm_read_object G m p depth).fault ≠ some .fuel → (m.length - p) + 3 ≤ F →
      sm_read_object F m p depth = sm_read_object G m p depth) ∧
    ((_sm_read_object G m p depth).fault ≠ some .fuel → (m.length - p) + 2 ≤ F →
      _sm_read_object F m p depth = _sm_read_object G m p depth) := by
  intro G
  induction G with
  | zero =>
    intro F p depth
    refine ⟨?_, ?_, ?_, ?_⟩
    · intro h; simp only [sm_read_form] at h; exact absurd rfl h
    · intro limit h; simp only [read_objects] at h; exact absurd rfl h
    · intro h; simp only [sm_read_object] at h; exact absurd rfl h
    · intro h; simp only [_sm_read_object] at h; exact absurd rfl h
  | succ g ih =>
    intro F p depth
    refine ⟨?_, ?_, ?_, ?_⟩
    · intro h hB
      obtain ⟨F0, rfl⟩ : ∃ F0, F = F0 + 1 := ⟨F - 1, by omega⟩
      rw [sm_read_form] at h
      conv_lhs => rw [sm_read_form]
      conv_rhs => rw [sm_read_form]
      revert h
      apply stable_bind (fun _ => rfl)
      intro size o hsz
      have hq := (load32_ok_iff m (p + 4)).1 ⟨size, (lift_eq_ok hsz).1⟩
      repeat' (first
        | (intro _; with_reducible rfl)
        | (intro h; exact (ih _ _ _).2.1 _ h (by omega))
        | with_reducible apply stable_bind_pair
        | with_reducible apply stable_bind
        | with_reducible apply stable_ite
        | intro _)
    · intro limit h hB
      obtain ⟨F0, rfl⟩ : ∃ F0, F = F0 + 1 := ⟨F - 1, by omega⟩
      rw [read_objects] at h
      conv_lhs => rw [read_objects]
      conv_rhs => rw [read_objects]
      revert h
      apply stable_ite
      · intro hp
        apply stable_bind_pair (fun h => (ih _ _ _).2.2.1 h (by omega))
        intro n d o hx hnf
        have hq := dump_sm_read_object_ok_bound hx
        have hn : n ≠ 0 := by
          rintro rfl
          have hd := dump_sm_read_object_zero hx
          subst hd
          exact hnf (dump_read_objects_stuck m limit p g d o hx hp g (by omega))
        exact (ih _ _ _).2.1 _ hnf (by omega)
      · intro _ _
        rfl
    · intro h hB
      obtain ⟨F0, rfl⟩ : ∃ F0, F = F0 + 1 := ⟨F - 1, by omega⟩
      rw [sm_read_object] at h
      conv_lhs => rw [sm_read_object]
      conv_rhs => rw [sm_read_object]
      revert h
      repeat' (first
        | (intro _; with_reducible rfl)
        | (intro h; exact (ih _ _ _).2.2.2 h (by omega))
        | with_reducible apply stable_bind_pair
        | with_reducible apply stable_bind
        | with_reducible apply stable_ite
        | intro _)
    · intro h hB
      obtain ⟨F0, rfl⟩ : ∃ F0, F = F0 + 1 := ⟨F - 1, by omega⟩
      rw [_sm_read_object] at h
      conv_lhs => rw [_sm_read_object]
      conv_rhs => rw [_sm_read_object]
      simp only [sm_read_opt_enum, sm_read_opt_number, sm_read_opt_bool] at h ⊢
      revert h
      repeat' (first
        | (intro _; with_reducible rfl)
        | (intro h; exact (ih _ _ _).1 h (by omega))
        | (intro h; exact dump_read_numeric_option_bounded _ _ _ _ _ _ h (by omega))
        | with_reducible apply stable_bind_pair
        | with_reducible apply stable_bind
        | with_reducible apply stable_ite
        | intro _)

/-- A run of `cfr_read` that ends with some number of steps ends with the same result
within `m.length + 4` steps. -/
theorem dump_sm_read_cfr_bounded (G F : Nat) (m : Mem)
    (h : (sm_read_cfr G m).fault ≠ some .fuel) (hB : m.length + 4 ≤ F) :
    sm_read_cfr F m = sm_read_cfr G m := by
  simp only [sm_read_cfr] at h ⊢
  revert h
  repeat' (first
    | (intro _; with_reducible rfl)
    | (intro h; exact (dump_objects_bounded m _ _ _ _).2.1 _ h (by omega))
    | with_reducible apply stable_bind_pair
    | with_reducible apply stable_bind
    | with_reducible apply stable_ite
    | intro _)

end cfr_read


namespace cfr

/-- C26 (fails on the code): decoding does not terminate on every buffer. In
`zero_size_record_blob` the Form's children section holds a record with the unknown tag
`0x0999` that declares size 0; both loaders hand the whole file to the decoder, and with any
number of steps both `cfr_read` and `cfr_to_html` are still in the child loop of the Form
(`current += 0`): they neither complete nor abort. The same layout with a nonzero size
(`unknown_record_blob`) is decoded to the end. For every buffer, the number of steps is the
only thing that can be missing: a run that ends with some number of steps gives the same
result with any `m.length + 4` or more, so a run that has not ended by then never ends. -/
theorem zero_size_record_never_ends :
    (load32 zero_size_record_blob 48 = .ok 0x0999 ∧
      load32 zero_size_record_blob 52 = .ok 0 ∧
      cfr_read.read_from_file zero_size_record_blob = .ok zero_size_record_blob ∧
      cfr_to_html.read_from_file zero_size_record_blob = .ok zero_size_record_blob) ∧
    (∀ fuel, (cfr_read.sm_read_cfr fuel zero_size_record_blob).fault = some .fuel) ∧
    (∀ fuel, (cfr_to_html.sm_read_cfr fuel zero_size_record_blob).fault = some .fuel) ∧
    (load32 unknown_record_blob 48 = .ok 0x0999 ∧
      load32 unknown_record_blob 52 = .ok 12 ∧
      (cfr_read.sm_read_cfr 10 unknown_record_blob).fault = none ∧
      (cfr_to_html.sm_read_cfr 10 unknown_record_blob).fault = none) ∧
    (∀ (m : Mem) (G F : Nat), (cfr_read.sm_read_cfr G m).fault ≠ some .fuel →
      m.length + 4 ≤ F → cfr_read.sm_read_cfr F m = cfr_read.sm_read_cfr G m) ∧
    (∀ (m : Mem) (G F : Nat), (cfr_to_html.sm_read_cfr G m).fault ≠ some .fuel →
      m.length + 4 ≤ F → cfr_to_html.sm_read_cfr F m = cfr_to_html.sm_read_cfr G m) ∧
    (∀ (m : Mem) (F : Nat), m.length + 4 ≤ F →
      (cfr_read.sm_read_cfr F m).fault = some .fuel →
      ∀ G, (cfr_read.sm_read_cfr G m).fault = some .fuel) ∧
    (∀ (m : Mem) (F : Nat), m.length + 4 ≤ F →
      (cfr_to_html.sm_read_cfr F m).fault = some .fuel →
      ∀ G, (cfr_to_html.sm_read_cfr G m).fault = some .fuel) := by
  refine ⟨⟨by decide!, by decide!, by decide!, by decide!⟩, cfr_read.dump_zero_size_cfr,
    cfr_to_html.html_zero_size_cfr, ⟨by decide!, by decide!, by decide!, by decide!⟩,
    ?_, ?_, ?_, ?_⟩
  · intro m G F h hB
    exact cfr_read.dump_sm_read_cfr_bounded G F m h hB
  · intro m G F h hB
    exact cfr_to_html.html_sm_read_cfr_bounded G F m h (by omega)
  · intro m F hB hF G
    by_contra hG
    rw [cfr_read.dump_sm_read_cfr_bounded G F m hG hB] at hF
    exact hG hF
  · intro m F hB hF G
    by_contra hG
    rw [cfr_to_html.html_sm_read_cfr_bounded G F m hG (by omega)] at hF
    exact hG hF

end cfr


namespace cfr

/-! ## Algebra of the checksum -/

theorem crc32_step_iterate_xor (n : Nat) : ∀ a b,
    crc32_step^[n] (a ^^^ b) = crc32_step^[n] a ^^^ crc32_step^[n] b := by
  induction n with
  | zero => intro a b; rfl
  | succ n ih =>
    intro a b
    rw [Function.iterate_succ_apply, Function.iterate_succ_apply, Function.iterate_succ_apply,
      crc32_step_xor, ih]

theorem xor_mod_256 (a b : Nat) : (a ^^^ b) % 256 = (a % 256) ^^^ (b % 256) := by
  apply Nat.eq_of_testBit_eq
  intro i
  have e : (256 : Nat) = 2 ^ 8 := by norm_num
  rw [e]
  simp only [Nat.testBit_xor, Nat.testBit_mod_two_pow]
  cases decide (i < 8) <;> simp

theorem crc32_byte_xor (c1 c2 d1 d2 : Nat) :
    crc32_byte (c1 ^^^ c2) (d1 ^^^ d2) = crc32_byte c1 d1 ^^^ crc32_byte c2 d2 := by
  have e : (c1 ^^^ c2) ^^^ (((d1 ^^^ d2) % 256) <<< 24)
      = (c1 ^^^ ((d1 % 256) <<< 24)) ^^^ (c2 ^^^ ((d2 % 256) <<< 24)) := by
    rw [xor_mod_256, shiftLeft_xor]
    apply Nat.eq_of_testBit_eq
    intro i
    simp only [Nat.testBit_xor]
    cases c1.testBit i <;> cases c2.testBit i <;>
      cases ((d1 % 256) <<< 24).testBit i <;> cases ((d2 % 256) <<< 24).testBit i <;> rfl
  unfold crc32_byte
  rw [e]
  exact crc32_step_iterate_xor 8 _ _

theorem crc32_foldl_xor : ∀ (a b : List Nat) (c1 c2 : Nat), a.length = b.length →
    (List.zipWith (· ^^^ ·) a b).foldl crc32_byte (c1 ^^^ c2)
      = a.foldl crc32_byte c1 ^^^ b.foldl crc32_byte c2
  | [], [], _, _, _ => rfl
  | [], _ :: _, _, _, h => by cases h
  | _ :: _, [], _, _, h => by cases h
  | x :: a, y :: b, c1, c2, h => by
    simp only [List.zipWith_cons_cons, List.foldl_cons]
    rw [crc32_byte_xor]
    exact crc32_foldl_xor a b _ _ (by simpa using h)

/-- C33: `crc32` is linear over XOR. For two byte sequences of equal length, the checksum of
their bytewise XOR is the XOR of their checksums. -/
theorem crc32_xor_linear (a b : List Nat) (h : a.length = b.length) :
    crc32 (List.zipWith (· ^^^ ·) a b) = crc32 a ^^^ crc32 b := by
  have := crc32_foldl_xor a b 0 0 h
  simpa [crc32] using this

/-- Witness for C33: the sequences `1, 2, 3` and `255, 0, 128`. -/
theorem crc32_xor_linear_witness :
    [1, 2, 3].length = [255, 0, 128].length ∧
    crc32 (List.zipWith (· ^^^ ·) [1, 2, 3] [255, 0, 128])
      = crc32 [1, 2, 3] ^^^ crc32 [255, 0, 128] :=
  ⟨rfl, crc32_xor_linear [1, 2, 3] [255, 0, 128] rfl⟩

theorem crc32_byte_zero : crc32_byte 0 0 = 0 := by decide

theorem crc32_foldl_zeros (bs : List Nat) : ∀ k,
    (List.replicate k 0 ++ bs).foldl crc32_byte 0 = bs.foldl crc32_byte 0
  | 0 => rfl
  | k + 1 => by
    rw [List.replicate_succ, List.cons_append, List.foldl_cons, crc32_byte_zero]
    exact crc32_foldl_zeros bs k

/-- C34: `crc32` ignores leading zero bytes. The checksum of `k` zero bytes followed by `bs`
is the checksum of `bs`; the checksum of a sequence of zero bytes only is 0, also when it is
written as a list all of whose members are 0, and so is the checksum of no bytes. -/
theorem crc32_leading_zeros :
    (∀ (bs : List Nat) (k : Nat), crc32 (List.replicate k 0 ++ bs) = crc32 bs) ∧
    (∀ k : Nat, crc32 (List.replicate k 0) = 0) ∧
    (∀ zs : List Nat, (∀ x ∈ zs, x = 0) → crc32 zs = 0) ∧
    crc32 [] = 0 ∧
    crc32 [0, 0, 0, 1] = crc32 [1] ∧ crc32 [1] = 0x04C11DB7 ∧ crc32 [1, 0] ≠ crc32 [1] := by
  have h1 : ∀ (bs : List Nat) (k : Nat), crc32 (List.replicate k 0 ++ bs) = crc32 bs :=
    fun bs k => crc32_foldl_zeros bs k
  have h2 : ∀ k : Nat, crc32 (List.replicate k 0) = 0 := by
    intro k
    have := h1 [] k
    rwa [List.append_nil] at this
  refine ⟨h1, h2, ?_, rfl, ?_, by decide, by decide⟩
  · intro zs hz
    rw [List.eq_replicate_of_mem hz]
    exact h2 _
  · exact h1 [1] 3

end cfr


namespace cfr

/-! ## Objects of kind NONE or of an unknown kind -/

theorem sm_write_obj_list_skip (x : sm_object)
    (hx : ∀ m c, sm_write_object m c x = .ok (m, 0)) : ∀ (pre post : List sm_object)
    (m : Mem) (c : Nat),
    sm_write_obj_list m c (pre ++ x :: post) = sm_write_obj_list m c (pre ++ post)
  | [], post, m, c => by
    rw [List.nil_append, List.nil_append]
    conv_lhs => unfold sm_write_obj_list
    rw [hx]
    rfl
  | o :: pre, post, m, c => by
    rw [List.cons_append, List.cons_append]
    conv_lhs => unfold sm_write_obj_list
    conv_rhs => unfold sm_write_obj_list
    cases sm_write_object m c o with
    | error e => rfl
    | ok r =>
      simp only [bind, Except.bind]
      exact sm_write_obj_list_skip x hx pre post _ _

theorem sm_write_form_skip (x : sm_object)
    (hx : ∀ m c, sm_write_object m c x = .ok (m, 0)) (m : Mem) (c oid fl : Nat)
    (ui : Option (List Nat)) (pre post : List sm_object) :
    sm_write_form m c (.mk oid fl ui (pre ++ x :: post))
      = sm_write_form m c (.mk oid fl ui (pre ++ post)) := by
  conv_lhs => unfold sm_write_form
  conv_rhs => unfold sm_write_form
  simp only [sm_write_obj_list_skip x hx]

theorem sm_write_form_list_congr (f g : sm_obj_form)
    (h : ∀ m c, sm_write_form m c f = sm_write_form m c g) : ∀ (pre post : List sm_obj_form)
    (m : Mem) (c : Nat),
    sm_write_form_list m c (pre ++ f :: post) = sm_write_form_list m c (pre ++ g :: post)
  | [], post, m, c => by
    simp only [List.nil_append, sm_write_form_list, h]
  | o :: pre, post, m, c => by
    simp only [List.cons_append, sm_write_form_list]
    cases sm_write_form m c o with
    | error e => rfl
    | ok r =>
      simp only [bind, Except.bind]
      exact sm_write_form_list_congr f g h pre post _ _

/-- C31: objects of kind NONE or of an unknown kind contribute nothing. For such an entry
`sm_write_object` returns 0 and the buffer as it was, whatever the buffer and the cursor;
a Form with the entry anywhere in its object list is encoded as the same Form without it
(same buffer, same size, same failure if the encoder stops), at the top level, as an object
of another Form, and in the whole blob with its checksum. -/
theorem none_and_unknown_objects_write_nothing :
    (∀ (m : Mem) (c : Nat), sm_write_object m c .obj_none = .ok (m, 0)) ∧
    (∀ (m : Mem) (c k : Nat), sm_write_object m c (.unknown k) = .ok (m, 0)) ∧
    (∀ (m : Mem) (c : Nat) (pre post : List sm_object),
      sm_write_obj_list m c (pre ++ .obj_none :: post) = sm_write_obj_list m c (pre ++ post)) ∧
    (∀ (m : Mem) (c k : Nat) (pre post : List sm_object),
      sm_write_obj_list m c (pre ++ .unknown k :: post)
        = sm_write_obj_list m c (pre ++ post)) ∧
    (∀ (m : Mem) (c oid fl : Nat) (ui : Option (List Nat)) (pre post : List sm_object),
      sm_write_form m c (.mk oid fl ui (pre ++ .obj_none :: post))
        = sm_write_form m c (.mk oid fl ui (pre ++ post))) ∧
    (∀ (m : Mem) (c oid fl k : Nat) (ui : Option (List Nat)) (pre post : List sm_object),
      sm_write_form m c (.mk oid fl ui (pre ++ .unknown k :: post))
        = sm_write_form m c (.mk oid fl ui (pre ++ post))) ∧
    (∀ (m : Mem) (c oid fl : Nat) (ui : Option (List Nat)) (pre post : List sm_object),
      sm_write_object m c (.obj_form (.mk oid fl ui (pre ++ .obj_none :: post)))
        = sm_write_object m c (.obj_form (.mk oid fl ui (pre ++ post)))) ∧
    (∀ (m : Mem) (c oid fl k : Nat) (ui : Option (List Nat)) (pre post : List sm_object),
      sm_write_object m c (.obj_form (.mk oid fl ui (pre ++ .unknown k :: post)))
        = sm_write_object m c (.obj_form (.mk oid fl ui (pre ++ post)))) ∧
    (∀ (m : Mem) (oid fl : Nat) (ui : Option (List Nat)) (pre post : List sm_object)
      (before after : List sm_obj_form),
      cfr_write_setup_menu m ⟨before ++ .mk oid fl ui (pre ++ .obj_none :: post) :: after⟩
        = cfr_write_setup_menu m ⟨before ++ .mk oid fl ui (pre ++ post) :: after⟩) ∧
    (∀ (m : Mem) (oid fl k : Nat) (ui : Option (List Nat)) (pre post : List sm_object)
      (before after : List sm_obj_form),
      cfr_write_setup_menu m ⟨before ++ .mk oid fl ui (pre ++ .unknown k :: post) :: after⟩
        = cfr_write_setup_menu m ⟨before ++ .mk oid fl ui (pre ++ post) :: after⟩) := by
  have hn : ∀ (m : Mem) (c : Nat), sm_write_object m c .obj_none = .ok (m, 0) := by
    intro m c; unfold sm_write_object; rfl
  have hu : ∀ (k : Nat) (m : Mem) (c : Nat), sm_write_object m c (.unknown k) = .ok (m, 0) := by
    intro k m c; unfold sm_write_object; rfl
  have hobj : ∀ (m : Mem) (c : Nat) (f g : sm_obj_form),
      sm_write_form m c f = sm_write_form m c g →
      sm_write_object m c (.obj_form f) = sm_write_object m c (.obj_form g) := by
    intro m c f g h
    conv_lhs => unfold sm_write_object
    conv_rhs => unfold sm_write_object
    exact h
  have hroot : ∀ (m : Mem) (f g : sm_obj_form) (before after : List sm_obj_form),
      (∀ m c, sm_write_form m c f = sm_write_form m c g) →
      cfr_write_setup_menu m ⟨before ++ f :: after⟩
        = cfr_write_setup_menu m ⟨before ++ g :: after⟩ := by
    intro m f g before after h
    simp only [cfr_write_setup_menu, sm_write_form_list_congr f g h]
  refine ⟨hn, fun m c k => hu k m c, ?_, ?_, ?_, ?_, ?_, ?_, ?_, ?_⟩
  · intro m c pre post
    exact sm_write_obj_list_skip _ hn pre post m c
  · intro m c k pre post
    exact sm_write_obj_list_skip _ (hu k) pre post m c
  · intro m c oid fl ui pre post
    exact sm_write_form_skip _ hn m c oid fl ui pre post
  · intro m c oid fl k ui pre post
    exact sm_write_form_skip _ (hu k) m c oid fl ui pre post
  · intro m c oid fl ui pre post
    exact hobj m c _ _ (sm_write_form_skip _ hn m c oid fl ui pre post)
  · intro m c oid fl k ui pre post
    exact hobj m c _ _ (sm_write_form_skip _ (hu k) m c oid fl ui pre post)
  · intro m oid fl ui pre post before after
    exact hroot m _ _ before after (fun m c => sm_write_form_skip _ hn m c oid fl ui pre post)
  · intro m oid fl k ui pre post before after
    exact hroot m _ _ before after
      (fun m c => sm_write_form_skip _ (hu k) m c oid fl ui pre post)

end cfr


namespace cfr

/-! ## The string a leaf yields in `cfr_to_html` -/

theorem not_mem_take_iff_le_takeWhile : ∀ (l : List Nat) (k : Nat), 0 ∈ l →
    (0 ∉ l.take k ↔ k ≤ (l.takeWhile (· ≠ 0)).length)
  | [], _, h => by cases h
  | x :: t, 0, _ => by simp
  | x :: t, k + 1, h => by
    by_cases hx : x = 0
    · subst hx
      simp [List.takeWhile_cons]
    · have ht : 0 ∈ t := by
        rcases List.mem_cons.1 h with h | h
        · exact absurd h.symm hx
        · exact h
      have ih := not_mem_take_iff_le_takeWhile t k ht
      have hx2 : ¬ (0 = x) := fun h => hx h.symm
      simp only [List.take_succ_cons, List.mem_cons, not_or, List.takeWhile_cons, ne_eq, hx,
        not_false_eq_true, decide_True, ite_true, List.length_cons, Nat.add_le_add_iff_right]
      rw [← ih]
      exact ⟨fun h => h.2, fun h => ⟨hx2, h⟩⟩

theorem take_takeWhile_of_le (l : List Nat) (k : Nat)
    (h : k ≤ (l.takeWhile (· ≠ 0)).length) : (l.takeWhile (· ≠ 0)).take k = l.take k := by
  conv_rhs => rw [← List.takeWhile_append_dropWhile (· ≠ 0) l]
  rw [List.take_append_of_le_length h]

theorem strlen_of_no_zero (s : List Nat) (h : 0 ∉ s) : strlen s = s.length := by
  unfold strlen
  rw [List.takeWhile_eq_self_iff.2]
  intro x hx
  simp only [ne_eq, decide_eq_true_eq]
  rintro rfl
  exact h hx

theorem strlen_le_length (s : List Nat) : strlen s ≤ s.length := by
  unfold strlen
  exact (List.takeWhile_sublist _).length_le

theorem not_mem_take_iff_getElem (l : List Nat) (k : Nat) :
    0 ∉ l.take k ↔ ∀ i : Nat, i < k → l[i]? ≠ some 0 := by
  constructor
  · intro h i hi he
    apply h
    have : (l.take k)[i]? = some 0 := by rw [List.getElem?_take_of_lt hi, he]
    exact List.getElem?_mem this
  · intro h hm
    obtain ⟨i, hi⟩ := List.getElem?_of_mem hm
    have hik : i < k := by
      by_contra hc
      rw [List.getElem?_take_eq_none (by omega)] at hi
      cases hi
    rw [List.getElem?_take_of_lt hik] at hi
    exact h i hik hi

end cfr

namespace cfr_to_html

open cfr

theorem html_read_cfr_varchar_payload (m : Mem) (p tag n size : Nat)
    (htag : load32 m p = .ok tag) (hn : load32 m (p + 8) = .ok n) (h1 : 1 ≤ n)
    (hs : load32 m (p + 4) = .ok size) (hsz : n < size) (hz : 0 ∈ m.drop (p + 12)) :
    read_cfr_varchar m p tag =
      if 0 ∈ (m.drop (p + 12)).take (n - 1) then .fail .fatal []
      else .ok ((m.drop (p + 12)).take (n - 1), size) [] := by
  have hc : load_cstr m (p + 12) = .ok ((m.drop (p + 12)).takeWhile (· ≠ 0)) := by
    unfold load_cstr
    rw [if_pos hz]
  have ht : _tag_neq m p tag = .ok false [] := by
    rw [html_tag_neq_eq m p tag tag htag]
    simp
  simp only [read_cfr_varchar]
  rw [ht]
  simp only [if_false, outcome_bind_ok, hn, hs, hc, lift_ok, outcome_prepend_nil,
    Bool.false_eq_true]
  have key := not_mem_take_iff_le_takeWhile (m.drop (p + 12)) (n - 1) hz
  by_cases h0 : 0 ∈ (m.drop (p + 12)).take (n - 1)
  · rw [if_pos h0]
    have hlt : ¬ (n - 1 ≤ ((m.drop (p + 12)).takeWhile (· ≠ 0)).length) :=
      fun h => (key.2 h) h0
    have hlen := strlen_le_length (((m.drop (p + 12)).takeWhile (· ≠ 0)).take (n - 1))
    rw [List.length_take] at hlen
    rw [if_neg (by omega)]
    rfl
  · rw [if_neg h0]
    have hle := key.1 h0
    rw [take_takeWhile_of_le _ _ hle, strlen_of_no_zero _ h0, List.length_take]
    have hle2 : n - 1 ≤ (m.drop (p + 12)).length :=
      le_trans hle (List.takeWhile_sublist _).length_le
    rw [if_pos (by omega), if_pos (by omega)]
    rfl

/-- C32: string extraction in `cfr_to_html`. For a string leaf at `p` with the expected tag,
`data_length = n >= 1` and `size > n`, whose payload holds a zero byte somewhere in the
buffer (`snprintf` reads the C string at `data` up to its terminator), `read_cfr_varchar`
returns exactly when none of the first `n - 1` payload bytes is zero; it then yields those
`n - 1` bytes and the size field, and prints nothing. With a zero among them it stops on the
failed assertion. The payload byte at index `n - 1` and everything after it play no part:
any buffer with the same bytes before that index, and a zero byte in its payload, gives the
same result. -/
theorem html_string_extraction (m : Mem) (p tag n size : Nat)
    (htag : load32 m p = .ok tag) (hn : load32 m (p + 8) = .ok n) (h1 : 1 ≤ n)
    (hs : load32 m (p + 4) = .ok size) (hsz : n < size) (hz : 0 ∈ m.drop (p + 12)) :
    (read_cfr_varchar m p tag =
      if 0 ∈ (m.drop (p + 12)).take (n - 1) then .fail .fatal []
      else .ok ((m.drop (p + 12)).take (n - 1), size) []) ∧
    ((∃ out k o, read_cfr_varchar m p tag = .ok (out, k) o) ↔
      ∀ i : Nat, i < n - 1 → m[p + 12 + i]? ≠ some 0) ∧
    (∀ out k o, read_cfr_varchar m p tag = .ok (out, k) o →
      out = (m.drop (p + 12)).take (n - 1) ∧ out.length = n - 1 ∧
      (∀ i : Nat, i < n - 1 → out[i]? = m[p + 12 + i]?) ∧ k = size ∧ o = []) ∧
    ((∃ i : Nat, i < n - 1 ∧ m[p + 12 + i]? = some 0) →
      read_cfr_varchar m p tag = .fail .fatal []) ∧
    (∀ m2 : Mem, m2.take (p + 12 + (n - 1)) = m.take (p + 12 + (n - 1)) →
      0 ∈ m2.drop (p + 12) → read_cfr_varchar m2 p tag = read_cfr_varchar m p tag) := by
  have hP := html_read_cfr_varchar_payload m p tag n size htag hn h1 hs hsz hz
  have hidx : 0 ∉ (m.drop (p + 12)).take (n - 1) ↔
      ∀ i : Nat, i < n - 1 → m[p + 12 + i]? ≠ some 0 := by
    rw [not_mem_take_iff_getElem]
    simp only [List.getElem?_drop]
  have hlen : 0 ∉ (m.drop (p + 12)).take (n - 1) →
      ((m.drop (p + 12)).take (n - 1)).length = n - 1 := by
    intro h0
    have hle := (not_mem_take_iff_le_takeWhile _ _ hz).1 h0
    have hle2 : n - 1 ≤ (m.drop (p + 12)).length :=
      le_trans hle (List.takeWhile_sublist _).length_le
    rw [List.length_take]
    omega
  refine ⟨hP, ?_, ?_, ?_, ?_⟩
  · rw [← hidx, hP]
    by_cases h0 : 0 ∈ (m.drop (p + 12)).take (n - 1)
    · rw [if_pos h0]
      exact ⟨fun ⟨_, _, _, h⟩ => (by cases h), fun h => absurd h0 h⟩
    · rw [if_neg h0]
      exact ⟨fun _ => h0, fun _ => ⟨_, _, _, rfl⟩⟩
  · intro out k o h
    rw [hP] at h
    by_cases h0 : 0 ∈ (m.drop (p + 12)).take (n - 1)
    · rw [if_pos h0] at h; cases h
    · rw [if_neg h0] at h
      injection h with h e3
      injection h with e1 e2
      subst e1
      refine ⟨rfl, hlen h0, ?_, e2.symm, e3.symm⟩
      intro i hi
      rw [List.getElem?_take_of_lt hi, List.getElem?_drop]
  · rintro ⟨i, hi, he⟩
    rw [hP, if_pos]
    by_contra h0
    exact (hidx.1 h0) i hi he
  · intro m2 h2 hz2
    have e : ∀ l : Mem, (l.drop (p + 12)).take (n - 1)
        = (l.take (p + 12 + (n - 1))).drop (p + 12) := by
      intro l
      rw [List.drop_take]
      congr 1
      omega
    have hl : ∀ a, a + 4 ≤ p + 12 → load32 m2 a = load32 m a := by
      intro a ha
      rw [← load32_take m2 a (p + 12 + (n - 1)) (by omega),
        ← load32_take m a (p + 12 + (n - 1)) (by omega), h2]
    rw [html_read_cfr_varchar_payload m2 p tag n size ((hl p (by omega)).trans htag)
      ((hl (p + 8) (by omega)).trans hn) h1 ((hl (p + 4) (by omega)).trans hs) hsz hz2,
      hP, e m2, e m, h2]

/-- Witness for C32: the UI-name leaf of `unterminated_leaf_blob` (data_length 3, payload
`AbX` and a zero byte) is accepted and yields `Ab`; the byte at index 2 is `X`. -/
theorem html_string_extraction_witness :
    unterminated_leaf_blob[28 + 12 + 2]? = some 88 ∧
    read_cfr_varchar unterminated_leaf_blob 28 LB_TAG_CFR_VARCHAR_UI_NAME
      = .ok (ascii "Ab", 16) [] :=
  ⟨by decide!,
    (html_string_extraction unterminated_leaf_blob 28 LB_TAG_CFR_VARCHAR_UI_NAME 3 16
      (by decide!) (by decide!) (by decide) (by decide!) (by decide) (by decide!)).1.trans
      (by decide!)⟩

end cfr_to_html


namespace cfr_read

open cfr

/-! ## Depth of the debug decoder -/

theorem depth_after_append (base : Int) : ∀ (o1 o2 : List Out) (d : Int),
    depth_after base d (o1 ++ o2)
      = (depth_after base d o1).bind (fun d1 => depth_after base d1 o2)
  | [], o2, d => rfl
  | e :: o1, o2, d => by
    cases e with
    | brace_close v =>
      simp only [List.cons_append, depth_after]
      split
      · exact depth_after_append base o1 o2 _
      · rfl
    | _ =>
      simp only [List.cons_append, depth_after]
      exact depth_after_append base o1 o2 _

theorem depth_after_append_some (base : Int) (o1 o2 : List Out) (d d1 d2 : Int)
    (h1 : depth_after base d o1 = some d1) (h2 : depth_after base d1 o2 = some d2) :
    depth_after base d (o1 ++ o2) = some d2 := by
  rw [depth_after_append, h1]
  exact h2

theorem depth_after_count (base : Int) : ∀ (o : List Out) (d d1 : Int),
    depth_after base d o = some d1 →
    d1 = d + (o.count .brace_open : Nat) - (braces_closed o : Nat)
  | [], d, d1, h => by
    simp only [depth_after, Option.some.injEq] at h
    simp [braces_closed, h]
  | e :: o, d, d1, h => by
    cases e with
    | brace_open =>
      simp only [depth_after] at h
      have := depth_after_count base o _ _ h
      simp only [List.count_cons_self, braces_closed]
      push_cast
      omega
    | brace_close v =>
      simp only [depth_after] at h
      split at h
      · rename_i hv
        have := depth_after_count base o _ _ h
        rw [List.count_cons_of_ne (by simp)]
        simp only [braces_closed]
        push_cast
        omega
      · cases h
    | _ =>
      simp only [depth_after] at h
      have := depth_after_count base o _ _ h
      rw [List.count_cons_of_ne (by simp)]
      simp only [braces_closed]
      omega

theorem depth_after_close_ge (base : Int) : ∀ (o : List Out) (d d1 : Int),
    depth_after base d o = some d1 → ∀ v, Out.brace_close v ∈ o → base ≤ v
  | [], _, _, _, v, hv => by cases hv
  | e :: o, d, d1, h, v, hv => by
    cases e with
    | brace_close w =>
      simp only [depth_after] at h
      split at h
      · rename_i hw
        rcases List.mem_cons.1 hv with hv | hv
        · injection hv with hv
          omega
        · exact depth_after_close_ge base o _ _ h v hv
      · cases h
    | _ =>
      simp only [depth_after] at h
      rcases List.mem_cons.1 hv with hv | hv
      · cases hv
      · exact depth_after_close_ge base o _ _ h v hv

/-! ### Rules: what a step does to the depth -/

theorem depth_bind_plain {α β : Type} {x : Outcome Out α} {f : α → Outcome Out β}
    {Φ : β → Prop} {base d d2 : Int}
    (hx : ∀ a o, x = .ok a o → True ∧ depth_after base d o = some d)
    (hf : ∀ a, ∀ b o, f a = .ok b o → Φ b ∧ depth_after base d o = some d2) :
    ∀ b o, (x >>= f) = .ok b o → Φ b ∧ depth_after base d o = some d2 := by
  intro b o h
  obtain ⟨a, o1, o2, h1, h2, rfl⟩ := outcome_bind_eq_ok h
  obtain ⟨hΦ, h3⟩ := hf a b o2 h2
  exact ⟨hΦ, depth_after_append_some base o1 o2 d d d2 (hx a o1 h1).2 h3⟩

theorem depth_bind_pair {α β : Type} {x : Outcome Out (α × Int)}
    {f : α × Int → Outcome Out β} {Φ : β → Prop} {base d d1 d2 : Int}
    (hx : ∀ a o, x = .ok a o → a.2 = d1 ∧ depth_after base d o = some d1)
    (hf : ∀ n, ∀ b o, f (n, d1) = .ok b o → Φ b ∧ depth_after base d1 o = some d2) :
    ∀ b o, (x >>= f) = .ok b o → Φ b ∧ depth_after base d o = some d2 := by
  intro b o h
  obtain ⟨⟨n, d3⟩, o1, o2, h1, h2, rfl⟩ := outcome_bind_eq_ok h
  obtain ⟨e, h4⟩ := hx _ o1 h1
  simp only at e
  subst e
  obtain ⟨hΦ, h3⟩ := hf n b o2 h2
  exact ⟨hΦ, depth_after_append_some base o1 o2 d _ d2 h4 h3⟩

theorem depth_bind_int {β : Type} {x : Outcome Out Int}
    {f : Int → Outcome Out β} {Φ : β → Prop} {base d d1 d2 : Int}
    (hx : ∀ a o, x = .ok a o → a = d1 ∧ depth_after base d o = some d1)
    (hf : ∀ b o, f d1 = .ok b o → Φ b ∧ depth_after base d1 o = some d2) :
    ∀ b o, (x >>= f) = .ok b o → Φ b ∧ depth_after base d o = some d2 := by
  intro b o h
  obtain ⟨d3, o1, o2, h1, h2, rfl⟩ := outcome_bind_eq_ok h
  obtain ⟨e, h4⟩ := hx _ o1 h1
  subst e
  obtain ⟨hΦ, h3⟩ := hf b o2 h2
  exact ⟨hΦ, depth_after_append_some base o1 o2 d _ d2 h4 h3⟩

theorem depth_pure {α : Type} {a : α} {Φ : α → Prop} {base d : Int} (hΦ : Φ a) :
    ∀ b o, (pure a : Outcome Out α) = .ok b o → Φ b ∧ depth_after base d o = some d := by
  intro b o h
  rw [outcome_pure] at h
  injection h with h1 h2
  subst h1
  subst h2
  exact ⟨hΦ, rfl⟩

theorem depth_abort {α : Type} {e : Fault} {Φ : α → Prop} {base d d2 : Int} :
    ∀ b o, (abort e : Outcome Out α) = .ok b o → Φ b ∧ depth_after base d o = some d2 := by
  intro b o h
  cases h

theorem depth_ite {α : Type} {c : Prop} [Decidable c] {x y : Outcome Out α} {Φ : α → Prop}
    {base d d2 : Int}
    (hx : ∀ b o, x = .ok b o → Φ b ∧ depth_after base d o = some d2)
    (hy : ∀ b o, y = .ok b o → Φ b ∧ depth_after base d o = some d2) :
    ∀ b o, (if c then x else y) = .ok b o → Φ b ∧ depth_after base d o = some d2 := by
  intro b o h
  split at h
  · exact hx b o h
  · exact hy b o h

theorem depth_lift {α : Type} {base d : Int} (e : Except Fault α) :
    ∀ a o, (lift e : Outcome Out α) = .ok a o → True ∧ depth_after base d o = some d := by
  intro a o h
  obtain ⟨-, rfl⟩ := lift_eq_ok h
  exact ⟨trivial, rfl⟩

theorem depth_emit {base d : Int} (e : Out) (he : depth_after base d [e] = some d) :
    ∀ a o, emit e = .ok a o → True ∧ depth_after base d o = some d := by
  intro a o h
  rw [emit_eq] at h
  injection h with _ h2
  subst h2
  exact ⟨trivial, he⟩

theorem depth_inc {base : Int} (d : Int) :
    ∀ a o, inc_depth d = .ok a o → a = d + 1 ∧ depth_after base d o = some (d + 1) := by
  intro a o h
  simp only [inc_depth] at h
  injection h with h1 h2
  subst h1
  subst h2
  exact ⟨rfl, rfl⟩

theorem depth_dec {base d : Int} (hb : base ≤ d) :
    ∀ a o, dec_depth (d + 1) = .ok a o → a = d ∧ depth_after base (d + 1) o = some d := by
  intro a o h
  simp only [dec_depth, Int.add_sub_cancel] at h
  injection h with h1 h2
  subst h1
  subst h2
  refine ⟨rfl, ?_⟩
  simp only [depth_after, Int.add_sub_cancel, true_and]
  rw [if_pos hb]

end cfr_read


namespace cfr_read

open cfr

theorem depth_print_record {base d : Int} (m : Mem) (p : Nat) :
    ∀ a o, _print_record m p = .ok a o → True ∧ depth_after base d o = some d := by
  simp only [_print_record]
  repeat' (first
    | with_reducible exact depth_lift _
    | ((with_reducible apply depth_emit); exact rfl)
    | with_reducible exact depth_abort
    | with_reducible apply depth_ite
    | with_reducible apply depth_bind_plain
    | intro _)

theorem depth_tag_ok {base d : Int} (m : Mem) (p tag : Nat) :
    ∀ a o, _tag_ok m p tag = .ok a o → True ∧ depth_after base d o = some d := by
  simp only [_tag_ok]
  repeat' (first
    | with_reducible exact depth_lift _
    | ((with_reducible apply depth_emit); exact rfl)
    | with_reducible exact depth_abort
    | ((with_reducible apply depth_pure); exact trivial)
    | with_reducible apply depth_ite
    | with_reducible apply depth_bind_plain
    | intro _)

theorem depth_tag_neq {base d : Int} (m : Mem) (p tag : Nat) :
    ∀ a o, _tag_neq m p tag = .ok a o → True ∧ depth_after base d o = some d := by
  simp only [_tag_neq]
  repeat' (first
    | with_reducible exact depth_lift _
    | ((with_reducible apply depth_emit); exact rfl)
    | with_reducible exact depth_abort
    | ((with_reducible apply depth_pure); exact trivial)
    | with_reducible apply depth_ite
    | with_reducible apply depth_bind_plain
    | intro _)

theorem depth_read_cfr_varchar {base : Int} (m : Mem) (p tag : Nat) (depth : Int)
    (hb : base ≤ depth) :
    ∀ a o, read_cfr_varchar m p tag depth = .ok a o →
      a.2 = depth ∧ depth_after base depth o = some depth := by
  simp only [read_cfr_varchar]
  repeat' (first
    | with_reducible exact depth_lift _
    | ((with_reducible apply depth_emit); exact rfl)
    | with_reducible exact depth_inc _
    | with_reducible exact depth_dec hb
    | with_reducible exact depth_abort
    | ((with_reducible apply depth_pure); exact rfl)
    | with_reducible exact depth_print_record _ _
    | with_reducible exact depth_tag_neq _ _ _
    | with_reducible apply depth_ite
    | with_reducible apply depth_bind_int
    | with_reducible apply depth_bind_plain
    | intro _)

end cfr_read


namespace cfr_read

open cfr

theorem depth_read_string {base : Int} (m : Mem) (p : Nat) (depth : Int) (hb : base ≤ depth) :
    (∀ a o, sm_read_string_default_value m p depth = .ok a o →
      a.2 = depth ∧ depth_after base depth o = some depth) ∧
    (∀ a o, sm_read_opt_name m p depth = .ok a o →
      a.2 = depth ∧ depth_after base depth o = some depth) ∧
    (∀ a o, sm_read_ui_name m p depth = .ok a o →
      a.2 = depth ∧ depth_after base depth o = some depth) ∧
    (∀ a o, sm_read_ui_helptext m p depth = .ok a o →
      a.2 = depth ∧ depth_after base depth o = some depth) := by
  refine ⟨?_, ?_, ?_, ?_⟩
  · simp only [sm_read_string_default_value]
    exact depth_bind_plain (depth_emit _ rfl) (fun _ => depth_read_cfr_varchar m p _ depth hb)
  · simp only [sm_read_opt_name]
    exact depth_bind_plain (depth_emit _ rfl) (fun _ => depth_read_cfr_varchar m p _ depth hb)
  · simp only [sm_read_ui_name]
    exact depth_bind_plain (depth_emit _ rfl) (fun _ => depth_read_cfr_varchar m p _ depth hb)
  · simp only [sm_read_ui_helptext]
    exact depth_bind_plain (depth_emit _ rfl) (fun _ => depth_read_cfr_varchar m p _ depth hb)

theorem depth_sm_read_enum_value {base : Int} (m : Mem) (p : Nat) (depth : Int)
    (hb : base ≤ depth) :
    ∀ a o, sm_read_enum_value m p depth = .ok a o →
      a.2 = depth ∧ depth_after base depth o = some depth := by
  simp only [sm_read_enum_value]
  repeat' (first
    | with_reducible exact depth_lift _
    | ((with_reducible apply depth_emit); exact rfl)
    | with_reducible exact depth_abort
    | ((with_reducible apply depth_pure); exact rfl)
    | with_reducible exact depth_print_record _ _
    | with_reducible exact (depth_read_string _ _ _ hb).2.2.1
    | with_reducible apply depth_ite
    | with_reducible apply depth_bind_pair
    | with_reducible apply depth_bind_plain
    | intro _)

theorem depth_read_enum_values {base : Int} (m : Mem) (limit : Nat) : ∀ (fuel p : Nat)
    (depth : Int), base ≤ depth →
    ∀ a o, read_enum_values fuel m limit p depth = .ok a o →
      a.2 = depth ∧ depth_after base depth o = some depth := by
  intro fuel
  induction fuel with
  | zero => intro p depth _ a o h; cases h
  | succ f ih =>
    intro p depth hb
    rw [read_enum_values]
    repeat' (first
      | with_reducible exact depth_inc _
      | with_reducible exact depth_dec hb
      | ((with_reducible apply depth_pure); exact rfl)
      | with_reducible exact depth_sm_read_enum_value _ _ _ (by omega)
      | with_reducible exact ih _ _ hb
      | with_reducible apply depth_ite
      | with_reducible apply depth_bind_pair
      | with_reducible apply depth_bind_int
      | intro _)

theorem depth_read_numeric_option {base : Int} (fuel : Nat) (m : Mem) (p tag : Nat)
    (depth : Int) (hb : base ≤ depth) :
    ∀ a o, read_numeric_option fuel m p tag depth = .ok a o →
      a.2 = depth ∧ depth_after base depth o = some depth := by
  simp only [read_numeric_option]
  repeat' (first
    | with_reducible exact depth_lift _
    | ((with_reducible apply depth_emit); exact rfl)
    | with_reducible exact depth_abort
    | ((with_reducible apply depth_pure); exact rfl)
    | with_reducible exact depth_print_record _ _
    | with_reducible exact depth_tag_ok _ _ _
    | with_reducible exact (depth_read_string _ _ _ hb).2.1
    | with_reducible exact (depth_read_string _ _ _ hb).2.2.1
    | with_reducible exact (depth_read_string _ _ _ hb).2.2.2
    | with_reducible exact depth_read_enum_values _ _ _ _ _ hb
    | with_reducible apply depth_ite
    | with_reducible apply depth_bind_pair
    | with_reducible apply depth_bind_plain
    | intro _)

theorem depth_sm_read_opt_varchar {base : Int} (m : Mem) (p : Nat) (depth : Int)
    (hb : base ≤ depth) :
    ∀ a o, sm_read_opt_varchar m p depth = .ok a o →
      a.2 = depth ∧ depth_after base depth o = some depth := by
  simp only [sm_read_opt_varchar]
  repeat' (first
    | with_reducible exact depth_lift _
    | ((with_reducible apply depth_emit); exact rfl)
    | with_reducible exact depth_abort
    | ((with_reducible apply depth_pure); exact rfl)
    | with_reducible exact depth_print_record _ _
    | with_reducible exact depth_tag_ok _ _ _
    | with_reducible exact (depth_read_string _ _ _ hb).1
    | with_reducible exact (depth_read_string _ _ _ hb).2.1
    | with_reducible exact (depth_read_string _ _ _ hb).2.2.1
    | with_reducible exact (depth_read_string _ _ _ hb).2.2.2
    | with_reducible apply depth_ite
    | with_reducible apply depth_bind_pair
    | with_reducible apply depth_bind_plain
    | intro _)

theorem depth_sm_read_opt_comment {base : Int} (m : Mem) (p : Nat) (depth : Int)
    (hb : base ≤ depth) :
    ∀ a o, sm_read_opt_comment m p depth = .ok a o →
      a.2 = depth ∧ depth_after base depth o = some depth := by
  simp only [sm_read_opt_comment]
  repeat' (first
    | with_reducible exact depth_lift _
    | ((with_reducible apply depth_emit); exact rfl)
    | with_reducible exact depth_abort
    | ((with_reducible apply depth_pure); exact rfl)
    | with_reducible exact depth_print_record _ _
    | with_reducible exact depth_tag_ok _ _ _
    | with_reducible exact (depth_read_string _ _ _ hb).2.2.1
    | with_reducible exact (depth_read_string _ _ _ hb).2.2.2
    | with_reducible apply depth_ite
    | with_reducible apply depth_bind_pair
    | with_reducible apply depth_bind_plain
    | intro _)

theorem depth_objects {base : Int} (m : Mem) : ∀ (fuel p : Nat) (depth : Int), base ≤ depth →
    (∀ a o, sm_read_form fuel m p depth = .ok a o →
      a.2 = depth ∧ depth_after base depth o = some depth) ∧
    (∀ limit, ∀ a o, read_objects fuel m limit p depth = .ok a o →
      a.2 = depth ∧ depth_after base depth o = some depth) ∧
    (∀ a o, sm_read_object fuel m p depth = .ok a o →
      a.2 = depth ∧ depth_after base depth o = some depth) ∧
    (∀ a o, _sm_read_object fuel m p depth = .ok a o →
      a.2 = depth ∧ depth_after base depth o = some depth) := by
  intro fuel
  induction fuel with
  | zero =>
    intro p depth _
    refine ⟨?_, ?_, ?_, ?_⟩
    · intro a o h; rw [sm_read_form] at h; cases h
    · intro limit a o h; rw [read_objects] at h; cases h
    · intro a o h; rw [sm_read_object] at h; cases h
    · intro a o h; rw [_sm_read_object] at h; cases h
  | succ f ih =>
    intro p depth hb
    refine ⟨?_, ?_, ?_, ?_⟩
    · rw [sm_read_form]
      repeat' (first
        | with_reducible exact depth_lift _
        | ((with_reducible apply depth_emit); exact rfl)
        | with_reducible exact depth_abort
        | ((with_reducible apply depth_pure); exact rfl)
        | with_reducible exact depth_print_record _ _
        | with_reducible exact depth_tag_ok _ _ _
        | with_reducible exact (depth_read_string _ _ _ hb).2.2.1
        | with_reducible exact (ih _ _ hb).2.1 _
        | with_reducible apply depth_ite
        | with_reducible apply depth_bind_pair
        | with_reducible apply depth_bind_plain
        | intro _)
    · intro limit
      rw [read_objects]
      repeat' (first
        | ((with_reducible apply depth_pure); exact rfl)
        | with_reducible exact (ih _ _ hb).2.2.1
        | with_reducible exact (ih _ _ hb).2.1 _
        | with_reducible apply depth_ite
        | with_reducible apply depth_bind_pair
        | intro _)
    · rw [sm_read_object]
      repeat' (first
        | with_reducible exact depth_inc _
        | with_reducible exact depth_dec hb
        | ((with_reducible apply depth_pure); exact rfl)
        | with_reducible exact (ih _ _ (by omega)).2.2.2
        | with_reducible apply depth_bind_pair
        | with_reducible apply depth_bind_int
        | intro _)
    · rw [_sm_read_object]
      simp only [sm_read_opt_enum, sm_read_opt_number, sm_read_opt_bool]
      repeat' (first
        | with_reducible exact depth_lift _
        | ((with_reducible apply depth_pure); exact rfl)
        | with_reducible exact depth_print_record _ _
        | with_reducible exact depth_read_numeric_option _ _ _ _ _ hb
        | with_reducible exact depth_sm_read_opt_varchar _ _ _ hb
        | with_reducible exact depth_sm_read_opt_comment _ _ _ hb
        | with_reducible exact (ih _ _ hb).1
        | with_reducible apply depth_ite
        | with_reducible apply depth_bind_plain
        | intro _)

theorem depth_sm_read_cfr (fuel : Nat) (m : Mem) :
    ∀ a o, sm_read_cfr fuel m = .ok a o → a = 0 ∧ depth_after 0 0 o = some 0 := by
  simp only [sm_read_cfr]
  repeat' (first
    | with_reducible exact depth_lift _
    | ((with_reducible apply depth_emit); exact rfl)
    | with_reducible exact depth_abort
    | ((with_reducible apply depth_pure); exact rfl)
    | with_reducible exact depth_print_record _ _
    | with_reducible exact depth_tag_ok _ _ _
    | with_reducible exact (depth_objects m _ _ 0 (le_refl 0)).2.1 _
    | with_reducible apply depth_ite
    | with_reducible apply depth_bind_pair
    | with_reducible apply depth_bind_plain
    | intro _)

theorem dump_sm_read_cfr_last {fuel : Nat} {m : Mem} {d : Int} {out : List Out}
    (h : sm_read_cfr fuel m = .ok d out) : ∃ pre, out = pre ++ [.depth d] := by
  simp only [sm_read_cfr, Nat.zero_add] at h
  obtain ⟨size, o1, r1, -, h, e1⟩ := outcome_bind_eq_ok h
  obtain ⟨_, o2, r2, -, h, e2⟩ := outcome_bind_eq_ok h
  obtain ⟨_, o3, r3, -, h, e3⟩ := outcome_bind_eq_ok h
  obtain ⟨crc, o4, r4, -, h, e4⟩ := outcome_bind_eq_ok h
  obtain ⟨r5, h, e5⟩ := emit_bind_eq_ok h
  obtain ⟨r6, h, e6⟩ := emit_bind_eq_ok h
  obtain ⟨⟨cur, d2⟩, o7, r7, -, h, e7⟩ := outcome_bind_eq_ok h
  dsimp only at h
  by_cases hc : cur = size
  · rw [if_pos hc] at h
    obtain ⟨r8, h, e8⟩ := emit_bind_eq_ok h
    obtain ⟨r9, h, e9⟩ := emit_bind_eq_ok h
    obtain ⟨r10, h, e10⟩ := emit_bind_eq_ok h
    rw [outcome_pure] at h
    injection h with hd e11
    rw [e1, e2, e3, e4, e5, e6, e7, e8, e9, e10, ← e11, ← hd]
    exact ⟨o1 ++ (o2 ++ (o3 ++ (o4 ++ (Out.val Label.checksum crc :: Out.prop Label.form_list
      :: (o7 ++ [Out.val Label.length (cur - 0), Out.val Label.size size]))))), by simp⟩
  · rw [if_neg hc] at h
    cases h

end cfr_read


namespace cfr_read

open cfr

/-- C35: balanced nesting depth in `cfr_read`. On every buffer on which `sm_read_cfr`
completes, the depth it returns and prints last as `depth` is 0; replaying the `{` of
`inc_depth` and the `}` of `dec_depth` in the order printed, from depth 0, never goes below 0
and ends at 0, every `}` carrying the depth the count gives; there are as many `{` as `}`.
Every object read that returns, at any depth, returns at the depth it started from and
never goes below it. -/
theorem depth_balanced (fuel : Nat) (m : Mem) (d : Int) (out : List Out)
    (h : sm_read_cfr fuel m = .ok d out) :
    d = 0 ∧ depth_after 0 0 out = some 0 ∧
    out.count .brace_open = braces_closed out ∧
    (∀ v, Out.brace_close v ∈ out → 0 ≤ v) ∧
    (∃ pre, out = pre ++ [.depth 0]) ∧
    (∀ (fuel2 p n : Nat) (depth d2 : Int) (o : List Out),
      sm_read_object fuel2 m p depth = .ok (n, d2) o →
      d2 = depth ∧ depth_after depth depth o = some depth ∧
      o.count .brace_open = braces_closed o) := by
  obtain ⟨hd, hda⟩ := depth_sm_read_cfr fuel m d out h
  have hcount := depth_after_count 0 out 0 0 hda
  refine ⟨hd, hda, by omega, depth_after_close_ge 0 out 0 0 hda, ?_, ?_⟩
  · obtain ⟨pre, hp⟩ := dump_sm_read_cfr_last h
    exact ⟨pre, by rw [hp, hd]⟩
  · intro fuel2 p n depth d2 o ho
    obtain ⟨h1, h2⟩ := (depth_objects m fuel2 p depth (le_refl depth)).2.2.1 _ o ho
    have hc := depth_after_count depth o depth depth h2
    exact ⟨h1, h2, by omega⟩

/-- Witness for C35: the run of `cfr_read` on `unknown_record_blob` (a Form with its UI-name,
a skipped unknown record and a Comment) opens and closes six braces; the depth goes up
to 3. -/
theorem depth_balanced_witness :
    depth_after 0 0
      [.record LB_TAG_CFR 108, .val .checksum 0, .prop .form_list, .brace_open,
        .record LB_TAG_CFR_OPTION_FORM 96, .val .object_id 1, .val .flags 0, .prop .ui_name,
        .brace_open, .record LB_TAG_CFR_VARCHAR_UI_NAME 20, .val .data_length 5,
        .data (ascii "Main"), .brace_close 1, .prop .object_list, .brace_open,
        .record 0x0999 12, .brace_close 1, .brace_open,
        .record LB_TAG_CFR_OPTION_COMMENT 48, .val .object_id 2, .val .flags 0,
        .prop .ui_name, .brace_open, .record LB_TAG_CFR_VARCHAR_UI_NAME 16,
        .val .data_length 2, .data (ascii "c"), .brace_close 2, .prop .ui_helptext,
        .brace_open, .record LB_TAG_CFR_VARCHAR_UI_HELPTEXT 16, .val .data_length 2,
        .data (ascii "h"), .brace_close 2, .brace_close 1, .brace_close 0,
        .val .length 108, .val .size 108, .depth 0] = some 0 :=
  (depth_balanced 10 unknown_record_blob 0 _ (by decide!)).2.1

end cfr_read



namespace cfr_to_html

open cfr

/-! ## A tag mismatch at a required string ends the run of `cfr_to_html` -/

theorem html_mismatch_bind {α β : Type} {x : Outcome Html α} {f : α → Outcome Html β}
    (hx : ∀ e t, Html.stderr_tag e t ∈ x.output → x.fault = some .fatal ∧
      ∃ pre, x.output = pre ++ [.stderr_tag e t, .stderr_required e])
    (hf : ∀ a, ∀ e t, Html.stderr_tag e t ∈ (f a).output → (f a).fault = some .fatal ∧
      ∃ pre, (f a).output = pre ++ [.stderr_tag e t, .stderr_required e]) :
    ∀ e t, Html.stderr_tag e t ∈ (x >>= f).output → (x >>= f).fault = some .fatal ∧
      ∃ pre, (x >>= f).output = pre ++ [.stderr_tag e t, .stderr_required e] := by
  intro e t h
  cases x with
  | fail e2 o => exact hx e t h
  | ok a o =>
    rw [outcome_bind_ok] at h ⊢
    have hno : Html.stderr_tag e t ∉ o := by
      intro hm
      have := (hx e t hm).1
      cases this
    rw [fault_prepend]
    cases hfa : f a with
    | ok b o2 =>
      rw [hfa] at h
      simp only [Outcome.prepend, Outcome.output, List.mem_append] at h
      rcases h with h | h
      · exact absurd h hno
      · have := (hf a e t (by rw [hfa]; exact h)).1
        rw [hfa] at this
        cases this
    | fail e2 o2 =>
      rw [hfa] at h
      simp only [Outcome.prepend, Outcome.output, List.mem_append] at h
      rcases h with h | h
      · exact absurd h hno
      · obtain ⟨h1, pre, h2⟩ := hf a e t (by rw [hfa]; exact h)
        rw [hfa] at h1 h2
        simp only [Outcome.output] at h2
        refine ⟨h1, o ++ pre, ?_⟩
        simp only [Outcome.prepend, Outcome.output, h2, List.append_assoc]

theorem html_mismatch_of_quiet {α : Type} {x : Outcome Html α}
    (h : ∀ e t, Html.stderr_tag e t ∉ x.output) :
    ∀ e t, Html.stderr_tag e t ∈ x.output → x.fault = some .fatal ∧
      ∃ pre, x.output = pre ++ [.stderr_tag e t, .stderr_required e] :=
  fun e t hm => absurd hm (h e t)

theorem html_mismatch_lift {α : Type} (x : Except Fault α) :
    ∀ e t, Html.stderr_tag e t ∈ (lift x : Outcome Html α).output →
      (lift x : Outcome Html α).fault = some .fatal ∧
      ∃ pre, (lift x : Outcome Html α).output = pre ++ [.stderr_tag e t, .stderr_required e] := by
  apply html_mismatch_of_quiet
  intro e t
  cases x <;> simp [lift, Outcome.output]

theorem html_mismatch_pure {α : Type} (a : α) :
    ∀ e t, Html.stderr_tag e t ∈ (pure a : Outcome Html α).output →
      (pure a : Outcome Html α).fault = some .fatal ∧
      ∃ pre, (pure a : Outcome Html α).output = pre ++ [.stderr_tag e t, .stderr_required e] := by
  apply html_mismatch_of_quiet
  intro e t
  simp [outcome_pure, Outcome.output]

theorem html_mismatch_abort {α : Type} (f : Fault) :
    ∀ e t, Html.stderr_tag e t ∈ (abort f : Outcome Html α).output →
      (abort f : Outcome Html α).fault = some .fatal ∧
      ∃ pre, (abort f : Outcome Html α).output = pre ++ [.stderr_tag e t, .stderr_required e] := by
  apply html_mismatch_of_quiet
  intro e t
  simp [abort_eq, Outcome.output]

theorem html_mismatch_emit (i : Html) (hi : ∀ e t, i ≠ .stderr_tag e t) :
    ∀ e t, Html.stderr_tag e t ∈ (emit i).output →
      (emit i).fault = some .fatal ∧
      ∃ pre, (emit i).output = pre ++ [.stderr_tag e t, .stderr_required e] := by
  apply html_mismatch_of_quiet
  intro e t h
  simp only [emit_eq, Outcome.output, List.mem_singleton] at h
  exact hi e t h.symm

theorem html_mismatch_ite {α : Type} {c : Prop} [Decidable c] {x y : Outcome Html α}
    (hx : ∀ e t, Html.stderr_tag e t ∈ x.output → x.fault = some .fatal ∧
      ∃ pre, x.output = pre ++ [.stderr_tag e t, .stderr_required e])
    (hy : ∀ e t, Html.stderr_tag e t ∈ y.output → y.fault = some .fatal ∧
      ∃ pre, y.output = pre ++ [.stderr_tag e t, .stderr_required e]) :
    ∀ e t, Html.stderr_tag e t ∈ (if c then x else y).output →
      (if c then x else y).fault = some .fatal ∧
      ∃ pre, (if c then x else y).output = pre ++ [.stderr_tag e t, .stderr_required e] := by
  split
  · exact hx
  · exact hy

theorem quiet_bind {ω α β : Type} {x : Outcome ω α} {f : α → Outcome ω β}
    (hx : x.output = []) (hf : ∀ a, (f a).output = []) : (x >>= f).output = [] := by
  cases x with
  | fail e o => exact hx
  | ok a o =>
    simp only [Outcome.output] at hx
    subst hx
    rw [outcome_bind_ok, outcome_prepend_nil]
    exact hf a

theorem quiet_lift {ω α : Type} (x : Except Fault α) : (lift x : Outcome ω α).output = [] := by
  cases x <;> rfl

theorem quiet_ite {ω α : Type} {c : Prop} [Decidable c] {x y : Outcome ω α}
    (hx : x.output = []) (hy : y.output = []) : (if c then x else y).output = [] := by
  split
  · exact hx
  · exact hy

/-- The string reader either prints no mismatch message or stops right after it. -/
theorem html_mismatch_read_cfr_varchar (m : Mem) (p tag : Nat) :
    ∀ e t, Html.stderr_tag e t ∈ (read_cfr_varchar m p tag).output →
      (read_cfr_varchar m p tag).fault = some .fatal ∧
      ∃ pre, (read_cfr_varchar m p tag).output
        = pre ++ [.stderr_tag e t, .stderr_required e] := by
  intro e t h
  cases hl : load32 m p with
  | error f =>
    simp only [read_cfr_varchar, _tag_neq, hl, lift_error, outcome_bind_fail,
      Outcome.output] at h
    cases h
  | ok rt =>
    by_cases hc : rt ≠ tag ∧ tag ≠ LB_TAG_CFR_VARCHAR_UI_HELPTEXT
    · have hr : read_cfr_varchar m p tag
          = .fail .fatal [.stderr_tag tag rt, .stderr_required tag] := by
        simp only [read_cfr_varchar]
        rw [html_tag_neq_eq m p tag rt hl]
        simp [hc.1, hc.2, outcome_bind_ok, emit_eq, abort_eq, outcome_bind_fail,
          Outcome.prepend]
      rw [hr] at h ⊢
      simp only [Outcome.output, List.mem_cons, Html.stderr_tag.injEq, List.mem_singleton,
        List.not_mem_nil, or_false] at h
      rcases h with h | h
      · obtain ⟨h1, h2⟩ := h
        subst h1
        subst h2
        exact ⟨rfl, [], rfl⟩
      · cases h
    · exfalso
      have hq : (read_cfr_varchar m p tag).output = [] := by
        simp only [read_cfr_varchar]
        rw [html_tag_neq_eq m p tag rt hl, if_neg hc, outcome_bind_ok, outcome_prepend_nil]
        by_cases hne : rt = tag
        · rw [if_neg (by simp [hne])]
          repeat' (first
            | exact quiet_lift _
            | exact rfl
            | with_reducible apply quiet_ite
            | with_reducible apply quiet_bind
            | intro _)
        · have ht : tag = LB_TAG_CFR_VARCHAR_UI_HELPTEXT := by
            by_contra hn
            exact hc ⟨hne, hn⟩
          rw [if_pos (by simp [hne]), if_pos ht]
          rfl
      rw [hq] at h
      cases h

end cfr_to_html


namespace cfr_to_html

open cfr

theorem html_mismatch_tag_ok (m : Mem) (p tag : Nat) :
    ∀ e t, Html.stderr_tag e t ∈ (_tag_ok m p tag).output →
      (_tag_ok m p tag).fault = some .fatal ∧
      ∃ pre, (_tag_ok m p tag).output = pre ++ [.stderr_tag e t, .stderr_required e] := by
  simp only [_tag_ok]
  repeat' (first
    | with_reducible exact html_mismatch_lift _
    | with_reducible exact html_mismatch_pure _
    | with_reducible exact html_mismatch_abort _
    | ((with_reducible apply html_mismatch_emit); (intro e t h; cases h))
    | with_reducible apply html_mismatch_ite
    | with_reducible apply html_mismatch_bind
    | intro _)

theorem html_mismatch_sm_read_enum_value (m : Mem) (p dflt : Nat) :
    ∀ e t, Html.stderr_tag e t ∈ (sm_read_enum_value m p dflt).output →
      (sm_read_enum_value m p dflt).fault = some .fatal ∧
      ∃ pre, (sm_read_enum_value m p dflt).output
        = pre ++ [.stderr_tag e t, .stderr_required e] := by
  simp only [sm_read_enum_value, sm_read_ui_name]
  repeat' (first
    | with_reducible exact html_mismatch_lift _
    | with_reducible exact html_mismatch_pure _
    | with_reducible exact html_mismatch_abort _
    | ((with_reducible apply html_mismatch_emit); (intro e t h; cases h))
    | with_reducible exact html_mismatch_read_cfr_varchar _ _ _
    | with_reducible exact html_mismatch_tag_ok _ _ _
    | with_reducible apply html_mismatch_ite
    | with_reducible apply html_mismatch_bind
    | intro _)

theorem html_mismatch_read_enum_values (m : Mem) (limit dflt : Nat) : ∀ (fuel p : Nat),
    ∀ e t, Html.stderr_tag e t ∈ (read_enum_values fuel m limit p dflt).output →
      (read_enum_values fuel m limit p dflt).fault = some .fatal ∧
      ∃ pre, (read_enum_values fuel m limit p dflt).output
        = pre ++ [.stderr_tag e t, .stderr_required e] := by
  intro fuel
  induction fuel with
  | zero => intro p e t h; cases h
  | succ f ih =>
    intro p
    rw [read_enum_values]
    repeat' (first
      | with_reducible exact html_mismatch_pure _
      | with_reducible exact html_mismatch_sm_read_enum_value _ _ _
      | with_reducible exact ih _
      | with_reducible apply html_mismatch_ite
      | with_reducible apply html_mismatch_bind
      | intro _)

theorem html_mismatch_options (m : Mem) (p : Nat) :
    (∀ fuel, ∀ e t, Html.stderr_tag e t ∈ (sm_read_opt_enum fuel m p).output →
      (sm_read_opt_enum fuel m p).fault = some .fatal ∧
      ∃ pre, (sm_read_opt_enum fuel m p).output
        = pre ++ [.stderr_tag e t, .stderr_required e]) ∧
    (∀ e t, Html.stderr_tag e t ∈ (sm_read_opt_number m p).output →
      (sm_read_opt_number m p).fault = some .fatal ∧
      ∃ pre, (sm_read_opt_number m p).output
        = pre ++ [.stderr_tag e t, .stderr_required e]) ∧
    (∀ e t, Html.stderr_tag e t ∈ (sm_read_opt_bool m p).output →
      (sm_read_opt_bool m p).fault = some .fatal ∧
      ∃ pre, (sm_read_opt_bool m p).output
        = pre ++ [.stderr_tag e t, .stderr_required e]) ∧
    (∀ e t, Html.stderr_tag e t ∈ (sm_read_opt_varchar m p).output →
      (sm_read_opt_varchar m p).fault = some .fatal ∧
      ∃ pre, (sm_read_opt_varchar m p).output
        = pre ++ [.stderr_tag e t, .stderr_required e]) ∧
    (∀ e t, Html.stderr_tag e t ∈ (sm_read_opt_comment m p).output →
      (sm_read_opt_comment m p).fault = some .fatal ∧
      ∃ pre, (sm_read_opt_comment m p).output
        = pre ++ [.stderr_tag e t, .stderr_required e]) := by
  refine ⟨?_, ?_, ?_, ?_, ?_⟩
  · intro fuel
    simp only [sm_read_opt_enum, sm_read_ui_name, sm_read_opt_name, sm_read_ui_helptext]
    repeat' (first
      | with_reducible exact html_mismatch_lift _
      | with_reducible exact html_mismatch_pure _
      | with_reducible exact html_mismatch_abort _
      | ((with_reducible apply html_mismatch_emit); (intro e t h; cases h))
      | with_reducible exact html_mismatch_read_cfr_varchar _ _ _
      | with_reducible exact html_mismatch_tag_ok _ _ _
      | with_reducible exact html_mismatch_read_enum_values _ _ _ _ _
      | with_reducible apply html_mismatch_ite
      | with_reducible apply html_mismatch_bind
      | intro _)
  · simp only [sm_read_opt_number, sm_read_ui_name, sm_read_opt_name, sm_read_ui_helptext]
    repeat' (first
      | with_reducible exact html_mismatch_lift _
      | with_reducible exact html_mismatch_pure _
      | with_reducible exact html_mismatch_abort _
      | ((with_reducible apply html_mismatch_emit); (intro e t h; cases h))
      | with_reducible exact html_mismatch_read_cfr_varchar _ _ _
      | with_reducible exact html_mismatch_tag_ok _ _ _
      | with_reducible apply html_mismatch_ite
      | with_reducible apply html_mismatch_bind
      | intro _)
  · simp only [sm_read_opt_bool, sm_read_ui_name, sm_read_opt_name, sm_read_ui_helptext]
    repeat' (first
      | with_reducible exact html_mismatch_lift _
      | with_reducible exact html_mismatch_pure _
      | with_reducible exact html_mismatch_abort _
      | ((with_reducible apply html_mismatch_emit); (intro e t h; cases h))
      | with_reducible exact html_mismatch_read_cfr_varchar _ _ _
      | with_reducible exact html_mismatch_tag_ok _ _ _
      | with_reducible apply html_mismatch_ite
      | with_reducible apply html_mismatch_bind
      | intro _)
  · simp only [sm_read_opt_varchar, sm_read_ui_name, sm_read_opt_name, sm_read_ui_helptext,
      sm_read_string_default_value]
    repeat' (first
      | with_reducible exact html_mismatch_lift _
      | with_reducible exact html_mismatch_pure _
      | with_reducible exact html_mismatch_abort _
      | ((with_reducible apply html_mismatch_emit); (intro e t h; cases h))
      | with_reducible exact html_mismatch_read_cfr_varchar _ _ _
      | with_reducible exact html_mismatch_tag_ok _ _ _
      | with_reducible apply html_mismatch_ite
      | with_reducible apply html_mismatch_bind
      | intro _)
  · simp only [sm_read_opt_comment, sm_read_ui_name, sm_read_ui_helptext]
    repeat' (first
      | with_reducible exact html_mismatch_lift _
      | with_reducible exact html_mismatch_pure _
      | with_reducible exact html_mismatch_abort _
      | ((with_reducible apply html_mismatch_emit); (intro e t h; cases h))
      | with_reducible exact html_mismatch_read_cfr_varchar _ _ _
      | with_reducible exact html_mismatch_tag_ok _ _ _
      | with_reducible apply html_mismatch_ite
      | with_reducible apply html_mismatch_bind
      | intro _)

theorem html_mismatch_objects (m : Mem) : ∀ (fuel p : Nat),
    (∀ e t, Html.stderr_tag e t ∈ (sm_read_form fuel m p).output →
      (sm_read_form fuel m p).fault = some .fatal ∧
      ∃ pre, (sm_read_form fuel m p).output
        = pre ++ [.stderr_tag e t, .stderr_required e]) ∧
    (∀ limit, ∀ e t, Html.stderr_tag e t ∈ (read_objects fuel m limit p).output →
      (read_objects fuel m limit p).fault = some .fatal ∧
      ∃ pre, (read_objects fuel m limit p).output
        = pre ++ [.stderr_tag e t, .stderr_required e]) ∧
    (∀ e t, Html.stderr_tag e t ∈ (sm_read_object fuel m p).output →
      (sm_read_object fuel m p).fault = some .fatal ∧
      ∃ pre, (sm_read_object fuel m p).output
        = pre ++ [.stderr_tag e t, .stderr_required e]) ∧
    (∀ e t, Html.stderr_tag e t ∈ (_sm_read_object fuel m p).output →
      (_sm_read_object fuel m p).fault = some .fatal ∧
      ∃ pre, (_sm_read_object fuel m p).output
        = pre ++ [.stderr_tag e t, .stderr_required e]) := by
  intro fuel
  induction fuel with
  | zero =>
    intro p
    refine ⟨?_, ?_, ?_, ?_⟩
    · rw [sm_read_form]; exact html_mismatch_abort _
    · intro limit; rw [read_objects]; exact html_mismatch_abort _
    · rw [sm_read_object]; exact html_mismatch_abort _
    · rw [_sm_read_object]; exact html_mismatch_abort _
  | succ f ih =>
    intro p
    refine ⟨?_, ?_, ?_, ?_⟩
    · rw [sm_read_form]
      simp only [sm_read_ui_name]
      repeat' (first
        | with_reducible exact html_mismatch_lift _
        | with_reducible exact html_mismatch_pure _
        | with_reducible exact html_mismatch_abort _
        | ((with_reducible apply html_mismatch_emit); (intro e t h; cases h))
        | with_reducible exact html_mismatch_read_cfr_varchar _ _ _
        | with_reducible exact html_mismatch_tag_ok _ _ _
        | with_reducible exact (ih _).2.1 _
        | with_reducible apply html_mismatch_ite
        | with_reducible apply html_mismatch_bind
        | intro _)
    · intro limit
      rw [read_objects]
      repeat' (first
        | with_reducible exact html_mismatch_pure _
        | with_reducible exact (ih _).2.2.1
        | with_reducible exact (ih _).2.1 _
        | with_reducible apply html_mismatch_ite
        | with_reducible apply html_mismatch_bind
        | intro _)
    · rw [sm_read_object]
      repeat' (first
        | with_reducible exact html_mismatch_pure _
        | ((with_reducible apply html_mismatch_emit); (intro e t h; cases h))
        | with_reducible exact (ih _).2.2.2
        | with_reducible apply html_mismatch_bind
        | intro _)
    · rw [_sm_read_object]
      repeat' (first
        | with_reducible exact html_mismatch_lift _
        | with_reducible exact (html_mismatch_options m _).1 _
        | with_reducible exact (html_mismatch_options m _).2.1
        | with_reducible exact (html_mismatch_options m _).2.2.1
        | with_reducible exact (html_mismatch_options m _).2.2.2.1
        | with_reducible exact (html_mismatch_options m _).2.2.2.2
        | with_reducible exact (ih _).1
        | with_reducible apply html_mismatch_ite
        | with_reducible apply html_mismatch_bind
        | intro _)

theorem html_mismatch_sm_read_form_tab (fuel : Nat) (m : Mem) (p idx : Nat) :
    ∀ e t, Html.stderr_tag e t ∈ (sm_read_form_tab fuel m p idx).output →
      (sm_read_form_tab fuel m p idx).fault = some .fatal ∧
      ∃ pre, (sm_read_form_tab fuel m p idx).output
        = pre ++ [.stderr_tag e t, .stderr_required e] := by
  simp only [sm_read_form_tab, sm_read_ui_name]
  repeat' (first
    | with_reducible exact html_mismatch_lift _
    | with_reducible exact html_mismatch_pure _
    | with_reducible exact html_mismatch_abort _
    | ((with_reducible apply html_mismatch_emit); (intro e t h; cases h))
    | with_reducible exact html_mismatch_read_cfr_varchar _ _ _
    | with_reducible exact html_mismatch_tag_ok _ _ _
    | with_reducible exact (html_mismatch_objects m _ _).2.1 _
    | with_reducible apply html_mismatch_ite
    | with_reducible apply html_mismatch_bind
    | intro _)

theorem html_mismatch_read_form_tabs (m : Mem) (limit : Nat) : ∀ (fuel p idx : Nat),
    ∀ e t, Html.stderr_tag e t ∈ (read_form_tabs fuel m limit p idx).output →
      (read_form_tabs fuel m limit p idx).fault = some .fatal ∧
      ∃ pre, (read_form_tabs fuel m limit p idx).output
        = pre ++ [.stderr_tag e t, .stderr_required e] := by
  intro fuel
  induction fuel with
  | zero => intro p idx e t h; cases h
  | succ f ih =>
    intro p idx
    rw [read_form_tabs]
    repeat' (first
      | with_reducible exact html_mismatch_pure _
      | with_reducible exact html_mismatch_sm_read_form_tab _ _ _ _
      | with_reducible exact ih _ _
      | with_reducible apply html_mismatch_ite
      | with_reducible apply html_mismatch_bind
      | intro _)

theorem html_mismatch_sm_read_cfr (fuel : Nat) (m : Mem) :
    ∀ e t, Html.stderr_tag e t ∈ (sm_read_cfr fuel m).output →
      (sm_read_cfr fuel m).fault = some .fatal ∧
      ∃ pre, (sm_read_cfr fuel m).output = pre ++ [.stderr_tag e t, .stderr_required e] := by
  simp only [sm_read_cfr]
  repeat' (first
    | with_reducible exact html_mismatch_lift _
    | with_reducible exact html_mismatch_pure _
    | with_reducible exact html_mismatch_abort _
    | ((with_reducible apply html_mismatch_emit); (intro e t h; cases h))
    | with_reducible exact html_mismatch_tag_ok _ _ _
    | with_reducible exact html_mismatch_read_form_tabs _ _ _ _ _
    | with_reducible apply html_mismatch_ite
    | with_reducible apply html_mismatch_bind
    | intro _)

end cfr_to_html



namespace cfr_read

open cfr

/-! ## A tag mismatch at a required string ends the run of `cfr_read` -/

theorem dump_mismatch_bind {α β : Type} {x : Outcome Out α} {f : α → Outcome Out β}
    (hx : ∀ e t, Out.mismatch e t ∈ x.output →
      (x.fault = some .fatal ∨ x.fault = some .oob) ∧
      ∃ pre post, x.output = pre ++ .mismatch e t :: .not_found :: post ∧ post.length ≤ 1)
    (hf : ∀ a, ∀ e t, Out.mismatch e t ∈ (f a).output →
      ((f a).fault = some .fatal ∨ (f a).fault = some .oob) ∧
      ∃ pre post, (f a).output = pre ++ .mismatch e t :: .not_found :: post ∧
        post.length ≤ 1) :
    ∀ e t, Out.mismatch e t ∈ (x >>= f).output →
      ((x >>= f).fault = some .fatal ∨ (x >>= f).fault = some .oob) ∧
      ∃ pre post, (x >>= f).output = pre ++ .mismatch e t :: .not_found :: post ∧
        post.length ≤ 1 := by
  intro e t h
  cases x with
  | fail e2 o => exact hx e t h
  | ok a o =>
    rw [outcome_bind_ok] at h ⊢
    have hno : Out.mismatch e t ∉ o := by
      intro hm
      rcases (hx e t hm).1 with h1 | h1 <;> cases h1
    rw [fault_prepend]
    have hin : Out.mismatch e t ∈ (f a).output := by
      cases hfa : f a with
      | ok b o2 =>
        rw [hfa] at h
        simp only [Outcome.prepend, Outcome.output, List.mem_append] at h
        rcases h with h | h
        · exact absurd h hno
        · exact h
      | fail e2 o2 =>
        rw [hfa] at h
        simp only [Outcome.prepend, Outcome.output, List.mem_append] at h
        rcases h with h | h
        · exact absurd h hno
        · exact h
    obtain ⟨h1, pre, post, h2, h3⟩ := hf a e t hin
    refine ⟨h1, o ++ pre, post, ?_, h3⟩
    cases hfa : f a with
    | ok b o2 =>
      rw [hfa] at h2
      simp only [Outcome.output] at h2
      simp only [Outcome.prepend, Outcome.output, h2, List.append_assoc]
    | fail e2 o2 =>
      rw [hfa] at h2
      simp only [Outcome.output] at h2
      simp only [Outcome.prepend, Outcome.output, h2, List.append_assoc]

theorem dump_mismatch_of_quiet {α : Type} {x : Outcome Out α}
    (h : ∀ e t, Out.mismatch e t ∉ x.output) :
    ∀ e t, Out.mismatch e t ∈ x.output →
      (x.fault = some .fatal ∨ x.fault = some .oob) ∧
      ∃ pre post, x.output = pre ++ .mismatch e t :: .not_found :: post ∧ post.length ≤ 1 :=
  fun e t hm => absurd hm (h e t)

theorem dump_mismatch_lift {α : Type} (x : Except Fault α) :
    ∀ e t, Out.mismatch e t ∈ (lift x : Outcome Out α).output →
      ((lift x : Outcome Out α).fault = some .fatal ∨
        (lift x : Outcome Out α).fault = some .oob) ∧
      ∃ pre post, (lift x : Outcome Out α).output
        = pre ++ .mismatch e t :: .not_found :: post ∧ post.length ≤ 1 := by
  apply dump_mismatch_of_quiet
  intro e t
  cases x <;> simp [lift, Outcome.output]

theorem dump_mismatch_pure {α : Type} (a : α) :
    ∀ e t, Out.mismatch e t ∈ (pure a : Outcome Out α).output →
      ((pure a : Outcome Out α).fault = some .fatal ∨
        (pure a : Outcome Out α).fault = some .oob) ∧
      ∃ pre post, (pure a : Outcome Out α).output
        = pre ++ .mismatch e t :: .not_found :: post ∧ post.length ≤ 1 := by
  apply dump_mismatch_of_quiet
  intro e t
  simp [outcome_pure, Outcome.output]

theorem dump_mismatch_abort {α : Type} (f : Fault) :
    ∀ e t, Out.mismatch e t ∈ (abort f : Outcome Out α).output →
      ((abort f : Outcome Out α).fault = some .fatal ∨
        (abort f : Outcome Out α).fault = some .oob) ∧
      ∃ pre post, (abort f : Outcome Out α).output
        = pre ++ .mismatch e t :: .not_found :: post ∧ post.length ≤ 1 := by
  apply dump_mismatch_of_quiet
  intro e t
  simp [abort_eq, Outcome.output]

theorem dump_mismatch_emit (i : Out) (hi : ∀ e t, i ≠ .mismatch e t) :
    ∀ e t, Out.mismatch e t ∈ (emit i).output →
      ((emit i).fault = some .fatal ∨ (emit i).fault = some .oob) ∧
      ∃ pre post, (emit i).output = pre ++ .mismatch e t :: .not_found :: post ∧
        post.length ≤ 1 := by
  apply dump_mismatch_of_quiet
  intro e t h
  simp only [emit_eq, Outcome.output, List.mem_singleton] at h
  exact hi e t h.symm

theorem dump_mismatch_inc (d : Int) :
    ∀ e t, Out.mismatch e t ∈ (inc_depth d).output →
      ((inc_depth d).fault = some .fatal ∨ (inc_depth d).fault = some .oob) ∧
      ∃ pre post, (inc_depth d).output = pre ++ .mismatch e t :: .not_found :: post ∧
        post.length ≤ 1 := by
  apply dump_mismatch_of_quiet
  intro e t h
  simp [inc_depth, Outcome.output] at h

theorem dump_mismatch_dec (d : Int) :
    ∀ e t, Out.mismatch e t ∈ (dec_depth d).output →
      ((dec_depth d).fault = some .fatal ∨ (dec_depth d).fault = some .oob) ∧
      ∃ pre post, (dec_depth d).output = pre ++ .mismatch e t :: .not_found :: post ∧
        post.length ≤ 1 := by
  apply dump_mismatch_of_quiet
  intro e t h
  simp [dec_depth, Outcome.output] at h

theorem dump_mismatch_ite {α : Type} {c : Prop} [Decidable c] {x y : Outcome Out α}
    (hx : ∀ e t, Out.mismatch e t ∈ x.output →
      (x.fault = some .fatal ∨ x.fault = some .oob) ∧
      ∃ pre post, x.output = pre ++ .mismatch e t :: .not_found :: post ∧ post.length ≤ 1)
    (hy : ∀ e t, Out.mismatch e t ∈ y.output →
      (y.fault = some .fatal ∨ y.fault = some .oob) ∧
      ∃ pre post, y.output = pre ++ .mismatch e t :: .not_found :: post ∧ post.length ≤ 1) :
    ∀ e t, Out.mismatch e t ∈ (if c then x else y).output →
      ((if c then x else y).fault = some .fatal ∨ (if c then x else y).fault = some .oob) ∧
      ∃ pre post, (if c then x else y).output
        = pre ++ .mismatch e t :: .not_found :: post ∧ post.length ≤ 1 := by
  split
  · exact hx
  · exact hy

theorem dump_mismatch_print_record (m : Mem) (p : Nat) :
    ∀ e t, Out.mismatch e t ∈ (_print_record m p).output →
      ((_print_record m p).fault = some .fatal ∨ (_print_record m p).fault = some .oob) ∧
      ∃ pre post, (_print_record m p).output
        = pre ++ .mismatch e t :: .not_found :: post ∧ post.length ≤ 1 := by
  simp only [_print_record]
  repeat' (first
    | with_reducible exact dump_mismatch_lift _
    | with_reducible exact dump_mismatch_abort _
    | ((with_reducible apply dump_mismatch_emit); (intro e t h; cases h))
    | with_reducible apply dump_mismatch_ite
    | with_reducible apply dump_mismatch_bind
    | intro _)

theorem dump_mismatch_tag_ok (m : Mem) (p tag : Nat) :
    ∀ e t, Out.mismatch e t ∈ (_tag_ok m p tag).output →
      ((_tag_ok m p tag).fault = some .fatal ∨ (_tag_ok m p tag).fault = some .oob) ∧
      ∃ pre post, (_tag_ok m p tag).output
        = pre ++ .mismatch e t :: .not_found :: post ∧ post.length ≤ 1 := by
  simp only [_tag_ok]
  repeat' (first
    | with_reducible exact dump_mismatch_lift _
    | with_reducible exact dump_mismatch_pure _
    | with_reducible exact dump_mismatch_abort _
    | ((with_reducible apply dump_mismatch_emit); (intro e t h; cases h))
    | with_reducible apply dump_mismatch_ite
    | with_reducible apply dump_mismatch_bind
    | intro _)

/-- What the string reader of `cfr_read` does when the tag is not the expected one and the
expected one is not the help-text tag. -/
theorem dump_read_cfr_varchar_mismatch (m : Mem) (p tag t : Nat) (depth : Int)
    (ht : load32 m p = .ok t) (hne : t ≠ tag) (hh : tag ≠ LB_TAG_CFR_VARCHAR_UI_HELPTEXT) :
    (∀ size, load32 m (p + 4) = .ok size → p + size ≤ m.length →
      read_cfr_varchar m p tag depth
        = .fail .fatal [.mismatch tag t, .not_found, .hexdump ((m.drop p).take size)]) ∧
    (∀ size, load32 m (p + 4) = .ok size → ¬ p + size ≤ m.length →
      read_cfr_varchar m p tag depth = .fail .oob [.mismatch tag t, .not_found]) ∧
    (∀ f, load32 m (p + 4) = .error f →
      read_cfr_varchar m p tag depth = .fail .oob [.mismatch tag t, .not_found]) := by
  refine ⟨?_, ?_, ?_⟩
  · intro size h4 hb
    simp only [read_cfr_varchar]
    rw [dump_tag_neq_eq m p tag t ht]
    have hlb : load_bytes m p size = .ok ((m.drop p).take size) := by
      simp [load_bytes, hb]
    simp [hne, hh, outcome_bind_ok, emit_eq, abort_eq, outcome_bind_fail, Outcome.prepend,
      h4, hlb, lift_ok]
  · intro size h4 hb
    simp only [read_cfr_varchar]
    rw [dump_tag_neq_eq m p tag t ht]
    have hlb : load_bytes m p size = .error .oob := by
      simp [load_bytes, hb]
    simp [hne, hh, outcome_bind_ok, emit_eq, abort_eq, outcome_bind_fail, Outcome.prepend,
      h4, hlb, lift_ok, lift_error]
  · intro f h4
    have hf : f = .oob := by
      rcases load32_cases m (p + 4) with ⟨_, c, hc⟩ | ⟨_, hc⟩
      · rw [hc] at h4; cases h4
      · rw [hc] at h4; injection h4 with h4; exact h4.symm
    subst hf
    simp only [read_cfr_varchar]
    rw [dump_tag_neq_eq m p tag t ht]
    simp [hne, hh, outcome_bind_ok, emit_eq, abort_eq, outcome_bind_fail, Outcome.prepend,
      h4, lift_ok, lift_error]

end cfr_read


namespace cfr_read

open cfr

theorem dump_mismatch_read_cfr_varchar (m : Mem) (p tag : Nat) (depth : Int) :
    ∀ e t, Out.mismatch e t ∈ (read_cfr_varchar m p tag depth).output →
      ((read_cfr_varchar m p tag depth).fault = some .fatal ∨
        (read_cfr_varchar m p tag depth).fault = some .oob) ∧
      ∃ pre post, (read_cfr_varchar m p tag depth).output
        = pre ++ .mismatch e t :: .not_found :: post ∧ post.length ≤ 1 := by
  cases hl : load32 m p with
  | error f =>
    apply dump_mismatch_of_quiet
    intro e t h
    simp only [read_cfr_varchar, _tag_neq, hl, lift_error, outcome_bind_fail,
      Outcome.output] at h
    cases h
  | ok rt =>
    by_cases hc : rt ≠ tag ∧ tag ≠ LB_TAG_CFR_VARCHAR_UI_HELPTEXT
    · obtain ⟨h1, h2, h3⟩ := dump_read_cfr_varchar_mismatch m p tag rt depth hl hc.1 hc.2
      intro e t h
      cases h4 : load32 m (p + 4) with
      | error f =>
        rw [h3 f h4] at h ⊢
        simp only [Outcome.output, List.mem_cons, Out.mismatch.injEq, List.mem_singleton,
          List.not_mem_nil, or_false] at h
        rcases h with ⟨rfl, rfl⟩ | h
        · exact ⟨Or.inr rfl, [], [], rfl, by simp⟩
        · cases h
      | ok size =>
        by_cases hb : p + size ≤ m.length
        · rw [h1 size h4 hb] at h ⊢
          simp only [Outcome.output, List.mem_cons, Out.mismatch.injEq, List.mem_singleton,
            List.not_mem_nil, or_false] at h
          rcases h with ⟨rfl, rfl⟩ | h | h
          · exact ⟨Or.inl rfl, [], [_], rfl, by simp⟩
          · cases h
          · cases h
        · rw [h2 size h4 hb] at h ⊢
          simp only [Outcome.output, List.mem_cons, Out.mismatch.injEq, List.mem_singleton,
            List.not_mem_nil, or_false] at h
          rcases h with ⟨rfl, rfl⟩ | h
          · exact ⟨Or.inr rfl, [], [], rfl, by simp⟩
          · cases h
    · simp only [read_cfr_varchar]
      rw [dump_tag_neq_eq m p tag rt hl, if_neg hc, outcome_bind_ok, outcome_prepend_nil]
      repeat' (first
        | with_reducible exact dump_mismatch_lift _
        | with_reducible exact dump_mismatch_pure _
        | with_reducible exact dump_mismatch_abort _
        | with_reducible exact dump_mismatch_inc _
        | with_reducible exact dump_mismatch_dec _
        | with_reducible exact dump_mismatch_print_record _ _
        | ((with_reducible apply dump_mismatch_emit); (intro e t h; cases h))
        | with_reducible apply dump_mismatch_ite
        | with_reducible apply dump_mismatch_bind
        | intro _)

theorem dump_mismatch_sm_read_enum_value (m : Mem) (p : Nat) (depth : Int) :
    ∀ e t, Out.mismatch e t ∈ (sm_read_enum_value m p depth).output →
      ((sm_read_enum_value m p depth).fault = some .fatal ∨
        (sm_read_enum_value m p depth).fault = some .oob) ∧
      ∃ pre post, (sm_read_enum_value m p depth).output
        = pre ++ .mismatch e t :: .not_found :: post ∧ post.length ≤ 1 := by
  simp only [sm_read_enum_value, sm_read_ui_name]
  repeat' (first
    | with_reducible exact dump_mismatch_lift _
    | with_reducible exact dump_mismatch_pure _
    | with_reducible exact dump_mismatch_abort _
    | with_reducible exact dump_mismatch_print_record _ _
    | with_reducible exact dump_mismatch_read_cfr_varchar _ _ _ _
    | ((with_reducible apply dump_mismatch_emit); (intro e t h; cases h))
    | with_reducible apply dump_mismatch_ite
    | with_reducible apply dump_mismatch_bind
    | intro _)

theorem dump_mismatch_read_enum_values (m : Mem) (limit : Nat) : ∀ (fuel p : Nat)
    (depth : Int),
    ∀ e t, Out.mismatch e t ∈ (read_enum_values fuel m limit p depth).output →
      ((read_enum_values fuel m limit p depth).fault = some .fatal ∨
        (read_enum_values fuel m limit p depth).fault = some .oob) ∧
      ∃ pre post, (read_enum_values fuel m limit p depth).output
        = pre ++ .mismatch e t :: .not_found :: post ∧ post.length ≤ 1 := by
  intro fuel
  induction fuel with
  | zero => intro p depth e t h; cases h
  | succ f ih =>
    intro p depth
    rw [read_enum_values]
    repeat' (first
      | with_reducible exact dump_mismatch_pure _
      | with_reducible exact dump_mismatch_inc _
      | with_reducible exact dump_mismatch_dec _
      | with_reducible exact dump_mismatch_sm_read_enum_value _ _ _
      | with_reducible exact ih _ _
      | with_reducible apply dump_mismatch_ite
      | with_reducible apply dump_mismatch_bind
      | intro _)

theorem dump_mismatch_read_numeric_option (fuel : Nat) (m : Mem) (p tag : Nat) (depth : Int) :
    ∀ e t, Out.mismatch e t ∈ (read_numeric_option fuel m p tag depth).output →
      ((read_numeric_option fuel m p tag depth).fault = some .fatal ∨
        (read_numeric_option fuel m p tag depth).fault = some .oob) ∧
      ∃ pre post, (read_numeric_option fuel m p tag depth).output
        = pre ++ .mismatch e t :: .not_found :: post ∧ post.length ≤ 1 := by
  simp only [read_numeric_option, sm_read_ui_name, sm_read_opt_name, sm_read_ui_helptext]
  repeat' (first
    | with_reducible exact dump_mismatch_lift _
    | with_reducible exact dump_mismatch_pure _
    | with_reducible exact dump_mismatch_abort _
    | with_reducible exact dump_mismatch_print_record _ _
    | with_reducible exact dump_mismatch_tag_ok _ _ _
    | with_reducible exact dump_mismatch_read_cfr_varchar _ _ _ _
    | with_reducible exact dump_mismatch_read_enum_values _ _ _ _ _
    | ((with_reducible apply dump_mismatch_emit); (intro e t h; cases h))
    | with_reducible apply dump_mismatch_ite
    | with_reducible apply dump_mismatch_bind
    | intro _)

theorem dump_mismatch_sm_read_opt_varchar (m : Mem) (p : Nat) (depth : Int) :
    ∀ e t, Out.mismatch e t ∈ (sm_read_opt_varchar m p depth).output →
      ((sm_read_opt_varchar m p depth).fault = some .fatal ∨
        (sm_read_opt_varchar m p depth).fault = some .oob) ∧
      ∃ pre post, (sm_read_opt_varchar m p depth).output
        = pre ++ .mismatch e t :: .not_found :: post ∧ post.length ≤ 1 := by
  simp only [sm_read_opt_varchar, sm_read_ui_name, sm_read_opt_name, sm_read_ui_helptext,
    sm_read_string_default_value]
  repeat' (first
    | with_reducible exact dump_mismatch_lift _
    | with_reducible exact dump_mismatch_pure _
    | with_reducible exact dump_mismatch_abort _
    | with_reducible exact dump_mismatch_print_record _ _
    | with_reducible exact dump_mismatch_tag_ok _ _ _
    | with_reducible exact dump_mismatch_read_cfr_varchar _ _ _ _
    | ((with_reducible apply dump_mismatch_emit); (intro e t h; cases h))
    | with_reducible apply dump_mismatch_ite
    | with_reducible apply dump_mismatch_bind
    | intro _)

theorem dump_mismatch_sm_read_opt_comment (m : Mem) (p : Nat) (depth : Int) :
    ∀ e t, Out.mismatch e t ∈ (sm_read_opt_comment m p depth).output →
      ((sm_read_opt_comment m p depth).fault = some .fatal ∨
        (sm_read_opt_comment m p depth).fault = some .oob) ∧
      ∃ pre post, (sm_read_opt_comment m p depth).output
        = pre ++ .mismatch e t :: .not_found :: post ∧ post.length ≤ 1 := by
  simp only [sm_read_opt_comment, sm_read_ui_name, sm_read_ui_helptext]
  repeat' (first
    | with_reducible exact dump_mismatch_lift _
    | with_reducible exact dump_mismatch_pure _
    | with_reducible exact dump_mismatch_abort _
    | with_reducible exact dump_mismatch_print_record _ _
    | with_reducible exact dump_mismatch_tag_ok _ _ _
    | with_reducible exact dump_mismatch_read_cfr_varchar _ _ _ _
    | ((with_reducible apply dump_mismatch_emit); (intro e t h; cases h))
    | with_reducible apply dump_mismatch_ite
    | with_reducible apply dump_mismatch_bind
    | intro _)

theorem dump_mismatch_objects (m : Mem) : ∀ (fuel p : Nat) (depth : Int),
    (∀ e t, Out.mismatch e t ∈ (sm_read_form fuel m p depth).output →
      ((sm_read_form fuel m p depth).fault = some .fatal ∨
        (sm_read_form fuel m p depth).fault = some .oob) ∧
      ∃ pre post, (sm_read_form fuel m p depth).output
        = pre ++ .mismatch e t :: .not_found :: post ∧ post.length ≤ 1) ∧
    (∀ limit, ∀ e t, Out.mismatch e t ∈ (read_objects fuel m limit p depth).output →
      ((read_objects fuel m limit p depth).fault = some .fatal ∨
        (read_objects fuel m limit p depth).fault = some .oob) ∧
      ∃ pre post, (read_objects fuel m limit p depth).output
        = pre ++ .mismatch e t :: .not_found :: post ∧ post.length ≤ 1) ∧
    (∀ e t, Out.mismatch e t ∈ (sm_read_object fuel m p depth).output →
      ((sm_read_object fuel m p depth).fault = some .fatal ∨
        (sm_read_object fuel m p depth).fault = some .oob) ∧
      ∃ pre post, (sm_read_object fuel m p depth).output
        = pre ++ .mismatch e t :: .not_found :: post ∧ post.length ≤ 1) ∧
    (∀ e t, Out.mismatch e t ∈ (_sm_read_object fuel m p depth).output →
      ((_sm_read_object fuel m p depth).fault = some .fatal ∨
        (_sm_read_object fuel m p depth).fault = some .oob) ∧
      ∃ pre post, (_sm_read_object fuel m p depth).output
        = pre ++ .mismatch e t :: .not_found :: post ∧ post.length ≤ 1) := by
  intro fuel
  induction fuel with
  | zero =>
    intro p depth
    refine ⟨?_, ?_, ?_, ?_⟩
    · rw [sm_read_form]; exact dump_mismatch_abort _
    · intro limit; rw [read_objects]; exact dump_mismatch_abort _
    · rw [sm_read_object]; exact dump_mismatch_abort _
    · rw [_sm_read_object]; exact dump_mismatch_abort _
  | succ f ih =>
    intro p depth
    refine ⟨?_, ?_, ?_, ?_⟩
    · rw [sm_read_form]
      simp only [sm_read_ui_name]
      repeat' (first
        | with_reducible exact dump_mismatch_lift _
        | with_reducible exact dump_mismatch_pure _
        | with_reducible exact dump_mismatch_abort _
        | with_reducible exact dump_mismatch_print_record _ _
        | with_reducible exact dump_mismatch_tag_ok _ _ _
        | with_reducible exact dump_mismatch_read_cfr_varchar _ _ _ _
        | with_reducible exact (ih _ _).2.1 _
        | ((with_reducible apply dump_mismatch_emit); (intro e t h; cases h))
        | with_reducible apply dump_mismatch_ite
        | with_reducible apply dump_mismatch_bind
        | intro _)
    · intro limit
      rw [read_objects]
      repeat' (first
        | with_reducible exact dump_mismatch_pure _
        | with_reducible exact (ih _ _).2.2.1
        | with_reducible exact (ih _ _).2.1 _
        | with_reducible apply dump_mismatch_ite
        | with_reducible apply dump_mismatch_bind
        | intro _)
    · rw [sm_read_object]
      repeat' (first
        | with_reducible exact dump_mismatch_pure _
        | with_reducible exact dump_mismatch_inc _
        | with_reducible exact dump_mismatch_dec _
        | with_reducible exact (ih _ _).2.2.2
        | with_reducible apply dump_mismatch_bind
        | intro _)
    · rw [_sm_read_object]
      simp only [sm_read_opt_enum, sm_read_opt_number, sm_read_opt_bool]
      repeat' (first
        | with_reducible exact dump_mismatch_lift _
        | with_reducible exact dump_mismatch_pure _
        | with_reducible exact dump_mismatch_print_record _ _
        | with_reducible exact dump_mismatch_read_numeric_option _ _ _ _ _
        | with_reducible exact dump_mismatch_sm_read_opt_varchar _ _ _
        | with_reducible exact dump_mismatch_sm_read_opt_comment _ _ _
        | with_reducible exact (ih _ _).1
        | with_reducible apply dump_mismatch_ite
        | with_reducible apply dump_mismatch_bind
        | intro _)

theorem dump_mismatch_sm_read_cfr (fuel : Nat) (m : Mem) :
    ∀ e t, Out.mismatch e t ∈ (sm_read_cfr fuel m).output →
      ((sm_read_cfr fuel m).fault = some .fatal ∨ (sm_read_cfr fuel m).fault = some .oob) ∧
      ∃ pre post, (sm_read_cfr fuel m).output
        = pre ++ .mismatch e t :: .not_found :: post ∧ post.length ≤ 1 := by
  simp only [sm_read_cfr]
  repeat' (first
    | with_reducible exact dump_mismatch_lift _
    | with_reducible exact dump_mismatch_pure _
    | with_reducible exact dump_mismatch_abort _
    | with_reducible exact dump_mismatch_print_record _ _
    | with_reducible exact dump_mismatch_tag_ok _ _ _
    | with_reducible exact (dump_mismatch_objects m _ _ _).2.1 _
    | ((with_reducible apply dump_mismatch_emit); (intro e t h; cases h))
    | with_reducible apply dump_mismatch_ite
    | with_reducible apply dump_mismatch_bind
    | intro _)

end cfr_read



namespace cfr_to_html

open cfr

/-! ### The record readers of `cfr_to_html` at a required string with another tag -/

theorem html_required_mismatch (m : Mem) (q tag t : Nat) (ht : load32 m q = .ok t)
    (hne : t ≠ tag) (hh : tag ≠ LB_TAG_CFR_VARCHAR_UI_HELPTEXT) :
    read_cfr_varchar m q tag = .fail .fatal [.stderr_tag tag t, .stderr_required tag] := by
  simp only [read_cfr_varchar]
  rw [html_tag_neq_eq m q tag t ht]
  simp [hne, hh, outcome_bind_ok, emit_eq, abort_eq, outcome_bind_fail, Outcome.prepend]

theorem html_enum_value_ui_name_mismatch (m : Mem) (p dflt size t : Nat)
    (h4 : load32 m (p + 4) = .ok size) (h0 : load32 m p = .ok LB_TAG_CFR_ENUM_VALUE)
    (ht : load32 m (p + 12) = .ok t) (hne : t ≠ LB_TAG_CFR_VARCHAR_UI_NAME) :
    sm_read_enum_value m p dflt
      = .fail .fatal [.stderr_tag LB_TAG_CFR_VARCHAR_UI_NAME t,
          .stderr_required LB_TAG_CFR_VARCHAR_UI_NAME] := by
  simp only [sm_read_enum_value, sm_read_ui_name]
  simp [h4, html_tag_ok m p _ h0, html_required_mismatch m _ _ t ht hne (by decide), lift_ok,
    outcome_bind_ok, outcome_bind_fail, Outcome.prepend]

theorem html_numeric_opt_name_mismatch (fuel : Nat) (m : Mem) (p size t : Nat)
    (h4 : load32 m (p + 4) = .ok size) (ht : load32 m (p + 20) = .ok t)
    (hne : t ≠ LB_TAG_CFR_VARCHAR_OPT_NAME) :
    (load32 m p = .ok LB_TAG_CFR_OPTION_ENUM → sm_read_opt_enum fuel m p
      = .fail .fatal [.stderr_tag LB_TAG_CFR_VARCHAR_OPT_NAME t,
          .stderr_required LB_TAG_CFR_VARCHAR_OPT_NAME]) ∧
    (load32 m p = .ok LB_TAG_CFR_OPTION_NUMBER → sm_read_opt_number m p
      = .fail .fatal [.stderr_tag LB_TAG_CFR_VARCHAR_OPT_NAME t,
          .stderr_required LB_TAG_CFR_VARCHAR_OPT_NAME]) ∧
    (load32 m p = .ok LB_TAG_CFR_OPTION_BOOL → sm_read_opt_bool m p
      = .fail .fatal [.stderr_tag LB_TAG_CFR_VARCHAR_OPT_NAME t,
          .stderr_required LB_TAG_CFR_VARCHAR_OPT_NAME]) := by
  have hw := html_required_mismatch m _ _ t ht hne (by decide)
  refine ⟨?_, ?_, ?_⟩
  · intro h0
    simp only [sm_read_opt_enum, sm_read_opt_name]
    simp [h4, html_tag_ok m p _ h0, hw, lift_ok, outcome_bind_ok, outcome_bind_fail,
      Outcome.prepend]
  · intro h0
    simp only [sm_read_opt_number, sm_read_opt_name]
    simp [h4, html_tag_ok m p _ h0, hw, lift_ok, outcome_bind_ok, outcome_bind_fail,
      Outcome.prepend]
  · intro h0
    simp only [sm_read_opt_bool, sm_read_opt_name]
    simp [h4, html_tag_ok m p _ h0, hw, lift_ok, outcome_bind_ok, outcome_bind_fail,
      Outcome.prepend]

theorem html_numeric_ui_name_mismatch (fuel : Nat) (m : Mem) (p size k1 t : Nat)
    (s1 : List Nat) (o1 : List Html)
    (h4 : load32 m (p + 4) = .ok size) (h1 : sm_read_opt_name m (p + 20) = .ok (s1, k1) o1)
    (ht : load32 m (p + 20 + k1) = .ok t) (hne : t ≠ LB_TAG_CFR_VARCHAR_UI_NAME) :
    (load32 m p = .ok LB_TAG_CFR_OPTION_ENUM → sm_read_opt_enum fuel m p
      = .fail .fatal [.stderr_tag LB_TAG_CFR_VARCHAR_UI_NAME t,
          .stderr_required LB_TAG_CFR_VARCHAR_UI_NAME]) ∧
    (load32 m p = .ok LB_TAG_CFR_OPTION_NUMBER → sm_read_opt_number m p
      = .fail .fatal [.stderr_tag LB_TAG_CFR_VARCHAR_UI_NAME t,
          .stderr_required LB_TAG_CFR_VARCHAR_UI_NAME]) ∧
    (load32 m p = .ok LB_TAG_CFR_OPTION_BOOL → sm_read_opt_bool m p
      = .fail .fatal [.stderr_tag LB_TAG_CFR_VARCHAR_UI_NAME t,
          .stderr_required LB_TAG_CFR_VARCHAR_UI_NAME]) := by
  have hw := html_required_mismatch m _ _ t ht hne (by decide)
  have ho : o1 = [] := html_read_cfr_varchar_out h1
  subst ho
  simp only [sm_read_opt_name] at h1
  refine ⟨?_, ?_, ?_⟩
  · intro h0
    simp only [sm_read_opt_enum, sm_read_opt_name, sm_read_ui_name]
    simp [h4, h1, html_tag_ok m p _ h0, hw, lift_ok, outcome_bind_ok, outcome_bind_fail,
      Outcome.prepend]
  · intro h0
    simp only [sm_read_opt_number, sm_read_opt_name, sm_read_ui_name]
    simp [h4, h1, html_tag_ok m p _ h0, hw, lift_ok, outcome_bind_ok, outcome_bind_fail,
      Outcome.prepend]
  · intro h0
    simp only [sm_read_opt_bool, sm_read_opt_name, sm_read_ui_name]
    simp [h4, h1, html_tag_ok m p _ h0, hw, lift_ok, outcome_bind_ok, outcome_bind_fail,
      Outcome.prepend]

theorem html_varchar_mismatch (m : Mem) (p size : Nat)
    (h4 : load32 m (p + 4) = .ok size) (h0 : load32 m p = .ok LB_TAG_CFR_OPTION_VARCHAR) :
    (∀ t, load32 m (p + 16) = .ok t → t ≠ LB_TAG_CFR_VARCHAR_DEF_VALUE →
      sm_read_opt_varchar m p
        = .fail .fatal [.stderr_tag LB_TAG_CFR_VARCHAR_DEF_VALUE t,
            .stderr_required LB_TAG_CFR_VARCHAR_DEF_VALUE]) ∧
    (∀ s0 k0 o0 t, sm_read_string_default_value m (p + 16) = .ok (s0, k0) o0 →
      load32 m (p + 16 + k0) = .ok t → t ≠ LB_TAG_CFR_VARCHAR_OPT_NAME →
      sm_read_opt_varchar m p
        = .fail .fatal [.stderr_tag LB_TAG_CFR_VARCHAR_OPT_NAME t,
            .stderr_required LB_TAG_CFR_VARCHAR_OPT_NAME]) ∧
    (∀ s0 k0 o0 s1 k1 o1 t, sm_read_string_default_value m (p + 16) = .ok (s0, k0) o0 →
      sm_read_opt_name m (p + 16 + k0) = .ok (s1, k1) o1 →
      load32 m (p + 16 + k0 + k1) = .ok t → t ≠ LB_TAG_CFR_VARCHAR_UI_NAME →
      sm_read_opt_varchar m p
        = .fail .fatal [.stderr_tag LB_TAG_CFR_VARCHAR_UI_NAME t,
            .stderr_required LB_TAG_CFR_VARCHAR_UI_NAME]) := by
  refine ⟨?_, ?_, ?_⟩
  · intro t ht hne
    have hw := html_required_mismatch m _ _ t ht hne (by decide)
    simp only [sm_read_opt_varchar, sm_read_string_default_value]
    simp [h4, html_tag_ok m p _ h0, hw, lift_ok, outcome_bind_ok, outcome_bind_fail,
      Outcome.prepend]
  · intro s0 k0 o0 t hd ht hne
    have hw := html_required_mismatch m _ _ t ht hne (by decide)
    have ho : o0 = [] := html_read_cfr_varchar_out hd
    subst ho
    simp only [sm_read_string_default_value] at hd
    simp only [sm_read_opt_varchar, sm_read_string_default_value, sm_read_opt_name]
    simp [h4, hd, html_tag_ok m p _ h0, hw, lift_ok, outcome_bind_ok, outcome_bind_fail,
      Outcome.prepend]
  · intro s0 k0 o0 s1 k1 o1 t hd h1 ht hne
    have hw := html_required_mismatch m _ _ t ht hne (by decide)
    have ho : o0 = [] := html_read_cfr_varchar_out hd
    subst ho
    have ho1 : o1 = [] := html_read_cfr_varchar_out h1
    subst ho1
    simp only [sm_read_string_default_value] at hd
    simp only [sm_read_opt_name] at h1
    simp only [sm_read_opt_varchar, sm_read_string_default_value, sm_read_opt_name,
      sm_read_ui_name]
    simp [h4, hd, h1, html_tag_ok m p _ h0, hw, lift_ok, outcome_bind_ok, outcome_bind_fail,
      Outcome.prepend]

theorem html_ui_name_first_mismatch (fuel : Nat) (m : Mem) (p idx size t : Nat)
    (h4 : load32 m (p + 4) = .ok size) (ht : load32 m (p + 16) = .ok t)
    (hne : t ≠ LB_TAG_CFR_VARCHAR_UI_NAME) :
    (load32 m p = .ok LB_TAG_CFR_OPTION_COMMENT → sm_read_opt_comment m p
      = .fail .fatal [.stderr_tag LB_TAG_CFR_VARCHAR_UI_NAME t,
          .stderr_required LB_TAG_CFR_VARCHAR_UI_NAME]) ∧
    (load32 m p = .ok LB_TAG_CFR_OPTION_FORM → sm_read_form (fuel + 1) m p
      = .fail .fatal [.stderr_tag LB_TAG_CFR_VARCHAR_UI_NAME t,
          .stderr_required LB_TAG_CFR_VARCHAR_UI_NAME]) ∧
    (load32 m p = .ok LB_TAG_CFR_OPTION_FORM → sm_read_form_tab fuel m p idx
      = .fail .fatal [.stderr_tag LB_TAG_CFR_VARCHAR_UI_NAME t,
          .stderr_required LB_TAG_CFR_VARCHAR_UI_NAME]) := by
  have hw := html_required_mismatch m _ _ t ht hne (by decide)
  refine ⟨?_, ?_, ?_⟩
  · intro h0
    simp only [sm_read_opt_comment, sm_read_ui_name]
    simp [h4, html_tag_ok m p _ h0, hw, lift_ok, outcome_bind_ok, outcome_bind_fail,
      Outcome.prepend]
  · intro h0
    simp only [sm_read_form, sm_read_ui_name]
    simp [h4, html_tag_ok m p _ h0, hw, lift_ok, outcome_bind_ok, outcome_bind_fail,
      Outcome.prepend]
  · intro h0
    simp only [sm_read_form_tab, sm_read_ui_name]
    simp [h4, html_tag_ok m p _ h0, hw, lift_ok, outcome_bind_ok, outcome_bind_fail,
      Outcome.prepend]

end cfr_to_html


namespace cfr_read

open cfr

/-! ### The record readers of `cfr_read` at a required string with another tag -/

theorem dump_enum_value_ui_name_mismatch (m : Mem) (p size v t sz : Nat) (depth : Int)
    (hp : p % 4 = 0) (h0 : load32 m p = .ok LB_TAG_CFR_ENUM_VALUE)
    (h4 : load32 m (p + 4) = .ok size) (h8 : load32 m (p + 8) = .ok v)
    (ht : load32 m (p + 12) = .ok t) (hne : t ≠ LB_TAG_CFR_VARCHAR_UI_NAME)
    (hs : load32 m (p + 12 + 4) = .ok sz) (hb : p + 12 + sz ≤ m.length) :
    sm_read_enum_value m p depth
      = .fail .fatal [.record LB_TAG_CFR_ENUM_VALUE size, .val .value v, .prop .ui_name,
          .mismatch LB_TAG_CFR_VARCHAR_UI_NAME t, .not_found,
          .hexdump ((m.drop (p + 12)).take sz)] := by
  have hw := (dump_read_cfr_varchar_mismatch m _ _ t depth ht hne (by decide)).1 sz hs hb
  simp only [sm_read_enum_value, sm_read_ui_name]
  simp [h4, h8, hw, dump_print_record m p _ _ hp h0 h4, lift_ok, outcome_bind_ok,
    outcome_bind_fail, emit_eq, Outcome.prepend]

theorem dump_numeric_opt_name_mismatch (fuel : Nat) (m : Mem) (p tag size oid fl dv t sz : Nat)
    (depth : Int) (hp : p % 4 = 0) (h0 : load32 m p = .ok tag)
    (h4 : load32 m (p + 4) = .ok size) (h8 : load32 m (p + 8) = .ok oid)
    (h12 : load32 m (p + 12) = .ok fl) (h16 : load32 m (p + 16) = .ok dv)
    (ht : load32 m (p + 20) = .ok t) (hne : t ≠ LB_TAG_CFR_VARCHAR_OPT_NAME)
    (hs : load32 m (p + 20 + 4) = .ok sz) (hb : p + 20 + sz ≤ m.length) :
    read_numeric_option fuel m p tag depth
      = .fail .fatal [.record tag size, .val .object_id oid, .val .flags fl, .val .defval dv,
          .prop .option_name, .mismatch LB_TAG_CFR_VARCHAR_OPT_NAME t, .not_found,
          .hexdump ((m.drop (p + 20)).take sz)] := by
  have hw := (dump_read_cfr_varchar_mismatch m _ _ t depth ht hne (by decide)).1 sz hs hb
  simp only [read_numeric_option, sm_read_opt_name]
  simp [h4, h8, h12, h16, hw, dump_tag_ok m p _ h0, dump_print_record m p _ _ hp h0 h4,
    lift_ok, outcome_bind_ok, outcome_bind_fail, emit_eq, Outcome.prepend]

theorem dump_numeric_ui_name_mismatch (fuel : Nat) (m : Mem) (p tag size oid fl dv t sz k1 : Nat)
    (depth d1 : Int) (o1 : List Out) (hp : p % 4 = 0) (h0 : load32 m p = .ok tag)
    (h4 : load32 m (p + 4) = .ok size) (h8 : load32 m (p + 8) = .ok oid)
    (h12 : load32 m (p + 12) = .ok fl) (h16 : load32 m (p + 16) = .ok dv)
    (h1 : sm_read_opt_name m (p + 20) depth = .ok (k1, d1) o1)
    (ht : load32 m (p + 20 + k1) = .ok t) (hne : t ≠ LB_TAG_CFR_VARCHAR_UI_NAME)
    (hs : load32 m (p + 20 + k1 + 4) = .ok sz) (hb : p + 20 + k1 + sz ≤ m.length) :
    read_numeric_option fuel m p tag depth
      = .fail .fatal ([.record tag size, .val .object_id oid, .val .flags fl, .val .defval dv]
          ++ o1 ++ [.prop .ui_name, .mismatch LB_TAG_CFR_VARCHAR_UI_NAME t, .not_found,
          .hexdump ((m.drop (p + 20 + k1)).take sz)]) := by
  have hw := (dump_read_cfr_varchar_mismatch m _ _ t d1 ht hne (by decide)).1 sz hs hb
  simp only [read_numeric_option, sm_read_ui_name]
  simp [h4, h8, h12, h16, h1, hw, dump_tag_ok m p _ h0, dump_print_record m p _ _ hp h0 h4,
    lift_ok, outcome_bind_ok, outcome_bind_fail, emit_eq, Outcome.prepend]

theorem dump_varchar_mismatch (m : Mem) (p size oid fl : Nat) (depth : Int)
    (hp : p % 4 = 0) (h0 : load32 m p = .ok LB_TAG_CFR_OPTION_VARCHAR)
    (h4 : load32 m (p + 4) = .ok size) (h8 : load32 m (p + 8) = .ok oid)
    (h12 : load32 m (p + 12) = .ok fl) :
    (∀ t sz, load32 m (p + 16) = .ok t → t ≠ LB_TAG_CFR_VARCHAR_DEF_VALUE →
      load32 m (p + 16 + 4) = .ok sz → p + 16 + sz ≤ m.length →
      sm_read_opt_varchar m p depth
        = .fail .fatal [.record LB_TAG_CFR_OPTION_VARCHAR size, .val .object_id oid,
            .val .flags fl, .prop .defval, .mismatch LB_TAG_CFR_VARCHAR_DEF_VALUE t,
            .not_found, .hexdump ((m.drop (p + 16)).take sz)]) ∧
    (∀ k0 d0 o0 t sz, sm_read_string_default_value m (p + 16) depth = .ok (k0, d0) o0 →
      load32 m (p + 16 + k0) = .ok t → t ≠ LB_TAG_CFR_VARCHAR_OPT_NAME →
      load32 m (p + 16 + k0 + 4) = .ok sz → p + 16 + k0 + sz ≤ m.length →
      sm_read_opt_varchar m p depth
        = .fail .fatal ([.record LB_TAG_CFR_OPTION_VARCHAR size, .val .object_id oid,
            .val .flags fl] ++ o0 ++ [.prop .option_name,
            .mismatch LB_TAG_CFR_VARCHAR_OPT_NAME t, .not_found,
            .hexdump ((m.drop (p + 16 + k0)).take sz)])) ∧
    (∀ k0 d0 o0 k1 d1 o1 t sz,
      sm_read_string_default_value m (p + 16) depth = .ok (k0, d0) o0 →
      sm_read_opt_name m (p + 16 + k0) d0 = .ok (k1, d1) o1 →
      load32 m (p + 16 + k0 + k1) = .ok t → t ≠ LB_TAG_CFR_VARCHAR_UI_NAME →
      load32 m (p + 16 + k0 + k1 + 4) = .ok sz → p + 16 + k0 + k1 + sz ≤ m.length →
      sm_read_opt_varchar m p depth
        = .fail .fatal ([.record LB_TAG_CFR_OPTION_VARCHAR size, .val .object_id oid,
            .val .flags fl] ++ o0 ++ o1 ++ [.prop .ui_name,
            .mismatch LB_TAG_CFR_VARCHAR_UI_NAME t, .not_found,
            .hexdump ((m.drop (p + 16 + k0 + k1)).take sz)])) := by
  refine ⟨?_, ?_, ?_⟩
  · intro t sz ht hne hs hb
    have hw := (dump_read_cfr_varchar_mismatch m _ _ t depth ht hne (by decide)).1 sz hs hb
    simp only [sm_read_opt_varchar, sm_read_string_default_value]
    simp [h4, h8, h12, hw, dump_tag_ok m p _ h0, dump_print_record m p _ _ hp h0 h4,
      lift_ok, outcome_bind_ok, outcome_bind_fail, emit_eq, Outcome.prepend]
  · intro k0 d0 o0 t sz hd ht hne hs hb
    have hw := (dump_read_cfr_varchar_mismatch m _ _ t d0 ht hne (by decide)).1 sz hs hb
    simp only [sm_read_opt_varchar, sm_read_opt_name]
    simp [h4, h8, h12, hd, hw, dump_tag_ok m p _ h0, dump_print_record m p _ _ hp h0 h4,
      lift_ok, outcome_bind_ok, outcome_bind_fail, emit_eq, Outcome.prepend]
  · intro k0 d0 o0 k1 d1 o1 t sz hd h1 ht hne hs hb
    have hw := (dump_read_cfr_varchar_mismatch m _ _ t d1 ht hne (by decide)).1 sz hs hb
    simp only [sm_read_opt_varchar, sm_read_ui_name]
    simp [h4, h8, h12, hd, h1, hw, dump_tag_ok m p _ h0, dump_print_record m p _ _ hp h0 h4,
      lift_ok, outcome_bind_ok, outcome_bind_fail, emit_eq, Outcome.prepend]

theorem dump_ui_name_first_mismatch (fuel : Nat) (m : Mem) (p size oid fl t sz : Nat)
    (depth : Int) (hp : p % 4 = 0) (h4 : load32 m (p + 4) = .ok size)
    (h8 : load32 m (p + 8) = .ok oid) (h12 : load32 m (p + 12) = .ok fl)
    (ht : load32 m (p + 16) = .ok t) (hne : t ≠ LB_TAG_CFR_VARCHAR_UI_NAME)
    (hs : load32 m (p + 16 + 4) = .ok sz) (hb : p + 16 + sz ≤ m.length) :
    (load32 m p = .ok LB_TAG_CFR_OPTION_COMMENT → sm_read_opt_comment m p depth
      = .fail .fatal [.record LB_TAG_CFR_OPTION_COMMENT size, .val .object_id oid,
          .val .flags fl, .prop .ui_name, .mismatch LB_TAG_CFR_VARCHAR_UI_NAME t, .not_found,
          .hexdump ((m.drop (p + 16)).take sz)]) ∧
    (load32 m p = .ok LB_TAG_CFR_OPTION_FORM → sm_read_form (fuel + 1) m p depth
      = .fail .fatal [.record LB_TAG_CFR_OPTION_FORM size, .val .object_id oid,
          .val .flags fl, .prop .ui_name, .mismatch LB_TAG_CFR_VARCHAR_UI_NAME t, .not_found,
          .hexdump ((m.drop (p + 16)).take sz)]) := by
  have hw := (dump_read_cfr_varchar_mismatch m _ _ t depth ht hne (by decide)).1 sz hs hb
  refine ⟨?_, ?_⟩
  · intro h0
    simp only [sm_read_opt_comment, sm_read_ui_name]
    simp [h4, h8, h12, hw, dump_tag_ok m p _ h0, dump_print_record m p _ _ hp h0 h4,
      lift_ok, outcome_bind_ok, outcome_bind_fail, emit_eq, Outcome.prepend]
  · intro h0
    simp only [sm_read_form, sm_read_ui_name]
    simp [h4, h8, h12, hw, dump_tag_ok m p _ h0, dump_print_record m p _ _ hp h0 h4,
      lift_ok, outcome_bind_ok, outcome_bind_fail, emit_eq, Outcome.prepend]

end cfr_read


namespace cfr_to_html

open cfr

/-- The three wrappers for required strings of `cfr_to_html`, and the wrapper for the help
text, at a record with another tag. -/
theorem html_wrappers_mismatch (m : Mem) (p t : Nat) (ht : load32 m p = .ok t) :
    (t ≠ LB_TAG_CFR_VARCHAR_OPT_NAME → sm_read_opt_name m p
      = .fail .fatal [.stderr_tag LB_TAG_CFR_VARCHAR_OPT_NAME t,
          .stderr_required LB_TAG_CFR_VARCHAR_OPT_NAME]) ∧
    (t ≠ LB_TAG_CFR_VARCHAR_UI_NAME → sm_read_ui_name m p
      = .fail .fatal [.stderr_tag LB_TAG_CFR_VARCHAR_UI_NAME t,
          .stderr_required LB_TAG_CFR_VARCHAR_UI_NAME]) ∧
    (t ≠ LB_TAG_CFR_VARCHAR_DEF_VALUE → sm_read_string_default_value m p
      = .fail .fatal [.stderr_tag LB_TAG_CFR_VARCHAR_DEF_VALUE t,
          .stderr_required LB_TAG_CFR_VARCHAR_DEF_VALUE]) ∧
    (t ≠ LB_TAG_CFR_VARCHAR_UI_HELPTEXT → sm_read_ui_helptext m p = .ok ([], 0) []) :=
  ⟨fun hne => html_required_mismatch m p _ t ht hne (by decide),
   fun hne => html_required_mismatch m p _ t ht hne (by decide),
   fun hne => html_required_mismatch m p _ t ht hne (by decide),
   fun hne => html_read_cfr_varchar_absent m p ⟨t, ht, hne⟩⟩

end cfr_to_html

namespace cfr_read

open cfr

/-- A wrapper of `cfr_read` for a required string at a record with another tag: the label,
the two messages and the hex dump, then the exit; the run never returns. -/
theorem dump_wrapper_mismatch (m : Mem) (p tag t : Nat) (l : Label) (depth : Int)
    (ht : load32 m p = .ok t) (hne : t ≠ tag) (hh : tag ≠ LB_TAG_CFR_VARCHAR_UI_HELPTEXT) :
    ((emit (.prop l) >>= fun _ => read_cfr_varchar m p tag depth).fault = some .fatal ∨
      (emit (.prop l) >>= fun _ => read_cfr_varchar m p tag depth).fault = some .oob) ∧
    ∀ size, load32 m (p + 4) = .ok size → p + size ≤ m.length →
      (emit (.prop l) >>= fun _ => read_cfr_varchar m p tag depth)
        = .fail .fatal [.prop l, .mismatch tag t, .not_found,
            .hexdump ((m.drop p).take size)] := by
  obtain ⟨h1, h2, h3⟩ := dump_read_cfr_varchar_mismatch m p tag t depth ht hne hh
  rw [emit_eq, outcome_bind_ok, fault_prepend]
  refine ⟨?_, ?_⟩
  · rcases load32_cases m (p + 4) with ⟨-, s, hs⟩ | ⟨-, hs⟩
    · by_cases hb : p + s ≤ m.length
      · left; rw [h1 s hs hb]; rfl
      · right; rw [h2 s hs hb]; rfl
    · right; rw [h3 _ hs]; rfl
  · intro size hs hb
    rw [h1 size hs hb]; rfl

theorem dump_wrappers_mismatch (m : Mem) (p t : Nat) (depth : Int) (ht : load32 m p = .ok t) :
    (t ≠ LB_TAG_CFR_VARCHAR_OPT_NAME →
      ((sm_read_opt_name m p depth).fault = some .fatal ∨
        (sm_read_opt_name m p depth).fault = some .oob) ∧
      ∀ size, load32 m (p + 4) = .ok size → p + size ≤ m.length →
        sm_read_opt_name m p depth
          = .fail .fatal [.prop .option_name, .mismatch LB_TAG_CFR_VARCHAR_OPT_NAME t,
              .not_found, .hexdump ((m.drop p).take size)]) ∧
    (t ≠ LB_TAG_CFR_VARCHAR_UI_NAME →
      ((sm_read_ui_name m p depth).fault = some .fatal ∨
        (sm_read_ui_name m p depth).fault = some .oob) ∧
      ∀ size, load32 m (p + 4) = .ok size → p + size ≤ m.length →
        sm_read_ui_name m p depth
          = .fail .fatal [.prop .ui_name, .mismatch LB_TAG_CFR_VARCHAR_UI_NAME t,
              .not_found, .hexdump ((m.drop p).take size)]) ∧
    (t ≠ LB_TAG_CFR_VARCHAR_DEF_VALUE →
      ((sm_read_string_default_value m p depth).fault = some .fatal ∨
        (sm_read_string_default_value m p depth).fault = some .oob) ∧
      ∀ size, load32 m (p + 4) = .ok size → p + size ≤ m.length →
        sm_read_string_default_value m p depth
          = .fail .fatal [.prop .defval, .mismatch LB_TAG_CFR_VARCHAR_DEF_VALUE t,
              .not_found, .hexdump ((m.drop p).take size)]) ∧
    (t ≠ LB_TAG_CFR_VARCHAR_UI_HELPTEXT →
      sm_read_ui_helptext m p depth = .ok (0, depth) [.prop .ui_helptext, .not_found]) := by
  refine ⟨?_, ?_, ?_, ?_⟩
  · intro hne; exact dump_wrapper_mismatch m p _ t _ depth ht hne (by decide)
  · intro hne; exact dump_wrapper_mismatch m p _ t _ depth ht hne (by decide)
  · intro hne; exact dump_wrapper_mismatch m p _ t _ depth ht hne (by decide)
  · intro hne
    simp only [sm_read_ui_helptext]
    rw [dump_read_cfr_varchar_absent m p depth ⟨t, ht, hne⟩]
    rfl

end cfr_read

namespace cfr

/-- C10 (tag mismatch fatality). At every position where the format requires an opt-name, a
UI-name or a default-value string, a record with another tag makes both decoders stop with a
failure; only the help-text position tolerates another tag.

* The wrappers `sm_read_opt_name`, `sm_read_ui_name` and `sm_read_string_default_value`
  of `cfr_to_html` fail at a record with another tag, after the two messages on standard
  error; those of `cfr_read` print the label, the mismatch message, `<not found>` and the
  hex dump of the record and exit, and never return (where the hex dump would run past the
  end of the buffer the run stops inside the dump). `sm_read_ui_helptext` returns the empty
  string and 0 bytes consumed in both.
* Every record reader that calls a wrapper passes the failure on: the UI-name of an enum
  value, the opt-name and the UI-name of an enum, number and bool option, the default
  value, the opt-name and the UI-name of a varchar option, the UI-name of a comment and of
  a form (nested and as a tab).
* For every buffer and every step budget: when the output of `sm_read_cfr` or of
  `sm_read_object` holds the mismatch message, the run has failed and the message is
  followed only by the end of the run (`cfr_to_html`: the message that the required string
  was not found; `cfr_read`: `<not found>` and at most the hex dump).
* Files with one tag changed, which pass the loaders as they are: the opt-name, the
  UI-name, the UI-name of the second enum value and the UI-name of the Form in the blob
  with an enum option, and the default value, the opt-name and the UI-name in the blob with
  a varchar option; both decoders fail on each, and succeed on the two blobs as they were. -/
theorem required_string_tag_mismatch_fatal :
    -- the wrappers of cfr_to_html
    (∀ (m : Mem) (p t : Nat), load32 m p = .ok t →
      (t ≠ LB_TAG_CFR_VARCHAR_OPT_NAME → cfr_to_html.sm_read_opt_name m p
        = .fail .fatal [.stderr_tag LB_TAG_CFR_VARCHAR_OPT_NAME t,
            .stderr_required LB_TAG_CFR_VARCHAR_OPT_NAME]) ∧
      (t ≠ LB_TAG_CFR_VARCHAR_UI_NAME → cfr_to_html.sm_read_ui_name m p
        = .fail .fatal [.stderr_tag LB_TAG_CFR_VARCHAR_UI_NAME t,
            .stderr_required LB_TAG_CFR_VARCHAR_UI_NAME]) ∧
      (t ≠ LB_TAG_CFR_VARCHAR_DEF_VALUE → cfr_to_html.sm_read_string_default_value m p
        = .fail .fatal [.stderr_tag LB_TAG_CFR_VARCHAR_DEF_VALUE t,
            .stderr_required LB_TAG_CFR_VARCHAR_DEF_VALUE]) ∧
      (t ≠ LB_TAG_CFR_VARCHAR_UI_HELPTEXT →
        cfr_to_html.sm_read_ui_helptext m p = .ok ([], 0) [])) ∧
    -- the wrappers of cfr_read
    (∀ (m : Mem) (p t : Nat) (depth : Int), load32 m p = .ok t →
      (t ≠ LB_TAG_CFR_VARCHAR_OPT_NAME →
        ((cfr_read.sm_read_opt_name m p depth).fault = some .fatal ∨
          (cfr_read.sm_read_opt_name m p depth).fault = some .oob) ∧
        ∀ size, load32 m (p + 4) = .ok size → p + size ≤ m.length →
          cfr_read.sm_read_opt_name m p depth
            = .fail .fatal [.prop .option_name, .mismatch LB_TAG_CFR_VARCHAR_OPT_NAME t,
                .not_found, .hexdump ((m.drop p).take size)]) ∧
      (t ≠ LB_TAG_CFR_VARCHAR_UI_NAME →
        ((cfr_read.sm_read_ui_name m p depth).fault = some .fatal ∨
          (cfr_read.sm_read_ui_name m p depth).fault = some .oob) ∧
        ∀ size, load32 m (p + 4) = .ok size → p + size ≤ m.length →
          cfr_read.sm_read_ui_name m p depth
            = .fail .fatal [.prop .ui_name, .mismatch LB_TAG_CFR_VARCHAR_UI_NAME t,
                .not_found, .hexdump ((m.drop p).take size)]) ∧
      (t ≠ LB_TAG_CFR_VARCHAR_DEF_VALUE →
        ((cfr_read.sm_read_string_default_value m p depth).fault = some .fatal ∨
          (cfr_read.sm_read_string_default_value m p depth).fault = some .oob) ∧
        ∀ size, load32 m (p + 4) = .ok size → p + size ≤ m.length →
          cfr_read.sm_read_string_default_value m p depth
            = .fail .fatal [.prop .defval, .mismatch LB_TAG_CFR_VARCHAR_DEF_VALUE t,
                .not_found, .hexdump ((m.drop p).take size)]) ∧
      (t ≠ LB_TAG_CFR_VARCHAR_UI_HELPTEXT →
        cfr_read.sm_read_ui_helptext m p depth
          = .ok (0, depth) [.prop .ui_helptext, .not_found])) ∧
    -- the record readers of cfr_to_html: the UI-name of an enum value
    (∀ (m : Mem) (p dflt size t : Nat), load32 m (p + 4) = .ok size →
      load32 m p = .ok LB_TAG_CFR_ENUM_VALUE → load32 m (p + 12) = .ok t →
      t ≠ LB_TAG_CFR_VARCHAR_UI_NAME →
      cfr_to_html.sm_read_enum_value m p dflt
        = .fail .fatal [.stderr_tag LB_TAG_CFR_VARCHAR_UI_NAME t,
            .stderr_required LB_TAG_CFR_VARCHAR_UI_NAME]) ∧
    -- the opt-name of an enum, number and bool option
    (∀ (fuel : Nat) (m : Mem) (p size t : Nat), load32 m (p + 4) = .ok size →
      load32 m (p + 20) = .ok t → t ≠ LB_TAG_CFR_VARCHAR_OPT_NAME →
      (load32 m p = .ok LB_TAG_CFR_OPTION_ENUM → cfr_to_html.sm_read_opt_enum fuel m p
        = .fail .fatal [.stderr_tag LB_TAG_CFR_VARCHAR_OPT_NAME t,
            .stderr_required LB_TAG_CFR_VARCHAR_OPT_NAME]) ∧
      (load32 m p = .ok LB_TAG_CFR_OPTION_NUMBER → cfr_to_html.sm_read_opt_number m p
        = .fail .fatal [.stderr_tag LB_TAG_CFR_VARCHAR_OPT_NAME t,
            .stderr_required LB_TAG_CFR_VARCHAR_OPT_NAME]) ∧
      (load32 m p = .ok LB_TAG_CFR_OPTION_BOOL → cfr_to_html.sm_read_opt_bool m p
        = .fail .fatal [.stderr_tag LB_TAG_CFR_VARCHAR_OPT_NAME t,
            .stderr_required LB_TAG_CFR_VARCHAR_OPT_NAME])) ∧
    -- the UI-name of an enum, number and bool option, behind an opt-name of k1 bytes
    (∀ (fuel : Nat) (m : Mem) (p size k1 t : Nat) (s1 : List Nat) (o1 : List cfr_to_html.Html),
      load32 m (p + 4) = .ok size →
      cfr_to_html.sm_read_opt_name m (p + 20) = .ok (s1, k1) o1 →
      load32 m (p + 20 + k1) = .ok t → t ≠ LB_TAG_CFR_VARCHAR_UI_NAME →
      (load32 m p = .ok LB_TAG_CFR_OPTION_ENUM → cfr_to_html.sm_read_opt_enum fuel m p
        = .fail .fatal [.stderr_tag LB_TAG_CFR_VARCHAR_UI_NAME t,
            .stderr_required LB_TAG_CFR_VARCHAR_UI_NAME]) ∧
      (load32 m p = .ok LB_TAG_CFR_OPTION_NUMBER → cfr_to_html.sm_read_opt_number m p
        = .fail .fatal [.stderr_tag LB_TAG_CFR_VARCHAR_UI_NAME t,
            .stderr_required LB_TAG_CFR_VARCHAR_UI_NAME]) ∧
      (load32 m p = .ok LB_TAG_CFR_OPTION_BOOL → cfr_to_html.sm_read_opt_bool m p
        = .fail .fatal [.stderr_tag LB_TAG_CFR_VARCHAR_UI_NAME t,
            .stderr_required LB_TAG_CFR_VARCHAR_UI_NAME])) ∧
    -- the default value, the opt-name and the UI-name of a varchar option
    (∀ (m : Mem) (p size : Nat), load32 m (p + 4) = .ok size →
      load32 m p = .ok LB_TAG_CFR_OPTION_VARCHAR →
      (∀ t, load32 m (p + 16) = .ok t → t ≠ LB_TAG_CFR_VARCHAR_DEF_VALUE →
        cfr_to_html.sm_read_opt_varchar m p
          = .fail .fatal [.stderr_tag LB_TAG_CFR_VARCHAR_DEF_VALUE t,
              .stderr_required LB_TAG_CFR_VARCHAR_DEF_VALUE]) ∧
      (∀ s0 k0 o0 t, cfr_to_html.sm_read_string_default_value m (p + 16) = .ok (s0, k0) o0 →
        load32 m (p + 16 + k0) = .ok t → t ≠ LB_TAG_CFR_VARCHAR_OPT_NAME →
        cfr_to_html.sm_read_opt_varchar m p
          = .fail .fatal [.stderr_tag LB_TAG_CFR_VARCHAR_OPT_NAME t,
              .stderr_required LB_TAG_CFR_VARCHAR_OPT_NAME]) ∧
      (∀ s0 k0 o0 s1 k1 o1 t,
        cfr_to_html.sm_read_string_default_value m (p + 16) = .ok (s0, k0) o0 →
        cfr_to_html.sm_read_opt_name m (p + 16 + k0) = .ok (s1, k1) o1 →
        load32 m (p + 16 + k0 + k1) = .ok t → t ≠ LB_TAG_CFR_VARCHAR_UI_NAME →
        cfr_to_html.sm_read_opt_varchar m p
          = .fail .fatal [.stderr_tag LB_TAG_CFR_VARCHAR_UI_NAME t,
              .stderr_required LB_TAG_CFR_VARCHAR_UI_NAME])) ∧
    -- the UI-name of a comment, of a nested form and of a tab
    (∀ (fuel : Nat) (m : Mem) (p idx size t : Nat), load32 m (p + 4) = .ok size →
      load32 m (p + 16) = .ok t → t ≠ LB_TAG_CFR_VARCHAR_UI_NAME →
      (load32 m p = .ok LB_TAG_CFR_OPTION_COMMENT → cfr_to_html.sm_read_opt_comment m p
        = .fail .fatal [.stderr_tag LB_TAG_CFR_VARCHAR_UI_NAME t,
            .stderr_required LB_TAG_CFR_VARCHAR_UI_NAME]) ∧
      (load32 m p = .ok LB_TAG_CFR_OPTION_FORM → cfr_to_html.sm_read_form (fuel + 1) m p
        = .fail .fatal [.stderr_tag LB_TAG_CFR_VARCHAR_UI_NAME t,
            .stderr_required LB_TAG_CFR_VARCHAR_UI_NAME]) ∧
      (load32 m p = .ok LB_TAG_CFR_OPTION_FORM → cfr_to_html.sm_read_form_tab fuel m p idx
        = .fail .fatal [.stderr_tag LB_TAG_CFR_VARCHAR_UI_NAME t,
            .stderr_required LB_TAG_CFR_VARCHAR_UI_NAME])) ∧
    -- the record readers of cfr_read: the UI-name of an enum value
    (∀ (m : Mem) (p size v t sz : Nat) (depth : Int), p % 4 = 0 →
      load32 m p = .ok LB_TAG_CFR_ENUM_VALUE → load32 m (p + 4) = .ok size →
      load32 m (p + 8) = .ok v → load32 m (p + 12) = .ok t →
      t ≠ LB_TAG_CFR_VARCHAR_UI_NAME → load32 m (p + 12 + 4) = .ok sz →
      p + 12 + sz ≤ m.length →
      cfr_read.sm_read_enum_value m p depth
        = .fail .fatal [.record LB_TAG_CFR_ENUM_VALUE size, .val .value v, .prop .ui_name,
            .mismatch LB_TAG_CFR_VARCHAR_UI_NAME t, .not_found,
            .hexdump ((m.drop (p + 12)).take sz)]) ∧
    -- the opt-name of an enum, number and bool option
    (∀ (fuel : Nat) (m : Mem) (p tag size oid fl dv t sz : Nat) (depth : Int), p % 4 = 0 →
      load32 m p = .ok tag → load32 m (p + 4) = .ok size → load32 m (p + 8) = .ok oid →
      load32 m (p + 12) = .ok fl → load32 m (p + 16) = .ok dv →
      load32 m (p + 20) = .ok t → t ≠ LB_TAG_CFR_VARCHAR_OPT_NAME →
      load32 m (p + 20 + 4) = .ok sz → p + 20 + sz ≤ m.length →
      cfr_read.read_numeric_option fuel m p tag depth
        = .fail .fatal [.record tag size, .val .object_id oid, .val .flags fl,
            .val .defval dv, .prop .option_name, .mismatch LB_TAG_CFR_VARCHAR_OPT_NAME t,
            .not_found, .hexdump ((m.drop (p + 20)).take sz)]) ∧
    -- the UI-name of an enum, number and bool option
    (∀ (fuel : Nat) (m : Mem) (p tag size oid fl dv t sz k1 : Nat) (depth d1 : Int)
      (o1 : List cfr_read.Out), p % 4 = 0 →
      load32 m p = .ok tag → load32 m (p + 4) = .ok size → load32 m (p + 8) = .ok oid →
      load32 m (p + 12) = .ok fl → load32 m (p + 16) = .ok dv →
      cfr_read.sm_read_opt_name m (p + 20) depth = .ok (k1, d1) o1 →
      load32 m (p + 20 + k1) = .ok t → t ≠ LB_TAG_CFR_VARCHAR_UI_NAME →
      load32 m (p + 20 + k1 + 4) = .ok sz → p + 20 + k1 + sz ≤ m.length →
      cfr_read.read_numeric_option fuel m p tag depth
        = .fail .fatal ([.record tag size, .val .object_id oid, .val .flags fl,
            .val .defval dv] ++ o1 ++ [.prop .ui_name,
            .mismatch LB_TAG_CFR_VARCHAR_UI_NAME t, .not_found,
            .hexdump ((m.drop (p + 20 + k1)).take sz)])) ∧
    -- the default value, the opt-name and the UI-name of a varchar option
    (∀ (m : Mem) (p size oid fl : Nat) (depth : Int), p % 4 = 0 →
      load32 m p = .ok LB_TAG_CFR_OPTION_VARCHAR → load32 m (p + 4) = .ok size →
      load32 m (p + 8) = .ok oid → load32 m (p + 12) = .ok fl →
      (∀ t sz, load32 m (p + 16) = .ok t → t ≠ LB_TAG_CFR_VARCHAR_DEF_VALUE →
        load32 m (p + 16 + 4) = .ok sz → p + 16 + sz ≤ m.length →
        cfr_read.sm_read_opt_varchar m p depth
          = .fail .fatal [.record LB_TAG_CFR_OPTION_VARCHAR size, .val .object_id oid,
              .val .flags fl, .prop .defval, .mismatch LB_TAG_CFR_VARCHAR_DEF_VALUE t,
              .not_found, .hexdump ((m.drop (p + 16)).take sz)]) ∧
      (∀ k0 d0 o0 t sz,
        cfr_read.sm_read_string_default_value m (p + 16) depth = .ok (k0, d0) o0 →
        load32 m (p + 16 + k0) = .ok t → t ≠ LB_TAG_CFR_VARCHAR_OPT_NAME →
        load32 m (p + 16 + k0 + 4) = .ok sz → p + 16 + k0 + sz ≤ m.length →
        cfr_read.sm_read_opt_varchar m p depth
          = .fail .fatal ([.record LB_TAG_CFR_OPTION_VARCHAR size, .val .object_id oid,
              .val .flags fl] ++ o0 ++ [.prop .option_name,
              .mismatch LB_TAG_CFR_VARCHAR_OPT_NAME t, .not_found,
              .hexdump ((m.drop (p + 16 + k0)).take sz)])) ∧
      (∀ k0 d0 o0 k1 d1 o1 t sz,
        cfr_read.sm_read_string_default_value m (p + 16) depth = .ok (k0, d0) o0 →
        cfr_read.sm_read_opt_name m (p + 16 + k0) d0 = .ok (k1, d1) o1 →
        load32 m (p + 16 + k0 + k1) = .ok t → t ≠ LB_TAG_CFR_VARCHAR_UI_NAME →
        load32 m (p + 16 + k0 + k1 + 4) = .ok sz → p + 16 + k0 + k1 + sz ≤ m.length →
        cfr_read.sm_read_opt_varchar m p depth
          = .fail .fatal ([.record LB_TAG_CFR_OPTION_VARCHAR size, .val .object_id oid,
              .val .flags fl] ++ o0 ++ o1 ++ [.prop .ui_name,
              .mismatch LB_TAG_CFR_VARCHAR_UI_NAME t, .not_found,
              .hexdump ((m.drop (p + 16 + k0 + k1)).take sz)]))) ∧
    -- the UI-name of a comment and of a form
    (∀ (fuel : Nat) (m : Mem) (p size oid fl t sz : Nat) (depth : Int), p % 4 = 0 →
      load32 m (p + 4) = .ok size → load32 m (p + 8) = .ok oid →
      load32 m (p + 12) = .ok fl → load32 m (p + 16) = .ok t →
      t ≠ LB_TAG_CFR_VARCHAR_UI_NAME → load32 m (p + 16 + 4) = .ok sz →
      p + 16 + sz ≤ m.length →
      (load32 m p = .ok LB_TAG_CFR_OPTION_COMMENT → cfr_read.sm_read_opt_comment m p depth
        = .fail .fatal [.record LB_TAG_CFR_OPTION_COMMENT size, .val .object_id oid,
            .val .flags fl, .prop .ui_name, .mismatch LB_TAG_CFR_VARCHAR_UI_NAME t,
            .not_found, .hexdump ((m.drop (p + 16)).take sz)]) ∧
      (load32 m p = .ok LB_TAG_CFR_OPTION_FORM → cfr_read.sm_read_form (fuel + 1) m p depth
        = .fail .fatal [.record LB_TAG_CFR_OPTION_FORM size, .val .object_id oid,
            .val .flags fl, .prop .ui_name, .mismatch LB_TAG_CFR_VARCHAR_UI_NAME t,
            .not_found, .hexdump ((m.drop (p + 16)).take sz)])) ∧
    -- every run of cfr_to_html that prints the mismatch message has failed right there
    (∀ (fuel : Nat) (m : Mem) (e t : Nat),
      cfr_to_html.Html.stderr_tag e t ∈ (cfr_to_html.sm_read_cfr fuel m).output →
      (cfr_to_html.sm_read_cfr fuel m).fault = some .fatal ∧
      ∃ pre, (cfr_to_html.sm_read_cfr fuel m).output
        = pre ++ [.stderr_tag e t, .stderr_required e]) ∧
    (∀ (fuel : Nat) (m : Mem) (p e t : Nat),
      cfr_to_html.Html.stderr_tag e t ∈ (cfr_to_html.sm_read_object fuel m p).output →
      (cfr_to_html.sm_read_object fuel m p).fault = some .fatal ∧
      ∃ pre, (cfr_to_html.sm_read_object fuel m p).output
        = pre ++ [.stderr_tag e t, .stderr_required e]) ∧
    -- every run of cfr_read that prints the mismatch message has failed right there
    (∀ (fuel : Nat) (m : Mem) (e t : Nat),
      cfr_read.Out.mismatch e t ∈ (cfr_read.sm_read_cfr fuel m).output →
      ((cfr_read.sm_read_cfr fuel m).fault = some .fatal ∨
        (cfr_read.sm_read_cfr fuel m).fault = some .oob) ∧
      ∃ pre post, (cfr_read.sm_read_cfr fuel m).output
        = pre ++ .mismatch e t :: .not_found :: post ∧ post.length ≤ 1) ∧
    (∀ (fuel : Nat) (m : Mem) (p : Nat) (depth : Int) (e t : Nat),
      cfr_read.Out.mismatch e t ∈ (cfr_read.sm_read_object fuel m p depth).output →
      ((cfr_read.sm_read_object fuel m p depth).fault = some .fatal ∨
        (cfr_read.sm_read_object fuel m p depth).fault = some .oob) ∧
      ∃ pre post, (cfr_read.sm_read_object fuel m p depth).output
        = pre ++ .mismatch e t :: .not_found :: post ∧ post.length ≤ 1) ∧
    -- the two blobs are decoded, and pass the loaders with one tag changed
    (cfr_to_html.sm_read_cfr 10 enum_two_selected_blob).fault = none ∧
    (cfr_read.sm_read_cfr 10 enum_two_selected_blob).fault = none ∧
    (cfr_to_html.sm_read_cfr 10 varchar_blob).fault = none ∧
    (cfr_read.sm_read_cfr 10 varchar_blob).fault = none ∧
    (∀ b ∈ [enum_two_selected_blob.set 68 9, enum_two_selected_blob.set 84 7,
        enum_two_selected_blob.set 140 7, enum_two_selected_blob.set 28 7,
        varchar_blob.set 60 7, varchar_blob.set 76 8, varchar_blob.set 92 9],
      cfr_read.read_from_file b = .ok b ∧ cfr_to_html.read_from_file b = .ok b) ∧
    -- the opt-name of the enum option carries the help-text tag
    cfr_to_html.sm_read_cfr 10 (enum_two_selected_blob.set 68 9)
      = .fail .fatal [.page_open 0, .tab_open 1 "" true (ascii "Main"), .row_open,
          .stderr_tag LB_TAG_CFR_VARCHAR_OPT_NAME LB_TAG_CFR_VARCHAR_UI_HELPTEXT,
          .stderr_required LB_TAG_CFR_VARCHAR_OPT_NAME] ∧
    (cfr_read.sm_read_cfr 10 (enum_two_selected_blob.set 68 9)).fault = some .fatal ∧
    (cfr_read.sm_read_cfr 10 (enum_two_selected_blob.set 68 9)).output.drop 19
      = [.prop .option_name,
          .mismatch LB_TAG_CFR_VARCHAR_OPT_NAME LB_TAG_CFR_VARCHAR_UI_HELPTEXT, .not_found,
          .hexdump [9, 1, 0, 0, 16, 0, 0, 0, 2, 0, 0, 0, 109, 0, 0, 0]] ∧
    -- the UI-name of the enum option carries the opt-name tag
    cfr_to_html.sm_read_cfr 10 (enum_two_selected_blob.set 84 7)
      = .fail .fatal [.page_open 0, .tab_open 1 "" true (ascii "Main"), .row_open,
          .stderr_tag LB_TAG_CFR_VARCHAR_UI_NAME LB_TAG_CFR_VARCHAR_OPT_NAME,
          .stderr_required LB_TAG_CFR_VARCHAR_UI_NAME] ∧
    (cfr_read.sm_read_cfr 10 (enum_two_selected_blob.set 84 7)).fault = some .fatal ∧
    (cfr_read.sm_read_cfr 10 (enum_two_selected_blob.set 84 7)).output.drop 25
      = [.prop .ui_name,
          .mismatch LB_TAG_CFR_VARCHAR_UI_NAME LB_TAG_CFR_VARCHAR_OPT_NAME, .not_found,
          .hexdump [7, 1, 0, 0, 16, 0, 0, 0, 2, 0, 0, 0, 77, 0, 0, 0]] ∧
    -- the UI-name of the second enum value carries the opt-name tag
    cfr_to_html.sm_read_cfr 10 (enum_two_selected_blob.set 140 7)
      = .fail .fatal [.page_open 0, .tab_open 1 "" true (ascii "Main"), .row_open,
          .select_open 2 (ascii "m") "" (ascii "M"), .option 7 true (ascii "A"),
          .stderr_tag LB_TAG_CFR_VARCHAR_UI_NAME LB_TAG_CFR_VARCHAR_OPT_NAME,
          .stderr_required LB_TAG_CFR_VARCHAR_UI_NAME] ∧
    (cfr_read.sm_read_cfr 10 (enum_two_selected_blob.set 140 7)).fault = some .fatal ∧
    (cfr_read.sm_read_cfr 10 (enum_two_selected_blob.set 140 7)).output.drop 47
      = [.prop .ui_name,
          .mismatch LB_TAG_CFR_VARCHAR_UI_NAME LB_TAG_CFR_VARCHAR_OPT_NAME, .not_found,
          .hexdump [7, 1, 0, 0, 16, 0, 0, 0, 2, 0, 0, 0, 66, 0, 0, 0]] ∧
    -- the UI-name of the Form carries the opt-name tag
    cfr_to_html.sm_read_cfr 10 (enum_two_selected_blob.set 28 7)
      = .fail .fatal [.page_open 0,
          .stderr_tag LB_TAG_CFR_VARCHAR_UI_NAME LB_TAG_CFR_VARCHAR_OPT_NAME,
          .stderr_required LB_TAG_CFR_VARCHAR_UI_NAME] ∧
    (cfr_read.sm_read_cfr 10 (enum_two_selected_blob.set 28 7)).fault = some .fatal ∧
    (cfr_read.sm_read_cfr 10 (enum_two_selected_blob.set 28 7)).output.drop 7
      = [.prop .ui_name,
          .mismatch LB_TAG_CFR_VARCHAR_UI_NAME LB_TAG_CFR_VARCHAR_OPT_NAME, .not_found,
          .hexdump [7, 1, 0, 0, 20, 0, 0, 0, 5, 0, 0, 0, 77, 97, 105, 110, 0, 0, 0, 0]] ∧
    -- the default value of the varchar option carries the opt-name tag
    cfr_to_html.sm_read_cfr 10 (varchar_blob.set 60 7)
      = .fail .fatal [.page_open 0, .tab_open 1 "" true (ascii "F"), .row_open,
          .stderr_tag LB_TAG_CFR_VARCHAR_DEF_VALUE LB_TAG_CFR_VARCHAR_OPT_NAME,
          .stderr_required LB_TAG_CFR_VARCHAR_DEF_VALUE] ∧
    (cfr_read.sm_read_cfr 10 (varchar_blob.set 60 7)).fault = some .fatal ∧
    (cfr_read.sm_read_cfr 10 (varchar_blob.set 60 7)).output.drop 18
      = [.prop .defval,
          .mismatch LB_TAG_CFR_VARCHAR_DEF_VALUE LB_TAG_CFR_VARCHAR_OPT_NAME, .not_found,
          .hexdump [7, 1, 0, 0, 16, 0, 0, 0, 2, 0, 0, 0, 100, 0, 0, 0]] ∧
    -- the opt-name of the varchar option carries the UI-name tag
    cfr_to_html.sm_read_cfr 10 (varchar_blob.set 76 8)
      = .fail .fatal [.page_open 0, .tab_open 1 "" true (ascii "F"), .row_open,
          .stderr_tag LB_TAG_CFR_VARCHAR_OPT_NAME LB_TAG_CFR_VARCHAR_UI_NAME,
          .stderr_required LB_TAG_CFR_VARCHAR_OPT_NAME] ∧
    (cfr_read.sm_read_cfr 10 (varchar_blob.set 76 8)).fault = some .fatal ∧
    (cfr_read.sm_read_cfr 10 (varchar_blob.set 76 8)).output.drop 24
      = [.prop .option_name,
          .mismatch LB_TAG_CFR_VARCHAR_OPT_NAME LB_TAG_CFR_VARCHAR_UI_NAME, .not_found,
          .hexdump [8, 1, 0, 0, 16, 0, 0, 0, 2, 0, 0, 0, 111, 0, 0, 0]] ∧
    -- the UI-name of the varchar option carries the help-text tag
    cfr_to_html.sm_read_cfr 10 (varchar_blob.set 92 9)
      = .fail .fatal [.page_open 0, .tab_open 1 "" true (ascii "F"), .row_open,
          .stderr_tag LB_TAG_CFR_VARCHAR_UI_NAME LB_TAG_CFR_VARCHAR_UI_HELPTEXT,
          .stderr_required LB_TAG_CFR_VARCHAR_UI_NAME] ∧
    (cfr_read.sm_read_cfr 10 (varchar_blob.set 92 9)).fault = some .fatal ∧
    (cfr_read.sm_read_cfr 10 (varchar_blob.set 92 9)).output.drop 30
      = [.prop .ui_name,
          .mismatch LB_TAG_CFR_VARCHAR_UI_NAME LB_TAG_CFR_VARCHAR_UI_HELPTEXT, .not_found,
          .hexdump [9, 1, 0, 0, 16, 0, 0, 0, 2, 0, 0, 0, 85, 0, 0, 0]] := by
  refine ⟨fun m p t ht => cfr_to_html.html_wrappers_mismatch m p t ht,
    fun m p t depth ht => cfr_read.dump_wrappers_mismatch m p t depth ht,
    fun m p dflt size t h4 h0 ht hne =>
      cfr_to_html.html_enum_value_ui_name_mismatch m p dflt size t h4 h0 ht hne,
    fun fuel m p size t h4 ht hne =>
      cfr_to_html.html_numeric_opt_name_mismatch fuel m p size t h4 ht hne,
    fun fuel m p size k1 t s1 o1 h4 h1 ht hne =>
      cfr_to_html.html_numeric_ui_name_mismatch fuel m p size k1 t s1 o1 h4 h1 ht hne,
    fun m p size h4 h0 => cfr_to_html.html_varchar_mismatch m p size h4 h0,
    fun fuel m p idx size t h4 ht hne =>
      cfr_to_html.html_ui_name_first_mismatch fuel m p idx size t h4 ht hne,
    fun m p size v t sz depth hp h0 h4 h8 ht hne hs hb =>
      cfr_read.dump_enum_value_ui_name_mismatch m p size v t sz depth hp h0 h4 h8 ht hne hs hb,
    fun fuel m p tag size oid fl dv t sz depth hp h0 h4 h8 h12 h16 ht hne hs hb =>
      cfr_read.dump_numeric_opt_name_mismatch fuel m p tag size oid fl dv t sz depth hp h0 h4
        h8 h12 h16 ht hne hs hb,
    fun fuel m p tag size oid fl dv t sz k1 depth d1 o1 hp h0 h4 h8 h12 h16 h1 ht hne hs hb =>
      cfr_read.dump_numeric_ui_name_mismatch fuel m p tag size oid fl dv t sz k1 depth d1 o1
        hp h0 h4 h8 h12 h16 h1 ht hne hs hb,
    fun m p size oid fl depth hp h0 h4 h8 h12 =>
      cfr_read.dump_varchar_mismatch m p size oid fl depth hp h0 h4 h8 h12,
    fun fuel m p size oid fl t sz depth hp h4 h8 h12 ht hne hs hb =>
      cfr_read.dump_ui_name_first_mismatch fuel m p size oid fl t sz depth hp h4 h8 h12 ht
        hne hs hb,
    fun fuel m => cfr_to_html.html_mismatch_sm_read_cfr fuel m,
    fun fuel m p => (cfr_to_html.html_mismatch_objects m fuel p).2.2.1,
    fun fuel m => cfr_read.dump_mismatch_sm_read_cfr fuel m,
    fun fuel m p depth => (cfr_read.dump_mismatch_objects m fuel p depth).2.2.1,
    by decide!, by decide!, by decide!, by decide!, by decide!,
    by decide!, by decide!, by decide!, by decide!, by decide!, by decide!,
    by decide!, by decide!, by decide!, by decide!, by decide!, by decide!,
    by decide!, by decide!, by decide!, by decide!, by decide!, by decide!,
    by decide!, by decide!, by decide!⟩

end cfr


namespace cfr

/-! ## The blob in memory: the bytes of the file, then what lies behind the buffer

The loaders hand the decoder a buffer of exactly `size` bytes from `malloc`. Where the last
option of the blob has no help text, the decoders read the tag word at the end of the
buffer; `slack` stands for the bytes that lie behind the buffer in memory. -/

end cfr


namespace cfr

/-! ## Options without help text, from the encoder to the decoders -/

/-- One object written by `sm_write_object` and read back by `sm_read_object` of both
decoders, in a buffer whose word behind the record is readable and not the help-text tag. -/
theorem write_then_read_object (o : sm_object) (m : Mem) (c fuel : Nat) (depth : Int)
    (hne : ref_object o ≠ []) (hv : valid_object o = true)
    (hm : c + (ref_object o).length ≤ m.length) (hlt : (ref_object o).length < 2 ^ 32)
    (hf : no_helptext_at m (c + (ref_object o).length)) (hfu : (ref_object o).length ≤ fuel) :
    ∃ m', sm_write_object m c o = .ok (m', (ref_object o).length) ∧
      no_helptext_at m' (c + (ref_object o).length) ∧
      cfr_to_html.sm_read_object fuel m' c
        = .ok (ref_object o).length (cfr_to_html.html_object o) ∧
      (c % 4 = 0 → cfr_read.sm_read_object fuel m' c depth
        = .ok ((ref_object o).length, depth) (cfr_read.dump_object o depth)) := by
  have hfit := fits_blit m c _ hm
  have hf2 := no_helptext_blit m c _ (by omega) hf
  exact ⟨blit m c (ref_object o), sm_write_object_eq o m c hv hm hlt, hf2,
    cfr_to_html.html_sm_read_object _ o fuel c hne hfit hlt hv hf2 hfu,
    fun hp => cfr_read.dump_sm_read_object _ o fuel c depth hne hfit hp hlt hv hf2 hfu⟩

end cfr


namespace cfr

/-- An object written by the encoder at a cursor that is not a multiple of 4: `cfr_to_html`
reads it back, `cfr_read` stops at its header. -/
theorem misaligned_object_written (o : sm_object) (m : Mem) (c fuel : Nat) (depth : Int)
    (hne : ref_object o ≠ []) (hv : valid_object o = true)
    (hm : c + (ref_object o).length ≤ m.length) (hlt : (ref_object o).length < 2 ^ 32)
    (hf : no_helptext_at m (c + (ref_object o).length)) (hfu : (ref_object o).length ≤ fuel)
    (hp : c % 4 ≠ 0) :
    ∃ m', sm_write_object m c o = .ok (m', (ref_object o).length) ∧
      cfr_to_html.sm_read_object fuel m' c
        = .ok (ref_object o).length (cfr_to_html.html_object o) ∧
      cfr_read.sm_read_object (fuel + 3) m' c depth
        = .fail .fatal [.brace_open, .unaligned c] := by
  obtain ⟨m', hw, -, hh, -⟩ := write_then_read_object o m c fuel depth hne hv hm hlt hf hfu
  refine ⟨m', hw, hh, ?_⟩
  have hw2 := sm_write_object_eq o m c hv hm hlt
  rw [hw] at hw2
  injection hw2 with hw2
  injection hw2 with hm' _
  subst hm'
  have hfit := fits_blit m c _ hm
  obtain ⟨tag, rest, ch, hshape⟩ := ref_object_header o hne
  generalize blit m c (ref_object o) = b at hfit ⊢
  rw [hshape] at hfit
  have h0 := load32_field b c [] tag _ _ hfit
  have h4 := load32_field b c [tag] _ _ _ hfit
  simp only [List.length_cons, List.length_nil, Nat.mul_zero, Nat.add_zero, Nat.zero_add,
    Nat.mul_one] at h0 h4
  exact (dump_alignment_check fuel b c _ _ depth h0 h4 hp).1

/-- C15 (alignment check). The specification asks every decoder to stop before it interprets
a record that starts at an offset that is not a multiple of 4. `cfr_read` has the check, in
`_print_record`: whenever it is about to interpret such a record (an object of an object
list, be it an option of any kind, a Form or a record with an unknown tag; an EnumValue; a
string leaf that carries the expected tag) it prints the message and stops with the fatal
fault. `cfr_to_html` has no such check:

* every valid object that the encoder writes at a cursor `c` that is not a multiple of 4
  is read back by `sm_read_object` of `cfr_to_html` as if it were aligned, where `cfr_read`
  stops;
* the 106-byte file `misaligned_blob`, which passes the loader as it is, holds an unknown
  record of size 10 and behind it a Comment at offset 58; `cfr_to_html` interprets the
  Comment and decodes the file to completion, `cfr_read` stops at offset 58. -/
theorem alignment_check_missing_in_cfr_to_html :
    -- cfr_read stops at every record that is not aligned
    (∀ (fuel : Nat) (m : Mem) (p t size : Nat) (depth : Int), load32 m p = .ok t →
      load32 m (p + 4) = .ok size → p % 4 ≠ 0 →
      cfr_read.sm_read_object (fuel + 3) m p depth
        = .fail .fatal [.brace_open, .unaligned p] ∧
      cfr_read.sm_read_enum_value m p depth = .fail .fatal [.unaligned p] ∧
      cfr_read.read_cfr_varchar m p t depth = .fail .fatal [.brace_open, .unaligned p]) ∧
    -- cfr_to_html reads every object at a cursor that is not aligned
    (∀ (o : sm_object) (m : Mem) (c fuel : Nat) (depth : Int), ref_object o ≠ [] →
      valid_object o = true → c + (ref_object o).length ≤ m.length →
      (ref_object o).length < 2 ^ 32 → no_helptext_at m (c + (ref_object o).length) →
      (ref_object o).length ≤ fuel → c % 4 ≠ 0 →
      ∃ m', sm_write_object m c o = .ok (m', (ref_object o).length) ∧
        cfr_to_html.sm_read_object fuel m' c
          = .ok (ref_object o).length (cfr_to_html.html_object o) ∧
        cfr_read.sm_read_object (fuel + 3) m' c depth
          = .fail .fatal [.brace_open, .unaligned c]) ∧
    -- the file with a Comment at offset 58
    misaligned_blob.length = 106 ∧
    cfr_to_html.read_from_file misaligned_blob = .ok misaligned_blob ∧
    cfr_read.read_from_file misaligned_blob = .ok misaligned_blob ∧
    58 % 4 = 2 ∧
    load32 misaligned_blob 58 = .ok LB_TAG_CFR_OPTION_COMMENT ∧
    cfr_to_html.sm_read_object 5 misaligned_blob 58
      = .ok 48 [.row_open, .comment 2 "" (ascii "c") (ascii "h"), .row_close] ∧
    cfr_to_html.sm_read_cfr 10 misaligned_blob
      = .ok () [.page_open 0, .tab_open 1 "" true (ascii "Main"), .row_open, .row_close,
          .row_open, .comment 2 "" (ascii "c") (ascii "h"), .row_close, .tab_close,
          .tabs_close, .page_close] ∧
    (cfr_read.sm_read_cfr 10 misaligned_blob).fault = some .fatal ∧
    (cfr_read.sm_read_cfr 10 misaligned_blob).output.getLast? = some (.unaligned 58) :=
  ⟨fun fuel m p t size depth ht hs hp => dump_alignment_check fuel m p t size depth ht hs hp,
    fun o m c fuel depth hne hv hm hlt hf hfu hp =>
      misaligned_object_written o m c fuel depth hne hv hm hlt hf hfu hp,
    by decide!, by decide!, by decide!, by decide, by decide!, by decide!, by decide!,
    by decide!, by decide!⟩

end cfr
